import Mathlib

/-!
# NEON: black-box GPU channel scheduler

A shallow embedding of the kernel module's work inference (`neon_sys.c`,
`neon_sched.c`), channel table and polling loop (`neon_sched.c`) and the
policy frontend with its three policies (`neon_policy.c`, `neon_fcfs.c`,
`neon_timeslice.c`, `neon_sampling.c`).

Conventions.
* `unsigned int` is 32 bits and `unsigned long` 64 bits (x86-64 kernel); the
  arithmetic of the source is written with an explicit reduction modulo
  `2^32` or `2^64`.
* Pointers are addresses (`Nat`), `0` is `NULL`; pointed-to objects live in
  heaps that are total maps from addresses.
* C arrays (`dev->chan`, `swork_array`, the bitmaps) are total maps from
  indices.
* The print macros (`neon_info`, `neon_debug`, ...) have no effect on the
  state and are left out.
-/

namespace Neon

/-! ## Machine words -/

/-- Reduction of a value to an `unsigned int`. -/
def u32 (x : Nat) : Nat := x % 2 ^ 32

/-- Reduction of a value to an `unsigned long`. -/
def u64 (x : Nat) : Nat := x % 2 ^ 64

/-- Addition of two `unsigned long` values. -/
def uadd (a b : Nat) : Nat := (a + b) % 2 ^ 64

/-- Subtraction of two `unsigned long` values (wraps below zero). -/
def usub (a b : Nat) : Nat := (a + (2 ^ 64 - b % 2 ^ 64)) % 2 ^ 64

/-- Multiplication of two `unsigned long` values. -/
def umul (a b : Nat) : Nat := (a * b) % 2 ^ 64

/-- Conversion of a signed 64-bit value to `unsigned long`. -/
def u64_of_int (x : Int) : Nat := (x % 2 ^ 64).toNat

/-! ## Work inference: user memory, maps, works -/

/-- `sizeof(int)` and `sizeof(unsigned int)`. -/
def sizeof_int : Nat := 4

/-- Workload kinds, `neon_workload_t` of `neon_sched.h`. -/
inductive neon_workload_t where
  | NEON_WORKLOAD_UNDEFINED
  | NEON_WORKLOAD_COMPUTE
  | NEON_WORKLOAD_GRAPHICS
  deriving DecidableEq, Repr

open neon_workload_t

def NEON_RCB_SIZE_COMPUTE : Nat := 0x00402000
def NEON_RB_SIZE_COMPUTE : Nat := 0x00002000
def NEON_RB_SIZE_GRAPHICS : Nat := 0x00040000

/-- The part of `struct vm_area_struct` the module reads. -/
structure vm_area_struct where
  vm_start : Nat
  vm_end : Nat
  deriving DecidableEq, Repr

/-- Identifier struct for mapped areas, `neon_map_t` of `neon_control.h`
(the page-tracking members are not part of the work inference). -/
structure neon_map_t where
  key : Nat
  ctx_key : Nat
  dev_key : Nat
  size : Nat
  offset : Nat
  mmio_gpu : Nat
  vma : vm_area_struct
  deriving DecidableEq, Repr

/-- Work (channel instance) control struct, `neon_work_t` of `neon_sched.h`.
`neon_task` holds `work->neon_task->pid`, the only member of the owning
neon-task that the scheduler reads through the work. Map pointers hold the
map they point to, `none` for `NULL`. -/
structure neon_work_t where
  did : Nat
  cid : Nat
  ir : Option neon_map_t
  rb : neon_map_t
  cb : Option neon_map_t
  rc : Option neon_map_t
  neon_task : Nat
  refc_vaddr : Nat
  refc_kvaddr : Nat
  refc_target : Nat
  part_of_call : Nat
  workload : neon_workload_t
  deriving DecidableEq, Repr

/-- Value returned by `neon_uptr_read(pid, vma, ptr)` of `neon_sys.c`: the
`unsigned int` stored at user address `ptr`, `mem` being the contents of the
address space of process `pid`. Both branches of the source (reader is the
process itself, or a temporary kernel mapping of the page) return this word;
the `BUG()` of the second branch on a word that crosses a page is a matter of
page layout and is not represented. -/
def neon_uptr_read (mem : Nat → Nat) (ptr : Nat) : Nat :=
  u32 (mem ptr)

/-- Search of the context's map list for the map whose GPU view covers
`mmio`, the `list_for_each_entry` loop shared by `update_work_cb_cmd` and
`update_work_rc` in `neon_sched.c`. -/
def search_map_gpu (rb : neon_map_t) (mmio : Nat) : List neon_map_t → Option neon_map_t
  | [] => none
  | map :: rest =>
    if map.mmio_gpu ≠ 0 ∧ map.ctx_key = rb.ctx_key ∧ map.dev_key = rb.dev_key ∧
        mmio ≥ map.mmio_gpu ∧ mmio < uadd map.mmio_gpu map.size then
      some map
    else search_map_gpu rb mmio rest

/-- Result of `update_work_cb_cmd`: return value, the work with its updated
command-buffer pointer, and the `cmd_tuple` output array `[address, size]`. -/
structure cb_cmd_result where
  ret : Int
  work : neon_work_t
  cmd_tuple : Nat × Nat
  deriving DecidableEq, Repr

/-- Function `update_work_cb_cmd` of `neon_sched.c`: get the `[addr, size]`
of the last written command from the ring-buffer entry named by the written
index value, updating `work->cb` if necessary. `map_list` is the context's map
list, `mem` the user memory of the work's process, `cmd_tuple` the caller's
array. -/
def update_work_cb_cmd (map_list : List neon_map_t) (mem : Nat → Nat)
    (work : neon_work_t) (reg_idx_val : Nat) (cmd_tuple : Nat × Nat) : cb_cmd_result :=
  let reg_idx? : Option Nat :=
    if reg_idx_val = 0 then
      match work.workload with
      | NEON_WORKLOAD_COMPUTE => some (NEON_RB_SIZE_COMPUTE / (2 * sizeof_int) - 1)
      | NEON_WORKLOAD_GRAPHICS => some (NEON_RB_SIZE_GRAPHICS / (2 * sizeof_int) - 1)
      | NEON_WORKLOAD_UNDEFINED => none
    else some (usub reg_idx_val 1)
  match reg_idx? with
  | none => { ret := -1, work := work, cmd_tuple := cmd_tuple }
  | some reg_idx =>
    let ptr := uadd work.rb.vma.vm_start (umul (umul 2 reg_idx) sizeof_int)
    let bottom := neon_uptr_read mem ptr
    let ptr := uadd ptr sizeof_int
    let top := neon_uptr_read mem ptr
    let cmd_mmio := bottom ||| u64 ((top &&& 0xff) <<< (8 * sizeof_int))
    let cmd_tuple := (cmd_tuple.1, top >>> 8)
    let stale : Bool :=
      match work.cb with
      | none => true
      | some cb => decide (cmd_mmio < cb.mmio_gpu ∨ cmd_mmio ≥ uadd cb.mmio_gpu cb.size)
    let work := if stale then { work with cb := search_map_gpu work.rb cmd_mmio map_list } else work
    match work.cb with
    | none => { ret := -1, work := work, cmd_tuple := cmd_tuple }
    | some cb =>
      { ret := 0, work := work,
        cmd_tuple := (usub (uadd cb.vma.vm_start cmd_mmio) cb.mmio_gpu, cmd_tuple.2) }

/-- Function `tesla_refc_eval` of `neon_sys.c`: from the end of a command set,
find the reference counter's address and target value on a Tesla device.
Returns the `int` result and the `refc_addr_val` output array, which keeps the
caller's contents where the source does not store to it. -/
def tesla_refc_eval (mem : Nat → Nat) (workload : neon_workload_t)
    (cmd_tuple : Nat × Nat) (refc_addr_val : Nat × Nat) : Int × (Nat × Nat) :=
  let cmd_start := cmd_tuple.1
  let cmd_size := cmd_tuple.2
  let cmd_end := usub (uadd cmd_start cmd_size) 0x6
  if workload = NEON_WORKLOAD_COMPUTE then
    if usub cmd_size 0x6 < 4 * sizeof_int then
      (-1, (0xB16, 0xB00B1E5))
    else
      let ptr := usub cmd_end (4 * sizeof_int)
      let val := neon_uptr_read mem ptr
      if val = 0x104310 ∨ val = 0x100010 then
        (0, (neon_uptr_read mem (uadd ptr (2 * sizeof_int)),
             neon_uptr_read mem (uadd ptr (3 * sizeof_int))))
      else
        if usub cmd_size 0x6 < 8 * sizeof_int then
          (-1, (0x2B16, 0xB00B1E5))
        else
          let ptr := usub cmd_end (8 * sizeof_int)
          let val := neon_uptr_read mem ptr
          if val = 0x100010 then
            (0, (neon_uptr_read mem (uadd ptr (2 * sizeof_int)),
                 neon_uptr_read mem (uadd ptr (3 * sizeof_int))))
          else
            (-1, (0xDEAD, 0xC0DE))
  else
    (0, refc_addr_val)

/-! ## Time -/

/-- Kernel `struct timespec`. -/
structure timespec where
  tv_sec : Int
  tv_nsec : Int
  deriving DecidableEq, Repr

def NSEC_PER_SEC : Int := 1000000000
def NSEC_PER_USEC : Int := 1000
def USEC_PER_MSEC : Int := 1000

/-- Kernel `timespec_to_ns`. -/
def timespec_to_ns (ts : timespec) : Int :=
  ts.tv_sec * NSEC_PER_SEC + ts.tv_nsec

/-- Kernel `set_normalized_timespec`: carries whole seconds out of `nsec`. -/
def set_normalized_timespec (sec nsec : Int) : timespec :=
  { tv_sec := sec + nsec / NSEC_PER_SEC, tv_nsec := nsec % NSEC_PER_SEC }

/-- Kernel `timespec_sub`. -/
def timespec_sub (lhs rhs : timespec) : timespec :=
  set_normalized_timespec (lhs.tv_sec - rhs.tv_sec) (lhs.tv_nsec - rhs.tv_nsec)

/-- The expression `(unsigned long) (timespec_to_ns(&ts) / NSEC_PER_USEC)` of
the source: a time in microseconds, the signed division truncating. -/
def usec_of (ts : timespec) : Nat :=
  u64_of_int (Int.tdiv (timespec_to_ns ts) NSEC_PER_USEC)

/-- Microseconds from `earlier` to `later`, as the source computes them:
`timespec_sub`, `timespec_to_ns`, division by `NSEC_PER_USEC`, conversion to
`unsigned long`. -/
def elapsed_usec (later earlier : timespec) : Nat :=
  usec_of (timespec_sub later earlier)

/-- State of a kernel high-resolution timer, as far as `hrtimer_start` and
`hrtimer_try_to_cancel` tell it apart. -/
inductive hrtimer where
  | inactive
  | enqueued
  | callback_running
  deriving DecidableEq, Repr

/-- Kernel `hrtimer_try_to_cancel`: `-1` while the callback runs, otherwise
the timer is stopped and the result says whether it was active. -/
def hrtimer_try_to_cancel (t : hrtimer) : Int × hrtimer :=
  match t with
  | .callback_running => (-1, .callback_running)
  | .enqueued => (1, .inactive)
  | .inactive => (0, .inactive)

/-- Kernel `hrtimer_start`. -/
def hrtimer_start (_t : hrtimer) : hrtimer := .enqueued

/-! ## Bitmaps -/

/-- Kernel `set_bit(nr, addr)`. -/
def set_bit (nr : Nat) (bmp : Nat → Bool) : Nat → Bool :=
  Function.update bmp nr true

/-- Kernel `clear_bit(nr, addr)`. -/
def clear_bit (nr : Nat) (bmp : Nat → Bool) : Nat → Bool :=
  Function.update bmp nr false

/-- Kernel `test_bit(nr, addr)`. -/
def test_bit (nr : Nat) (bmp : Nat → Bool) : Bool := bmp nr

/-- Kernel `bitmap_empty(addr, nbits)`. -/
def bitmap_empty (bmp : Nat → Bool) (nbits : Nat) : Bool :=
  (List.range nbits).all (fun i => !bmp i)

/-- The bits that `for_each_set_bit(i, addr, nbits)` visits, in order. -/
def set_bits (bmp : Nat → Bool) (nbits : Nat) : List Nat :=
  (List.range nbits).filter (fun i => bmp i)

/-! ## Channel table (`neon_core.h`) -/

/-- Channel abstraction `neon_chan_t`. `lock` tells whether the channel's
spinlock is held by another CPU, which is what `spin_trylock` observes. -/
structure neon_chan_t where
  id : Nat
  pid : Nat
  ir_kvaddr : Nat
  refc_kvaddr : Nat
  refc_target : Nat
  pdt : Nat
  lock : Bool
  deriving DecidableEq, Repr

/-- Device abstraction `neon_dev_t` (the parser pointer `refc_eval` is not
part of the channel table). -/
structure neon_dev_t where
  id : Nat
  reg_base : Nat
  reg_ofs : Nat
  nchan : Nat
  chan : Nat → neon_chan_t
  bmp_sub2comp : Nat → Bool

/-- Globals `neon_global_t`. -/
structure neon_global_t where
  ctx_ever : Nat
  ctx_live : Nat
  ndev : Nat
  dev : Nat → neon_dev_t

/-! ## Scheduling abstractions (`neon_policy.h`) -/

/-- Scheduling policy ids `neon_policy_id_t`; the selected entry of
`policy_face` is `select_policy`. -/
inductive neon_policy_id_t where
  | NEON_POLICY_FCFS
  | NEON_POLICY_TIMESLICE
  | NEON_POLICY_SAMPLING
  deriving DecidableEq, Repr

open neon_policy_id_t

def NEON_MAIN_GPU_DID : Nat := 0

/-- Seasons `season_t` of `neon_sampling.h`. -/
inductive season_t where
  | DFQ_TASK_BARRIER
  | DFQ_TASK_DRAINING
  | DFQ_TASK_SAMPLING
  | DFQ_TASK_FREERUN
  | DFQ_TASK_NOFSEASONS
  deriving DecidableEq, Repr

open season_t

def NEON_SAMPLING_CRITICAL_MASS : Nat := 96

/-- Type `sampling_work_t`. -/
structure sampling_work_t where
  last_seen : Nat
  engage : Nat
  heed : Nat
  deriving DecidableEq, Repr

/-- Type `timeslice_task_t`; the semaphore itself is kernel state, its `up`
and `down` calls are recorded as events. -/
structure timeslice_task_t where
  sem_count : Int
  overuse : Int
  deriving DecidableEq, Repr

/-- Type `sampling_task_t`. -/
structure sampling_task_t where
  occ_chans : Nat
  mng_chans : Nat
  vtime : Nat
  nrqst_sampled : Nat
  ncall_sampled : Nat
  exe_dt_sampled : Nat
  held_back : Nat
  sem_count : Int
  deriving DecidableEq, Repr

/-- Type `timeslice_dev_t`; `token_holder` is a sched-task address. -/
structure timeslice_dev_t where
  token_holder : Nat
  update_ts : Nat
  action : Nat
  token_timer : hrtimer
  deriving DecidableEq, Repr

/-- Type `sampling_dev_t`; `sampled_task` is a sched-task address. -/
structure sampling_dev_t where
  season : season_t
  vtime : Nat
  sampling_season_dt : Nat
  active : Nat
  countdown : Nat
  update_ts : Nat
  sampled_task : Nat
  action : Nat
  season_timer : hrtimer
  deriving DecidableEq, Repr

/-- Policy-specific work entries `policy_work_t`. The source overlays the
members of the three policies in a union; only the member of the selected
policy is ever accessed, so they are kept side by side (the FCFS and timeslice
members are empty placeholders). -/
structure policy_work_t where
  smpl : sampling_work_t
  deriving DecidableEq, Repr

/-- Policy-specific task entries `policy_task_t` (see `policy_work_t`). -/
structure policy_task_t where
  tslc : timeslice_task_t
  smpl : sampling_task_t
  deriving DecidableEq, Repr

/-- Policy-specific device entries `policy_dev_t` (see `policy_work_t`). -/
structure policy_dev_t where
  tslc : timeslice_dev_t
  smpl : sampling_dev_t
  deriving DecidableEq, Repr

/-- Initialized channel abstraction used for scheduling, `sched_work_t`;
`neon_work` is the address of the work. -/
structure sched_work_t where
  id : Nat
  pid : Nat
  submit_ts : timespec
  issue_ts : timespec
  exe_dt : Nat
  wait_dt : Nat
  nrqst : Nat
  part_of_call : Nat
  neon_work : Nat
  ps : policy_work_t
  deriving DecidableEq, Repr

/-- Task abstraction used for scheduling, `sched_task_t`; the list entry is
represented by the device's list of task addresses. -/
structure sched_task_t where
  pid : Nat
  bmp_start2stop : Nat → Bool
  bmp_issue2comp : Nat → Bool
  nrqst : Nat
  exe_dt : Nat
  wait_dt : Nat
  ps : policy_task_t

/-- Device abstraction used for scheduling, `sched_dev_t`; `stask_list` holds
the addresses of the tasks on the list, in list order. -/
structure sched_dev_t where
  id : Nat
  swork_array : Nat → sched_work_t
  stask_list : List Nat
  ps : policy_dev_t

/-- The all-zero `timespec`. -/
def timespec_zero : timespec := { tv_sec := 0, tv_nsec := 0 }

/-- A `sched_work_t` after `memset(sched_work, 0, sizeof(sched_work_t))`. -/
def sched_work_zero : sched_work_t :=
  { id := 0, pid := 0, submit_ts := timespec_zero, issue_ts := timespec_zero, exe_dt := 0,
    wait_dt := 0, nrqst := 0, part_of_call := 0, neon_work := 0,
    ps := { smpl := { last_seen := 0, engage := 0, heed := 0 } } }

/-- The all-zero policy-specific task entries. -/
def policy_task_zero : policy_task_t :=
  { tslc := { sem_count := 0, overuse := 0 },
    smpl := { occ_chans := 0, mng_chans := 0, vtime := 0, nrqst_sampled := 0,
              ncall_sampled := 0, exe_dt_sampled := 0, held_back := 0, sem_count := 0 } }

/-- A `sched_task_t` as `kzalloc` returns it, its two bitmaps allocated
zeroed. -/
def sched_task_zero : sched_task_t :=
  { pid := 0, bmp_start2stop := fun _ => false, bmp_issue2comp := fun _ => false,
    nrqst := 0, exe_dt := 0, wait_dt := 0, ps := policy_task_zero }

/-- Calls that leave the scheduler's data: wake-ups of the polling thread,
semaphore operations on a task's semaphore, page-tracking restarts on the
index-register map of a work, kills, and `BUG()`. The call of the frontend
`neon_policy_issue` is recorded too, with its device, channel, task address and
`had_blocked` argument, to make the number of issues observable, and so is
every store to the season of a device that the sampling policy makes outside
its init and reset hooks, with the season it replaces. -/
inductive neon_event where
  | policy_issue (did cid task had_blocked : Nat)
  | season_set (did : Nat) (last_season season : season_t)
  | wake_up_kthread
  | sem_up (task : Nat)
  | sem_down (task : Nat)
  | track_restart (arm : Nat) (work : Nat)
  | kill_pgrp (pid : Nat)
  | kernel_bug
  deriving DecidableEq, Repr

/-- The scheduler's data: `sched_dev_array`, the sched-tasks by address,
`select_policy`, the policy knobs of `neon_timeslice.c` and `neon_sampling.c`,
the clock read by `getnstimeofday` (the `ticks`-th reading is `clock ticks`),
and the events raised so far. -/
structure sched_state where
  sched_dev_array : Nat → sched_dev_t
  stask : Nat → sched_task_t
  policy_id : neon_policy_id_t
  timeslice_T : Nat
  disengage : Nat
  sampling_T : Nat
  sampling_X : Nat
  clock : Nat → timespec
  ticks : Nat
  events : List neon_event

/-- Neon-task `neon_task_t` of `neon_control.h`. The polling thread uses `pid`
and `malicious` only; `ctx_list` holds the addresses of the contexts on the
list, in list order. -/
structure neon_task_t where
  pid : Nat
  malicious : Nat
  sharers : Nat := 0
  nctx : Nat := 0
  ctx_list : List Nat := []
  deriving DecidableEq, Repr

/-- The module's state: `neon_global`, the works by address, the scheduler's
data, the polling knobs of `neon_sched.c`, the memory behind the kernel
mappings of the reference counters, and the neon-task attached to each
process (`none` when the process has none). `malicious_terminator` tells whether
the module is built with `NEON_MALICIOUS_TERMINATOR`, which `neon_sched.h`
leaves undefined. -/
structure neon_state where
  neon_global : neon_global_t
  work : Nat → neon_work_t
  sched : sched_state
  polling_T : Nat
  malicious_T : Nat
  malicious_terminator : Bool
  kmem : Nat → Nat
  neon_task : Nat → Option neon_task_t

/-! ## State access -/

/-- Kernel `getnstimeofday`: the current reading of the clock. -/
def getnstimeofday (p : sched_state) : timespec := p.clock p.ticks

/-- The clock has been read once more. -/
def tick (p : sched_state) : sched_state := { p with ticks := p.ticks + 1 }

/-- Record an event. -/
def emit (e : neon_event) (p : sched_state) : sched_state :=
  { p with events := p.events ++ [e] }

/-- Store to the sched-task at address `a`. -/
def upd_stask (a : Nat) (f : sched_task_t → sched_task_t) (p : sched_state) : sched_state :=
  { p with stask := Function.update p.stask a (f (p.stask a)) }

/-- Store to `sched_dev_array[did]`. -/
def upd_sdev (did : Nat) (f : sched_dev_t → sched_dev_t) (p : sched_state) : sched_state :=
  { p with sched_dev_array := Function.update p.sched_dev_array did (f (p.sched_dev_array did)) }

/-- Store to `sched_dev_array[did].swork_array[cid]`. -/
def upd_swork (did cid : Nat) (f : sched_work_t → sched_work_t) (p : sched_state) :
    sched_state :=
  upd_sdev did (fun sd =>
    { sd with swork_array := Function.update sd.swork_array cid (f (sd.swork_array cid)) }) p

/-- The scan `list_for_each_entry(stask, &sched_dev->stask_list.entry, entry)
if(stask->pid == pid) { sched_task = stask; break; }` of the frontend: the
address of the first task on the list with this pid, `NULL` when there is
none. -/
def find_stask (stask : Nat → sched_task_t) (pid : Nat) : List Nat → Nat
  | [] => 0
  | a :: rest => if (stask a).pid = pid then a else find_stask stask pid rest

/-! ## Policy hooks: FCFS (`neon_fcfs.c`) -/

/-- Hook `create_fcfs`. -/
def create_fcfs (_sched_task : Nat) (p : sched_state) : sched_state := p

/-- Hook `destroy_fcfs`. -/
def destroy_fcfs (_sched_task : Nat) (p : sched_state) : sched_state := p

/-- Hook `start_fcfs`. -/
def start_fcfs (_did _cid _sched_task : Nat) (p : sched_state) : sched_state := p

/-- Hook `stop_fcfs`. -/
def stop_fcfs (_did _cid _sched_task : Nat) (p : sched_state) : sched_state := p

/-- Hook `issue_fcfs`. -/
def issue_fcfs (_did _cid _sched_task _had_blocked : Nat) (p : sched_state) : sched_state := p

/-- Hook `complete_fcfs`. -/
def complete_fcfs (_did _cid _sched_task : Nat) (p : sched_state) : sched_state := p

/-! ## Policy hooks shared by the frontend -/

/-- One step of the `for_each_set_bit` loop of `neon_policy_reengage_task`
(`neon_policy.c`) for channel `i`: restart tracking on the index-register map
of the work in slot `i`; `BUG()` when the slot has no work. -/
def reengage_work (did arm i : Nat) (p : sched_state) : sched_state :=
  let sched_work := (p.sched_dev_array did).swork_array i
  if sched_work.neon_work = 0 then emit .kernel_bug p
  else emit (.track_restart arm sched_work.neon_work) p

/-- Function `neon_policy_reengage_task` of `neon_policy.c`: re-engage or
dis-engage every started work of a task. -/
def neon_policy_reengage_task (g : neon_global_t) (did sched_task arm : Nat)
    (p : sched_state) : sched_state :=
  (set_bits (p.stask sched_task).bmp_start2stop (g.dev did).nchan).foldl
    (fun q i => reengage_work did arm i q) p

/-! ## Policy hooks: timeslice (`neon_timeslice.c`) -/

/-- Store to the timeslice entries of the sched-task at address `a`. -/
def upd_tslc_task (a : Nat) (f : timeslice_task_t → timeslice_task_t) (p : sched_state) :
    sched_state :=
  upd_stask a (fun t => { t with ps := { t.ps with tslc := f t.ps.tslc } }) p

/-- Store to the timeslice entries of `sched_dev_array[did]`. -/
def upd_tslc_dev (did : Nat) (f : timeslice_dev_t → timeslice_dev_t) (p : sched_state) :
    sched_state :=
  upd_sdev did (fun sd => { sd with ps := { sd.ps with tslc := f sd.ps.tslc } }) p

/-- The task after `holder` on the device's list, wrapping from the last entry
to the first: `list_entry(last_holder->entry.next)` with the step over the list
head. An entry that is not on the list is linked to itself (`INIT_LIST_HEAD`,
`list_del_init`). -/
def list_next (l : List Nat) (holder : Nat) : Nat :=
  match l.dropWhile (fun a => a ≠ holder) with
  | [] => holder
  | [_] => l.headD holder
  | _ :: b :: _ => b

/-- One turn of the `do ... while(repeat == 1)` loop of `update_token_holder`:
pass the token to the next task and apply the overuse penalty. Returns the new
value of `repeat`. -/
def token_turn (did : Nat) (repeat_ : Nat) (p : sched_state) : Nat × sched_state :=
  let sched_dev := p.sched_dev_array did
  let last_holder := sched_dev.ps.tslc.token_holder
  let new_holder :=
    if last_holder ≠ 0 then list_next sched_dev.stask_list last_holder
    else sched_dev.stask_list.headD 0
  let p := upd_tslc_dev did (fun d => { d with token_holder := new_holder }) p
  if (p.stask new_holder).ps.tslc.overuse > (p.timeslice_T : Int) * USEC_PER_MSEC then
    if last_holder = new_holder then
      (repeat_, upd_tslc_task new_holder (fun t => { t with overuse := 0 }) p)
    else
      (1, upd_tslc_task new_holder (fun t =>
        { t with overuse := t.overuse - (p.timeslice_T : Int) * USEC_PER_MSEC }) p)
  else (0, p)

/-- The `do ... while(repeat == 1)` loop of `update_token_holder`, run for at
most `fuel` turns. -/
def token_loop (did : Nat) : Nat → Nat → sched_state → sched_state
  | 0, _, p => p
  | fuel + 1, repeat_, p =>
    let r := token_turn did repeat_ p
    if r.1 = 1 then token_loop did fuel r.1 r.2 else r.2

/-- A number of turns that the loop of `update_token_holder` does not exceed
when it ends: every turn that asks for another one lowers the positive overuse
of a task on the list. -/
def token_fuel (did : Nat) (p : sched_state) : Nat :=
  let l := (p.sched_dev_array did).stask_list
  l.length + 2 + (l.map (fun a => ((p.stask a).ps.tslc.overuse).toNat)).sum

/-- One step of the closing `list_for_each_entry` loop of
`update_token_holder`: unblock the new holder, block everyone else. -/
def token_grant (g : neon_global_t) (did new_holder sched_task : Nat) (p : sched_state) :
    sched_state :=
  if sched_task = new_holder then
    let p := if p.disengage ≠ 0 then neon_policy_reengage_task g did sched_task 0 p else p
    if (p.stask sched_task).ps.tslc.sem_count < 0 then
      emit (.sem_up sched_task)
        (upd_tslc_task sched_task (fun t => { t with sem_count := t.sem_count + 1 }) p)
    else p
  else
    if p.disengage ≠ 0 then neon_policy_reengage_task g did sched_task 1 p else p

/-- Function `update_token_holder` of `neon_timeslice.c`: pass the token to
the next requesting task in the queue. -/
def update_token_holder (g : neon_global_t) (did : Nat) (p : sched_state) : sched_state :=
  if (p.sched_dev_array did).stask_list = [] then p
  else
    let p := token_loop did (token_fuel did p) 0 p
    let new_holder := (p.sched_dev_array did).ps.tslc.token_holder
    (p.sched_dev_array did).stask_list.foldl (fun q a => token_grant g did new_holder a q) p

/-- Hook `create_timeslice`. -/
def create_timeslice (sched_task : Nat) (p : sched_state) : sched_state :=
  upd_tslc_task sched_task (fun t => { t with sem_count := 0 }) p

/-- Hook `destroy_timeslice`. -/
def destroy_timeslice (sched_task : Nat) (p : sched_state) : sched_state :=
  if (p.stask sched_task).ps.tslc.sem_count < 0 then
    emit (.sem_up sched_task)
      (upd_tslc_task sched_task (fun t => { t with sem_count := t.sem_count + 1 }) p)
  else p

/-- Hook `start_timeslice`. -/
def start_timeslice (g : neon_global_t) (did _cid sched_task : Nat) (p : sched_state) :
    sched_state :=
  let curr_holder := (p.sched_dev_array did).ps.tslc.token_holder
  if curr_holder = 0 ∧ bitmap_empty (p.stask sched_task).bmp_start2stop (g.dev did).nchan then
    update_token_holder g did p
  else p

/-- The timer part of `stop_timeslice`, `complete_timeslice`: cancel the token
timer of the device unless its callback runs; returns whether it was
cancelled. -/
def token_timer_cancel (did : Nat) (p : sched_state) : Bool × sched_state :=
  let r := hrtimer_try_to_cancel (p.sched_dev_array did).ps.tslc.token_timer
  (decide (r.1 ≠ -1), upd_tslc_dev did (fun d => { d with token_timer := r.2 }) p)

/-- Hook `stop_timeslice`. -/
def stop_timeslice (g : neon_global_t) (did _cid sched_task : Nat) (p : sched_state) :
    sched_state :=
  let last_holder := (p.sched_dev_array did).ps.tslc.token_holder
  let p :=
    if last_holder = sched_task ∧
        bitmap_empty (p.stask sched_task).bmp_start2stop (g.dev did).nchan ∧
        (p.sched_dev_array did).stask_list ≠ [] then
      let p := update_token_holder g did p
      let p :=
        if (p.sched_dev_array did).ps.tslc.token_holder = sched_task then
          upd_tslc_dev did (fun d => { d with token_holder := 0 }) p
        else p
      if (p.stask sched_task).ps.tslc.sem_count < 0 then
        emit (.sem_up sched_task)
          (upd_tslc_task sched_task (fun t => { t with sem_count := t.sem_count + 1 }) p)
      else p
    else p
  let r := token_timer_cancel did p
  if r.1 then
    if g.ctx_live > 0 then
      emit .wake_up_kthread (upd_tslc_dev did (fun d => { d with action := 1 }) r.2)
    else r.2
  else r.2

/-- Hook `issue_timeslice`. -/
def issue_timeslice (_did _cid _sched_task _had_blocked : Nat) (p : sched_state) :
    sched_state := p

/-- Conversion of an `unsigned long` to `long`. -/
def s64_of_u64 (x : Nat) : Int :=
  if x % 2 ^ 64 < 2 ^ 63 then (x % 2 ^ 64 : Nat) else (x % 2 ^ 64 : Nat) - 2 ^ 64

/-- Hook `complete_timeslice`. -/
def complete_timeslice (g : neon_global_t) (did _cid sched_task : Nat) (p : sched_state) :
    sched_state :=
  let nchan := (g.dev did).nchan
  let curr_holder := (p.sched_dev_array did).ps.tslc.token_holder
  if curr_holder ≠ 0 ∧ curr_holder ≠ sched_task then p
  else if (p.sched_dev_array did).ps.tslc.update_ts ≠ 0 ∧
      bitmap_empty (p.stask curr_holder).bmp_issue2comp nchan then
    let now_ts := getnstimeofday p
    let p := tick p
    let dt := usub (usec_of now_ts) (p.sched_dev_array did).ps.tslc.update_ts
    let p := upd_tslc_task sched_task (fun t =>
      { t with overuse := s64_of_u64 (uadd (u64_of_int t.overuse) dt) }) p
    let p := update_token_holder g did p
    let p := upd_tslc_dev did (fun d => { d with update_ts := 0 }) p
    let r := token_timer_cancel did p
    if r.1 then
      upd_tslc_dev did (fun d => { d with token_timer := hrtimer_start d.token_timer }) r.2
    else r.2
  else p

/-! ## Policy hooks: sampling (`neon_sampling.c`) -/

/-- Store to the sampling entries of the sched-task at address `a`. -/
def upd_smpl_task (a : Nat) (f : sampling_task_t → sampling_task_t) (p : sched_state) :
    sched_state :=
  upd_stask a (fun t => { t with ps := { t.ps with smpl := f t.ps.smpl } }) p

/-- Store to the sampling entries of `sched_dev_array[did]`. -/
def upd_smpl_dev (did : Nat) (f : sampling_dev_t → sampling_dev_t) (p : sched_state) :
    sched_state :=
  upd_sdev did (fun sd => { sd with ps := { sd.ps with smpl := f sd.ps.smpl } }) p

/-- Store to the sampling entries of `sched_dev_array[did].swork_array[cid]`. -/
def upd_smpl_work (did cid : Nat) (f : sampling_work_t → sampling_work_t) (p : sched_state) :
    sched_state :=
  upd_swork did cid (fun w => { w with ps := { w.ps with smpl := f w.ps.smpl } }) p

/-- The store `sched_dev->DFQ(season) = season` on device `did`, recorded with
the season it replaces. -/
def set_season (did : Nat) (season : season_t) (p : sched_state) : sched_state :=
  emit (.season_set did (p.sched_dev_array did).ps.smpl.season season)
    (upd_smpl_dev did (fun d => { d with season := season }) p)

/-- The statements `atomic_set(&sched_dev->DFQ(action), 1);
wake_up_interruptible(&neon_kthread_event_wait_queue);`. -/
def sampling_wake (did : Nat) (p : sched_state) : sched_state :=
  emit .wake_up_kthread (upd_smpl_dev did (fun d => { d with action := 1 }) p)

/-- Cancel the season timer of the device unless its callback runs; returns
the result of `hrtimer_try_to_cancel`. -/
def season_timer_cancel (did : Nat) (p : sched_state) : Int × sched_state :=
  let r := hrtimer_try_to_cancel (p.sched_dev_array did).ps.smpl.season_timer
  (r.1, upd_smpl_dev did (fun d => { d with season_timer := r.2 }) p)

/-- Hook `create_sampling`. -/
def create_sampling (sched_task : Nat) (p : sched_state) : sched_state :=
  upd_smpl_task sched_task (fun _ => policy_task_zero.smpl) p

/-- Hook `destroy_sampling`. -/
def destroy_sampling (sched_task : Nat) (p : sched_state) : sched_state :=
  if (p.stask sched_task).ps.smpl.held_back ≠ 0 then
    if (p.stask sched_task).ps.smpl.sem_count < 0 then
      emit (.sem_up sched_task)
        (upd_smpl_task sched_task (fun t => { t with sem_count := t.sem_count + 1 }) p)
    else p
  else p

/-- Hook `start_sampling`, built with `NEON_SAMPLING_COMP0_ONLY` as
`neon_sampling.h` defines it. -/
def start_sampling (did cid sched_task : Nat) (p : sched_state) : sched_state :=
  let p := upd_smpl_task sched_task (fun t => { t with occ_chans := u32 (t.occ_chans + 1) }) p
  if (p.stask sched_task).ps.smpl.occ_chans % 2 = 0 ∨
      (p.sched_dev_array did).id ≠ NEON_MAIN_GPU_DID then
    upd_smpl_work did cid (fun w => { w with heed := 0, engage := 0 }) p
  else
    let p := upd_smpl_work did cid (fun w => { w with heed := 1, engage := 1 }) p
    let mng_chans := (p.stask sched_task).ps.smpl.mng_chans
    let p := upd_smpl_task sched_task (fun t => { t with mng_chans := u32 (t.mng_chans + 1) }) p
    if mng_chans = 0 then
      upd_smpl_task sched_task
        (fun t => { t with vtime := (p.sched_dev_array did).ps.smpl.vtime }) p
    else p

/-- The loop `while(sched_task->DFQ(sem_count) < 0) { sem_count++; up(sem); }`
of `stop_sampling`. -/
def sampling_unblock_all (sched_task : Nat) (p : sched_state) : sched_state :=
  let n := (- (p.stask sched_task).ps.smpl.sem_count).toNat
  let p := if (p.stask sched_task).ps.smpl.sem_count < 0 then
    upd_smpl_task sched_task (fun t => { t with sem_count := 0 }) p else p
  { p with events := p.events ++ List.replicate n (.sem_up sched_task) }

/-- Hook `stop_sampling`. -/
def stop_sampling (g : neon_global_t) (did cid sched_task : Nat) (p : sched_state) :
    sched_state :=
  let last_season := (p.sched_dev_array did).ps.smpl.season
  let last_sampled := (p.sched_dev_array did).ps.smpl.sampled_task
  let p := upd_smpl_task sched_task
    (fun t => { t with occ_chans := u32 (t.occ_chans + (2 ^ 32 - 1)) }) p
  let p :=
    if ((p.sched_dev_array did).swork_array cid).ps.smpl.heed ≠ 0 then
      upd_smpl_task sched_task (fun t => { t with mng_chans := u32 (t.mng_chans + (2 ^ 32 - 1)) }) p
    else p
  let p :=
    if (p.stask sched_task).ps.smpl.occ_chans ≠ 0 then p
    else
      let p := sampling_unblock_all sched_task p
      let p :=
        match last_season with
        | DFQ_TASK_BARRIER => p
        | DFQ_TASK_DRAINING => p
        | DFQ_TASK_SAMPLING =>
          if last_sampled = sched_task then
            upd_smpl_dev did (fun d => { d with sampled_task := 0 }) p
          else p
        | DFQ_TASK_FREERUN => upd_smpl_task sched_task (fun t => { t with held_back := 0 }) p
        | DFQ_TASK_NOFSEASONS => emit .kernel_bug p
      let r := season_timer_cancel did p
      if r.1 ≠ -1 then
        if g.ctx_live > 0 then sampling_wake did r.2 else r.2
      else r.2
  upd_smpl_work did cid (fun w => { w with engage := 0 }) p

/-- Hook `issue_sampling`. -/
def issue_sampling (did cid sched_task _had_blocked : Nat) (p : sched_state) : sched_state :=
  let sched_work := (p.sched_dev_array did).swork_array cid
  if sched_work.ps.smpl.heed = 0 ∨ sched_work.ps.smpl.engage = 0 then p
  else
    match (p.sched_dev_array did).ps.smpl.season with
    | DFQ_TASK_BARRIER => p
    | DFQ_TASK_DRAINING => p
    | DFQ_TASK_SAMPLING =>
      let p := upd_smpl_task sched_task
        (fun t => { t with nrqst_sampled := u64 (t.nrqst_sampled + 1) }) p
      if sched_work.part_of_call ≠ 0 then
        upd_smpl_task sched_task (fun t => { t with ncall_sampled := u64 (t.ncall_sampled + 1) }) p
      else p
    | DFQ_TASK_FREERUN =>
      if (p.stask sched_task).ps.smpl.held_back = 0 then
        upd_smpl_work did cid (fun w => { w with engage := 0 }) p
      else upd_smpl_work did cid (fun w => { w with engage := 1 }) p
    | DFQ_TASK_NOFSEASONS => p

/-- Hook `complete_sampling`. -/
def complete_sampling (g : neon_global_t) (did cid sched_task : Nat) (p : sched_state) :
    sched_state :=
  let nchan := (g.dev did).nchan
  let sched_work := (p.sched_dev_array did).swork_array cid
  if sched_work.ps.smpl.heed = 0 ∨ sched_work.ps.smpl.engage = 0 then p
  else
    let now_ts := getnstimeofday p
    let p := tick p
    let ts := usec_of now_ts
    match (p.sched_dev_array did).ps.smpl.season with
    | DFQ_TASK_BARRIER => p
    | DFQ_TASK_DRAINING =>
      let p := upd_smpl_dev did (fun d => { d with countdown := u32 (d.countdown + (2 ^ 32 - 1)) }) p
      if (p.sched_dev_array did).ps.smpl.countdown ≤ 0 then sampling_wake did p else p
    | DFQ_TASK_SAMPLING =>
      if (p.sched_dev_array did).ps.smpl.sampled_task ≠ sched_task then p
      else if (p.sched_dev_array did).ps.smpl.update_ts = 0 then
        let exe_dt := elapsed_usec now_ts sched_work.issue_ts
        upd_smpl_task sched_task
          (fun t => { t with exe_dt_sampled := uadd t.exe_dt_sampled exe_dt }) p
      else
        if bitmap_empty (p.stask sched_task).bmp_issue2comp nchan then
          let p :=
            if (p.stask sched_task).ps.smpl.nrqst_sampled ≤ NEON_SAMPLING_CRITICAL_MASS then
              let exe_dt := elapsed_usec now_ts sched_work.issue_ts
              let p := upd_smpl_task sched_task
                (fun t => { t with exe_dt_sampled := uadd t.exe_dt_sampled exe_dt }) p
              upd_smpl_dev did (fun d => { d with
                sampling_season_dt := uadd d.sampling_season_dt (usub ts d.update_ts) }) p
            else
              upd_smpl_task sched_task
                (fun t => { t with nrqst_sampled := u64 (t.nrqst_sampled + (2 ^ 64 - 1)) }) p
          sampling_wake did (upd_smpl_dev did (fun d => { d with update_ts := 0 }) p)
        else p
    | DFQ_TASK_FREERUN =>
      if (p.stask sched_task).ps.smpl.held_back = 0 then
        upd_smpl_work did cid (fun w => { w with engage := 0 }) p
      else upd_smpl_work did cid (fun w => { w with engage := 1 }) p
    | DFQ_TASK_NOFSEASONS => p

/-! ## Policy frontend (`neon_policy.c`) -/

/-- Dispatch `select_policy->create(sched_task)`. -/
def select_policy_create (sched_task : Nat) (p : sched_state) : sched_state :=
  match p.policy_id with
  | NEON_POLICY_FCFS => create_fcfs sched_task p
  | NEON_POLICY_TIMESLICE => create_timeslice sched_task p
  | NEON_POLICY_SAMPLING => create_sampling sched_task p

/-- Dispatch `select_policy->destroy(sched_task)`. -/
def select_policy_destroy (sched_task : Nat) (p : sched_state) : sched_state :=
  match p.policy_id with
  | NEON_POLICY_FCFS => destroy_fcfs sched_task p
  | NEON_POLICY_TIMESLICE => destroy_timeslice sched_task p
  | NEON_POLICY_SAMPLING => destroy_sampling sched_task p

/-- Dispatch `select_policy->start(sched_dev, sched_work, sched_task)`. -/
def select_policy_start (g : neon_global_t) (did cid sched_task : Nat) (p : sched_state) :
    sched_state :=
  match p.policy_id with
  | NEON_POLICY_FCFS => start_fcfs did cid sched_task p
  | NEON_POLICY_TIMESLICE => start_timeslice g did cid sched_task p
  | NEON_POLICY_SAMPLING => start_sampling did cid sched_task p

/-- Dispatch `select_policy->stop(sched_dev, sched_work, sched_task)`. -/
def select_policy_stop (g : neon_global_t) (did cid sched_task : Nat) (p : sched_state) :
    sched_state :=
  match p.policy_id with
  | NEON_POLICY_FCFS => stop_fcfs did cid sched_task p
  | NEON_POLICY_TIMESLICE => stop_timeslice g did cid sched_task p
  | NEON_POLICY_SAMPLING => stop_sampling g did cid sched_task p

/-- Dispatch `select_policy->issue(sched_dev, sched_work, sched_task,
had_blocked)`. -/
def select_policy_issue (did cid sched_task had_blocked : Nat) (p : sched_state) :
    sched_state :=
  match p.policy_id with
  | NEON_POLICY_FCFS => issue_fcfs did cid sched_task had_blocked p
  | NEON_POLICY_TIMESLICE => issue_timeslice did cid sched_task had_blocked p
  | NEON_POLICY_SAMPLING => issue_sampling did cid sched_task had_blocked p

/-- Dispatch `select_policy->complete(sched_dev, sched_work, sched_task)`. -/
def select_policy_complete (g : neon_global_t) (did cid sched_task : Nat) (p : sched_state) :
    sched_state :=
  match p.policy_id with
  | NEON_POLICY_FCFS => complete_fcfs did cid sched_task p
  | NEON_POLICY_TIMESLICE => complete_timeslice g did cid sched_task p
  | NEON_POLICY_SAMPLING => complete_sampling g did cid sched_task p

/-- Function `neon_policy_issue` of `neon_policy.c`: issue a GPU request,
called by the policy's submit hook. The work slot `sched_work` is
`swork_array[cid]` of device `did`, `sched_task` the address of the task,
`work` the heap of works. Returns `0`. The read of
`sched_work->neon_work->part_of_call` dereferences the slot's `neon_work`,
which is `NULL` on a slot that holds no work (a zeroed slot): the call then
faults there and never returns, which the result `none` records, next to the
scheduler's data as the fault leaves it. -/
def neon_policy_issue (work : Nat → neon_work_t) (did cid sched_task had_blocked : Nat)
    (p : sched_state) : Option Int × sched_state :=
  let p := emit (.policy_issue did cid sched_task had_blocked) p
  let sched_work := (p.sched_dev_array did).swork_array cid
  let p :=
    if had_blocked ≠ 0 then
      let p := upd_stask sched_task (fun t =>
        { t with bmp_issue2comp := set_bit sched_work.id t.bmp_issue2comp }) p
      let issue_ts := getnstimeofday p
      let p := tick p
      let wait_dt := elapsed_usec issue_ts sched_work.submit_ts
      upd_swork did cid (fun w =>
        { w with issue_ts := issue_ts, wait_dt := uadd w.wait_dt wait_dt }) p
    else
      upd_swork did cid (fun w => { w with issue_ts := w.submit_ts }) p
  if sched_work.neon_work = 0 then (none, p)
  else
    let p := upd_swork did cid (fun w =>
      { w with part_of_call := (work w.neon_work).part_of_call }) p
    let p := select_policy_issue did cid sched_task had_blocked p
    let id := ((p.sched_dev_array did).swork_array cid).id
    let p := upd_stask sched_task (fun t =>
      { t with bmp_issue2comp := set_bit id t.bmp_issue2comp }) p
    (some 0, p)

/-- The outcome of a submit hook, a `void` function that ends in its call of
`neon_policy_issue`: `some ()` when that call returns, `none` when it faults,
next to the scheduler's data it leaves. -/
def hook_outcome (r : Option Int × sched_state) : Option Unit × sched_state :=
  (r.1.map (fun _ => ()), r.2)

/-- Hook `submit_fcfs`: issues immediately. -/
def submit_fcfs (work : Nat → neon_work_t) (did cid sched_task : Nat) (p : sched_state) :
    Option Unit × sched_state :=
  hook_outcome (neon_policy_issue work did cid sched_task 0 p)

/-- Hook `submit_timeslice`; the wait on the task's semaphore is recorded and
returns. -/
def submit_timeslice (work : Nat → neon_work_t) (did cid sched_task : Nat) (p : sched_state) :
    Option Unit × sched_state :=
  let curr_holder := (p.sched_dev_array did).ps.tslc.token_holder
  let block : Nat :=
    if sched_task ≠ curr_holder ∨ (p.sched_dev_array did).ps.tslc.update_ts ≠ 0 then 1 else 0
  let p :=
    if block = 1 then
      let id := ((p.sched_dev_array did).swork_array cid).id
      let p := upd_stask sched_task (fun t =>
        { t with bmp_issue2comp := clear_bit id t.bmp_issue2comp }) p
      let p := upd_tslc_task sched_task (fun t => { t with sem_count := t.sem_count - 1 }) p
      emit (.sem_down sched_task) p
    else p
  hook_outcome (neon_policy_issue work did cid sched_task block p)

/-- Hook `submit_sampling`; the wait on the task's semaphore is recorded and
returns. -/
def submit_sampling (work : Nat → neon_work_t) (did cid sched_task : Nat) (p : sched_state) :
    Option Unit × sched_state :=
  let last_season := (p.sched_dev_array did).ps.smpl.season
  let sched_work := (p.sched_dev_array did).swork_array cid
  if sched_work.ps.smpl.heed = 0 ∨ sched_work.ps.smpl.engage = 0 then
    hook_outcome (neon_policy_issue work did cid sched_task 0 p)
  else
    let r : Nat × sched_state :=
      match last_season with
      | DFQ_TASK_BARRIER => (1, sampling_wake did p)
      | DFQ_TASK_DRAINING => (1, p)
      | DFQ_TASK_SAMPLING =>
        let r : Nat × sched_state :=
          if (p.sched_dev_array did).ps.smpl.sampled_task ≠ sched_task ∨
              (p.sched_dev_array did).ps.smpl.update_ts ≠ 0 ∨
              (p.stask sched_task).ps.smpl.nrqst_sampled ≥ NEON_SAMPLING_CRITICAL_MASS then
            if (p.stask sched_task).ps.smpl.nrqst_sampled ≥ NEON_SAMPLING_CRITICAL_MASS then
              (1, sampling_wake did (season_timer_cancel did p).2)
            else (1, p)
          else (0, p)
        if test_bit sched_work.id (r.2.stask sched_task).bmp_issue2comp then
          let exe_dt := elapsed_usec sched_work.submit_ts sched_work.issue_ts
          (r.1, upd_smpl_task sched_task
            (fun t => { t with exe_dt_sampled := uadd t.exe_dt_sampled exe_dt }) r.2)
        else r
      | DFQ_TASK_FREERUN =>
        if (p.stask sched_task).ps.smpl.held_back = 0 then
          (0, upd_smpl_work did cid (fun w => { w with engage := 0 }) p)
        else (1, upd_smpl_work did cid (fun w => { w with engage := 1 }) p)
      | DFQ_TASK_NOFSEASONS => (0, p)
    let p :=
      if r.1 = 1 then
        let p := upd_stask sched_task (fun t =>
          { t with bmp_issue2comp := clear_bit sched_work.id t.bmp_issue2comp }) r.2
        let p := upd_smpl_task sched_task (fun t => { t with sem_count := t.sem_count - 1 }) p
        emit (.sem_down sched_task) p
      else r.2
    hook_outcome (neon_policy_issue work did cid sched_task r.1 p)

/-- Dispatch `select_policy->submit(sched_dev, sched_work, sched_task)`. -/
def select_policy_submit (work : Nat → neon_work_t) (did cid sched_task : Nat)
    (p : sched_state) : Option Unit × sched_state :=
  match p.policy_id with
  | NEON_POLICY_FCFS => submit_fcfs work did cid sched_task p
  | NEON_POLICY_TIMESLICE => submit_timeslice work did cid sched_task p
  | NEON_POLICY_SAMPLING => submit_sampling work did cid sched_task p

/-- The allocation of `create_sched_task`: a zeroed `sched_task_t` at address
`addr` with its `pid` set and two zeroed bitmaps. -/
def alloc_stask (addr pid : Nat) (p : sched_state) : sched_state :=
  { p with stask := Function.update p.stask addr { sched_task_zero with pid := pid } }

/-- Function `create_sched_task` of `neon_policy.c`. `addr` is the address
that `kzalloc` returns for the task (`0` when the allocation fails), `bmp_ok`
tells whether the two bitmaps could be allocated. Returns the address of the
new task, `NULL` on failure. -/
def create_sched_task (addr : Nat) (bmp_ok : Bool) (_did pid : Nat) (p : sched_state) :
    Nat × sched_state :=
  if addr = 0 then (0, p)
  else
    let p := alloc_stask addr pid p
    if ¬ bmp_ok then (0, p)
    else (addr, select_policy_create addr p)

/-- Function `destroy_sched_task` of `neon_policy.c`. -/
def destroy_sched_task (sched_task : Nat) (p : sched_state) : sched_state :=
  select_policy_destroy sched_task p

/-- Function `neon_policy_start` of `neon_policy.c`: initialize and start a
new job. `neon_work` is the address of the work; `addr` and `bmp_ok` are the
outcome of the allocations of `create_sched_task`, used when the task has to
be created. -/
def neon_policy_start (g : neon_global_t) (work : Nat → neon_work_t) (addr : Nat)
    (bmp_ok : Bool) (neon_work : Nat) (p : sched_state) : Int × sched_state :=
  let did := (work neon_work).did
  let cid := (work neon_work).cid
  let pid := (work neon_work).neon_task
  let nchan := (g.dev did).nchan
  let found := find_stask p.stask pid (p.sched_dev_array did).stask_list
  let r := if found = 0 then create_sched_task addr bmp_ok did pid p else (found, p)
  let sched_task := r.1
  let p := r.2
  if sched_task = 0 then (-1, p)
  else
    let p := upd_swork did cid (fun _ => sched_work_zero) p
    let p := upd_swork did cid
      (fun w => { w with neon_work := neon_work, id := cid, pid := pid }) p
    let p :=
      if bitmap_empty (p.stask sched_task).bmp_start2stop nchan then
        upd_sdev did (fun sd => { sd with stask_list := sd.stask_list ++ [sched_task] }) p
      else p
    let p := select_policy_start g did cid sched_task p
    let p := upd_stask sched_task
      (fun t => { t with bmp_start2stop := set_bit cid t.bmp_start2stop }) p
    (0, p)

/-- Function `neon_policy_stop` of `neon_policy.c`: carefully exit work. -/
def neon_policy_stop (g : neon_global_t) (work : Nat → neon_work_t) (neon_work : Nat)
    (p : sched_state) : Int × sched_state :=
  let did := (work neon_work).did
  let cid := (work neon_work).cid
  let pid := (work neon_work).neon_task
  let nchan := (g.dev did).nchan
  let sched_task := find_stask p.stask pid (p.sched_dev_array did).stask_list
  if sched_task = 0 then (-1, p)
  else
    let p := upd_stask sched_task
      (fun t => { t with bmp_start2stop := clear_bit cid t.bmp_start2stop }) p
    let p := select_policy_stop g did cid sched_task p
    let p := upd_swork did cid (fun _ => sched_work_zero) p
    let p :=
      if bitmap_empty (p.stask sched_task).bmp_start2stop nchan then
        let p := upd_sdev did
          (fun sd => { sd with stask_list := sd.stask_list.erase sched_task }) p
        destroy_sched_task sched_task p
      else p
    (0, p)

/-- Function `neon_policy_submit` of `neon_policy.c`: submit a GPU request.
Returns `-1` without a task and `0` after the policy's submit hook; when the
hook faults in `neon_policy_issue` the call never returns, which the result
`none` records. -/
def neon_policy_submit (work : Nat → neon_work_t) (neon_work : Nat) (p : sched_state) :
    Option Int × sched_state :=
  let did := (work neon_work).did
  let cid := (work neon_work).cid
  let pid := (work neon_work).neon_task
  let sched_task := find_stask p.stask pid (p.sched_dev_array did).stask_list
  if sched_task = 0 then (some (-1), p)
  else
    let now_ts := getnstimeofday p
    let p := tick p
    let sched_work := (p.sched_dev_array did).swork_array cid
    let exe_dt :=
      if test_bit cid (p.stask sched_task).bmp_issue2comp then
        elapsed_usec now_ts sched_work.issue_ts
      else 0
    let p := upd_swork did cid (fun w =>
      { w with exe_dt := uadd w.exe_dt exe_dt, nrqst := u64 (w.nrqst + 1), submit_ts := now_ts }) p
    let p := upd_stask sched_task (fun t => { t with nrqst := u64 (t.nrqst + 1) }) p
    let r := select_policy_submit work did cid sched_task p
    (r.1.map (fun _ => 0), r.2)

/-- Function `neon_policy_complete` of `neon_policy.c`: complete event. -/
def neon_policy_complete (g : neon_global_t) (did cid pid : Nat) (p : sched_state) :
    sched_state :=
  let sched_task := find_stask p.stask pid (p.sched_dev_array did).stask_list
  if sched_task = 0 then p
  else
    let r : Nat × sched_state :=
      if test_bit cid (p.stask sched_task).bmp_issue2comp then
        let complete_ts := getnstimeofday p
        let p := tick p
        let exe_dt := elapsed_usec complete_ts ((p.sched_dev_array did).swork_array cid).issue_ts
        (exe_dt, upd_stask sched_task
          (fun t => { t with bmp_issue2comp := clear_bit cid t.bmp_issue2comp }) p)
      else (0, p)
    let exe_dt := r.1
    let p := r.2
    let p := upd_swork did cid (fun w => { w with exe_dt := uadd w.exe_dt exe_dt }) p
    let sched_work := (p.sched_dev_array did).swork_array cid
    let p := upd_stask sched_task (fun t =>
      { t with
        exe_dt := uadd t.exe_dt sched_work.exe_dt,
        wait_dt := uadd t.wait_dt sched_work.wait_dt }) p
    select_policy_complete g did cid sched_task p

/-! ## Work lifecycle and polling (`neon_sched.c`) -/

/-- Store to `neon_global.dev[did]`. -/
def upd_dev (did : Nat) (f : neon_dev_t → neon_dev_t) (g : neon_global_t) : neon_global_t :=
  { g with dev := Function.update g.dev did (f (g.dev did)) }

/-- Store to `neon_global.dev[did].chan[cid]`. -/
def upd_chan (did cid : Nat) (f : neon_chan_t → neon_chan_t) (g : neon_global_t) :
    neon_global_t :=
  upd_dev did (fun d => { d with chan := Function.update d.chan cid (f (d.chan cid)) }) g

/-- Function `neon_work_submit` of `neon_sched.c`: submit incoming GPU access
request. `work` is the address of the work. When `neon_policy_submit` faults
the call never returns and the stores that follow it are not made, which the
result `none` records. -/
def neon_work_submit (work : Nat) (really : Nat) (s : neon_state) :
    Option Int × neon_state :=
  let did := (s.work work).did
  let cid := (s.work work).cid
  let r : Option Int × neon_state :=
    if really = 1 then
      let s := { s with neon_global := upd_chan did cid (fun c => { c with pdt := 0 }) s.neon_global }
      let r := neon_policy_submit s.work work s.sched
      (r.1, { s with sched := r.2 })
    else
      (some 0,
        { s with work := Function.update s.work work { s.work work with part_of_call := 0 } })
  match r.1 with
  | none => (none, r.2)
  | some ret =>
    let s := r.2
    let w := s.work work
    let g := upd_chan did cid (fun c =>
      { c with pid := w.neon_task, refc_kvaddr := w.refc_kvaddr, refc_target := w.refc_target,
               pdt := 1 }) s.neon_global
    let g := upd_dev did (fun d => { d with bmp_sub2comp := set_bit cid d.bmp_sub2comp }) g
    (some ret, { s with neon_global := g })

/-- Function `neon_work_complete` of `neon_sched.c`: completion notification
raised by the polling thread or the app at stop time. -/
def neon_work_complete (did cid pid : Nat) (s : neon_state) : neon_state :=
  if test_bit cid (s.neon_global.dev did).bmp_sub2comp = false then s
  else
    let g := upd_dev did (fun d => { d with bmp_sub2comp := clear_bit cid d.bmp_sub2comp })
      s.neon_global
    let s := { s with neon_global := g }
    let s := { s with sched := neon_policy_complete s.neon_global did cid pid s.sched }
    if test_bit cid (s.neon_global.dev did).bmp_sub2comp = false then
      { s with neon_global := upd_chan did cid (fun c =>
          { c with pid := 0, refc_kvaddr := 0, refc_target := 0, pdt := 0 }) s.neon_global }
    else s

/-- Function `neon_work_start` of `neon_sched.c`. -/
def neon_work_start (addr : Nat) (bmp_ok : Bool) (work : Nat) (s : neon_state) :
    Int × neon_state :=
  let r := neon_policy_start s.neon_global s.work addr bmp_ok work s.sched
  (r.1, { s with sched := r.2 })

/-- Function `neon_work_stop` of `neon_sched.c`. -/
def neon_work_stop (work : Nat) (s : neon_state) : Int × neon_state :=
  let w := s.work work
  let s := neon_work_complete w.did w.cid w.neon_task s
  let r := neon_policy_stop s.neon_global s.work work s.sched
  (r.1, { s with sched := r.2 })

/-- Function `kill_malicious` of `neon_sched.c`: mark the neon-task of the
process malicious and kill its process group, once. -/
def kill_malicious (pidnum : Nat) (s : neon_state) : neon_state :=
  match s.neon_task pidnum with
  | none => s
  | some t =>
    if t.malicious = 0 then
      { s with
        neon_task := Function.update s.neon_task pidnum (some { t with malicious := 1 }),
        sched := emit (.kill_pgrp pidnum) s.sched }
    else s

/-- Body of the first `for_each_set_bit` loop of `polling_refc_update` for
the live channel `cid` of device `did`. Returns the state and whether the loop
is left by `break`, with `likely_malicious` updated. `polling_T` is at least
`NEON_POLLING_T_MIN = 1` once `neon_sched_reset` has clamped it; a division by
a zero `polling_T` is not represented. -/
def polling_chan (did cid : Nat) (likely_malicious : Nat) (s : neon_state) :
    Bool × Nat × neon_state :=
  let dev := s.neon_global.dev did
  let chan := dev.chan cid
  if chan.lock then (false, likely_malicious, s)
  else if chan.refc_kvaddr = 0 then (false, likely_malicious, s)
  else
    let refc_val := u32 (s.kmem chan.refc_kvaddr)
    let complete := decide (refc_val ≥ chan.refc_target)
    let r : Nat × neon_state :=
      if complete then (likely_malicious, s)
      else if s.malicious_terminator then
        if s.malicious_T ≠ 0 ∧ chan.pdt > 0 then
          let g := upd_chan did cid (fun c => { c with pdt := u64 (c.pdt + 1) }) s.neon_global
          let s' := { s with neon_global := g }
          if chan.pdt > s.malicious_T / s.polling_T then (cid, s') else (likely_malicious, s')
        else (likely_malicious, s)
      else (likely_malicious, s)
    let likely_malicious := r.1
    let s := r.2
    let s := if complete then neon_work_complete did cid chan.pid s else s
    if s.malicious_terminator ∧ likely_malicious ≠ dev.nchan then
      (true, likely_malicious, kill_malicious ((s.neon_global.dev did).chan cid).pid s)
    else (false, likely_malicious, s)

/-- The first `for_each_set_bit(cid, dev->bmp_sub2comp, dev->nchan)` loop of
`polling_refc_update` over the channels `cids` still to visit; a channel is
visited when its bit is set at that time. -/
def polling_scan (did : Nat) : List Nat → Nat → neon_state → Nat × neon_state
  | [], likely_malicious, s => (likely_malicious, s)
  | cid :: rest, likely_malicious, s =>
    if test_bit cid (s.neon_global.dev did).bmp_sub2comp then
      let r := polling_chan did cid likely_malicious s
      if r.1 then (r.2.1, r.2.2) else polling_scan did rest r.2.1 r.2.2
    else polling_scan did rest likely_malicious s

/-- The second loop of `polling_refc_update`: a second chance for every live
channel other than the likely malicious one. -/
def polling_second_chance (did likely_malicious : Nat) (s : neon_state) : neon_state :=
  (set_bits (s.neon_global.dev did).bmp_sub2comp (s.neon_global.dev did).nchan).foldl
    (fun s cid =>
      if cid ≠ likely_malicious then
        if ((s.neon_global.dev did).chan cid).pdt > 0 then
          { s with neon_global := upd_chan did cid (fun c => { c with pdt := 1 }) s.neon_global }
        else s
      else s) s

/-- Body of the `for(did = 0; did < neon_global.ndev; did++)` loop of
`polling_refc_update`. -/
def polling_dev (did : Nat) (s : neon_state) : neon_state :=
  let nchan := (s.neon_global.dev did).nchan
  let r := polling_scan did (List.range nchan) nchan s
  if r.1 ≠ nchan then polling_second_chance did r.1 r.2 else r.2

/-- Function `polling_refc_update` of `neon_sched.c`: one pass of the polling
thread over the live channels of all devices. -/
def polling_refc_update (s : neon_state) : neon_state :=
  (List.range s.neon_global.ndev).foldl (fun s did => polling_dev did s) s

/-- Ring-buffer entry named by a written index value `v`, in the words of the
specification: entry `v - 1` when `v > 0`, the last entry of the ring buffer
when `v = 0` (1023 for compute, 32767 for graphics), none for an undefined
workload. Used only to state the claim on `update_work_cb_cmd`. -/
def spec_rb_entry (workload : neon_workload_t) (v : Nat) : Option Nat :=
  if v > 0 then some (v - 1)
  else match workload with
    | NEON_WORKLOAD_COMPUTE => some 1023
    | NEON_WORKLOAD_GRAPHICS => some 32767
    | NEON_WORKLOAD_UNDEFINED => none

/-- A compute work whose ring buffer is mapped at `0x10000`, used in the
witness of the claim on `update_work_cb_cmd`. -/
def example_work : neon_work_t :=
  { did := 0, cid := 3, ir := none,
    rb := { key := 1, ctx_key := 5, dev_key := 9, size := NEON_RCB_SIZE_COMPUTE, offset := 0,
            mmio_gpu := 0x20000000, vma := { vm_start := 0x10000, vm_end := 0x412000 } },
    cb := none, rc := none, neon_task := 42, refc_vaddr := 0, refc_kvaddr := 0,
    refc_target := 0, part_of_call := 0, workload := NEON_WORKLOAD_COMPUTE }

/-- User memory of the witness: ring-buffer entry 0 holds
`bottom = 0x20002000`, `top = 0x4000`. -/
def example_mem : Nat → Nat :=
  fun a => if a = 0x10000 then 0x20002000 else if a = 0x10004 then 0x4000 else 0

/-! ## What the frontend keeps for itself -/

/-- The members of a `sched_task_t` that only the frontend writes: all but
the policy-specific entries. -/
def task_core (t : sched_task_t) : Nat × (Nat → Bool) × (Nat → Bool) × Nat × Nat × Nat :=
  (t.pid, t.bmp_start2stop, t.bmp_issue2comp, t.nrqst, t.exe_dt, t.wait_dt)

/-- The members of a `sched_work_t` other than the policy-specific entries. -/
def work_core (w : sched_work_t) :
    Nat × Nat × timespec × timespec × Nat × Nat × Nat × Nat × Nat :=
  (w.id, w.pid, w.submit_ts, w.issue_ts, w.exe_dt, w.wait_dt, w.nrqst, w.part_of_call,
    w.neon_work)

/-- Whether an event is a call of `neon_policy_issue`. -/
def is_policy_issue : neon_event → Bool
  | .policy_issue _ _ _ _ => true
  | _ => false

/-- Number of calls of `neon_policy_issue` among the events. -/
def issue_count (events : List neon_event) : Nat :=
  events.countP is_policy_issue

/-- Relation between two states of the scheduler's data that differ at most
in policy-specific entries, the number of clock readings and events other than
calls of `neon_policy_issue`. -/
def sched_frame (p q : sched_state) : Prop :=
  (∀ a, task_core (q.stask a) = task_core (p.stask a)) ∧
  (∀ d, (q.sched_dev_array d).stask_list = (p.sched_dev_array d).stask_list) ∧
  (∀ d, (q.sched_dev_array d).id = (p.sched_dev_array d).id) ∧
  (∀ d c, work_core ((q.sched_dev_array d).swork_array c)
    = work_core ((p.sched_dev_array d).swork_array c)) ∧
  q.policy_id = p.policy_id ∧ q.timeslice_T = p.timeslice_T ∧ q.disengage = p.disengage ∧
  q.sampling_T = p.sampling_T ∧ q.sampling_X = p.sampling_X ∧ q.clock = p.clock ∧
  issue_count q.events = issue_count p.events

/-! ## Example states -/

/-- An idle channel. -/
def example_chan : neon_chan_t :=
  { id := 0, pid := 0, ir_kvaddr := 0, refc_kvaddr := 0, refc_target := 0, pdt := 0,
    lock := false }

/-- A device with eight idle channels. -/
def example_dev : neon_dev_t :=
  { id := 0, reg_base := 0xc00000, reg_ofs := 0x2000, nchan := 8, chan := fun _ => example_chan,
    bmp_sub2comp := fun _ => false }

/-- One device, one live context. -/
def example_global : neon_global_t :=
  { ctx_ever := 1, ctx_live := 1, ndev := 1, dev := fun _ => example_dev }

/-- Policy-specific device entries after `neon_policy_init`. -/
def example_policy_dev : policy_dev_t :=
  { tslc := { token_holder := 0, update_ts := 0, action := 0, token_timer := .inactive },
    smpl := { season := DFQ_TASK_BARRIER, vtime := 0, sampling_season_dt := 0, active := 0,
              countdown := 0, update_ts := 0, sampled_task := 0, action := 0,
              season_timer := .inactive } }

/-- A sched-dev after `neon_policy_init`: zeroed work slots, empty task list. -/
def example_sched_dev : sched_dev_t :=
  { id := 0, swork_array := fun _ => sched_work_zero, stask_list := [], ps := example_policy_dev }

/-- The scheduler's data after `neon_policy_init` under policy `pol`; the
`n`-th reading of the clock is 50 microseconds times `n` past second 100. -/
def example_sched (pol : neon_policy_id_t) : sched_state :=
  { sched_dev_array := fun _ => example_sched_dev, stask := fun _ => sched_task_zero,
    policy_id := pol, timeslice_T := 30, disengage := 1, sampling_T := 5, sampling_X := 5,
    clock := fun n => { tv_sec := 100, tv_nsec := 50000 * n }, ticks := 0, events := [] }

/-- The works of the examples: at address 100 a compute work of process 42 on
channel 3 whose reference counter is mapped at `0x5000` with target 7, at
address 101 a work of process 43 on channel 4 with target 9 at `0x6000`. -/
def example_works : Nat → neon_work_t :=
  fun a =>
    if a = 101 then
      { example_work with cid := 4, neon_task := 43, refc_kvaddr := 0x6000, refc_target := 9 }
    else { example_work with refc_kvaddr := 0x5000, refc_target := 7 }

/-- The module's state of the examples under policy `pol`, the reference
counters reading `counter`, built as `neon_sched.h` has it, without
`NEON_MALICIOUS_TERMINATOR`. -/
def example_state (pol : neon_policy_id_t) (counter : Nat) : neon_state :=
  { neon_global := example_global, work := example_works, sched := example_sched pol,
    polling_T := 1, malicious_T := 60000, malicious_terminator := false,
    kmem := fun _ => counter, neon_task := fun pid => some { pid := pid, malicious := 0 } }

/-- The scheduler's data after the work at address 100 was started (its task
allocated at address 500) and `neon_policy_submit` has issued a request for it,
under FCFS. -/
def example_issued : sched_state :=
  (neon_policy_submit example_works 100
    (neon_policy_start example_global example_works 500 true 100
      (example_sched NEON_POLICY_FCFS)).2).2

/-- The scheduler's data of `example_issued` after the request completed at
the second reading of the clock. -/
def example_completed : sched_state :=
  neon_policy_complete example_global 0 3 42 example_issued

/-- The scheduler's data of `example_completed` after a second request was
issued on the channel, at the third reading of the clock. -/
def example_issued_again : sched_state :=
  (neon_policy_submit example_works 100 example_completed).2

/-- The scheduler's data with every issue2comp bitmap blanked, to compare
states up to these bitmaps. -/
def forget_issue (p : sched_state) : sched_state :=
  { p with stask := fun a => { p.stask a with bmp_issue2comp := fun _ => false } }

/-- Relation between two states of the scheduler's data that differ at most
in what `sched_frame` allows and in issue2comp bitmaps. -/
def submit_frame (p q : sched_state) : Prop :=
  sched_frame (forget_issue p) (forget_issue q)

/-- The scheduler's data after `neon_policy_init` under policy `pol` and the
start of the work at address 100, its task allocated at address 500. -/
def example_started (pol : neon_policy_id_t) : sched_state :=
  (neon_policy_start example_global example_works 500 true 100 (example_sched pol)).2

/-! ## Sequences of start and stop calls -/

/-- A call of the frontend on a work: `neon_policy_start`, with the address
that `kzalloc` returns should a task have to be created, or
`neon_policy_stop`. -/
inductive sched_call where
  | start (neon_work addr : Nat)
  | stop (neon_work : Nat)

/-- The scheduler's data after one call; every allocation of bitmaps
succeeds. -/
def run_call (g : neon_global_t) (work : Nat → neon_work_t) (p : sched_state) :
    sched_call → sched_state
  | .start neon_work addr => (neon_policy_start g work addr true neon_work p).2
  | .stop neon_work => (neon_policy_stop g work neon_work p).2

/-- The scheduler's data after a sequence of calls. -/
def run_calls (g : neon_global_t) (work : Nat → neon_work_t) (calls : List sched_call)
    (p : sched_state) : sched_state :=
  calls.foldl (run_call g work) p

/-- What a call may assume in state `p`: the channel index is one of the
device, and the allocator, when `neon_policy_start` has to create a task,
returns a non-`NULL` address that is not a task in use. -/
def call_ok (g : neon_global_t) (work : Nat → neon_work_t) (p : sched_state) :
    sched_call → Prop
  | .start neon_work addr =>
    (work neon_work).cid < (g.dev (work neon_work).did).nchan ∧
    (find_stask p.stask (work neon_work).neon_task
        (p.sched_dev_array (work neon_work).did).stask_list = 0 →
      addr ≠ 0 ∧ ∀ d, addr ∉ (p.sched_dev_array d).stask_list)
  | .stop _ => True

/-- Every call of a sequence run from state `p` meets `call_ok`. -/
def calls_ok (g : neon_global_t) (work : Nat → neon_work_t) :
    List sched_call → sched_state → Prop
  | [], _ => True
  | c :: cs, p => call_ok g work p c ∧ calls_ok g work cs (run_call g work p c)

/-- Record of the channels that are started and not stopped, by device, pid
and channel, after one more call. -/
def spec_started_step (work : Nat → neon_work_t) (G : Nat → Nat → Nat → Bool) :
    sched_call → Nat → Nat → Nat → Bool
  | .start neon_work _ => fun d pid c =>
    if d = (work neon_work).did ∧ pid = (work neon_work).neon_task ∧ c = (work neon_work).cid
    then true else G d pid c
  | .stop neon_work => fun d pid c =>
    if d = (work neon_work).did ∧ pid = (work neon_work).neon_task ∧ c = (work neon_work).cid
    then false else G d pid c

/-- The channels started and not stopped after a sequence of calls, read off
the calls alone: `spec_started work calls d pid c` tells whether the last call
about channel `c` of process `pid` on device `d` is a start. -/
def spec_started (work : Nat → neon_work_t) (calls : List sched_call) :
    Nat → Nat → Nat → Bool :=
  calls.foldl (spec_started_step work) (fun _ _ _ => false)

/-- Agreement of task lists, given by the lists `L` of the devices, the pids
`P` and start2stop bitmaps `B` of the tasks, with a record `G` of started
channels; `N` is the number of channels of each device. -/
def stask_inv (N : Nat → Nat) (L : Nat → List Nat) (P : Nat → Nat) (B : Nat → Nat → Bool)
    (G : Nat → Nat → Nat → Bool) : Prop :=
  (∀ d, (L d).Nodup) ∧
  (∀ d, 0 ∉ L d) ∧
  (∀ d e a, d ≠ e → a ∈ L d → a ∉ L e) ∧
  (∀ d a b, a ∈ L d → b ∈ L d → P a = P b → a = b) ∧
  (∀ d a, a ∈ L d → ∀ c, B a c = G d (P a) c) ∧
  (∀ d pid c, G d pid c = true → c < N d ∧ ∃ a, a ∈ L d ∧ P a = pid) ∧
  (∀ d a, a ∈ L d → ∃ c, G d (P a) c = true)

/-- The invariant `stask_inv` read on a state of the scheduler's data. -/
def sched_inv (g : neon_global_t) (q : sched_state) (G : Nat → Nat → Nat → Bool) : Prop :=
  stask_inv (fun d => (g.dev d).nchan) (fun d => (q.sched_dev_array d).stask_list)
    (fun a => (q.stask a).pid) (fun a => (q.stask a).bmp_start2stop) G

/-- Calls of the examples: start of the work at address 100, its task
allocated at address 500, start of the work at address 101, its task allocated
at address 501, then stop of the work at address 100. -/
def example_calls : List sched_call :=
  [.start 100 500, .start 101 501, .stop 100]

/-! ## What one pass of the polling thread touches -/

/-- Whether the first loop of `polling_refc_update`, reaching channel `cid`
of device `did` in state `s`, marks it likely malicious, which makes the loop
kill the channel's process and `break`. Never so without
`NEON_MALICIOUS_TERMINATOR`. -/
def polling_marks (did cid : Nat) (s : neon_state) : Bool :=
  let dev := s.neon_global.dev did
  let chan := dev.chan cid
  s.malicious_terminator && test_bit cid dev.bmp_sub2comp && !chan.lock &&
    decide (chan.refc_kvaddr ≠ 0) &&
    decide (u32 (s.kmem chan.refc_kvaddr) < chan.refc_target) &&
    decide (s.malicious_T ≠ 0) && decide (chan.pdt > 0) &&
    decide (chan.pdt > s.malicious_T / s.polling_T)

/-- State `t` differs from `s` in the channel table at most at the channels
that `touched` names: the records and live bits of all others, the sizes of the
table, the memory behind the reference counters and the polling knobs are
those of `s`. -/
def table_frame (touched : Nat → Nat → Prop) (s t : neon_state) : Prop :=
  t.neon_global.ndev = s.neon_global.ndev ∧
  (∀ d, (t.neon_global.dev d).nchan = (s.neon_global.dev d).nchan) ∧
  t.kmem = s.kmem ∧ t.malicious_T = s.malicious_T ∧ t.polling_T = s.polling_T ∧
  t.malicious_terminator = s.malicious_terminator ∧
  ∀ d c, ¬ touched d c →
    (t.neon_global.dev d).chan c = (s.neon_global.dev d).chan c ∧
    (t.neon_global.dev d).bmp_sub2comp c = (s.neon_global.dev d).bmp_sub2comp c

/-- What tells whether channel `cid` of device `did` is complete: its live
bit and the pid, counter address and target of its record. -/
def chan_done (did cid : Nat) (s : neon_state) : Bool × Nat × Nat × Nat :=
  (test_bit cid (s.neon_global.dev did).bmp_sub2comp,
    ((s.neon_global.dev did).chan cid).pid,
    ((s.neon_global.dev did).chan cid).refc_kvaddr,
    ((s.neon_global.dev did).chan cid).refc_target)

/-- The module's state of the examples under FCFS after the work at address
100 was started (its task allocated at address 500) and submitted: channel 3
of device 0 is live, waiting for the counter at `0x5000` to reach 7 while the
counters read `counter`. -/
def example_live (counter : Nat) : neon_state :=
  (neon_work_submit 100 1
    (neon_work_start 500 true 100 (example_state NEON_POLICY_FCFS counter)).2).2

/-! ## Reference-counter parsers with their reads (`neon_sys.c`) -/

/-- Function `kepler_refc_eval` of `neon_sys.c`: from the end of a command
set, find the reference counter's address and target value on a Kepler device.
Returns the `int` result and the `refc_addr_val` output array, which keeps the
caller's contents where the source does not store to it. Built as `neon_sys.h`
has it, without `NEON_KERNEL_CALL_COUNTING`. -/
def kepler_refc_eval (mem : Nat → Nat) (workload : neon_workload_t)
    (cmd_tuple : Nat × Nat) (refc_addr_val : Nat × Nat) : Int × (Nat × Nat) :=
  let cmd_start := cmd_tuple.1
  let cmd_size := cmd_tuple.2
  if workload = NEON_WORKLOAD_COMPUTE then
    let cmd_end := usub (uadd cmd_start cmd_size) 0x6
    if usub cmd_size 0x6 < 4 * sizeof_int then
      (-1, (0xB16, 0xB00B1E5))
    else
      let ptr := usub cmd_end (4 * sizeof_int)
      let val := neon_uptr_read mem ptr
      if val = 0x200426c0 then
        let top := neon_uptr_read mem (uadd ptr (1 * sizeof_int))
        let bottom := neon_uptr_read mem (uadd ptr (2 * sizeof_int))
        (0, (u64 (bottom ||| u64 (top <<< (8 * sizeof_int))),
             neon_uptr_read mem (uadd ptr (3 * sizeof_int))))
      else
        if usub cmd_size 0x6 < 7 * sizeof_int then
          (-1, (0x2B16, 0xB00B1E5))
        else
          let ptr := usub cmd_end (7 * sizeof_int)
          let val := neon_uptr_read mem ptr
          if val = 0x20018090 then
            let top := neon_uptr_read mem (uadd ptr (1 * sizeof_int))
            let bottom := neon_uptr_read mem (uadd ptr (3 * sizeof_int))
            (0, (u64 (bottom ||| u64 (top <<< (8 * sizeof_int))),
                 neon_uptr_read mem (uadd ptr (5 * sizeof_int))))
          else
            if val = 0x200180c0 then
              if usub cmd_size 0x6 < 13 * sizeof_int then
                (-1, (0x22B16, 0xB00B1E5))
              else
                let ptr := usub cmd_end (13 * sizeof_int)
                let top := neon_uptr_read mem (uadd ptr (1 * sizeof_int))
                let bottom := neon_uptr_read mem (uadd ptr (3 * sizeof_int))
                (0, (u64 (bottom ||| u64 (top <<< (8 * sizeof_int))),
                     neon_uptr_read mem (uadd ptr (5 * sizeof_int))))
            else
              (-1, (0xDEAD, 0xC0DE))
  else if workload = NEON_WORKLOAD_GRAPHICS then
    let cmd_end := usub (uadd cmd_start cmd_size) 0x4
    if usub cmd_size 0x4 < 4 * sizeof_int then
      (-1, (0xB16, 0xB00B1E5))
    else
      let ptr := usub cmd_end (4 * sizeof_int)
      let val := neon_uptr_read mem ptr
      if val = 0x200406c0 then
        let top := neon_uptr_read mem (uadd ptr (1 * sizeof_int))
        let bottom := neon_uptr_read mem (uadd ptr (2 * sizeof_int))
        (0, (u64 (bottom ||| u64 (top <<< (8 * sizeof_int))),
             neon_uptr_read mem (uadd ptr (3 * sizeof_int))))
      else
        (0, refc_addr_val)
  else (0, refc_addr_val)

/-- The user addresses that `tesla_refc_eval` passes to `neon_uptr_read`, in
the order of the calls. -/
def tesla_refc_reads (mem : Nat → Nat) (workload : neon_workload_t)
    (cmd_tuple : Nat × Nat) : List Nat :=
  let cmd_start := cmd_tuple.1
  let cmd_size := cmd_tuple.2
  let cmd_end := usub (uadd cmd_start cmd_size) 0x6
  if workload = NEON_WORKLOAD_COMPUTE then
    if usub cmd_size 0x6 < 4 * sizeof_int then []
    else
      let ptr := usub cmd_end (4 * sizeof_int)
      let val := neon_uptr_read mem ptr
      if val = 0x104310 ∨ val = 0x100010 then
        [ptr, uadd ptr (2 * sizeof_int), uadd ptr (3 * sizeof_int)]
      else
        if usub cmd_size 0x6 < 8 * sizeof_int then [ptr]
        else
          let ptr2 := usub cmd_end (8 * sizeof_int)
          let val := neon_uptr_read mem ptr2
          if val = 0x100010 then
            [ptr, ptr2, uadd ptr2 (2 * sizeof_int), uadd ptr2 (3 * sizeof_int)]
          else [ptr, ptr2]
  else []

/-- The user addresses that `kepler_refc_eval` passes to `neon_uptr_read`, in
the order of the calls. -/
def kepler_refc_reads (mem : Nat → Nat) (workload : neon_workload_t)
    (cmd_tuple : Nat × Nat) : List Nat :=
  let cmd_start := cmd_tuple.1
  let cmd_size := cmd_tuple.2
  if workload = NEON_WORKLOAD_COMPUTE then
    let cmd_end := usub (uadd cmd_start cmd_size) 0x6
    if usub cmd_size 0x6 < 4 * sizeof_int then []
    else
      let ptr := usub cmd_end (4 * sizeof_int)
      let val := neon_uptr_read mem ptr
      if val = 0x200426c0 then
        [ptr, uadd ptr (1 * sizeof_int), uadd ptr (2 * sizeof_int), uadd ptr (3 * sizeof_int)]
      else
        if usub cmd_size 0x6 < 7 * sizeof_int then [ptr]
        else
          let ptr2 := usub cmd_end (7 * sizeof_int)
          let val := neon_uptr_read mem ptr2
          if val = 0x20018090 then
            [ptr, ptr2, uadd ptr2 (1 * sizeof_int), uadd ptr2 (3 * sizeof_int),
              uadd ptr2 (5 * sizeof_int)]
          else
            if val = 0x200180c0 then
              if usub cmd_size 0x6 < 13 * sizeof_int then [ptr, ptr2]
              else
                let ptr3 := usub cmd_end (13 * sizeof_int)
                [ptr, ptr2, uadd ptr3 (1 * sizeof_int), uadd ptr3 (3 * sizeof_int),
                  uadd ptr3 (5 * sizeof_int)]
            else [ptr, ptr2]
  else if workload = NEON_WORKLOAD_GRAPHICS then
    let cmd_end := usub (uadd cmd_start cmd_size) 0x4
    if usub cmd_size 0x4 < 4 * sizeof_int then []
    else
      let ptr := usub cmd_end (4 * sizeof_int)
      let val := neon_uptr_read mem ptr
      if val = 0x200406c0 then
        [ptr, uadd ptr (1 * sizeof_int), uadd ptr (2 * sizeof_int), uadd ptr (3 * sizeof_int)]
      else [ptr]
  else []

/-- Function `neon_policy_update` of `neon_policy.c`, as far as the
scheduler's data goes: for every started channel `i` of the task that the
checks of the index register and of the reference counter find busy
(`busy i`), the issue2comp bit `sched_work->id` of the task is set. What
`readl` returns, and the updates that `neon_work_update` and
`neon_work_submit(neon_work, 0)` make to the work and to the channel table,
lie outside the scheduler's data. -/
def neon_policy_update (g : neon_global_t) (did sched_task : Nat) (busy : Nat → Bool)
    (p : sched_state) : sched_state :=
  (set_bits (p.stask sched_task).bmp_start2stop (g.dev did).nchan).foldl
    (fun p i =>
      let id := ((p.sched_dev_array did).swork_array i).id
      if busy i then
        upd_stask sched_task (fun t => { t with bmp_issue2comp := set_bit id t.bmp_issue2comp }) p
      else p) p

def NEON_TIMESLICE_T_MIN : Nat := 1
def NEON_TIMESLICE_T_MAX : Nat := 1000

/-- Hook `reset_timeslice`; `knob_T` and `knob_disengage` are the values of the
sysctl knobs `_timeslice_T_` and `_disengage_`. -/
def reset_timeslice (g : neon_global_t) (knob_T knob_disengage : Nat) (nctx : Nat)
    (p : sched_state) : sched_state :=
  let p :=
    if nctx = 1 then
      let T := knob_T
      let T := if T < NEON_TIMESLICE_T_MIN then NEON_TIMESLICE_T_MIN else T
      let T := if T > NEON_TIMESLICE_T_MAX then NEON_TIMESLICE_T_MAX else T
      let p := { p with timeslice_T := T, disengage := knob_disengage }
      (List.range g.ndev).foldl (fun p i =>
        upd_tslc_dev i (fun d => { d with token_holder := 0, update_ts := 0,
                                          token_timer := hrtimer_start d.token_timer }) p) p
    else p
  if nctx = 0 then
    (List.range g.ndev).foldl (fun p i =>
      upd_tslc_dev i (fun d => { d with action := 0, token_holder := 0, update_ts := 0,
                                        token_timer := .inactive }) p) p
  else p

/-- Body of the device loop of `event_timeslice` for a device `i` whose action
flag was raised; `now_ts` is the time read at the start of the handler,
`busy i task` what `neon_policy_update` finds for the channels of the task. -/
def event_timeslice_pass (g : neon_global_t) (busy : Nat → Nat → Nat → Bool)
    (now_ts : timespec) (i : Nat) (p : sched_state) : sched_state :=
  let nchan := (g.dev i).nchan
  let last_holder := (p.sched_dev_array i).ps.tslc.token_holder
  let r : Bool × sched_state :=
    if last_holder ≠ 0 ∧ (p.sched_dev_array i).stask_list.length ≠ 1 then
      let p :=
        if p.disengage ≠ 0 ∧ ¬ bitmap_empty (p.stask last_holder).bmp_start2stop nchan then
          neon_policy_update g i last_holder (busy i last_holder) p
        else p
      if ¬ bitmap_empty (p.stask last_holder).bmp_issue2comp nchan then
        let p := if p.disengage ≠ 0 then neon_policy_reengage_task g i last_holder 1 p else p
        (true, upd_tslc_dev i (fun d => { d with update_ts := usec_of now_ts }) p)
      else (false, p)
    else (false, p)
  if r.1 then r.2
  else
    let p := update_token_holder g i r.2
    let c := token_timer_cancel i p
    if c.1 then
      upd_tslc_dev i (fun d => { d with token_timer := hrtimer_start d.token_timer }) c.2
    else c.2

/-- The `atomic_cmpxchg(&sched_dev->TS(action), 1, 0)` of the device loop of
`event_timeslice` and, unless the flag read 0, the body of the loop. -/
def event_timeslice_dev (g : neon_global_t) (busy : Nat → Nat → Nat → Bool)
    (now_ts : timespec) (i : Nat) (p : sched_state) : sched_state :=
  let action := (p.sched_dev_array i).ps.tslc.action
  if action = 0 then p
  else if action = 1 then
    event_timeslice_pass g busy now_ts i (upd_tslc_dev i (fun d => { d with action := 0 }) p)
  else event_timeslice_pass g busy now_ts i p

/-- Hook `event_timeslice`: the handler of the events raised by the token
alarm. -/
def event_timeslice (g : neon_global_t) (busy : Nat → Nat → Nat → Bool) (p : sched_state) :
    sched_state :=
  let now_ts := getnstimeofday p
  let p := tick p
  (List.range g.ndev).foldl (fun p i => event_timeslice_dev g busy now_ts i p) p

/-- The requests per call of `update_vtimes`, `(nr + (nr % nc)) / nc` when
calls were sampled and 1 otherwise. -/
def nrqst_per_call (t : sampling_task_t) : Nat :=
  if t.ncall_sampled > 0 then
    uadd t.nrqst_sampled (t.nrqst_sampled % t.ncall_sampled) / t.ncall_sampled
  else 1

/-- The average execution time of `update_vtimes`,
`nrqst_per_call * exe_dt_sampled / nrqst_sampled`. -/
def avg_exe_dt (t : sampling_task_t) : Nat :=
  umul (nrqst_per_call t) t.exe_dt_sampled / t.nrqst_sampled

/-- Function `update_vtimes` of `neon_sampling.c`: update the virtual times of
all tasks of the device. -/
def update_vtimes (did : Nat) (p : sched_state) : sched_state :=
  let l := (p.sched_dev_array did).stask_list
  let first : Nat × Nat := l.foldl (fun acc a =>
    let t := (p.stask a).ps.smpl
    if t.held_back ≠ 0 then (1, acc.2)
    else if t.nrqst_sampled = 0 then acc
    else (1, uadd acc.2 (avg_exe_dt t))) (0, 0)
  let activity := first.1
  let total_avg_exe_dt := first.2
  let r : Nat × sched_state :=
    if activity = 0 ∨ total_avg_exe_dt = 0 then (0, p)
    else
      let epoch_dt := umul (p.sched_dev_array did).ps.smpl.sampling_season_dt p.sampling_X
      let second : Nat × sched_state := l.foldl (fun acc a =>
        let t := (acc.2.stask a).ps.smpl
        if t.held_back ≠ 0 then (if t.vtime < acc.1 then t.vtime else acc.1, acc.2)
        else if t.nrqst_sampled = 0 then acc
        else
          let vt := umul (avg_exe_dt t) epoch_dt / total_avg_exe_dt
          let q := upd_smpl_task a (fun t => { t with vtime := uadd t.vtime vt }) acc.2
          let v := (q.stask a).ps.smpl.vtime
          (if v < acc.1 then v else acc.1, q)) (2 ^ 64 - 1, p)
      let min_vtime := second.1
      let p := second.2
      let p :=
        if min_vtime < 2 ^ 64 - 1 then
          let p := upd_smpl_dev did (fun d => { d with vtime := min_vtime }) p
          l.foldl (fun q a =>
            if (q.stask a).ps.smpl.vtime < (q.sched_dev_array did).ps.smpl.vtime then
              upd_smpl_task a
                (fun t => { t with vtime := (q.sched_dev_array did).ps.smpl.vtime }) q
            else q) p
        else p
      (epoch_dt, p)
  let epoch_dt := r.1
  let p := upd_smpl_dev did (fun d => { d with active := activity }) r.2
  let p := l.foldl (fun q a =>
    let held : Nat :=
      if (q.stask a).ps.smpl.vtime > uadd (q.sched_dev_array did).ps.smpl.vtime epoch_dt
      then 1 else 0
    upd_smpl_task a (fun t => { t with
      held_back := held, exe_dt_sampled := 0, nrqst_sampled := 0, ncall_sampled := 0 }) q) p
  upd_smpl_dev did (fun d => { d with sampling_season_dt := 0, sampled_task := 0 }) p

/-- The `while(1)` loop of `update_sampled_task` over the entries `l` from
`pos` to the end of the list: the first task that is not held back, `NULL`
when there is none; every task passed adds `sampling_T * USEC_PER_MSEC` to the
device's `sampling_season_dt`. -/
def sample_walk (did : Nat) : List Nat → sched_state → Nat × sched_state
  | [], p => (0, p)
  | a :: rest, p =>
    if (p.stask a).ps.smpl.held_back = 0 then (a, p)
    else
      let dt := u64 (p.sampling_T * 1000)
      sample_walk did rest (upd_smpl_dev did
        (fun d => { d with sampling_season_dt := uadd d.sampling_season_dt dt }) p)

/-- Function `update_sampled_task` of `neon_sampling.c`: pick the next task
to sample. The last sampled task is looked up on the list; one that is not on
the list (linked to itself) is not represented and counts as the last entry. -/
def update_sampled_task (did : Nat) (p : sched_state) : sched_state :=
  let l := (p.sched_dev_array did).stask_list
  if l = [] then upd_smpl_dev did (fun d => { d with sampled_task := 0 }) p
  else
    let last_sampled := (p.sched_dev_array did).ps.smpl.sampled_task
    let r : Nat × sched_state :=
      if last_sampled = 0 then sample_walk did l p
      else
        match (l.dropWhile (fun a => a ≠ last_sampled)).tail with
        | [] => (0, p)
        | pos => sample_walk did pos p
    upd_smpl_dev did (fun d => { d with sampled_task := r.1 }) r.2

/-- Function `update_now` of `neon_sampling.c`: pick the task to sample, if
any, and update the virtual times when all were sampled. Returns the interval
of the next alarm, in nanoseconds. -/
def update_now (did : Nat) (p : sched_state) : Int × sched_state :=
  let p := update_sampled_task did p
  let now_sampled := (p.sched_dev_array did).ps.smpl.sampled_task
  let r : Int × sched_state :=
    if now_sampled ≠ 0 then
      let dt := u64 (p.sampling_T * 1000)
      ((p.sampling_T : Int) * 1000000,
        upd_smpl_dev did
          (fun d => { d with sampling_season_dt := uadd d.sampling_season_dt dt }) p)
    else
      let p :=
        if (p.sched_dev_array did).ps.smpl.sampling_season_dt = 0 then
          upd_smpl_dev did (fun d => { d with sampling_season_dt := u64 (p.sampling_T * 1000) }) p
        else p
      let interval := s64_of_u64
        (umul (umul p.sampling_X (p.sched_dev_array did).ps.smpl.sampling_season_dt) 1000)
      let p := set_season did DFQ_TASK_FREERUN p
      (interval, update_vtimes did p)
  let p := (r.2.sched_dev_array did).stask_list.foldl (fun q a =>
    if now_sampled = 0 ∨ a = now_sampled then
      if (q.stask a).ps.smpl.sem_count < 0 ∧ (q.stask a).ps.smpl.held_back = 0 then
        emit (.sem_up a) (upd_smpl_task a (fun t => { t with sem_count := t.sem_count + 1 }) q)
      else q
    else q) r.2
  (r.1, p)

/-- The FREERUN case of the switch of `event_sampling`: re-engage the works
that ran free and enter BARRIER. Returns whether the switch is left by
`break`. -/
def event_sampling_freerun (g : neon_global_t) (i : Nat) (p : sched_state) :
    Bool × sched_state :=
  let p := (List.range (g.dev i).nchan).foldl (fun q j =>
    let swork := (q.sched_dev_array i).swork_array j
    if swork.ps.smpl.heed ≠ 0 then
      if swork.ps.smpl.engage = 0 then
        emit (.track_restart 1 swork.neon_work)
          (upd_smpl_work i j (fun w => { w with engage := 1 }) q)
      else q
    else q) p
  let p := set_season i DFQ_TASK_BARRIER p
  (decide ((p.sched_dev_array i).ps.smpl.active = 0), p)

/-- The `for_each_set_bit(j, stask->bmp_issue2comp, nchan)` loop of the BARRIER
case of `event_sampling`: count the pending works of the task on heeded
channels into the countdown of the device. -/
def event_sampling_count (g : neon_global_t) (i stask : Nat) (p : sched_state) : sched_state :=
  (set_bits (p.stask stask).bmp_issue2comp (g.dev i).nchan).foldl (fun q j =>
    let swork := (q.sched_dev_array i).swork_array j
    if swork.ps.smpl.heed = 0 then q
    else
      let q := if swork.ps.smpl.engage = 0 then emit .kernel_bug q else q
      upd_smpl_dev i (fun d => { d with countdown := u32 (d.countdown + 1) }) q) p

/-- The BARRIER case of the switch of `event_sampling`: count the pending
work and enter DRAINING when there is some. Returns whether the switch is left
by `break`. -/
def event_sampling_barrier (g : neon_global_t) (busy : Nat → Nat → Nat → Bool) (i : Nat)
    (p : sched_state) : Bool × sched_state :=
  let p := upd_smpl_dev i (fun d => { d with countdown := 0 }) p
  let p := (p.sched_dev_array i).stask_list.foldl (fun q stask =>
    let q :=
      if (q.stask stask).ps.smpl.held_back = 0 then
        neon_policy_update g i stask (busy i stask) q
      else q
    event_sampling_count g i stask q) p
  if (p.sched_dev_array i).ps.smpl.countdown > 0 then
    (true, set_season i DFQ_TASK_DRAINING p)
  else (false, p)

/-- The SAMPLING case of the switch of `event_sampling`, at time `ts`: wait for
the pending work of the sampled task or move on with `update_now`. Returns the
interval of the next alarm, 0 when none is set. -/
def event_sampling_sampling (g : neon_global_t) (ts : Nat) (i : Nat) (p : sched_state) :
    Int × sched_state :=
  let nchan := (g.dev i).nchan
  let last_sampled := (p.sched_dev_array i).ps.smpl.sampled_task
  if last_sampled ≠ 0 ∧ ¬ bitmap_empty (p.stask last_sampled).bmp_issue2comp nchan then
    let r : Nat × sched_state := (List.range nchan).foldl (fun acc j =>
      if test_bit j (acc.2.stask last_sampled).bmp_issue2comp then
        let swork := (acc.2.sched_dev_array i).swork_array j
        if swork.ps.smpl.heed = 0 then
          (1, upd_stask last_sampled
            (fun t => { t with bmp_issue2comp := clear_bit swork.id t.bmp_issue2comp }) acc.2)
        else acc
      else acc) (0, p)
    if r.1 = 1 then (0, r.2)
    else (0, upd_smpl_dev i (fun d => { d with update_ts := ts }) r.2)
  else update_now i p

/-- The switch of `event_sampling` entered at `case DFQ_TASK_DRAINING`: enter
SAMPLING and fall through to its case. -/
def event_sampling_from_draining (g : neon_global_t) (ts : Nat) (i : Nat) (p : sched_state) :
    Int × sched_state :=
  event_sampling_sampling g ts i (set_season i DFQ_TASK_SAMPLING p)

/-- The switch of `event_sampling` entered at `case DFQ_TASK_BARRIER`. -/
def event_sampling_from_barrier (g : neon_global_t) (busy : Nat → Nat → Nat → Bool)
    (ts : Nat) (i : Nat) (p : sched_state) : Int × sched_state :=
  let r := event_sampling_barrier g busy i p
  if r.1 then (0, r.2) else event_sampling_from_draining g ts i r.2

/-- The `switch(last_season)` of `event_sampling` with its fall-through
cases. -/
def event_sampling_switch (g : neon_global_t) (busy : Nat → Nat → Nat → Bool)
    (ts : Nat) (i : Nat) (p : sched_state) : Int × sched_state :=
  match (p.sched_dev_array i).ps.smpl.season with
  | DFQ_TASK_FREERUN =>
    let r := event_sampling_freerun g i p
    if r.1 then (0, r.2) else event_sampling_from_barrier g busy ts i r.2
  | DFQ_TASK_BARRIER => event_sampling_from_barrier g busy ts i p
  | DFQ_TASK_DRAINING => event_sampling_from_draining g ts i p
  | DFQ_TASK_SAMPLING => event_sampling_sampling g ts i p
  | DFQ_TASK_NOFSEASONS => (0, p)

/-- Body of the device loop of `event_sampling` for a device whose action
flag was raised, past the `break` of `NEON_SAMPLING_COMP0_ONLY`. -/
def event_sampling_dev (g : neon_global_t) (busy : Nat → Nat → Nat → Bool) (i : Nat)
    (p : sched_state) : sched_state :=
  let now_ts := getnstimeofday p
  let p := tick p
  let r := event_sampling_switch g busy (usec_of now_ts) i p
  if r.1 ≠ 0 then
    let c := season_timer_cancel i r.2
    if c.1 ≠ -1 then
      upd_smpl_dev i (fun d => { d with season_timer := hrtimer_start d.season_timer }) c.2
    else c.2
  else r.2

/-- The device loop of `event_sampling` over the devices `l` still to visit,
built with `NEON_SAMPLING_COMP0_ONLY` as `neon_sampling.h` defines it: a device
other than the first whose action flag was raised ends the loop. -/
def event_sampling_loop (g : neon_global_t) (busy : Nat → Nat → Nat → Bool) :
    List Nat → sched_state → sched_state
  | [], p => p
  | i :: rest, p =>
    let action := (p.sched_dev_array i).ps.smpl.action
    let p := if action = 1 then upd_smpl_dev i (fun d => { d with action := 0 }) p else p
    if action = 0 then event_sampling_loop g busy rest p
    else if i > 0 then p
    else event_sampling_loop g busy rest (event_sampling_dev g busy i p)

/-- Hook `event_sampling`: the asynchronous event handler of the sampling
policy. -/
def event_sampling (g : neon_global_t) (busy : Nat → Nat → Nat → Bool) (p : sched_state) :
    sched_state :=
  event_sampling_loop g busy (List.range g.ndev) p

def NEON_POLLING_T_MIN : Nat := 1
def NEON_SAMPLING_T_MAX : Nat := 1000
def NEON_SAMPLING_X_DEFAULT : Nat := 5

/-- Hook `reset_sampling`, built with `NEON_SAMPLING_COMP0_ONLY`: only the
first device is reset; `knob_T` and `knob_X` are the values of the sysctl knobs
`_sampling_T_` and `_sampling_X_`. -/
def reset_sampling (g : neon_global_t) (knob_T knob_X : Nat) (nctx : Nat) (p : sched_state) :
    sched_state :=
  let p :=
    if nctx = 1 then
      let T := knob_T
      let T := if T < NEON_POLLING_T_MIN then NEON_POLLING_T_MIN else T
      let T := if T > NEON_SAMPLING_T_MAX then NEON_SAMPLING_T_MAX else T
      let X := if knob_X = 0 then NEON_SAMPLING_X_DEFAULT else knob_X
      let p := { p with sampling_T := T, sampling_X := X }
      if g.ndev > 0 then
        upd_smpl_dev 0 (fun d => { d with season := DFQ_TASK_BARRIER, vtime := 0,
                                          sampling_season_dt := 0, update_ts := 0,
                                          sampled_task := 0, action := 0 }) p
      else p
    else p
  if nctx = 0 then
    if g.ndev > 0 ∧ (p.sched_dev_array 0).ps.smpl.action = 1 then
      upd_smpl_dev 0 (fun d => { d with action := 0 }) p
    else p
  else p

/-- Dispatch `select_policy->event()`, called by `neon_policy_event`. -/
def select_policy_event (g : neon_global_t) (busy : Nat → Nat → Nat → Bool)
    (p : sched_state) : sched_state :=
  match p.policy_id with
  | NEON_POLICY_FCFS => p
  | NEON_POLICY_TIMESLICE => event_timeslice g busy p
  | NEON_POLICY_SAMPLING => event_sampling g busy p

/-- Dispatch `select_policy->reset(nctx)`, the last statement of
`neon_policy_reset`; `knob1` and `knob2` are the sysctl knobs of the policy
(`_timeslice_T_` and `_disengage_`, or `_sampling_T_` and `_sampling_X_`). -/
def select_policy_reset (g : neon_global_t) (knob1 knob2 : Nat) (nctx : Nat)
    (p : sched_state) : sched_state :=
  match p.policy_id with
  | NEON_POLICY_FCFS => p
  | NEON_POLICY_TIMESLICE => reset_timeslice g knob1 knob2 nctx p
  | NEON_POLICY_SAMPLING => reset_sampling g knob1 knob2 nctx p

/-! ## Calls of the policy frontend -/

/-- A call of the policy frontend: `neon_policy_reset` (its dispatch to the
selected policy, with the values of the policy's sysctl knobs),
`neon_policy_start` (with the outcome of the allocations), `neon_policy_stop`,
`neon_policy_submit`, `neon_policy_complete` and `neon_policy_event` (with what
`neon_policy_update` finds busy). -/
inductive policy_call where
  | reset (knob1 knob2 nctx : Nat)
  | start (neon_work addr : Nat) (bmp_ok : Bool)
  | stop (neon_work : Nat)
  | submit (neon_work : Nat)
  | complete (did cid pid : Nat)
  | event (busy : Nat → Nat → Nat → Bool)

/-- The scheduler's data after one call of the policy frontend. -/
def run_policy_call (g : neon_global_t) (work : Nat → neon_work_t) (p : sched_state) :
    policy_call → sched_state
  | .reset knob1 knob2 nctx => select_policy_reset g knob1 knob2 nctx p
  | .start neon_work addr bmp_ok => (neon_policy_start g work addr bmp_ok neon_work p).2
  | .stop neon_work => (neon_policy_stop g work neon_work p).2
  | .submit neon_work => (neon_policy_submit work neon_work p).2
  | .complete did cid pid => neon_policy_complete g did cid pid p
  | .event busy => select_policy_event g busy p

/-- The scheduler's data after a sequence of calls of the policy frontend. -/
def run_policy_calls (g : neon_global_t) (work : Nat → neon_work_t) (calls : List policy_call)
    (p : sched_state) : sched_state :=
  calls.foldl (run_policy_call g work) p

/-- The task list and the token holder of each device. -/
def token_view (p : sched_state) (d : Nat) : List Nat × Nat :=
  ((p.sched_dev_array d).stask_list, (p.sched_dev_array d).ps.tslc.token_holder)

/-- The token holder of each of the first `n` devices is `NULL` or on the task
list of the device. -/
def token_ok (n : Nat) (p : sched_state) : Prop :=
  ∀ d, d < n → (token_view p d).2 = 0 ∨ (token_view p d).2 ∈ (token_view p d).1

/-- From `p` to `q` the task lists are kept and the token of a device stays,
is dropped or goes to a task on the list. -/
def token_step (p q : sched_state) : Prop :=
  ∀ d, (token_view q d).1 = (token_view p d).1 ∧
    ((token_view q d).2 = (token_view p d).2 ∨ (token_view q d).2 = 0 ∨
      (token_view q d).2 ∈ (token_view p d).1)

/-- Calls of the policy frontend for the examples: the works at addresses 100
and 101 are started (their tasks allocated at 500 and 501), the first submits
a request, the token alarm fires with nothing found busy, the request
completes and the first work is stopped. -/
def example_policy_calls : List policy_call :=
  [.start 100 500 true, .start 101 501 true, .submit 100, .event (fun _ _ _ => false),
   .complete 0 3 42, .stop 100]

/-! ## Round-robin order of the token -/

/-- Accessor `sched_dev->TS(token_holder)` of device `did`. -/
def TS_token_holder (p : sched_state) (did : Nat) : Nat :=
  (p.sched_dev_array did).ps.tslc.token_holder

/-- Accessor `sched_task->TS(overuse)` of the task at address `a`. -/
def TS_overuse (p : sched_state) (a : Nat) : Int :=
  (p.stask a).ps.tslc.overuse

/-- One timeslice in microseconds, `timeslice_T * USEC_PER_MSEC`. -/
def timeslice_usec (p : sched_state) : Int :=
  (p.timeslice_T : Int) * USEC_PER_MSEC

/-- What the loop of `update_token_holder` reads and writes on device `did`:
the task list, the token holder, `timeslice_T` and the overuse of every
task. -/
def rr_view (p : sched_state) (did : Nat) : List Nat × Nat × Nat × (Nat → Int) :=
  ((p.sched_dev_array did).stask_list, TS_token_holder p did, p.timeslice_T, TS_overuse p)

/-- The round-robin candidate after `holder` as the specification words it:
the list successor of the holder, wrapping from the last task to the first,
or the first task when there is no holder. -/
def spec_candidate (l : List Nat) (holder : Nat) : Nat :=
  if holder = 0 then l.headD 0 else l.getD ((l.indexOf holder + 1) % l.length) 0

/-- A pass of the token as the specification words it, from holder and
overuses to holder and overuses: the candidate gets the token when its overuse
does not exceed one timeslice `T`; else one timeslice is subtracted from its
overuse, it is skipped and the pass goes on from it. -/
inductive spec_token_pass (l : List Nat) (T : Int) :
    Nat → (Nat → Int) → Nat → (Nat → Int) → Prop where
  | give (holder : Nat) (overuse : Nat → Int) :
      overuse (spec_candidate l holder) ≤ T →
      spec_token_pass l T holder overuse (spec_candidate l holder) overuse
  | skip (holder : Nat) (overuse : Nat → Int) (holder' : Nat) (overuse' : Nat → Int) :
      overuse (spec_candidate l holder) > T →
      spec_token_pass l T (spec_candidate l holder)
        (Function.update overuse (spec_candidate l holder)
          (overuse (spec_candidate l holder) - T)) holder' overuse' →
      spec_token_pass l T holder overuse holder' overuse'

/-- The scheduler's data of the penalty example: tasks `P1` at address 500
with an overuse of 40000 microseconds and `P2` at 501 with none on device 0,
`P2` holding the token, `timeslice_T = 30`. -/
def example_penalty : sched_state :=
  upd_tslc_dev 0 (fun d => { d with token_holder := 501 })
    (upd_tslc_task 500 (fun t => { t with overuse := 40000 })
      (upd_sdev 0 (fun sd => { sd with stask_list := [500, 501] })
        (example_sched NEON_POLICY_TIMESLICE)))

/-- The scheduler's data of the round-robin example: tasks at addresses 500
and 501 on the list of device 0, no token holder, no overuse,
`timeslice_T = 30`. -/
def example_two_tasks : sched_state :=
  upd_sdev 0 (fun sd => { sd with stask_list := [500, 501] })
    (example_sched NEON_POLICY_TIMESLICE)

/-- The works of the sampling examples: those of `example_works` and, at
address 102, a work of process 42 on a second channel, 5. -/
def example_sampling_works : Nat → neon_work_t :=
  fun a => if a = 102 then { example_work with cid := 5 } else example_works a

/-- The scheduler's data of the sampling examples: under the sampling policy
the works at addresses 100, 101 and 102 are started (tasks at 500 for process
42 and at 501 for process 43; channel 5, the second channel of process 42, is
not heeded), then the device is in season SAMPLING with the task at 501
sampled. -/
def example_sampling_season : sched_state :=
  upd_smpl_dev 0 (fun d => { d with season := DFQ_TASK_SAMPLING, sampled_task := 501 })
    (neon_policy_start example_global example_sampling_works 502 true 102
      (neon_policy_start example_global example_sampling_works 501 true 101
        (neon_policy_start example_global example_sampling_works 500 true 100
          (example_sched NEON_POLICY_SAMPLING)).2).2).2

/-- The works of the slot examples: those of `example_sampling_works` and, at
address 103, a work of process 43 on channel 0. -/
def example_slot_works : Nat → neon_work_t :=
  fun a =>
    if a = 103 then { example_work with cid := 0, neon_task := 43 }
    else example_sampling_works a

/-- The scheduler's data of the slot examples: under the timeslice policy the
works at addresses 100 (process 42, channel 3; its task at 500 holds the
token) and 103 (process 43, channel 0; its task at 501) were started, and a
request of the work at 103 was submitted, which waited and was issued. The
slot of channel 5 holds no work. -/
def example_slot_pending : sched_state :=
  (neon_policy_submit example_slot_works 103
    (neon_policy_start example_global example_slot_works 501 true 103
      (neon_policy_start example_global example_slot_works 500 true 100
        (example_sched NEON_POLICY_TIMESLICE)).2).2).2

/-! ## The season cycle -/

/-- Accessor `sched_dev->DFQ(season)` of device `did`. -/
def DFQ_season (p : sched_state) (did : Nat) : season_t :=
  (p.sched_dev_array did).ps.smpl.season

/-- The edges of the season cycle as the specification has them: BARRIER to
DRAINING, BARRIER to SAMPLING, DRAINING to SAMPLING, SAMPLING to FREERUN and
FREERUN to BARRIER. -/
def season_edge : season_t → season_t → Bool
  | DFQ_TASK_BARRIER, DFQ_TASK_DRAINING => true
  | DFQ_TASK_BARRIER, DFQ_TASK_SAMPLING => true
  | DFQ_TASK_DRAINING, DFQ_TASK_SAMPLING => true
  | DFQ_TASK_SAMPLING, DFQ_TASK_FREERUN => true
  | DFQ_TASK_FREERUN, DFQ_TASK_BARRIER => true
  | _, _ => false

/-- Whether an event is a store to a season. -/
def is_season_set : neon_event → Bool
  | .season_set _ _ _ => true
  | _ => false

/-- The recorded stores to the season of device `d`, in order, each with the
season it replaced. -/
def season_log (d : Nat) (events : List neon_event) : List (season_t × season_t) :=
  events.filterMap (fun e =>
    match e with
    | .season_set d' last_season season => if d' = d then some (last_season, season) else none
    | _ => none)

/-- Whether the stores `log` lead from season `s` to season `s'`, each store
replacing the season that the one before it left and following an edge of the
cycle. -/
def season_path : season_t → List (season_t × season_t) → season_t → Bool
  | s, [], s' => decide (s = s')
  | s, (last_season, season) :: rest, s' =>
    decide (last_season = s) && season_edge last_season season && season_path season rest s'

/-- The recorded stores and the season of device `d`, with the selected
policy. -/
def season_view (d : Nat) (p : sched_state) :
    List (season_t × season_t) × season_t × neon_policy_id_t :=
  (season_log d p.events, DFQ_season p d, p.policy_id)

/-- Relation between the scheduler's data before and after some code ran: the
stores to the season of device `d` recorded meanwhile lead from the season
before to the season after along edges of the cycle, and the selected policy
is the same. -/
def season_step (d : Nat) (p q : sched_state) : Prop :=
  ∃ new, (season_view d q).1 = (season_view d p).1 ++ new ∧
    season_path (season_view d p).2.1 new (season_view d q).2.1 = true ∧
    (season_view d q).2.2 = (season_view d p).2.2

/-- Whether a call of the policy frontend is `neon_policy_reset`. -/
def policy_call.is_reset : policy_call → Bool
  | .reset _ _ _ => true
  | _ => false

/-- Calls of the policy frontend for the season example: the started work at
address 100 submits a request, the event handler runs, the request completes
and the event handler runs again. -/
def example_season_calls : List policy_call :=
  [.submit 100, .event (fun _ _ _ => false), .complete 0 3 42, .event (fun _ _ _ => false)]

/-! ## Pending work at the barrier -/

/-- Function `count_incomplete_rqst` of `neon_sampling.c`: count the requests
issued, but not yet marked complete, of a task. -/
def count_incomplete_rqst (g : neon_global_t) (did sched_task : Nat) (p : sched_state) : Nat :=
  (set_bits (p.stask sched_task).bmp_issue2comp (g.dev did).nchan).length

/-- The issued-but-not-complete works on the device as the specification words
it: the total number of set issue2comp bits over all tasks on the device's
task list. -/
def spec_pending (g : neon_global_t) (did : Nat) (p : sched_state) : Nat :=
  ((p.sched_dev_array did).stask_list.map (fun a => count_incomplete_rqst g did a p)).sum

/-- The set issue2comp bits of a task on channels of the device whose work is
heeded (`heed != 0`). -/
def heeded_incomplete_rqst (g : neon_global_t) (did sched_task : Nat) (p : sched_state) : Nat :=
  ((set_bits (p.stask sched_task).bmp_issue2comp (g.dev did).nchan).filter
    (fun j => decide (((p.sched_dev_array did).swork_array j).ps.smpl.heed ≠ 0))).length

/-- The issued-but-not-complete works on heeded channels of the device, over
all tasks on the device's task list. -/
def heeded_pending (g : neon_global_t) (did : Nat) (p : sched_state) : Nat :=
  ((p.sched_dev_array did).stask_list.map (fun a => heeded_incomplete_rqst g did a p)).sum

/-- Accessor `sched_dev->DFQ(countdown)` of device `did`. -/
def DFQ_countdown (p : sched_state) (did : Nat) : Nat :=
  (p.sched_dev_array did).ps.smpl.countdown

/-- The scheduler's data of the barrier example: under the sampling policy the
works at addresses 100, 101 and 102 are started, then the work at 102 (on the
unheeded channel 5 of the task at 500) and the work at 101 (on the heeded
channel 4 of the task at 501) each submit a request, in season BARRIER. -/
def example_barrier : sched_state :=
  run_policy_calls example_global example_sampling_works
    [.start 100 500 true, .start 101 501 true, .start 102 502 true, .submit 102, .submit 101]
    (example_sched NEON_POLICY_SAMPLING)

/-- The scheduler's data of the draining example: the barrier example after
the event handler ran, device 0 in season DRAINING with a countdown of 1 for
the request on the heeded channel 4; the request on the unheeded channel 5 is
pending too. -/
def example_draining : sched_state :=
  select_policy_event example_global (fun _ _ _ => false) example_barrier

/-! ## Device table initialisation (`neon_core.c`, `neon_sys.h`) -/

/-- Macro `NVIDIA_VENDOR`. -/
def NVIDIA_VENDOR : Nat := 0x10de

/-- Macro `ZOTAC_SUBSYSTEM`. -/
def ZOTAC_SUBSYSTEM : Nat := 0x1265

/-- Macro `GTX670_DEVICE_ID`. -/
def GTX670_DEVICE_ID : Nat := 0x1189

/-- Macro `GTX670_CHANNELS`. -/
def GTX670_CHANNELS : Nat := 0x60

/-- Macro `EVGA_SUBSYSTEM`. -/
def EVGA_SUBSYSTEM : Nat := 0x1171

/-- Macro `GTX275_DEVICE_ID`. -/
def GTX275_DEVICE_ID : Nat := 0x5e6

/-- Macro `GTX275_CHANNELS`. -/
def GTX275_CHANNELS : Nat := 0x40

/-- Macro `NVIDIA_SUBSYSTEM`. -/
def NVIDIA_SUBSYSTEM : Nat := 0x62e

/-- Macro `NVS295_DEVICE_ID`. -/
def NVS295_DEVICE_ID : Nat := 0x6fd

/-- Macro `NVS295_CHANNELS`. -/
def NVS295_CHANNELS : Nat := 0x20

/-- Macro `NEON_RB_PAGEOFS`. -/
def NEON_RB_PAGEOFS : Nat := 0x8c

/-- Macro `NEON_TESLA_CHANNEL_BASE`. -/
def NEON_TESLA_CHANNEL_BASE : Nat := 0xc00000

/-- Macro `NEON_TESLA_CHANNEL_OFFSET`. -/
def NEON_TESLA_CHANNEL_OFFSET : Nat := 0x2000

/-- Macro `NEON_KEPLER_CHANNEL_BASE`. -/
def NEON_KEPLER_CHANNEL_BASE : Nat := 0x7d60000

/-- Macro `NEON_KEPLER_CHANNEL_OFFSET`. -/
def NEON_KEPLER_CHANNEL_OFFSET : Nat := 0x200

/-- A `neon_chan_t` as `kzalloc` returns it. -/
def neon_chan_zero : neon_chan_t :=
  { id := 0, pid := 0, ir_kvaddr := 0, refc_kvaddr := 0, refc_target := 0, pdt := 0,
    lock := false }

/-- Store to `dev->chan[cid]`. -/
def upd_dev_chan (cid : Nat) (f : neon_chan_t → neon_chan_t) (dev : neon_dev_t) : neon_dev_t :=
  { dev with chan := Function.update dev.chan cid (f (dev.chan cid)) }

/-- Function `neon_chan_init` of `neon_core.c`. `ioremap_nocache` is the
kernel's answer for the physical address of the index register (0 is
`NULL`). -/
def neon_chan_init (ioremap_nocache : Nat → Nat) (dev : neon_dev_t) (cid : Nat) :
    Int × neon_dev_t :=
  let ir_paddr := uadd (uadd dev.reg_base (umul cid dev.reg_ofs)) NEON_RB_PAGEOFS
  let dev1 := upd_dev_chan cid (fun c => { c with id := cid, pid := 0 }) dev
  let dev2 := upd_dev_chan cid (fun c => { c with ir_kvaddr := ioremap_nocache ir_paddr }) dev1
  if (dev2.chan cid).ir_kvaddr = 0 then (-1, dev2)
  else
    (0, upd_dev_chan cid
          (fun c => { c with refc_kvaddr := 0, refc_target := 0, pdt := 0, lock := false }) dev2)

/-- The channel-initialising loop of `neon_dev_init`,
`for(i = 0; i < dev->nchan; i++) if(neon_chan_init(dev, i) != 0) break;`,
started at `i`; the value of `i` at the exit comes with the device. The first
argument bounds the number of iterations. -/
def neon_dev_init_loop (ioremap_nocache : Nat → Nat) : Nat → Nat → neon_dev_t → Nat × neon_dev_t
  | 0, i, dev => (i, dev)
  | fuel + 1, i, dev =>
    if i < dev.nchan then
      if (neon_chan_init ioremap_nocache dev i).1 ≠ 0 then
        (i, (neon_chan_init ioremap_nocache dev i).2)
      else
        neon_dev_init_loop ioremap_nocache fuel (u32 (i + 1))
          (neon_chan_init ioremap_nocache dev i).2
    else (i, dev)

/-- The device-dependent part of `neon_dev_init`: the channel layout chosen
from the vendor, device and subsystem ids, `none` when the ids are not
supported. -/
def neon_dev_layout (bar0_addr bar1_addr vendor_id device_id subsystem_id : Nat)
    (dev : neon_dev_t) : Option neon_dev_t :=
  if vendor_id = NVIDIA_VENDOR ∧ device_id = GTX670_DEVICE_ID ∧
      subsystem_id = ZOTAC_SUBSYSTEM then
    some { dev with nchan := GTX670_CHANNELS,
                    reg_base := uadd bar1_addr NEON_KEPLER_CHANNEL_BASE,
                    reg_ofs := NEON_KEPLER_CHANNEL_OFFSET }
  else if vendor_id = NVIDIA_VENDOR ∧ device_id = GTX275_DEVICE_ID ∧
      subsystem_id = EVGA_SUBSYSTEM then
    some { dev with nchan := GTX275_CHANNELS,
                    reg_base := uadd bar0_addr NEON_TESLA_CHANNEL_BASE,
                    reg_ofs := NEON_TESLA_CHANNEL_OFFSET }
  else if vendor_id = NVIDIA_VENDOR ∧ device_id = NVS295_DEVICE_ID ∧
      subsystem_id = NVIDIA_SUBSYSTEM then
    some { dev with nchan := NVS295_CHANNELS,
                    reg_base := uadd bar0_addr NEON_TESLA_CHANNEL_BASE,
                    reg_ofs := NEON_TESLA_CHANNEL_OFFSET }
  else none

/-- Function `neon_dev_init` of `neon_core.c`. `dev_info` holds the seven
`unsigned long long` entries of the device; `bmp_alloc` and `chan_alloc` tell
whether the two `kzalloc` calls succeed. The result is the return value with
the device struct; it is `none` when a channel fails to initialise, where the
unwinding loop `while(i-- >= 0)` over the unsigned `i` never ends. -/
def neon_dev_init (ioremap_nocache : Nat → Nat) (bmp_alloc chan_alloc : Bool) (id : Nat)
    (dev_info : Nat → Nat) (dev : neon_dev_t) : Option (Int × neon_dev_t) :=
  let bar0_addr := u64 (dev_info 0)
  let bar1_addr := u64 (dev_info 2)
  let vendor_id := u32 (dev_info 4)
  let device_id := u32 (dev_info 5)
  let subsystem_id := u32 (dev_info 6)
  let dev0 := { dev with id := id }
  match neon_dev_layout bar0_addr bar1_addr vendor_id device_id subsystem_id dev0 with
  | none => some (-1, dev0)
  | some dev1 =>
    if bmp_alloc = false then some (-1, dev1)
    else
      let dev2 := { dev1 with bmp_sub2comp := fun _ => false }
      if chan_alloc = false then some (-1, dev2)
      else
        let dev3 := { dev2 with chan := fun _ => neon_chan_zero }
        let r := neon_dev_init_loop ioremap_nocache dev3.nchan 0 dev3
        if r.1 ≠ dev3.nchan then none
        else some (0, r.2)

/-- The device-info entries of a GTX275 with its registers at `0xfa000000`. -/
def example_dev_info : Nat → Nat := fun i =>
  if i = 0 then 0xfa000000 else if i = 4 then 0x10de else if i = 5 then 0x5e6
  else if i = 6 then 0x1171 else 0

/-! ## Virtual-time update, loop by loop (`neon_sampling.c`) -/

/-- Body of the first loop of `update_vtimes`, which gathers `activity` and
`total_avg_exe_dt`. -/
def vt_first_step (p : sched_state) (acc : Nat × Nat) (a : Nat) : Nat × Nat :=
  let t := (p.stask a).ps.smpl
  if t.held_back ≠ 0 then (1, acc.2)
  else if t.nrqst_sampled = 0 then acc
  else (1, uadd acc.2 (avg_exe_dt t))

/-- What the second loop of `update_vtimes` does to the entries of one task:
`stask->DFQ(vtime) += vt` unless the task is held back or sampled no request. -/
def vt_advance (epoch_dt total : Nat) (t : sampling_task_t) : sampling_task_t :=
  if t.held_back ≠ 0 then t
  else if t.nrqst_sampled = 0 then t
  else { t with vtime := uadd t.vtime (umul (avg_exe_dt t) epoch_dt / total) }

/-- What the second loop of `update_vtimes` does to `min_vtime` at one task. -/
def vt_min_step (epoch_dt total m : Nat) (t : sampling_task_t) : Nat :=
  if t.held_back ≠ 0 then (if t.vtime < m then t.vtime else m)
  else if t.nrqst_sampled = 0 then m
  else if (vt_advance epoch_dt total t).vtime < m then (vt_advance epoch_dt total t).vtime
  else m

/-- What the third loop of `update_vtimes` does to the entries of one task:
a task behind the device's virtual time is moved forward to match it. -/
def vt_pull (dev_vtime : Nat) (t : sampling_task_t) : sampling_task_t :=
  if t.vtime < dev_vtime then { t with vtime := dev_vtime } else t

/-- What the last loop of `update_vtimes` does to the entries of one task: the
decision to hold it back and the reset of its counters. -/
def vt_decide (dev_vtime epoch_dt : Nat) (t : sampling_task_t) : sampling_task_t :=
  { t with held_back := if t.vtime > uadd dev_vtime epoch_dt then 1 else 0,
           exe_dt_sampled := 0, nrqst_sampled := 0, ncall_sampled := 0 }

/-- A task that `update_vtimes` accounts: not held back, with at least one
sampled request. -/
def spec_accounted (t : sampling_task_t) : Bool :=
  decide (t.held_back = 0 ∧ 0 < t.nrqst_sampled)

/-- A task that marks the device as active: held back, or with at least one
sampled request. -/
def spec_active (t : sampling_task_t) : Bool :=
  decide (t.held_back ≠ 0 ∨ 0 < t.nrqst_sampled)

/-- The activity of the device on entry of `update_vtimes`: 1 when some task on
its list is held back or sampled a request, else 0. -/
def spec_activity (did : Nat) (p : sched_state) : Nat :=
  if ((p.sched_dev_array did).stask_list.any (fun a => spec_active (p.stask a).ps.smpl)) = true
  then 1 else 0

/-- The total average on entry of `update_vtimes`: the sum of `avg_exe_dt` over
the accounted tasks of the list, as an `unsigned long`. -/
def spec_total_avg_exe_dt (did : Nat) (p : sched_state) : Nat :=
  ((((p.sched_dev_array did).stask_list.filter
      (fun a => spec_accounted (p.stask a).ps.smpl)).map
      (fun a => avg_exe_dt (p.stask a).ps.smpl)).sum) % 2 ^ 64

/-- The product `sampling_season_dt * sampling_X` on entry of `update_vtimes`. -/
def spec_season_epoch (did : Nat) (p : sched_state) : Nat :=
  umul (p.sched_dev_array did).ps.smpl.sampling_season_dt p.sampling_X

/-- The value of `epoch_dt` that the last loop of `update_vtimes` uses: the
product `sampling_season_dt * sampling_X` when the device showed activity and
the total average is not 0, and 0 otherwise. -/
def spec_epoch_dt (did : Nat) (p : sched_state) : Nat :=
  if spec_activity did p = 0 ∨ spec_total_avg_exe_dt did p = 0 then 0
  else spec_season_epoch did p

/-- The updated virtual time of a task: an accounted task advances by
`avg_exe_dt * epoch_dt / total_avg_exe_dt`, any other keeps its virtual time. -/
def spec_vtime_updated (did : Nat) (p : sched_state) (a : Nat) : Nat :=
  let t := (p.stask a).ps.smpl
  if spec_accounted t = true then
    uadd t.vtime
      (umul (avg_exe_dt t) (spec_season_epoch did p) / spec_total_avg_exe_dt did p)
  else t.vtime

/-- The minimum of the updated virtual times of the tasks of the list that are
accounted or held back, `2 ^ 64 - 1` when there is none. -/
def spec_min_vtime (did : Nat) (p : sched_state) : Nat :=
  (((p.sched_dev_array did).stask_list.filter
      (fun a => spec_active (p.stask a).ps.smpl)).map (spec_vtime_updated did p)).foldl
    min (2 ^ 64 - 1)

/-- The second loop of `update_vtimes`, run with the season's epoch and the
total average of entry: the minimum it gathers and the state it leaves. -/
def vt_second (did : Nat) (p : sched_state) : Nat × sched_state :=
  (p.sched_dev_array did).stask_list.foldl (fun (acc : Nat × sched_state) a =>
    (vt_min_step (spec_season_epoch did p) (spec_total_avg_exe_dt did p) acc.1
        (acc.2.stask a).ps.smpl,
      upd_smpl_task a (vt_advance (spec_season_epoch did p) (spec_total_avg_exe_dt did p))
        acc.2)) (2 ^ 64 - 1, p)

/-- The state of `update_vtimes` at its label `just_decide`. -/
def vt_middle (did : Nat) (p : sched_state) : sched_state :=
  if spec_activity did p = 0 ∨ spec_total_avg_exe_dt did p = 0 then p
  else if (vt_second did p).1 < 2 ^ 64 - 1 then
    (p.sched_dev_array did).stask_list.foldl (fun q a =>
      upd_smpl_task a (vt_pull (q.sched_dev_array did).ps.smpl.vtime) q)
      (upd_smpl_dev did (fun d => { d with vtime := (vt_second did p).1 }) (vt_second did p).2)
  else (vt_second did p).2

/-- Sampling entries of a task with the given virtual time, sampled requests,
sampled calls, sampled execution time and held-back flag. -/
def example_vt_task (vtime nrqst ncall exe_dt held_back : Nat) : sampling_task_t :=
  { occ_chans := 0, mng_chans := 0, vtime := vtime, nrqst_sampled := nrqst,
    ncall_sampled := ncall, exe_dt_sampled := exe_dt, held_back := held_back, sem_count := 0 }

/-- The scheduler's data of the virtual-time examples: device 0 at virtual time
0 with 20 microseconds of sampling seasons behind it and `sampling_X = 5`, the
tasks at addresses 500 and 501 on its list with the given sampling entries. -/
def example_vtimes (tA tB : sampling_task_t) : sched_state :=
  upd_smpl_task 501 (fun _ => tB)
    (upd_smpl_task 500 (fun _ => tA)
      (upd_smpl_dev 0 (fun d => { d with sampling_season_dt := 20 })
        (upd_sdev 0 (fun sd => { sd with stask_list := [500, 501] })
          (example_sched NEON_POLICY_SAMPLING))))

/-- Two idle tasks, the first at virtual time 5. -/
def example_vtimes_idle : sched_state :=
  example_vtimes (example_vt_task 5 0 0 0 0) (example_vt_task 0 0 0 0 0)

/-- A task that sampled one request of 10 microseconds, and a held-back task
at virtual time 11. -/
def example_vtimes_held : sched_state :=
  example_vtimes (example_vt_task 0 1 0 10 0) (example_vt_task 11 0 0 0 1)

/-- Two tasks that each sampled one request of 10 microseconds. -/
def example_vtimes_equal : sched_state :=
  example_vtimes (example_vt_task 0 1 0 10 0) (example_vt_task 0 1 0 10 0)

/-- The scheduler's data of the single-task example: the task at address 500
alone on the list of device 0 with an overuse of 40000 microseconds, no token
holder, `timeslice_T = 30`. -/
def example_single_task : sched_state :=
  upd_tslc_task 500 (fun t => { t with overuse := 40000 })
    (upd_sdev 0 (fun sd => { sd with stask_list := [500] })
      (example_sched NEON_POLICY_TIMESLICE))

/-! ## Reset at a checkpoint (`neon_sched.c`, `neon_policy.c`) -/

/-- Macro `NEON_POLLING_T_MAX`. -/
def NEON_POLLING_T_MAX : Nat := 1000

/-- Macro `NEON_MALICIOUS_T_DEFAULT`. -/
def NEON_MALICIOUS_T_DEFAULT : Nat := 60000

/-- Macro `NEON_DEFAULT_POLICY`, with neither `NEON_USE_TIMESLICE` nor
`NEON_USE_SAMPLING` defined. -/
def NEON_DEFAULT_POLICY : neon_policy_id_t := NEON_POLICY_FCFS

/-- The values of the sysctl knobs that a reset reads: `_polling_T_`,
`_malicious_T_`, the policy that `_policy_name_` names (`none` when it names
none), `_timeslice_T_`, `_disengage_`, `_sampling_T_` and `_sampling_X_`. -/
structure sysctl_knobs where
  polling_T : Nat
  malicious_T : Nat
  policy_name : Option neon_policy_id_t
  timeslice_T : Nat
  disengage : Nat
  sampling_T : Nat
  sampling_X : Nat

/-- Hook `init_timeslice`. -/
def init_timeslice (g : neon_global_t) (p : sched_state) : sched_state :=
  (List.range g.ndev).foldl (fun p i =>
    upd_tslc_dev i (fun d => { d with action := 0, token_timer := .inactive }) p) p

/-- Hook `fini_timeslice`; `hrtimer_cancel` leaves the timer stopped. -/
def fini_timeslice (g : neon_global_t) (p : sched_state) : sched_state :=
  (List.range g.ndev).foldl (fun p i =>
    upd_tslc_dev i (fun d => { d with action := 0, token_timer := .inactive }) p) p

/-- Hook `init_sampling`, built with `NEON_SAMPLING_COMP0_ONLY`. -/
def init_sampling (g : neon_global_t) (p : sched_state) : sched_state :=
  if g.ndev > 0 then
    upd_smpl_dev 0 (fun d => { d with season := DFQ_TASK_BARRIER, action := 0,
                                      season_timer := .inactive }) p
  else p

/-- Hook `fini_sampling`, built with `NEON_SAMPLING_COMP0_ONLY`;
`hrtimer_cancel` leaves the timer stopped. -/
def fini_sampling (g : neon_global_t) (p : sched_state) : sched_state :=
  if g.ndev > 0 then
    upd_smpl_dev 0 (fun d => { d with action := 0, season_timer := .inactive }) p
  else p

/-- Dispatch `select_policy->init()`; `init_fcfs` does nothing. -/
def select_policy_init (g : neon_global_t) (p : sched_state) : sched_state :=
  match p.policy_id with
  | NEON_POLICY_FCFS => p
  | NEON_POLICY_TIMESLICE => init_timeslice g p
  | NEON_POLICY_SAMPLING => init_sampling g p

/-- Dispatch `select_policy->fini()`; `fini_fcfs` does nothing. -/
def select_policy_fini (g : neon_global_t) (p : sched_state) : sched_state :=
  match p.policy_id with
  | NEON_POLICY_FCFS => p
  | NEON_POLICY_TIMESLICE => fini_timeslice g p
  | NEON_POLICY_SAMPLING => fini_sampling g p

/-- Function `neon_policy_reset` of `neon_policy.c`: at a checkpoint with no
or one context the policy named by the knob is looked up (the default one when
the name is not valid), a new policy replaces the selected one when the first
context comes, and the selected policy is reset. The state's `policy_id` stands
for `select_policy`. -/
def neon_policy_reset (g : neon_global_t) (k : sysctl_knobs) (nctx : Nat) (p : sched_state) :
    sched_state :=
  let p :=
    if nctx = 0 ∨ nctx = 1 then
      let policy_id :=
        match k.policy_name with
        | some i => i
        | none => NEON_DEFAULT_POLICY
      if p.policy_id ≠ policy_id ∧ nctx = 1 then
        select_policy_init g { select_policy_fini g p with policy_id := policy_id }
      else p
    else p
  match p.policy_id with
  | NEON_POLICY_FCFS => p
  | NEON_POLICY_TIMESLICE => reset_timeslice g k.timeslice_T k.disengage nctx p
  | NEON_POLICY_SAMPLING => reset_sampling g k.sampling_T k.sampling_X nctx p

/-- Function `neon_sched_reset` of `neon_sched.c`: adjust the polling period at
a checkpoint and reset the scheduling policy. The polling timer, stopped with
no context and started with the first, is not part of the state. -/
def neon_sched_reset (k : sysctl_knobs) (nctx : Nat) (s : neon_state) : neon_state :=
  if nctx = 0 then
    { s with sched := neon_policy_reset s.neon_global k nctx s.sched }
  else if nctx = 1 then
    let T := k.polling_T
    let T := if T < NEON_POLLING_T_MIN then NEON_POLLING_T_MIN else T
    let T := if T > NEON_POLLING_T_MAX then NEON_POLLING_T_MAX else T
    let M :=
      if k.malicious_T ≠ 0 ∧ k.malicious_T ≤ NEON_POLLING_T_MAX then NEON_MALICIOUS_T_DEFAULT
      else k.malicious_T
    { s with polling_T := T, malicious_T := M,
             sched := neon_policy_reset s.neon_global k nctx s.sched }
  else s

/-- The knobs of the reset example: a polling period of 10 milliseconds, the
sampling policy with a sampling period of 5 milliseconds and a free run of 5
sampling seasons. -/
def example_knobs : sysctl_knobs :=
  { polling_T := 10, malicious_T := 0, policy_name := some NEON_POLICY_SAMPLING,
    timeslice_T := 30, disengage := 1, sampling_T := 5, sampling_X := 5 }

/-! ## Page tracking (`neon_track.h`, `neon_track.c`) -/

/-- Kernel `_PAGE_PRESENT`: bit 0 of a page-table entry. -/
def _PAGE_PRESENT : Nat := 1

/-- Bitwise complement `~x` of an `unsigned long`. -/
def unot (x : Nat) : Nat := 2 ^ 64 - 1 - x % 2 ^ 64

/-- Page tracking information `neon_page_t`; `pte` is the address of the
protected page-table entry. -/
structure neon_page_t where
  pte : Nat
  addr : Nat
  saved_ptev : Nat
  armed : Nat
  deriving DecidableEq, Repr

/-- Function `neon_page_arming` of `neon_track.c`: arm or disarm a page.
`ptes` holds the value of the page-table entry at each address; the flush of
the TLB entry is not part of the state. -/
def neon_page_arming (arm : Nat) (page : neon_page_t) (ptes : Nat → Nat) :
    neon_page_t × (Nat → Nat) :=
  if arm = 1 then
    if page.armed = 1 then (page, ptes)
    else
      let ptev := ptes page.pte
      let page := { page with saved_ptev := ptev &&& _PAGE_PRESENT }
      let ptev := ptev &&& unot _PAGE_PRESENT
      let page := { page with armed := 1 }
      (page, Function.update ptes page.pte ptev)
  else
    if page.armed = 0 then (page, ptes)
    else
      let ptev := ptes page.pte
      let ptev := ptev ||| page.saved_ptev
      let page := { page with armed := 0 }
      (page, Function.update ptes page.pte ptev)

/-- A sequence of calls of `neon_page_arming` on one page, each given by its
`arm` argument. -/
def page_arming_run (calls : List Nat) (page : neon_page_t) (ptes : Nat → Nat) :
    neon_page_t × (Nat → Nat) :=
  calls.foldl (fun st arm => neon_page_arming arm st.1 st.2) (page, ptes)

/-- The present bit of the page-table entry of a page. -/
def page_present (page : neon_page_t) (ptes : Nat → Nat) : Nat :=
  ptes page.pte &&& _PAGE_PRESENT

/-- A disarmed page whose page-table entry is at address 7. -/
def example_page : neon_page_t :=
  { pte := 7, addr := 0x7f0000001000, saved_ptev := 0, armed := 0 }

/-- Page-table entries with the present bit set. -/
def example_ptes : Nat → Nat := fun _ => 0x8000000012345067

/-- Page-table entries with the present bit clear. -/
def example_ptes_absent : Nat → Nat := fun _ => 0x8000000012345066

/-- What a sequence of calls of `neon_page_arming` keeps on a page that starts
disarmed: the page record stays on its page-table entry; while the page is
disarmed the entry has its original present bit, and while it is armed the
present bit is clear and the saved value is the original present bit. -/
def page_arming_inv (page : neon_page_t) (ptes : Nat → Nat) (st : neon_page_t × (Nat → Nat)) :
    Prop :=
  st.1.pte = page.pte ∧ (st.1.armed = 0 ∨ st.1.armed = 1) ∧
    (st.1.armed = 0 → st.2 page.pte &&& _PAGE_PRESENT = page_present page ptes) ∧
    (st.1.armed = 1 → st.2 page.pte &&& _PAGE_PRESENT = 0 ∧
      st.1.saved_ptev = page_present page ptes)

/-! ## Tasks, contexts and faults (`neon_control.h`, `neon_sys.c`, `neon_mod.c`) -/

/-- Macro `NEON_CMD_IDX_KEY_CTX`. -/
def NEON_CMD_IDX_KEY_CTX : Nat := 0

/-- Macro `NEON_CMD_IDX_METHOD`. -/
def NEON_CMD_IDX_METHOD : Nat := 2

/-- Macro `NEON_ENABLE_GRAPHICS`. -/
def NEON_ENABLE_GRAPHICS : Nat := 0x204

/-- Macro `NEON_ENABLE_COMPUTE`. -/
def NEON_ENABLE_COMPUTE : Nat := 0x214

/-- Macro `NEON_ENABLE_OTHER`. -/
def NEON_ENABLE_OTHER : Nat := 0x201

/-- Kernel `CLONE_VM`. -/
def CLONE_VM : Nat := 0x100

/-- Kernel `PAGE_SIZE`. -/
def PAGE_SIZE : Nat := 4096

/-- Kernel `X86_EFLAGS_TF`, the trap flag. -/
def X86_EFLAGS_TF : Nat := 0x100

/-- Kernel `X86_EFLAGS_IF`, the interrupt-enable flag. -/
def X86_EFLAGS_IF : Nat := 0x200

/-- Kernel `enum reason_type` of `asm/pf_in.h`. -/
inductive reason_type where
  | NOT_ME
  | NOTHING
  | REG_READ
  | REG_WRITE
  | IMM_WRITE
  | OTHERS
  deriving DecidableEq, Repr

/-- What the kernel's decoder tells of the faulting instruction:
`get_ins_type`, `get_ins_reg_val`, `get_ins_imm_val` and its first three
bytes. -/
structure insn_decode where
  ins_type : reason_type
  reg_val : Nat
  imm_val : Nat
  byte0 : Nat
  byte1 : Nat
  byte2 : Nat
  deriving DecidableEq, Repr

/-- The part of `struct pt_regs` the handlers use: the instruction pointer and
the flags. -/
structure pt_regs where
  ip : Nat
  flags : Nat
  deriving DecidableEq, Repr

/-- Page fault handling information `neon_fault_t`; `map` is the address of the
associated map. The list entry is represented by the list of pending faults of
the context. -/
structure neon_fault_t where
  op : Char
  ip : Nat
  addr : Nat
  val : Nat
  flags : Nat
  page_num : Nat
  siamese : Nat
  map : Nat
  deriving DecidableEq, Repr

/-- The members of `neon_map_t` that page tracking uses: the array of tracked
pages and the address of the fault record (0 for `NULL`), with the key, the
size, the offsets and the vma (`none` for `NULL`). -/
structure neon_map_track_t where
  key : Nat
  size : Nat
  offset : Nat
  mmio_gpu : Nat
  vma : Option vm_area_struct
  page : Nat → neon_page_t
  fault : Nat

/-- Context control struct `neon_ctx_t`; the lists hold the addresses of the
maps, of the pending fault records and of the works, in list order. -/
structure neon_ctx_t where
  id : Nat
  key : Nat
  map_list : List Nat
  fault_list : List Nat
  work_list : List Nat
  deriving DecidableEq, Repr

/-- Calls that leave the control structs: the module reference count, the
checkpoints of the scheduler, the die notifier, and the update and the
submission of a work. -/
inductive control_event where
  | try_module_get
  | module_put
  | sched_reset (nctx : Nat)
  | register_die_notifier
  | unregister_die_notifier
  | work_update (ctx work val : Nat)
  | work_submit (work really : Nat)
  deriving DecidableEq, Repr

/-- The control structs of the module: the threads alive (by pid), the
neon-task pointer `cpu_task->neon_task` of each thread (0 for `NULL`), the
neon-tasks allocated and the neon-tasks, contexts, maps and fault records by
address, the index-register map `w->ir` of each work, the page-table entries,
the counters `ctx_ever` and `ctx_live` of `neon_global`, and the calls made. -/
structure control_state where
  live : List Nat
  cpu_neon_task : Nat → Nat
  task_alloc : List Nat
  neon_task : Nat → neon_task_t
  ctx : Nat → neon_ctx_t
  map : Nat → neon_map_track_t
  fault : Nat → neon_fault_t
  work_ir : Nat → Nat
  ptes : Nat → Nat
  ctx_ever : Nat
  ctx_live : Nat
  events : List control_event

/-- Record a call. -/
def control_emit (e : control_event) (s : control_state) : control_state :=
  { s with events := s.events ++ [e] }

/-- Store to the neon-task at address `a`. -/
def upd_neon_task (a : Nat) (f : neon_task_t → neon_task_t) (s : control_state) :
    control_state :=
  { s with neon_task := Function.update s.neon_task a (f (s.neon_task a)) }

/-- Store to the context at address `a`. -/
def upd_ctx (a : Nat) (f : neon_ctx_t → neon_ctx_t) (s : control_state) : control_state :=
  { s with ctx := Function.update s.ctx a (f (s.ctx a)) }

/-- Store to the fault record at address `a`. -/
def upd_fault (a : Nat) (f : neon_fault_t → neon_fault_t) (s : control_state) :
    control_state :=
  { s with fault := Function.update s.fault a (f (s.fault a)) }

/-- Function `neon_task_init` of `neon_control.c`; `addr` is what `kzalloc`
returns, 0 for `NULL`. Returns the address of the new neon-task. -/
def neon_task_init (addr pid : Nat) (s : control_state) : Nat × control_state :=
  if addr = 0 then (0, s)
  else
    (addr, { s with
      task_alloc := addr :: s.task_alloc,
      neon_task := Function.update s.neon_task addr
        { pid := pid, malicious := 0, sharers := 0, nctx := 0, ctx_list := [] } })

/-- Function `neon_ctx_init` of `neon_control.c`; `addr` is what `kzalloc`
returns, 0 for `NULL`. Returns the address of the new context. -/
def neon_ctx_init (addr id ctx_key : Nat) (s : control_state) : Nat × control_state :=
  if addr = 0 then (0, s)
  else
    (addr, { s with
      ctx := Function.update s.ctx addr
        { id := id, key := ctx_key, map_list := [], fault_list := [], work_list := [] } })

/-- The lookup of the neon-task in `neon_rqst_pre_context`: the neon-task of
the thread, or a new one when it has none (`NULL` when the allocation
fails). -/
def pre_context_task (current task_addr : Nat) (s : control_state) : Nat × control_state :=
  if s.cpu_neon_task current = 0 then
    if (neon_task_init task_addr current s).1 = 0 then neon_task_init task_addr current s
    else
      ((neon_task_init task_addr current s).1,
        control_emit .try_module_get (neon_task_init task_addr current s).2)
  else (s.cpu_neon_task current, s)

/-- The end of `neon_rqst_pre_context`, once the context is created: the
context is put on the list of the neon-task, the neon-task is saved in the
thread, and the number of contexts and the live contexts are counted. -/
def pre_context_save (current neon_task ctx : Nat) (s : control_state) : control_state :=
  let s := upd_neon_task neon_task (fun t => { t with ctx_list := ctx :: t.ctx_list }) s
  let s := { s with cpu_neon_task := Function.update s.cpu_neon_task current neon_task }
  let s := upd_neon_task neon_task (fun t => { t with nctx := uadd t.nctx 1 }) s
  let s := { s with ctx_live := u32 (s.ctx_live + 1) }
  if s.ctx_live = 1 then
    control_emit .register_die_notifier (control_emit (.sched_reset 1) s)
  else s

/-- The search and the creation of the context in `neon_rqst_pre_context`,
once the neon-task is known. -/
def pre_context_ctx (current ctx_key ctx_addr neon_task : Nat) (s : control_state) :
    Int × control_state :=
  if (s.neon_task neon_task).ctx_list.any (fun c => (s.ctx c).key = ctx_key) then (0, s)
  else
    let s := { s with ctx_ever := u32 (s.ctx_ever + 1) }
    if (neon_ctx_init ctx_addr s.ctx_ever ctx_key s).1 = 0 then
      (-1, (neon_ctx_init ctx_addr s.ctx_ever ctx_key s).2)
    else
      (0, pre_context_save current neon_task (neon_ctx_init ctx_addr s.ctx_ever ctx_key s).1
        (neon_ctx_init ctx_addr s.ctx_ever ctx_key s).2)

/-- Function `neon_rqst_pre_context` of `neon_sys.c`, called by thread
`current` with the ioctl values `cmd_val`; `task_addr` and `ctx_addr` are what
the allocations of a neon-task and of a context return when they are made. -/
def neon_rqst_pre_context (current : Nat) (cmd_val : Nat → Nat) (task_addr ctx_addr : Nat)
    (s : control_state) : Int × control_state :=
  let method := u32 (cmd_val NEON_CMD_IDX_METHOD)
  if method ≠ NEON_ENABLE_GRAPHICS ∧ method ≠ NEON_ENABLE_COMPUTE ∧
      method ≠ NEON_ENABLE_OTHER then (0, s)
  else
    let ctx_key := u32 (cmd_val NEON_CMD_IDX_KEY_CTX)
    if (pre_context_task current task_addr s).1 = 0 then
      (-1, (pre_context_task current task_addr s).2)
    else
      pre_context_ctx current ctx_key ctx_addr (pre_context_task current task_addr s).1
        (pre_context_task current task_addr s).2

/-- Function `neon_copy_task` of `neon_mod.c`, called by thread `current` for
its new child `cpu_task`. -/
def neon_copy_task (current clone_flags cpu_task : Nat) (s : control_state) :
    Int × control_state :=
  let neon_task := s.cpu_neon_task current
  if neon_task = 0 then (0, s)
  else if clone_flags &&& CLONE_VM ≠ 0 then
    let s := upd_neon_task neon_task (fun t => { t with sharers := uadd t.sharers 1 }) s
    (0, { s with cpu_neon_task := Function.update s.cpu_neon_task cpu_task neon_task })
  else (0, s)

/-- Function `neon_task_fini` of `neon_control.c`: every context is finalized,
taken off the list and freed. `unclean` tells of which contexts the finalizer
`neon_ctx_fini` returns -1. -/
def neon_task_fini (unclean : Nat → Bool) (task : Nat) (s : control_state) :
    Int × control_state :=
  let ret : Int := if (s.neon_task task).ctx_list.any unclean then -1 else 0
  (ret, upd_neon_task task (fun t => { t with ctx_list := [] }) s)

/-- The end of `neon_exit_task`, once the neon-task is finalized: the pointer
of the thread is cleared, the neon-task freed, and its contexts are taken off
the live ones. The source reads `neon_task->nctx` after the `kfree`; the value
read is the one the neon-task had. -/
def exit_task_release (cpu_task neon_task : Nat) (s : control_state) : control_state :=
  let s := { s with cpu_neon_task := Function.update s.cpu_neon_task cpu_task 0 }
  let s := { s with task_alloc := s.task_alloc.erase neon_task }
  let s := { s with
    ctx_live := u32 (s.ctx_live + (2 ^ 32 - u32 (s.neon_task neon_task).nctx)) }
  let s :=
    if s.ctx_live = 0 then
      control_emit (.sched_reset 0) (control_emit .unregister_die_notifier s)
    else s
  control_emit .module_put s

/-- Function `neon_exit_task` of `neon_mod.c` for the exiting thread
`cpu_task`. -/
def neon_exit_task (unclean : Nat → Bool) (cpu_task : Nat) (s : control_state) :
    control_state :=
  let neon_task := s.cpu_neon_task cpu_task
  if neon_task = 0 then s
  else
    let sharers := (s.neon_task neon_task).sharers
    let s := upd_neon_task neon_task (fun t => { t with sharers := usub t.sharers 1 }) s
    if sharers > 0 then s
    else
      let r := neon_task_fini unclean neon_task s
      if r.1 < 0 then r.2 else exit_task_release cpu_task neon_task r.2

/-- A call that changes the tasks: a context creation request of a thread, the
clone of a thread into a new one, the exit of a thread. -/
inductive control_call where
  | create (current : Nat) (cmd_val : Nat → Nat) (task_addr ctx_addr : Nat)
  | clone (current clone_flags cpu_task : Nat)
  | exit (cpu_task : Nat) (unclean : Nat → Bool)

/-- What the kernel grants at a call: the calling thread is alive; an
allocation returns `NULL` or memory that is not in use; a clone makes a thread
that is not alive yet, fewer than 2^64 threads being alive, shares the address
space when the parent has a neon-task, and hands a `task_struct` whose
neon-task pointer is `NULL` or the copy of the parent's. -/
def control_call_ok (s : control_state) : control_call → Prop
  | .create current _ task_addr _ => current ∈ s.live ∧ task_addr ∉ s.task_alloc
  | .clone current clone_flags cpu_task =>
      current ∈ s.live ∧ cpu_task ∉ s.live ∧ s.live.length + 1 < 2 ^ 64 ∧
      (clone_flags &&& CLONE_VM ≠ 0 ∨ s.cpu_neon_task current = 0) ∧
      (s.cpu_neon_task cpu_task = 0 ∨ s.cpu_neon_task cpu_task = s.cpu_neon_task current)
  | .exit cpu_task _ => cpu_task ∈ s.live

/-- The control structs after a call; a clone adds the child to the threads
alive, an exit takes the thread off them. -/
def run_control_call (s : control_state) : control_call → control_state
  | .create current cmd_val task_addr ctx_addr =>
      (neon_rqst_pre_context current cmd_val task_addr ctx_addr s).2
  | .clone current clone_flags cpu_task =>
      { (neon_copy_task current clone_flags cpu_task s).2 with live := cpu_task :: s.live }
  | .exit cpu_task unclean =>
      { neon_exit_task unclean cpu_task s with live := s.live.erase cpu_task }

/-- A state before any context is created: the threads alive are distinct,
fewer than 2^64, and none has a neon-task. -/
def control_init (s : control_state) : Prop :=
  s.live.Nodup ∧ s.live.length < 2 ^ 64 ∧ ∀ t ∈ s.live, s.cpu_neon_task t = 0

/-- The states reachable from `s0` through context creation, thread clone and
thread exit. -/
inductive control_reachable (s0 : control_state) : control_state → Prop where
  | init : control_reachable s0 s0
  | step (s : control_state) (c : control_call) :
      control_reachable s0 s → control_call_ok s c →
      control_reachable s0 (run_control_call s c)

/-- The number of threads alive whose neon-task pointer refers to the neon-task
at address `a`. -/
def spec_sharing_threads (s : control_state) (a : Nat) : Nat :=
  (s.live.filter (fun t => s.cpu_neon_task t = a)).length

/-- What the reachable states keep: the threads alive are distinct and fewer
than 2^64, the neon-task of a thread alive is allocated, and every neon-task
that a thread alive refers to has `nctx` equal to the length of its context
list as an unsigned long and `sharers` one below the number of threads alive
that refer to it. -/
def control_inv (s : control_state) : Prop :=
  s.live.Nodup ∧ s.live.length < 2 ^ 64 ∧
  (∀ t ∈ s.live, s.cpu_neon_task t ≠ 0 → s.cpu_neon_task t ∈ s.task_alloc) ∧
  (∀ t ∈ s.live, s.cpu_neon_task t ≠ 0 →
    (s.neon_task (s.cpu_neon_task t)).nctx =
      (s.neon_task (s.cpu_neon_task t)).ctx_list.length % 2 ^ 64 ∧
    (s.neon_task (s.cpu_neon_task t)).sharers + 1 =
      spec_sharing_threads s (s.cpu_neon_task t))

/-- What `neon_rqst_pre_context` has at hand once the neon-task `nt` of thread
`cur` is known: the invariant of the reachable states, and a neon-task that is
the thread's own or a new one that no thread refers to yet. -/
def attach_ready (s : control_state) (cur nt : Nat) : Prop :=
  control_inv s ∧ nt ≠ 0 ∧ nt ∈ s.task_alloc ∧
  (s.cpu_neon_task cur = nt ∨ s.cpu_neon_task cur = 0) ∧
  (s.neon_task nt).nctx = (s.neon_task nt).ctx_list.length % 2 ^ 64 ∧
  (s.neon_task nt).sharers + 1 =
    spec_sharing_threads s nt + (if s.cpu_neon_task cur = nt then 0 else 1)

/-- The control structs of the examples: thread 1 alone, without a neon-task,
no context yet. -/
def example_control : control_state :=
  { live := [1], cpu_neon_task := fun _ => 0, task_alloc := [],
    neon_task := fun _ => { pid := 0, malicious := 0 },
    ctx := fun _ => { id := 0, key := 0, map_list := [], fault_list := [], work_list := [] },
    map := fun _ => { key := 0, size := 0, offset := 0, mmio_gpu := 0, vma := none,
                      page := fun _ => example_page, fault := 0 },
    fault := fun _ => { op := 'U', ip := 0, addr := 0, val := 0, flags := 0, page_num := 0,
                        siamese := 0, map := 0 },
    work_ir := fun _ => 0, ptes := example_ptes, ctx_ever := 0, ctx_live := 0, events := [] }

/-- The ioctl values of a request that enables compute on the context with key
`0x11`. -/
def example_cmd_val : Nat → Nat := fun i =>
  if i = 0 then 0x11 else if i = 2 then 0x214 else 0

/-- Thread 1 creates a context: its neon-task is allocated at 1000, the context
at 2000. -/
def example_control_created : control_state :=
  run_control_call example_control (.create 1 example_cmd_val 1000 2000)

/-- Thread 1 creates a context and clones into thread 2. -/
def example_control_cloned : control_state :=
  run_control_call example_control_created (.clone 1 0x100 2)

/-! ## Fault and trap handlers (`neon_mod.c`, `neon_track.c`) -/

/-- Hook `reengage_map_fcfs` of `neon_fcfs.c`: FCFS never disengages. -/
def reengage_map_fcfs (_neon_map : Nat) : Int := 1

/-- Function `neon_fault_save_decode` of `neon_track.c`: decode the faulting
instruction and save it to the fault record. -/
def neon_fault_save_decode (ins : insn_decode) (regs : pt_regs) (addr map page_num : Nat)
    (fault : neon_fault_t) : neon_fault_t :=
  let fault := { fault with map := map, page_num := page_num, flags := regs.flags,
                            addr := addr, ip := regs.ip }
  match ins.ins_type with
  | .REG_READ => { fault with op := 'R', val := 0 }
  | .REG_WRITE => { fault with op := 'W', val := ins.reg_val }
  | .IMM_WRITE => { fault with op := 'W', val := ins.imm_val }
  | _ => { fault with op := 'U',
                      val := (ins.byte0 <<< 16) ||| (ins.byte1 <<< 8) ||| ins.byte2 }

/-- The call `neon_page_arming(arm, &map->page[i])` on the map at address
`m`. -/
def map_page_arming (arm m i : Nat) (s : control_state) : control_state :=
  { s with
    map := Function.update s.map m
      { s.map m with
        page := Function.update (s.map m).page i
          (neon_page_arming arm ((s.map m).page i) s.ptes).1 },
    ptes := (neon_page_arming arm ((s.map m).page i) s.ptes).2 }

/-- What the lookup of `neon_fault_handler` finds: the context, the map, the
index of the page and the fault record (0 for `NULL`). -/
structure fault_target where
  fault_ctx : Nat
  fault_map : Nat
  fault_pidx : Nat
  fault : Nat
  deriving DecidableEq, Repr

/-- The test of the lookup of `neon_fault_handler` on the map at address `m`:
the map has a vma and `addr` is in `[vm_start, vm_start + size)`. -/
def fault_in_map (s : control_state) (addr m : Nat) : Bool :=
  match (s.map m).vma with
  | none => false
  | some vma => decide (addr ≥ vma.vm_start ∧ addr < uadd vma.vm_start (s.map m).size)

/-- The start `map->vma->vm_start` of the vma of the map at address `m`. -/
def map_vm_start (s : control_state) (m : Nat) : Nat :=
  match (s.map m).vma with
  | none => 0
  | some vma => vma.vm_start

/-- The lookup of `neon_fault_handler`: every context of the list is visited;
in each the first map that holds `addr` sets the target, and the inner loop is
left. -/
def neon_fault_lookup (s : control_state) (addr : Nat) (ctx_list : List Nat) : fault_target :=
  ctx_list.foldl (fun acc ctx =>
    match (s.ctx ctx).map_list.find? (fault_in_map s addr) with
    | none => acc
    | some m =>
      { fault_ctx := ctx, fault_map := m,
        fault_pidx := (addr - map_vm_start s m) / PAGE_SIZE, fault := (s.map m).fault })
    { fault_ctx := 0, fault_map := 0, fault_pidx := 0, fault := 0 }

/-- The work whose index register the faulting map is, looked up by
`neon_fault_handler` for a write to a map with an offset that is not mapped for
the GPU; 0 for `NULL`. -/
def fault_handler_work (t : fault_target) (s : control_state) : Nat :=
  if (s.fault t.fault).op = 'W' ∧ (s.map t.fault_map).offset ≠ 0 ∧
      (s.map t.fault_map).mmio_gpu = 0 then
    ((s.ctx t.fault_ctx).work_list.find? (fun w => s.work_ir w = t.fault_map)).getD 0
  else 0

/-- The part of `neon_fault_handler` for a fault whose record is not pending:
the fault is decoded and put on the list of the context, the work of an index
register is updated, the saved flags get the trap flag and lose the
interrupt-enable flag, the page is disarmed and the work submitted.
`update_ret` is what `neon_work_update` returns. -/
def fault_handler_new (ins : insn_decode) (update_ret : Int) (regs : pt_regs) (addr : Nat)
    (t : fault_target) (s : control_state) : Int × pt_regs × control_state :=
  let s := upd_fault t.fault (neon_fault_save_decode ins regs addr t.fault_map t.fault_pidx) s
  let work := fault_handler_work t s
  let s := upd_ctx t.fault_ctx (fun c => { c with fault_list := t.fault :: c.fault_list }) s
  let s :=
    if work ≠ 0 then control_emit (.work_update t.fault_ctx work (s.fault t.fault).val) s
    else s
  if work ≠ 0 ∧ update_ret ≠ 0 then (-1, regs, s)
  else
    let regs := { regs with flags := regs.flags ||| X86_EFLAGS_TF }
    let regs := { regs with flags := regs.flags &&& unot X86_EFLAGS_IF }
    let s := map_page_arming 0 t.fault_map t.fault_pidx s
    if work ≠ 0 then (0, regs, control_emit (.work_submit work 1) s)
    else (0, regs, s)

/-- Function `neon_fault_handler` of `neon_mod.c`, built without
`NEON_TRACE_REPORT`, for a fault of thread `cur` at `addr`. Returns 1 when the
fault is not handled, with the saved registers and the state. -/
def neon_fault_handler (cur : Nat) (ins : insn_decode) (update_ret : Int) (regs : pt_regs)
    (addr : Nat) (s : control_state) : Int × pt_regs × control_state :=
  if s.cpu_neon_task cur = 0 then (1, regs, s)
  else
    let t := neon_fault_lookup s addr (s.neon_task (s.cpu_neon_task cur)).ctx_list
    if t.fault = 0 then (1, regs, s)
    else if t.fault ∈ (s.ctx t.fault_ctx).fault_list then
      if (s.fault t.fault).addr = addr then (1, regs, s)
      else
        (0, regs, upd_fault t.fault (fun f => { f with siamese := t.fault_pidx })
          (map_page_arming 0 t.fault_map t.fault_pidx s))
    else fault_handler_new ins update_ret regs addr t s

/-- The part of `neon_trap_handler` for the pending fault `fault` of context
`trap_ctx`: the page is armed again when the scheduler asks for it, with the
siamese page, the trap and interrupt-enable flags are restored, and the fault
is taken off the list. `reengage` is what `neon_sched_reengage` returns. -/
def trap_handler_fault (reengage : Int) (regs : pt_regs) (trap_ctx fault : Nat)
    (s : control_state) : Int × pt_regs × control_state :=
  let trap_map := (s.fault fault).map
  let s :=
    if reengage ≠ 0 then
      let s := map_page_arming 1 trap_map (s.fault fault).page_num s
      if (s.fault fault).siamese ≠ 0 then
        upd_fault fault (fun f => { f with siamese := 0 })
          (map_page_arming 1 trap_map (s.fault fault).siamese s)
      else s
    else s
  let regs := { regs with flags := regs.flags &&& unot X86_EFLAGS_TF }
  let regs := { regs with
    flags := regs.flags ||| ((s.fault fault).flags &&& (X86_EFLAGS_TF ||| X86_EFLAGS_IF)) }
  let s := upd_fault fault (fun f => { f with addr := 0 }) s
  let s := upd_ctx trap_ctx (fun c => { c with fault_list := c.fault_list.erase fault }) s
  (0, regs, s)

/-- Function `neon_trap_handler` of `neon_track.c`, built without
`NEON_TRACE_REPORT`, for a trap of thread `cur`: the first fault of the first
context with a pending fault is handled. -/
def neon_trap_handler (cur : Nat) (reengage : Int) (regs : pt_regs) (s : control_state) :
    Int × pt_regs × control_state :=
  if s.cpu_neon_task cur = 0 then (1, regs, s)
  else
    match (s.neon_task (s.cpu_neon_task cur)).ctx_list.find?
        (fun c => decide ((s.ctx c).fault_list ≠ [])) with
    | none => (0, { regs with flags := regs.flags &&& unot X86_EFLAGS_TF }, s)
    | some trap_ctx =>
      trap_handler_fault reengage regs trap_ctx ((s.ctx trap_ctx).fault_list.headD 0) s

/-- An armed page of the tracking examples, its page-table entry at `7 + i`. -/
def example_armed_page (i : Nat) : neon_page_t :=
  { pte := 7 + i, addr := 0x7f0000000000 + i * 4096, saved_ptev := 1, armed := 1 }

/-- The control structs of the tracking examples: thread 1 has created a
context, at 2000, which has the map at 3000 of two armed pages at
`0x7f0000000000`, its fault record at 4000 and its offset `offset`, and the
work at 5000 with that map as index register. -/
def example_track (offset : Nat) : control_state :=
  { example_control_created with
    ctx := Function.update example_control_created.ctx 2000
      { id := 1, key := 0x11, map_list := [3000], fault_list := [], work_list := [5000] },
    map := Function.update example_control_created.map 3000
      { key := 0x22, size := 8192, offset := offset, mmio_gpu := 0,
        vma := some { vm_start := 0x7f0000000000, vm_end := 0x7f0000002000 },
        page := example_armed_page, fault := 4000 },
    work_ir := fun w => if w = 5000 then 3000 else 0,
    ptes := example_ptes_absent }

/-- A write of the value 9 from a register. -/
def example_write : insn_decode :=
  { ins_type := .REG_WRITE, reg_val := 9, imm_val := 0, byte0 := 0x89, byte1 := 0x10,
    byte2 := 0 }

/-- Saved registers with the interrupt-enable flag set and the trap flag
clear. -/
def example_regs : pt_regs := { ip := 0x401000, flags := 0x246 }

/-! ## Index registers by offset (`neon_sched.c`) -/

/-- The test of the loop of `neon_hash_map_offset` on device `i`: the address
lies strictly between the bottom and the top of the register area of the
device and is a multiple of the register offset. -/
def hash_map_offset_hit (g : neon_global_t) (address i : Nat) : Bool :=
  let dev := g.dev i
  let bottom := dev.reg_base
  let top := uadd dev.reg_base (umul dev.nchan dev.reg_ofs)
  decide (address > bottom ∧ address < top ∧ address % dev.reg_ofs = 0)

/-- Function `neon_hash_map_offset` of `neon_sched.c`: map an offset to a
device and a channel id. `did` and `cid` come in with what the variables of
the caller hold; the result is the return value with the two as the function
leaves them. -/
def neon_hash_map_offset (g : neon_global_t) (address did cid : Nat) : Int × Nat × Nat :=
  match (List.range g.ndev).find? (hash_map_offset_hit g address) with
  | none => (-1, did, cid)
  | some i => (0, i, u32 ((address - (g.dev i).reg_base) / (g.dev i).reg_ofs))

/-- The offset of the register range of channel `c` of device `d`,
`reg_base + c * reg_ofs`, as `neon_chan_init` computes it. -/
def chan_reg_offset (g : neon_global_t) (d c : Nat) : Nat :=
  uadd (g.dev d).reg_base (umul c (g.dev d).reg_ofs)

/-! ## Device and global cleanup (`neon_core.c`) -/

/-- Calls of `neon_core.c` that release a resource: `iounmap` of a mapped index
register, `kfree` of the submit-to-complete bitmap and of the channel array of
a device, `kfree` of the device array. -/
inductive core_event where
  | iounmap (kvaddr : Nat)
  | kfree_bmp_sub2comp (did : Nat)
  | kfree_chan (did : Nat)
  | kfree_dev
  deriving DecidableEq, Repr

/-- Function `neon_chan_fini` of `neon_core.c`: unmap the index register of
the channel; -1 when a reference counter is still assigned to it. -/
def neon_chan_fini (dev : neon_dev_t) (cid : Nat) : Int × neon_dev_t × List core_event :=
  let r : neon_dev_t × List core_event :=
    if (dev.chan cid).ir_kvaddr ≠ 0 then
      (upd_dev_chan cid (fun c => { c with ir_kvaddr := 0 }) dev,
        [.iounmap (dev.chan cid).ir_kvaddr])
    else (dev, [])
  if (r.1.chan cid).refc_kvaddr ≠ 0 then
    (-1, upd_dev_chan cid (fun c => { c with refc_kvaddr := 0 }) r.1, r.2)
  else (0, r.1, r.2)

/-- The unwinding loop `while(i-- >= 0) neon_chan_fini(dev, i);` of
`neon_dev_init`, run for at most `fuel` turns. `i` is an `unsigned int`: the
test reads it before the decrement, which wraps below zero. The result tells
whether the loop was left within the turns, with the device and the indices
handed to `neon_chan_fini`, in order. -/
def neon_dev_init_unwind : Nat → Nat → neon_dev_t → List Nat → Bool × neon_dev_t × List Nat
  | 0, _, dev, seen => (false, dev, seen)
  | fuel + 1, i, dev, seen =>
    if i ≥ 0 then
      let i := u32 (i + (2 ^ 32 - 1))
      neon_dev_init_unwind fuel i (neon_chan_fini dev i).2.1 (seen ++ [i])
    else (true, dev, seen)

/-- One turn of the channel loop of `neon_dev_fini` for channel `i`, on the
return value, the device and the calls made so far. -/
def neon_dev_fini_chan (acc : Int × neon_dev_t × List core_event) (i : Nat) :
    Int × neon_dev_t × List core_event :=
  let ret : Int := if test_bit i acc.2.1.bmp_sub2comp then -1 else acc.1
  let r := neon_chan_fini acc.2.1 i
  (Int.lor ret r.1, r.2.1, acc.2.2 ++ r.2.2)

/-- Function `neon_dev_fini` of `neon_core.c`: finalise every channel of the
device and free its bitmap and its channel array unless a channel is busy. -/
def neon_dev_fini (dev : neon_dev_t) : Int × neon_dev_t × List core_event :=
  let r := (List.range dev.nchan).foldl neon_dev_fini_chan (0, dev, [])
  if r.1 = 0 then (0, r.2.1, r.2.2 ++ [.kfree_bmp_sub2comp dev.id, .kfree_chan dev.id])
  else r

/-- One turn of the device loop of `neon_global_fini` for device `i`, on the
return value, the globals and the calls made so far. -/
def neon_global_fini_dev (acc : Int × neon_global_t × List core_event) (i : Nat) :
    Int × neon_global_t × List core_event :=
  let r := neon_dev_fini (acc.2.1.dev i)
  (Int.lor acc.1 r.1, { acc.2.1 with dev := Function.update acc.2.1.dev i r.2.1 },
    acc.2.2 ++ r.2.2)

/-- Function `neon_global_fini` of `neon_core.c`: clean up the globals before
the module exits. The result is the return value with the globals and the
releasing calls made, in order. -/
def neon_global_fini (g : neon_global_t) : Int × neon_global_t × List core_event :=
  if g.ctx_live > 0 then (-1, g, [])
  else
    let g := { g with ndev := 0 }
    let r := (List.range g.ndev).foldl neon_global_fini_dev (0, g, [])
    if r.1 = 0 then (0, r.2.1, r.2.2 ++ [.kfree_dev])
    else (-1, r.2.1, r.2.2)

/-- The example device with the index registers of its channels mapped, the
register of channel `i` at `0xffffc90000000000 + 0x1000 * i`. -/
def example_dev_mapped : neon_dev_t :=
  { example_dev with
    chan := fun i => { example_chan with id := i, ir_kvaddr := 0xffffc90000000000 + 0x1000 * i } }

/-- Globals with one initialised device and no live context. -/
def example_global_idle : neon_global_t :=
  { ctx_ever := 1, ctx_live := 0, ndev := 1, dev := fun _ => example_dev_mapped }

/-! ## Page arrays of tracked maps (`neon_help.h`, `neon_track.c`) -/

/-- Macro `ROUND_DIV(a, b)` of `neon_help.h` on `unsigned long` operands:
`a / b` when `b` divides `a`, `(a + b) / b` otherwise. -/
def ROUND_DIV (a b : Nat) : Nat :=
  if a % b = 0 then a / b else uadd a b / b

/-- Function `neon_track_init` of `neon_track.c`. `fault_alloc` is the address
that `kzalloc` returns for the fault record (0 for `NULL`) and `page_alloc`
tells whether the `kzalloc` of the page array succeeds. The result is the
return value, the map, and the number of page structs allocated for it,
`np = ROUND_DIV(map->size, PAGE_SIZE)` held in an `unsigned int`. -/
def neon_track_init (fault_alloc : Nat) (page_alloc : Bool) (map : neon_map_track_t) :
    Int × neon_map_track_t × Nat :=
  let np := u32 (ROUND_DIV map.size PAGE_SIZE)
  let map := { map with fault := fault_alloc }
  if map.fault = 0 then (-1, map, 0)
  else if page_alloc = false then (-1, map, 0)
  else
    (0, { map with page := fun _ => { pte := 0, addr := 0, saved_ptev := 0, armed := 0 } }, np)

/-- The example map with a size of 16 TiB, `2 ^ 44` bytes. -/
def example_track_huge : control_state :=
  { example_track 0 with
    map := Function.update (example_track 0).map 3000
      { (example_track 0).map 3000 with size := 2 ^ 44 } }

/-- The tracking example after a first write fault, at `addr`, was taken by
`neon_fault_handler`: the record of the map is pending for `addr`. -/
def example_track_pending (addr : Nat) : control_state :=
  (neon_fault_handler 1 example_write 0 example_regs addr (example_track 0)).2.2

/-- The tracking example after a first write fault at `first`, a second fault
at `second` while the record is pending, and the trap that follows, under
FCFS. -/
def example_track_siamese (first second : Nat) : control_state :=
  (neon_trap_handler 1 (reengage_map_fcfs 3000)
    (neon_fault_handler 1 example_write 0 example_regs second
      (example_track_pending first)).2.1
    (neon_fault_handler 1 example_write 0 example_regs second
      (example_track_pending first)).2.2).2.2

/-- The `do ... while(repeat == 1)` loop of `update_token_holder` as
`token_loop` has it, telling whether it ends: `none` when `fuel` turns were
taken and the last one asked for another. -/
def token_loop_ends (did : Nat) : Nat → Nat → sched_state → Option sched_state
  | 0, _, _ => none
  | fuel + 1, repeat_, p =>
    let r := token_turn did repeat_ p
    if r.1 = 1 then token_loop_ends did fuel r.1 r.2 else some r.2

/-- The overuse that the penalties of `update_token_holder` can still take
from the tasks of device `did`: the sum of the overuses above zero. -/
def overuse_left (did : Nat) (p : sched_state) : Nat :=
  ((p.sched_dev_array did).stask_list.map (fun a => (TS_overuse p a).toNat)).sum

/-! ## The sampling tour (`neon_sampling.c`) -/

/-- The task sampled after each of `n` successive calls of
`update_sampled_task` on device `did`, in order, with the scheduler's data
after the last call. -/
def sampled_tour (did : Nat) : Nat → sched_state → List Nat × sched_state
  | 0, p => ([], p)
  | n + 1, p =>
    let q := update_sampled_task did p
    ((q.sched_dev_array did).ps.smpl.sampled_task :: (sampled_tour did n q).1,
      (sampled_tour did n q).2)

/-- The loop of `sample_walk` on what it reads and writes: the held-back flags
`held`, the time `dt` charged for a task passed over, the entries left and
`sampling_season_dt`; the result is the task picked (0 for none) with the new
`sampling_season_dt`. -/
def tour_walk (held : Nat → Nat) (dt : Nat) : List Nat → Nat → Nat × Nat
  | [], x => (0, x)
  | a :: rest, x => if held a = 0 then (a, x) else tour_walk held dt rest (uadd x dt)

/-- The entries that `update_sampled_task` walks: the whole list when no task
was sampled before, the entries after the last sampled task otherwise. -/
def tour_after (l : List Nat) (last_sampled : Nat) : List Nat :=
  if last_sampled = 0 then l else (l.dropWhile (fun a => a ≠ last_sampled)).tail

/-- One call of `update_sampled_task` on the sampled task and
`sampling_season_dt`. -/
def tour_step (held : Nat → Nat) (dt : Nat) (l : List Nat) (sx : Nat × Nat) : Nat × Nat :=
  tour_walk held dt (tour_after l sx.1) sx.2

/-- The tasks sampled by `n` successive calls of `update_sampled_task`, with
the `sampling_season_dt` they leave, from the sampled task and the
`sampling_season_dt` they start with. -/
def tour_run (held : Nat → Nat) (dt : Nat) (l : List Nat) : Nat → Nat × Nat → List Nat × Nat
  | 0, sx => ([], sx.2)
  | n + 1, sx =>
    ((tour_step held dt l sx).1 :: (tour_run held dt l n (tour_step held dt l sx)).1,
      (tour_run held dt l n (tour_step held dt l sx)).2)

/-- The scheduler's data of the tour example: three tasks on device 0 under the
sampling policy, the second one held back, no task sampled yet,
`sampling_T = 5`. -/
def example_tour : sched_state :=
  upd_smpl_task 501 (fun t => { t with held_back := 1 })
    (upd_sdev 0 (fun sd => { sd with stask_list := [500, 501, 502] })
      (example_sched NEON_POLICY_SAMPLING))

/-! ## The token of a task that stops (`neon_timeslice.c`) -/

/-- Accessor `sched_task->TS(sem_count)` of the task at address `a`. -/
def TS_sem_count (p : sched_state) (a : Nat) : Int :=
  (p.stask a).ps.tslc.sem_count

/-- The number of calls of `up` on the semaphore of the task at address `a`
among the events. -/
def sem_up_count (p : sched_state) (a : Nat) : Nat :=
  p.events.count (.sem_up a)

/-- The state of the semaphore of the task at address `a` under the timeslice
policy: its counter and the number of calls of `up` made on it. -/
def sem_view (p : sched_state) (a : Nat) : Int × Nat :=
  (TS_sem_count p a, sem_up_count p a)

/-- From `p` to `q` the semaphore counter of the task at address `a` is raised
toward zero, if at all, and every raise by one comes with one call of `up` on
the semaphore. -/
def sem_raised (p q : sched_state) (a : Nat) : Prop :=
  TS_sem_count p a ≤ TS_sem_count q a ∧ TS_sem_count q a ≤ max (TS_sem_count p a) 0 ∧
    TS_sem_count q a - TS_sem_count p a = (sem_up_count q a : Int) - (sem_up_count p a : Int)

/-- The part of `stop_timeslice` that follows `update_token_holder`: a token
that came back to the stopping task is dropped, and a thread of the task that
is blocked on its semaphore is let go. -/
def stop_timeslice_release (did sched_task : Nat) (p : sched_state) : sched_state :=
  let p :=
    if (p.sched_dev_array did).ps.tslc.token_holder = sched_task then
      upd_tslc_dev did (fun d => { d with token_holder := 0 }) p
    else p
  if (p.stask sched_task).ps.tslc.sem_count < 0 then
    emit (.sem_up sched_task)
      (upd_tslc_task sched_task (fun t => { t with sem_count := t.sem_count + 1 }) p)
  else p

/-- The timer part of `stop_timeslice`: the token timer is cancelled and, with
a context alive, the event thread is woken. -/
def stop_timeslice_timer (g : neon_global_t) (did : Nat) (p : sched_state) : sched_state :=
  let r := token_timer_cancel did p
  if r.1 then
    if g.ctx_live > 0 then
      emit .wake_up_kthread (upd_tslc_dev did (fun d => { d with action := 1 }) r.2)
    else r.2
  else r.2

/-- The scheduler's data of the stopping example: under the timeslice policy
the works at addresses 100 and 101 are started, their tasks at 500 and 501 on
device 0; the task at 500 holds the token with a thread blocked on its
semaphore, the task at 501 has the overuse `overuse`, `timeslice_T = 30`. -/
def example_stop_penalty (overuse : Int) : sched_state :=
  upd_tslc_task 500 (fun t => { t with sem_count := -1 })
    (upd_tslc_task 501 (fun t => { t with overuse := overuse })
      (run_policy_calls example_global example_works
        [.start 100 500 true, .start 101 501 true] (example_sched NEON_POLICY_TIMESLICE)))

/-! ## Theorems -/

theorem and_ff_shift_lt (top : Nat) : (top &&& 0xff) <<< 32 < 2 ^ 64 := by
  have h : top &&& 0xff ≤ 0xff := Nat.and_le_right
  rw [Nat.shiftLeft_eq]
  omega

theorem search_map_gpu_covers (rb : neon_map_t) (mmio : Nat) (l : List neon_map_t)
    (m : neon_map_t) (h : search_map_gpu rb mmio l = some m) :
    m.mmio_gpu ≤ mmio ∧ mmio < uadd m.mmio_gpu m.size := by
  induction l with
  | nil => simp [search_map_gpu] at h
  | cons a rest ih =>
    unfold search_map_gpu at h
    split at h
    · rename_i hc
      cases h
      exact ⟨hc.2.2.2.1, hc.2.2.2.2⟩
    · exact ih h

/-- C9: for every written index value `v` (an `unsigned long`) and ring-buffer
contents, `update_work_cb_cmd` uses entry `v - 1` when `v > 0` and the last
entry when `v = 0` (1023 compute, 32767 graphics; `-1` for an undefined
workload), reads `bottom` and `top` at byte offset `8 * idx` of the ring
buffer, stores `top >> 8` as command size, and on success `work->cb` covers the
GPU-view address `bottom | ((top & 0xff) << 32)` and the command start is
`cb.vma.start + gpu_addr - cb.gpu_view`. -/
theorem update_work_cb_cmd_entry (map_list : List neon_map_t) (mem : Nat → Nat)
    (work : neon_work_t) (v : Nat) (tuple : Nat × Nat) (hv : v < 2 ^ 64) :
    (spec_rb_entry work.workload v = none →
      (update_work_cb_cmd map_list mem work v tuple).ret = -1) ∧
    (∀ idx, spec_rb_entry work.workload v = some idx →
      ∀ bottom top gpu_addr,
        bottom = neon_uptr_read mem (u64 (work.rb.vma.vm_start + 8 * idx)) →
        top = neon_uptr_read mem (u64 (work.rb.vma.vm_start + 8 * idx + 4)) →
        gpu_addr = bottom ||| ((top &&& 0xff) <<< 32) →
        (update_work_cb_cmd map_list mem work v tuple).cmd_tuple.2 = top >>> 8 ∧
        ((update_work_cb_cmd map_list mem work v tuple).ret = 0 ∨
          (update_work_cb_cmd map_list mem work v tuple).ret = -1) ∧
        ((update_work_cb_cmd map_list mem work v tuple).ret = 0 →
          ∃ cb, (update_work_cb_cmd map_list mem work v tuple).work.cb = some cb ∧
            cb.mmio_gpu ≤ gpu_addr ∧ gpu_addr < uadd cb.mmio_gpu cb.size ∧
            (update_work_cb_cmd map_list mem work v tuple).cmd_tuple.1 =
              usub (uadd cb.vma.vm_start gpu_addr) cb.mmio_gpu)) := by
  have haddr : ∀ i, uadd work.rb.vma.vm_start (umul (umul 2 i) sizeof_int)
      = u64 (work.rb.vma.vm_start + 8 * i) := by
    intro i; unfold uadd umul u64 sizeof_int; omega
  have haddr4 : ∀ i, uadd (u64 (work.rb.vma.vm_start + 8 * i)) sizeof_int
      = u64 (work.rb.vma.vm_start + 8 * i + 4) := by
    intro i; unfold uadd u64 sizeof_int; omega
  have hshift : ∀ t, u64 ((t &&& 0xff) <<< (8 * sizeof_int)) = (t &&& 0xff) <<< 32 := by
    intro t; exact Nat.mod_eq_of_lt (and_ff_shift_lt t)
  have hcode : (if v = 0 then
        match work.workload with
        | NEON_WORKLOAD_COMPUTE => some (NEON_RB_SIZE_COMPUTE / (2 * sizeof_int) - 1)
        | NEON_WORKLOAD_GRAPHICS => some (NEON_RB_SIZE_GRAPHICS / (2 * sizeof_int) - 1)
        | NEON_WORKLOAD_UNDEFINED => none
      else some (usub v 1)) = spec_rb_entry work.workload v := by
    unfold spec_rb_entry
    by_cases h0 : v = 0
    · subst h0
      cases work.workload <;> simp [NEON_RB_SIZE_COMPUTE, NEON_RB_SIZE_GRAPHICS, sizeof_int]
    · have h1 : usub v 1 = v - 1 := by unfold usub; omega
      have h2 : v > 0 := Nat.pos_of_ne_zero h0
      simp [h0, h1, h2]
  constructor
  · intro hnone
    simp only [update_work_cb_cmd, hcode, hnone]
  · intro idx hidx bottom top gpu_addr hb ht hg
    simp only [update_work_cb_cmd, hcode, hidx, haddr, haddr4, hshift, ← hb, ← ht, ← hg]
    rcases hcb : work.cb with _ | cb
    · simp only [if_true]
      rcases hs : search_map_gpu work.rb gpu_addr map_list with _ | m
      · simp
      · have hm := search_map_gpu_covers _ _ _ _ hs
        simp [hm.1, hm.2]
    · by_cases hst : gpu_addr < cb.mmio_gpu ∨ gpu_addr ≥ uadd cb.mmio_gpu cb.size
      · simp only [hst, decide_True, if_true]
        rcases hs : search_map_gpu work.rb gpu_addr map_list with _ | m
        · simp
        · have hm := search_map_gpu_covers _ _ _ _ hs
          simp [hm.1, hm.2]
      · simp only [hst, decide_False, if_false, hcb, Bool.false_eq_true]
        have h1 : cb.mmio_gpu ≤ gpu_addr := by omega
        have h2 : gpu_addr < uadd cb.mmio_gpu cb.size := by omega
        simp [h1, h2]

/-- Witness for C9: index value 1 selects entry 0; the command of size
`0x4000 >> 8` lies in the command buffer found in the map list, and its CPU-view
start is `vm_start + 0x2000`. -/
theorem update_work_cb_cmd_entry_witness :
    (1 : Nat) < 2 ^ 64 ∧
    (update_work_cb_cmd [example_work.rb] example_mem example_work 1 (0, 0)).cmd_tuple
      = (0x12000, 0x40) ∧
    (update_work_cb_cmd [example_work.rb] example_mem example_work 1 (0, 0)).cmd_tuple.2
      = neon_uptr_read example_mem (u64 (example_work.rb.vma.vm_start + 8 * 0 + 4)) >>> 8 :=
  ⟨by decide, by decide,
   ((update_work_cb_cmd_entry [example_work.rb] example_mem example_work 1 (0, 0)
      (by decide)).2 0 (by decide) _ _ _ rfl rfl rfl).1⟩

@[simp] theorem upd_dev_dev_same (did : Nat) (f : neon_dev_t → neon_dev_t) (g : neon_global_t) :
    (upd_dev did f g).dev did = f (g.dev did) := by
  simp [upd_dev]

theorem upd_dev_dev_other (did d : Nat) (f : neon_dev_t → neon_dev_t) (g : neon_global_t)
    (h : d ≠ did) : (upd_dev did f g).dev d = g.dev d := by
  simp [upd_dev, Function.update_noteq h]

@[simp] theorem upd_dev_ndev (did : Nat) (f : neon_dev_t → neon_dev_t) (g : neon_global_t) :
    (upd_dev did f g).ndev = g.ndev := rfl

@[simp] theorem upd_dev_ctx_live (did : Nat) (f : neon_dev_t → neon_dev_t) (g : neon_global_t) :
    (upd_dev did f g).ctx_live = g.ctx_live := rfl

@[simp] theorem upd_chan_bmp (did cid : Nat) (f : neon_chan_t → neon_chan_t) (g : neon_global_t)
    (d : Nat) : ((upd_chan did cid f g).dev d).bmp_sub2comp = (g.dev d).bmp_sub2comp := by
  by_cases h : d = did
  · subst h; simp [upd_chan]
  · simp [upd_chan, upd_dev_dev_other _ _ _ _ h]

@[simp] theorem upd_chan_nchan (did cid : Nat) (f : neon_chan_t → neon_chan_t) (g : neon_global_t)
    (d : Nat) : ((upd_chan did cid f g).dev d).nchan = (g.dev d).nchan := by
  by_cases h : d = did
  · subst h; simp [upd_chan]
  · simp [upd_chan, upd_dev_dev_other _ _ _ _ h]

@[simp] theorem upd_chan_chan_same (did cid : Nat) (f : neon_chan_t → neon_chan_t)
    (g : neon_global_t) :
    ((upd_chan did cid f g).dev did).chan cid = f ((g.dev did).chan cid) := by
  simp [upd_chan]

theorem upd_chan_chan_other (did cid d c : Nat) (f : neon_chan_t → neon_chan_t)
    (g : neon_global_t) (h : d ≠ did ∨ c ≠ cid) :
    ((upd_chan did cid f g).dev d).chan c = (g.dev d).chan c := by
  by_cases hd : d = did
  · subst hd
    have hc : c ≠ cid := by tauto
    simp [upd_chan, Function.update_noteq hc]
  · simp [upd_chan, upd_dev_dev_other _ _ _ _ hd]

@[simp] theorem upd_chan_ndev (did cid : Nat) (f : neon_chan_t → neon_chan_t)
    (g : neon_global_t) : (upd_chan did cid f g).ndev = g.ndev := rfl

@[simp] theorem hook_outcome_snd (r : Option Int × sched_state) : (hook_outcome r).2 = r.2 := rfl

@[simp] theorem hook_outcome_fst (r : Option Int × sched_state) :
    (hook_outcome r).1 = r.1.map (fun _ => ()) := rfl

/-- When `neon_work_submit` returns: always with `really` other than 1, and
with `really = 1` exactly when `neon_policy_submit` does, with its value. -/
theorem neon_work_submit_returns (s : neon_state) (work really : Nat) :
    (really ≠ 1 → (neon_work_submit work really s).1 = some 0) ∧
    (really = 1 →
      (neon_work_submit work really s).1 = (neon_policy_submit s.work work s.sched).1) := by
  refine ⟨fun h => ?_, fun h => ?_⟩
  · simp [neon_work_submit, h]
  · simp only [neon_work_submit, h, if_true]
    cases (neon_policy_submit s.work work s.sched).1 <;> rfl

/-- C1: for every work and channel state, when `neon_work_submit(work,
really)` returns (any `really`, any policy, so in particular `really = 1` under
FCFS and `really = 0`) the live bit of the work's channel is set and the
channel record holds the work's pid, counter address and target, with
`pdt = 1`. -/
theorem neon_work_submit_channel (s : neon_state) (work really : Nat)
    (hret : (neon_work_submit work really s).1 ≠ none) :
    (((neon_work_submit work really s).2.neon_global.dev (s.work work).did).bmp_sub2comp
        (s.work work).cid = true) ∧
    (((neon_work_submit work really s).2.neon_global.dev (s.work work).did).chan
        (s.work work).cid).pid = (s.work work).neon_task ∧
    (((neon_work_submit work really s).2.neon_global.dev (s.work work).did).chan
        (s.work work).cid).refc_kvaddr = (s.work work).refc_kvaddr ∧
    (((neon_work_submit work really s).2.neon_global.dev (s.work work).did).chan
        (s.work work).cid).refc_target = (s.work work).refc_target ∧
    (((neon_work_submit work really s).2.neon_global.dev (s.work work).did).chan
        (s.work work).cid).pdt = 1 := by
  by_cases h : really = 1
  · have hr := (neon_work_submit_returns s work really).2 h
    rw [hr] at hret
    obtain ⟨ret, hsome⟩ := Option.ne_none_iff_exists'.mp hret
    simp [neon_work_submit, h, hsome, set_bit, upd_chan]
  · simp [neon_work_submit, h, set_bit, upd_chan]

/-- Witness for C1: under FCFS the submit of the started work at address 100
returns 0, with channel 3 of device 0 live and waiting for target 7. -/
theorem neon_work_submit_channel_witness :
    (neon_work_submit 100 1
      (neon_work_start 500 true 100 (example_state NEON_POLICY_FCFS 7)).2).1 = some 0 ∧
    ((neon_work_submit 100 1
      (neon_work_start 500 true 100 (example_state NEON_POLICY_FCFS 7)).2).2.neon_global.dev
        0).bmp_sub2comp 3 = true ∧
    (((neon_work_submit 100 1
      (neon_work_start 500 true 100 (example_state NEON_POLICY_FCFS 7)).2).2.neon_global.dev
        0).chan 3).refc_target = 7 :=
  ⟨by decide!,
   (neon_work_submit_channel (neon_work_start 500 true 100 (example_state NEON_POLICY_FCFS 7)).2
      100 1 (by decide!)).1,
   by decide!⟩

theorem neon_work_complete_live_clear (s : neon_state) (did cid pid : Nat) :
    ((neon_work_complete did cid pid s).neon_global.dev did).bmp_sub2comp cid = false := by
  unfold neon_work_complete
  by_cases h : test_bit cid (s.neon_global.dev did).bmp_sub2comp = false
  · rw [if_pos h]; exact h
  · rw [if_neg h]; simp [test_bit, clear_bit]

/-- C3: calling `neon_work_complete(did, cid, pid)` twice in a row yields
exactly the state of calling it once: after the first call the live bit is
clear, and the second call returns the state it was given, whatever the
policy. -/
theorem neon_work_complete_twice (s : neon_state) (did cid pid : Nat) :
    ((neon_work_complete did cid pid s).neon_global.dev did).bmp_sub2comp cid = false ∧
    neon_work_complete did cid pid (neon_work_complete did cid pid s)
      = neon_work_complete did cid pid s := by
  have h1 := neon_work_complete_live_clear s did cid pid
  refine ⟨h1, ?_⟩
  generalize neon_work_complete did cid pid s = s1 at h1 ⊢
  simp [neon_work_complete, test_bit, h1]

/-! ### Policy hooks leave the frontend's members alone -/

@[simp] theorem sched_frame_refl (p : sched_state) : sched_frame p p := by
  simp [sched_frame]

theorem sched_frame_trans {p q r : sched_state} (h1 : sched_frame p q) (h2 : sched_frame q r) :
    sched_frame p r := by
  obtain ⟨a1, a2, a3, a4, a5, a6, a7, a8, a9, a10, a11⟩ := h1
  obtain ⟨b1, b2, b3, b4, b5, b6, b7, b8, b9, b10, b11⟩ := h2
  refine ⟨fun a => (b1 a).trans (a1 a), fun d => (b2 d).trans (a2 d),
    fun d => (b3 d).trans (a3 d), fun d c => (b4 d c).trans (a4 d c), b5.trans a5,
    b6.trans a6, b7.trans a7, b8.trans a8, b9.trans a9, b10.trans a10, b11.trans a11⟩

theorem sched_frame_symm {p q : sched_state} (h : sched_frame p q) : sched_frame q p := by
  obtain ⟨a1, a2, a3, a4, a5, a6, a7, a8, a9, a10, a11⟩ := h
  exact ⟨fun a => (a1 a).symm, fun d => (a2 d).symm, fun d => (a3 d).symm,
    fun d c => (a4 d c).symm, a5.symm, a6.symm, a7.symm, a8.symm, a9.symm, a10.symm,
    a11.symm⟩

theorem sched_frame_iff_of {p q q' : sched_state} (h : sched_frame q q') :
    sched_frame p q' ↔ sched_frame p q :=
  ⟨fun h' => sched_frame_trans h' (sched_frame_symm h), fun h' => sched_frame_trans h' h⟩

theorem frame_emit (e : neon_event) (q : sched_state) (he : is_policy_issue e = false) :
    sched_frame q (emit e q) := by
  simp [sched_frame, emit, issue_count, he]

theorem frame_tick (q : sched_state) : sched_frame q (tick q) := by
  simp [sched_frame, tick]

theorem frame_upd_stask (a : Nat) (f : sched_task_t → sched_task_t) (q : sched_state)
    (h : ∀ t, task_core (f t) = task_core t) : sched_frame q (upd_stask a f q) := by
  refine ⟨fun b => ?_, ?_⟩
  · by_cases hb : b = a
    · subst hb; simp [upd_stask, h]
    · simp [upd_stask, Function.update_noteq hb]
  · simp [upd_stask]

theorem frame_upd_sdev (did : Nat) (f : sched_dev_t → sched_dev_t) (q : sched_state)
    (h : ∀ sd, (f sd).stask_list = sd.stask_list ∧ (f sd).id = sd.id ∧
      ∀ c, work_core ((f sd).swork_array c) = work_core (sd.swork_array c)) :
    sched_frame q (upd_sdev did f q) := by
  have key : ∀ d, ((upd_sdev did f q).sched_dev_array d).stask_list
        = (q.sched_dev_array d).stask_list ∧
      ((upd_sdev did f q).sched_dev_array d).id = (q.sched_dev_array d).id ∧
      ∀ c, work_core (((upd_sdev did f q).sched_dev_array d).swork_array c)
        = work_core ((q.sched_dev_array d).swork_array c) := by
    intro d
    by_cases hd : d = did
    · subst hd; simpa [upd_sdev] using h (q.sched_dev_array d)
    · simp [upd_sdev, Function.update_noteq hd]
  exact ⟨fun a => rfl, fun d => (key d).1, fun d => (key d).2.1, fun d c => (key d).2.2 c,
    rfl, rfl, rfl, rfl, rfl, rfl, rfl⟩

theorem frame_upd_swork (did cid : Nat) (f : sched_work_t → sched_work_t) (q : sched_state)
    (h : ∀ w, work_core (f w) = work_core w) : sched_frame q (upd_swork did cid f q) := by
  unfold upd_swork
  apply frame_upd_sdev
  intro sd
  refine ⟨rfl, rfl, fun c => ?_⟩
  by_cases hc : c = cid
  · subst hc; simp [h]
  · simp [Function.update_noteq hc]

theorem frame_upd_smpl_task (a : Nat) (f : sampling_task_t → sampling_task_t)
    (q : sched_state) : sched_frame q (upd_smpl_task a f q) :=
  frame_upd_stask _ _ _ (fun _ => rfl)

theorem frame_upd_tslc_task (a : Nat) (f : timeslice_task_t → timeslice_task_t)
    (q : sched_state) : sched_frame q (upd_tslc_task a f q) :=
  frame_upd_stask _ _ _ (fun _ => rfl)

theorem frame_upd_smpl_dev (did : Nat) (f : sampling_dev_t → sampling_dev_t)
    (q : sched_state) : sched_frame q (upd_smpl_dev did f q) :=
  frame_upd_sdev _ _ _ (fun _ => ⟨rfl, rfl, fun _ => rfl⟩)

theorem frame_upd_tslc_dev (did : Nat) (f : timeslice_dev_t → timeslice_dev_t)
    (q : sched_state) : sched_frame q (upd_tslc_dev did f q) :=
  frame_upd_sdev _ _ _ (fun _ => ⟨rfl, rfl, fun _ => rfl⟩)

theorem frame_upd_smpl_work (did cid : Nat) (f : sampling_work_t → sampling_work_t)
    (q : sched_state) : sched_frame q (upd_smpl_work did cid f q) :=
  frame_upd_swork _ _ _ _ (fun _ => rfl)

@[simp] theorem frame_emit_iff (p q : sched_state) (e : neon_event)
    (he : is_policy_issue e = false) :
    sched_frame p (emit e q) ↔ sched_frame p q := sched_frame_iff_of (frame_emit e q he)

@[simp] theorem frame_tick_iff (p q : sched_state) :
    sched_frame p (tick q) ↔ sched_frame p q := sched_frame_iff_of (frame_tick q)

@[simp] theorem frame_upd_smpl_task_iff (p q : sched_state) (a : Nat)
    (f : sampling_task_t → sampling_task_t) :
    sched_frame p (upd_smpl_task a f q) ↔ sched_frame p q :=
  sched_frame_iff_of (frame_upd_smpl_task a f q)

@[simp] theorem frame_upd_tslc_task_iff (p q : sched_state) (a : Nat)
    (f : timeslice_task_t → timeslice_task_t) :
    sched_frame p (upd_tslc_task a f q) ↔ sched_frame p q :=
  sched_frame_iff_of (frame_upd_tslc_task a f q)

@[simp] theorem frame_upd_smpl_dev_iff (p q : sched_state) (did : Nat)
    (f : sampling_dev_t → sampling_dev_t) :
    sched_frame p (upd_smpl_dev did f q) ↔ sched_frame p q :=
  sched_frame_iff_of (frame_upd_smpl_dev did f q)

@[simp] theorem frame_upd_tslc_dev_iff (p q : sched_state) (did : Nat)
    (f : timeslice_dev_t → timeslice_dev_t) :
    sched_frame p (upd_tslc_dev did f q) ↔ sched_frame p q :=
  sched_frame_iff_of (frame_upd_tslc_dev did f q)

@[simp] theorem frame_upd_smpl_work_iff (p q : sched_state) (did cid : Nat)
    (f : sampling_work_t → sampling_work_t) :
    sched_frame p (upd_smpl_work did cid f q) ↔ sched_frame p q :=
  sched_frame_iff_of (frame_upd_smpl_work did cid f q)

theorem frame_foldl {α : Type} (f : sched_state → α → sched_state)
    (h : ∀ q x, sched_frame q (f q x)) (l : List α) (p : sched_state) :
    sched_frame p (l.foldl f p) := by
  induction l generalizing p with
  | nil => simp
  | cons x rest ih => exact sched_frame_trans (h p x) (ih (f p x))

theorem frame_reengage_work (did arm i : Nat) (q : sched_state) :
    sched_frame q (reengage_work did arm i q) := by
  simp only [reengage_work]
  split_ifs <;> simp [is_policy_issue]

theorem frame_reengage_task (g : neon_global_t) (did st arm : Nat) (q : sched_state) :
    sched_frame q (neon_policy_reengage_task g did st arm q) := by
  unfold neon_policy_reengage_task
  exact frame_foldl _ (fun q i => frame_reengage_work did arm i q) _ _

@[simp] theorem frame_reengage_task_iff (p q : sched_state) (g : neon_global_t)
    (did st arm : Nat) :
    sched_frame p (neon_policy_reengage_task g did st arm q) ↔ sched_frame p q :=
  sched_frame_iff_of (frame_reengage_task g did st arm q)

theorem frame_token_turn (did rep : Nat) (q : sched_state) :
    sched_frame q (token_turn did rep q).2 := by
  unfold token_turn
  simp only []
  split_ifs <;> simp

theorem frame_token_loop (did : Nat) (fuel rep : Nat) (q : sched_state) :
    sched_frame q (token_loop did fuel rep q) := by
  induction fuel generalizing rep q with
  | zero => simp [token_loop]
  | succ n ih =>
    unfold token_loop
    simp only []
    split_ifs
    · exact sched_frame_trans (frame_token_turn did rep q) (ih _ _)
    · exact frame_token_turn did rep q

theorem frame_token_grant (g : neon_global_t) (did nh a : Nat) (q : sched_state) :
    sched_frame q (token_grant g did nh a q) := by
  unfold token_grant
  simp only []
  split_ifs <;> simp [is_policy_issue]

theorem frame_update_token_holder (g : neon_global_t) (did : Nat) (q : sched_state) :
    sched_frame q (update_token_holder g did q) := by
  unfold update_token_holder
  split_ifs
  · simp
  · exact sched_frame_trans (frame_token_loop did _ 0 q)
      (frame_foldl _ (fun q a => frame_token_grant g did _ a q) _ _)

@[simp] theorem frame_update_token_holder_iff (p q : sched_state) (g : neon_global_t)
    (did : Nat) : sched_frame p (update_token_holder g did q) ↔ sched_frame p q :=
  sched_frame_iff_of (frame_update_token_holder g did q)

theorem frame_token_timer_cancel (did : Nat) (q : sched_state) :
    sched_frame q (token_timer_cancel did q).2 := by
  simp [token_timer_cancel]

@[simp] theorem frame_token_timer_cancel_iff (p q : sched_state) (did : Nat) :
    sched_frame p (token_timer_cancel did q).2 ↔ sched_frame p q :=
  sched_frame_iff_of (frame_token_timer_cancel did q)

theorem frame_season_timer_cancel (did : Nat) (q : sched_state) :
    sched_frame q (season_timer_cancel did q).2 := by
  simp [season_timer_cancel]

@[simp] theorem frame_season_timer_cancel_iff (p q : sched_state) (did : Nat) :
    sched_frame p (season_timer_cancel did q).2 ↔ sched_frame p q :=
  sched_frame_iff_of (frame_season_timer_cancel did q)

theorem frame_sampling_wake (did : Nat) (q : sched_state) :
    sched_frame q (sampling_wake did q) := by
  simp [sampling_wake, is_policy_issue]

@[simp] theorem frame_sampling_wake_iff (p q : sched_state) (did : Nat) :
    sched_frame p (sampling_wake did q) ↔ sched_frame p q :=
  sched_frame_iff_of (frame_sampling_wake did q)

theorem frame_add_events (q : sched_state) (e : List neon_event)
    (he : ∀ x ∈ e, is_policy_issue x = false) :
    sched_frame q { q with events := q.events ++ e } := by
  have h : List.countP is_policy_issue e = 0 := by
    rw [List.countP_eq_zero]
    intro x hx
    simp [he x hx]
  simp [sched_frame, issue_count, h]

theorem frame_sampling_unblock_all (st : Nat) (q : sched_state) :
    sched_frame q (sampling_unblock_all st q) := by
  simp only [sampling_unblock_all]
  split_ifs
  · refine sched_frame_trans (frame_upd_smpl_task st _ q) (frame_add_events _ _ ?_)
    intro x hx
    rw [List.eq_of_mem_replicate hx]
    rfl
  · refine frame_add_events _ _ ?_
    intro x hx
    rw [List.eq_of_mem_replicate hx]
    rfl

@[simp] theorem frame_sampling_unblock_all_iff (p q : sched_state) (st : Nat) :
    sched_frame p (sampling_unblock_all st q) ↔ sched_frame p q :=
  sched_frame_iff_of (frame_sampling_unblock_all st q)

theorem frame_create (st : Nat) (q : sched_state) :
    sched_frame q (select_policy_create st q) := by
  unfold select_policy_create
  split <;> simp [create_fcfs, create_timeslice, create_sampling]

theorem frame_destroy (st : Nat) (q : sched_state) :
    sched_frame q (select_policy_destroy st q) := by
  simp only [select_policy_destroy, destroy_fcfs, destroy_timeslice, destroy_sampling]
  repeat' split
  all_goals simp [is_policy_issue]

theorem frame_start (g : neon_global_t) (did cid st : Nat) (q : sched_state) :
    sched_frame q (select_policy_start g did cid st q) := by
  simp only [select_policy_start, start_fcfs, start_timeslice, start_sampling]
  repeat' split
  all_goals simp [is_policy_issue]

theorem frame_stop (g : neon_global_t) (did cid st : Nat) (q : sched_state) :
    sched_frame q (select_policy_stop g did cid st q) := by
  simp only [select_policy_stop, stop_fcfs, stop_timeslice, stop_sampling]
  repeat' split
  all_goals simp [is_policy_issue]

theorem frame_issue (did cid st hb : Nat) (q : sched_state) :
    sched_frame q (select_policy_issue did cid st hb q) := by
  simp only [select_policy_issue, issue_fcfs, issue_timeslice, issue_sampling]
  repeat' split
  all_goals simp [is_policy_issue]

theorem frame_complete (g : neon_global_t) (did cid st : Nat) (q : sched_state) :
    sched_frame q (select_policy_complete g did cid st q) := by
  simp only [select_policy_complete, complete_fcfs, complete_timeslice, complete_sampling]
  repeat' split
  all_goals simp [is_policy_issue]

/-! ### Completion bookkeeping of the frontend -/

@[simp] theorem upd_stask_same (a : Nat) (f : sched_task_t → sched_task_t) (q : sched_state) :
    (upd_stask a f q).stask a = f (q.stask a) := by
  simp [upd_stask]

theorem upd_stask_other (a b : Nat) (f : sched_task_t → sched_task_t) (q : sched_state)
    (h : b ≠ a) : (upd_stask a f q).stask b = q.stask b := by
  simp [upd_stask, Function.update_noteq h]

@[simp] theorem upd_stask_sdev (a : Nat) (f : sched_task_t → sched_task_t) (q : sched_state) :
    (upd_stask a f q).sched_dev_array = q.sched_dev_array := rfl

@[simp] theorem upd_stask_policy (a : Nat) (f : sched_task_t → sched_task_t)
    (q : sched_state) : (upd_stask a f q).policy_id = q.policy_id := rfl

@[simp] theorem upd_stask_events (a : Nat) (f : sched_task_t → sched_task_t)
    (q : sched_state) : (upd_stask a f q).events = q.events := rfl

@[simp] theorem upd_sdev_stask (did : Nat) (f : sched_dev_t → sched_dev_t) (q : sched_state) :
    (upd_sdev did f q).stask = q.stask := rfl

@[simp] theorem upd_sdev_policy (did : Nat) (f : sched_dev_t → sched_dev_t) (q : sched_state) :
    (upd_sdev did f q).policy_id = q.policy_id := rfl

@[simp] theorem upd_sdev_events (did : Nat) (f : sched_dev_t → sched_dev_t) (q : sched_state) :
    (upd_sdev did f q).events = q.events := rfl

@[simp] theorem upd_sdev_same (did : Nat) (f : sched_dev_t → sched_dev_t) (q : sched_state) :
    (upd_sdev did f q).sched_dev_array did = f (q.sched_dev_array did) := by
  simp [upd_sdev]

theorem upd_sdev_other (did d : Nat) (f : sched_dev_t → sched_dev_t) (q : sched_state)
    (h : d ≠ did) : (upd_sdev did f q).sched_dev_array d = q.sched_dev_array d := by
  simp [upd_sdev, Function.update_noteq h]

@[simp] theorem upd_swork_stask (did cid : Nat) (f : sched_work_t → sched_work_t)
    (q : sched_state) : (upd_swork did cid f q).stask = q.stask := rfl

@[simp] theorem upd_swork_policy (did cid : Nat) (f : sched_work_t → sched_work_t)
    (q : sched_state) : (upd_swork did cid f q).policy_id = q.policy_id := rfl

@[simp] theorem upd_swork_events (did cid : Nat) (f : sched_work_t → sched_work_t)
    (q : sched_state) : (upd_swork did cid f q).events = q.events := rfl

@[simp] theorem upd_swork_list (did cid d : Nat) (f : sched_work_t → sched_work_t)
    (q : sched_state) :
    ((upd_swork did cid f q).sched_dev_array d).stask_list = (q.sched_dev_array d).stask_list := by
  by_cases h : d = did
  · subst h; simp [upd_swork]
  · simp [upd_swork, upd_sdev_other _ _ _ _ h]

@[simp] theorem upd_swork_same (did cid : Nat) (f : sched_work_t → sched_work_t)
    (q : sched_state) :
    ((upd_swork did cid f q).sched_dev_array did).swork_array cid
      = f ((q.sched_dev_array did).swork_array cid) := by
  simp [upd_swork]

theorem upd_swork_other (did cid d c : Nat) (f : sched_work_t → sched_work_t)
    (q : sched_state) (h : d ≠ did ∨ c ≠ cid) :
    ((upd_swork did cid f q).sched_dev_array d).swork_array c
      = (q.sched_dev_array d).swork_array c := by
  by_cases hd : d = did
  · subst hd
    have hc : c ≠ cid := by tauto
    simp [upd_swork, Function.update_noteq hc]
  · simp [upd_swork, upd_sdev_other _ _ _ _ hd]

@[simp] theorem tick_stask (q : sched_state) : (tick q).stask = q.stask := rfl
@[simp] theorem tick_sdev (q : sched_state) : (tick q).sched_dev_array = q.sched_dev_array := rfl
@[simp] theorem tick_policy (q : sched_state) : (tick q).policy_id = q.policy_id := rfl
@[simp] theorem tick_events (q : sched_state) : (tick q).events = q.events := rfl
@[simp] theorem emit_stask (e : neon_event) (q : sched_state) : (emit e q).stask = q.stask := rfl
@[simp] theorem emit_sdev (e : neon_event) (q : sched_state) :
    (emit e q).sched_dev_array = q.sched_dev_array := rfl
@[simp] theorem emit_policy (e : neon_event) (q : sched_state) :
    (emit e q).policy_id = q.policy_id := rfl
@[simp] theorem emit_events (e : neon_event) (q : sched_state) :
    (emit e q).events = q.events ++ [e] := rfl

/-- The state of the scheduler's data in `neon_policy_complete` right before
the policy's hook runs, for the task at address `st`. -/
theorem neon_policy_complete_core (g : neon_global_t) (did cid pid : Nat) (p : sched_state)
    (h : find_stask p.stask pid (p.sched_dev_array did).stask_list ≠ 0) :
    ∀ st, st = find_stask p.stask pid (p.sched_dev_array did).stask_list →
    ∀ d, d = (if (p.stask st).bmp_issue2comp cid = true then
        elapsed_usec (getnstimeofday p) ((p.sched_dev_array did).swork_array cid).issue_ts
      else 0) →
    task_core ((neon_policy_complete g did cid pid p).stask st)
      = ((p.stask st).pid, (p.stask st).bmp_start2stop,
          clear_bit cid (p.stask st).bmp_issue2comp, (p.stask st).nrqst,
          uadd (p.stask st).exe_dt (uadd ((p.sched_dev_array did).swork_array cid).exe_dt d),
          uadd (p.stask st).wait_dt ((p.sched_dev_array did).swork_array cid).wait_dt) ∧
    (∀ a, a ≠ st → task_core ((neon_policy_complete g did cid pid p).stask a)
      = task_core (p.stask a)) ∧
    work_core (((neon_policy_complete g did cid pid p).sched_dev_array did).swork_array cid)
      = work_core { (p.sched_dev_array did).swork_array cid with
          exe_dt := uadd ((p.sched_dev_array did).swork_array cid).exe_dt d } := by
  intro st hst d hd
  rw [← hst] at h
  unfold neon_policy_complete
  simp only [← hst, if_neg h]
  by_cases hbit : (p.stask st).bmp_issue2comp cid = true
  · simp only [test_bit, hbit, if_true] at hd ⊢
    refine ⟨?_, ?_, ?_⟩
    · rw [(frame_complete g did cid st _).1 st]
      simp [task_core, hd]
    · intro a ha
      rw [(frame_complete g did cid st _).1 a]
      simp [task_core, upd_stask_other _ _ _ _ ha]
    · rw [(frame_complete g did cid st _).2.2.2.1 did cid]
      simp [work_core, hd]
  · simp only [test_bit, hbit] at hd ⊢
    have hfalse : (p.stask st).bmp_issue2comp cid = false := by simpa using hbit
    have hclr : clear_bit cid (p.stask st).bmp_issue2comp = (p.stask st).bmp_issue2comp := by
      unfold clear_bit; rw [← hfalse]; exact Function.update_eq_self _ _
    refine ⟨?_, ?_, ?_⟩
    · rw [(frame_complete g did cid st _).1 st]
      simp [task_core, hd, hclr]
    · intro a ha
      rw [(frame_complete g did cid st _).1 a]
      simp [task_core, upd_stask_other _ _ _ _ ha]
    · rw [(frame_complete g did cid st _).2.2.2.1 did cid]
      simp [work_core, hd]

theorem neon_policy_complete_issue_bit (g : neon_global_t) (did cid pid : Nat) (p : sched_state)
    (h : find_stask p.stask pid (p.sched_dev_array did).stask_list ≠ 0) :
    ((neon_policy_complete g did cid pid p).stask
      (find_stask p.stask pid (p.sched_dev_array did).stask_list)).bmp_issue2comp cid = false := by
  have h1 := (neon_policy_complete_core g did cid pid p h _ rfl _ rfl).1
  have h2 := congrArg (fun x => x.2.2.1 cid) h1
  simpa [task_core, clear_bit] using h2

/-- C2 (counterexample): a started work whose request was issued by
`neon_policy_submit` while the live bit of its channel is still clear. A
SchedTask for pid 42 exists and channel 3 is started, yet after
`neon_work_complete(0, 3, 42)` the task's issue2comp bit for channel 3 is
still set: the call returned at the live-bit test. -/
theorem neon_work_complete_keeps_issue_bit :
    find_stask example_issued.stask 42 (example_issued.sched_dev_array 0).stask_list = 500 ∧
    (example_issued.stask 500).bmp_start2stop 3 = true ∧
    ((example_state NEON_POLICY_FCFS 7).neon_global.dev 0).bmp_sub2comp 3 = false ∧
    ((neon_work_complete 0 3 42
        { example_state NEON_POLICY_FCFS 7 with sched := example_issued }).sched.stask
      500).bmp_issue2comp 3 = true := by
  decide!

/-- C2 (amended): in every state in which a SchedTask for `pid` exists on the
device, after `neon_work_complete(did, cid, pid)` the live bit of `cid` is 0,
and the task's issue2comp bit for `cid` is 0 provided the live bit was set when
the call was made. -/
theorem neon_work_complete_clears (s : neon_state) (did cid pid : Nat)
    (htask : find_stask s.sched.stask pid (s.sched.sched_dev_array did).stask_list ≠ 0) :
    ((neon_work_complete did cid pid s).neon_global.dev did).bmp_sub2comp cid = false ∧
    ((s.neon_global.dev did).bmp_sub2comp cid = true →
      ((neon_work_complete did cid pid s).sched.stask
        (find_stask s.sched.stask pid (s.sched.sched_dev_array did).stask_list)).bmp_issue2comp
          cid = false) := by
  refine ⟨neon_work_complete_live_clear s did cid pid, ?_⟩
  intro hlive
  have h := neon_policy_complete_issue_bit
    (upd_dev did (fun d => { d with bmp_sub2comp := clear_bit cid d.bmp_sub2comp }) s.neon_global)
    did cid pid s.sched htask
  unfold neon_work_complete
  simp only [test_bit, hlive, Bool.true_eq_false, if_false]
  split_ifs <;> exact h

/-- Witness for C2 (amended): the state after `neon_work_submit` of the work
at address 100 under FCFS. -/
theorem neon_work_complete_clears_witness :
    find_stask (neon_work_submit 100 1
        (neon_work_start 500 true 100 (example_state NEON_POLICY_FCFS 7)).2).2.sched.stask 42
      ((neon_work_submit 100 1
        (neon_work_start 500 true 100 (example_state NEON_POLICY_FCFS 7)).2).2.sched.sched_dev_array
          0).stask_list ≠ 0 ∧
    ((neon_work_complete 0 3 42 (neon_work_submit 100 1
        (neon_work_start 500 true 100 (example_state NEON_POLICY_FCFS 7)).2).2).neon_global.dev
      0).bmp_sub2comp 3 = false ∧
    ((neon_work_complete 0 3 42 (neon_work_submit 100 1
        (neon_work_start 500 true 100 (example_state NEON_POLICY_FCFS 7)).2).2).sched.stask
      500).bmp_issue2comp 3 = false :=
  ⟨by decide!,
   (neon_work_complete_clears (neon_work_submit 100 1
        (neon_work_start 500 true 100 (example_state NEON_POLICY_FCFS 7)).2).2 0 3 42
      (by decide!)).1,
   (neon_work_complete_clears (neon_work_submit 100 1
        (neon_work_start 500 true 100 (example_state NEON_POLICY_FCFS 7)).2).2 0 3 42
      (by decide!)).2 (by decide!)⟩

/-- What `neon_policy_complete` adds to the totals: with `d` the microseconds
since `issue_ts` when the issue2comp bit is set and `0` otherwise, the work's
`exe_dt` grows by `d`, while the task's `exe_dt` grows by the work's whole new
`exe_dt` and the task's `wait_dt` by the work's whole `wait_dt`. -/
theorem neon_policy_complete_totals (g : neon_global_t) (did cid pid : Nat) (p : sched_state)
    (h : find_stask p.stask pid (p.sched_dev_array did).stask_list ≠ 0) :
    ∀ st, st = find_stask p.stask pid (p.sched_dev_array did).stask_list →
    ∀ d, d = (if (p.stask st).bmp_issue2comp cid = true then
        elapsed_usec (getnstimeofday p) ((p.sched_dev_array did).swork_array cid).issue_ts
      else 0) →
    (((neon_policy_complete g did cid pid p).sched_dev_array did).swork_array cid).exe_dt
      = uadd ((p.sched_dev_array did).swork_array cid).exe_dt d ∧
    ((neon_policy_complete g did cid pid p).stask st).exe_dt
      = uadd (p.stask st).exe_dt (uadd ((p.sched_dev_array did).swork_array cid).exe_dt d) ∧
    ((neon_policy_complete g did cid pid p).stask st).wait_dt
      = uadd (p.stask st).wait_dt ((p.sched_dev_array did).swork_array cid).wait_dt := by
  intro st hst d hd
  obtain ⟨h1, -, h3⟩ := neon_policy_complete_core g did cid pid p h st hst d hd
  refine ⟨?_, ?_, ?_⟩
  · simpa [work_core] using congrArg (fun x => x.2.2.2.2.1) h3
  · simpa [task_core] using congrArg (fun x => x.2.2.2.2.1) h1
  · simpa [task_core] using congrArg (fun x => x.2.2.2.2.2) h1

/-- C6 (the code at the failing input): a second request on channel 3 is
issued at 100 microseconds and completes at 150, so `d = 50`. The work's
`exe_dt` goes from 50 to 100 and the bit is cleared, but the task's `exe_dt`
goes from 50 to 150: it grows by the work's total 100, not by `d`. -/
theorem neon_policy_complete_task_total_overcounts :
    (example_issued_again.stask 500).bmp_issue2comp 3 = true ∧
    elapsed_usec (getnstimeofday example_issued_again)
      ((example_issued_again.sched_dev_array 0).swork_array 3).issue_ts = 50 ∧
    ((example_issued_again.sched_dev_array 0).swork_array 3).exe_dt = 50 ∧
    (example_issued_again.stask 500).exe_dt = 50 ∧
    (((neon_policy_complete example_global 0 3 42 example_issued_again).sched_dev_array
      0).swork_array 3).exe_dt = 100 ∧
    ((neon_policy_complete example_global 0 3 42 example_issued_again).stask 500).exe_dt = 150 ∧
    ((neon_policy_complete example_global 0 3 42 example_issued_again).stask
      500).bmp_issue2comp 3 = false := by
  decide!

/-- C7 (the code at the failing input): `neon_policy_complete` called again
right after a first complete, the issue2comp bit being clear, under FCFS. The
work's `exe_dt` stays 50, but the task's `exe_dt` goes from 50 to 100. -/
theorem neon_policy_complete_again_adds :
    example_completed.policy_id = NEON_POLICY_FCFS ∧
    (example_completed.stask 500).bmp_issue2comp 3 = false ∧
    ((example_completed.sched_dev_array 0).swork_array 3).exe_dt = 50 ∧
    (example_completed.stask 500).exe_dt = 50 ∧
    (((neon_policy_complete example_global 0 3 42 example_completed).sched_dev_array
      0).swork_array 3).exe_dt = 50 ∧
    ((neon_policy_complete example_global 0 3 42 example_completed).stask 500).exe_dt = 100 := by
  decide!

/-! ### Submit and issue -/

theorem submit_frame_of_frame {p q : sched_state} (h : sched_frame p q) : submit_frame p q := by
  obtain ⟨a1, a2, a3, a4, a5, a6, a7, a8, a9, a10, a11⟩ := h
  refine ⟨fun a => ?_, a2, a3, a4, a5, a6, a7, a8, a9, a10, a11⟩
  have := a1 a
  simp only [task_core, Prod.mk.injEq] at this
  simp [forget_issue, task_core, this]

@[simp] theorem submit_frame_refl (p : sched_state) : submit_frame p p :=
  sched_frame_refl _

theorem submit_frame_trans {p q r : sched_state} (h1 : submit_frame p q)
    (h2 : submit_frame q r) : submit_frame p r :=
  sched_frame_trans h1 h2

theorem submit_frame_iff_of {p q q' : sched_state} (h : submit_frame q q') :
    submit_frame p q' ↔ submit_frame p q :=
  sched_frame_iff_of h

theorem submit_frame_clear (st id : Nat) (q : sched_state) :
    submit_frame q (upd_stask st
      (fun t => { t with bmp_issue2comp := clear_bit id t.bmp_issue2comp }) q) := by
  refine ⟨fun a => ?_, ?_⟩
  · by_cases ha : a = st
    · subst ha; simp [forget_issue, task_core, upd_stask]
    · simp [forget_issue, task_core, upd_stask, Function.update_noteq ha]
  · simp [forget_issue, upd_stask]

@[simp] theorem submit_frame_clear_iff (p q : sched_state) (st id : Nat) :
    submit_frame p (upd_stask st
      (fun t => { t with bmp_issue2comp := clear_bit id t.bmp_issue2comp }) q)
      ↔ submit_frame p q :=
  submit_frame_iff_of (submit_frame_clear st id q)

@[simp] theorem submit_frame_emit_iff (p q : sched_state) (e : neon_event)
    (he : is_policy_issue e = false) : submit_frame p (emit e q) ↔ submit_frame p q :=
  submit_frame_iff_of (submit_frame_of_frame (frame_emit e q he))

@[simp] theorem submit_frame_smpl_task_iff (p q : sched_state) (a : Nat)
    (f : sampling_task_t → sampling_task_t) :
    submit_frame p (upd_smpl_task a f q) ↔ submit_frame p q :=
  submit_frame_iff_of (submit_frame_of_frame (frame_upd_smpl_task a f q))

@[simp] theorem submit_frame_tslc_task_iff (p q : sched_state) (a : Nat)
    (f : timeslice_task_t → timeslice_task_t) :
    submit_frame p (upd_tslc_task a f q) ↔ submit_frame p q :=
  submit_frame_iff_of (submit_frame_of_frame (frame_upd_tslc_task a f q))

@[simp] theorem submit_frame_smpl_work_iff (p q : sched_state) (did cid : Nat)
    (f : sampling_work_t → sampling_work_t) :
    submit_frame p (upd_smpl_work did cid f q) ↔ submit_frame p q :=
  submit_frame_iff_of (submit_frame_of_frame (frame_upd_smpl_work did cid f q))

@[simp] theorem submit_frame_wake_iff (p q : sched_state) (did : Nat) :
    submit_frame p (sampling_wake did q) ↔ submit_frame p q :=
  submit_frame_iff_of (submit_frame_of_frame (frame_sampling_wake did q))

@[simp] theorem submit_frame_season_cancel_iff (p q : sched_state) (did : Nat) :
    submit_frame p (season_timer_cancel did q).2 ↔ submit_frame p q :=
  submit_frame_iff_of (submit_frame_of_frame (frame_season_timer_cancel did q))

/-- Every submit hook ends in one call of `neon_policy_issue`, on a state that
differs from the hook's at most by policy entries, events other than issues and
issue2comp bits; the FCFS hook calls it at once with `had_blocked = 0`. -/
theorem select_policy_submit_issue (work : Nat → neon_work_t) (did cid st : Nat)
    (p : sched_state) :
    ∃ hb pre, select_policy_submit work did cid st p
        = hook_outcome (neon_policy_issue work did cid st hb pre) ∧
      submit_frame p pre ∧ (p.policy_id = NEON_POLICY_FCFS → hb = 0 ∧ pre = p) := by
  simp only [select_policy_submit, submit_fcfs, submit_timeslice, submit_sampling]
  repeat' split
  all_goals refine ⟨_, _, rfl, ?_, ?_⟩
  all_goals first
    | (intro h; simp_all)
    | simp [is_policy_issue]

@[simp] theorem upd_smpl_task_events (a : Nat) (f : sampling_task_t → sampling_task_t)
    (q : sched_state) : (upd_smpl_task a f q).events = q.events := rfl

@[simp] theorem upd_smpl_work_events (did cid : Nat) (f : sampling_work_t → sampling_work_t)
    (q : sched_state) : (upd_smpl_work did cid f q).events = q.events := rfl

theorem select_policy_issue_events (did cid st hb : Nat) (q : sched_state) :
    (select_policy_issue did cid st hb q).events = q.events := by
  simp only [select_policy_issue, issue_fcfs, issue_timeslice, issue_sampling]
  repeat' split
  all_goals simp

/-- The tail of `neon_policy_issue`: the policy's issue hook, then the set of
the issue2comp bit. -/
theorem neon_policy_issue_tail (did cid st hb : Nat) (m : sched_state) :
    ∀ id, id = (((select_policy_issue did cid st hb m).sched_dev_array did).swork_array cid).id →
    ∀ q', q' = upd_stask st (fun t => { t with bmp_issue2comp := set_bit id t.bmp_issue2comp })
      (select_policy_issue did cid st hb m) →
    q'.events = m.events ∧
    (q'.stask st).bmp_issue2comp ((m.sched_dev_array did).swork_array cid).id = true ∧
    (∀ a, (q'.stask a).nrqst = (m.stask a).nrqst) ∧
    work_core ((q'.sched_dev_array did).swork_array cid)
      = work_core ((m.sched_dev_array did).swork_array cid) := by
  intro id hidd q' hq'
  obtain ⟨h1, -, -, h4, -⟩ := frame_issue did cid st hb m
  have hid : (((select_policy_issue did cid st hb m).sched_dev_array did).swork_array cid).id
      = ((m.sched_dev_array did).swork_array cid).id := by
    simpa [work_core] using congrArg (fun x => x.1) (h4 did cid)
  subst hq' hidd
  refine ⟨?_, ?_, ?_, ?_⟩
  · simp [select_policy_issue_events]
  · simp [hid, set_bit]
  · intro a
    have ha : ((select_policy_issue did cid st hb m).stask a).nrqst = (m.stask a).nrqst := by
      simpa [task_core] using congrArg (fun x => x.2.2.2.1) (h1 a)
    by_cases hst : a = st
    · subst hst; simp [ha]
    · simp [upd_stask_other _ _ _ _ hst, ha]
  · simpa using h4 did cid

/-- The scheduler's data when `neon_policy_issue` reaches the read of
`sched_work->neon_work`: the call is recorded and the times of the issue are
set. -/
theorem neon_policy_issue_head (work : Nat → neon_work_t) (did cid st hb : Nat)
    (q : sched_state) :
    ∃ m : sched_state,
      (((q.sched_dev_array did).swork_array cid).neon_work = 0 →
        neon_policy_issue work did cid st hb q = (none, m)) ∧
      (((q.sched_dev_array did).swork_array cid).neon_work ≠ 0 →
        ∀ m', m' = upd_swork did cid (fun w =>
          { w with part_of_call := (work w.neon_work).part_of_call }) m →
        ∀ id, id = (((select_policy_issue did cid st hb m').sched_dev_array did).swork_array
          cid).id →
        neon_policy_issue work did cid st hb q =
          (some 0, upd_stask st (fun t => { t with bmp_issue2comp := set_bit id t.bmp_issue2comp })
            (select_policy_issue did cid st hb m'))) ∧
      m.events = q.events ++ [.policy_issue did cid st hb] ∧
      (∀ a, (m.stask a).nrqst = (q.stask a).nrqst) ∧
      (hb = 0 → m.stask = q.stask) ∧
      ((m.sched_dev_array did).swork_array cid).id
        = ((q.sched_dev_array did).swork_array cid).id ∧
      ((m.sched_dev_array did).swork_array cid).nrqst
        = ((q.sched_dev_array did).swork_array cid).nrqst ∧
      ((m.sched_dev_array did).swork_array cid).submit_ts
        = ((q.sched_dev_array did).swork_array cid).submit_ts ∧
      (hb = 0 →
        ((m.sched_dev_array did).swork_array cid).issue_ts
          = ((q.sched_dev_array did).swork_array cid).submit_ts ∧
        ((m.sched_dev_array did).swork_array cid).wait_dt
          = ((q.sched_dev_array did).swork_array cid).wait_dt) := by
  by_cases h0 : hb = 0
  · subst h0
    refine ⟨upd_swork did cid (fun w => { w with issue_ts := w.submit_ts })
      (emit (.policy_issue did cid st 0) q), fun hw => ?_, fun hw => ?_, ?_, ?_, ?_, ?_, ?_, ?_, ?_⟩
    · simp [neon_policy_issue, hw]
    · intro m' hm' id hid
      subst hm' hid
      simp [neon_policy_issue, hw]
    all_goals simp [emit]
  · obtain ⟨ts, hts⟩ : ∃ ts, ts = getnstimeofday q := ⟨_, rfl⟩
    obtain ⟨dt, hdt⟩ : ∃ dt, dt = elapsed_usec ts
      ((q.sched_dev_array did).swork_array cid).submit_ts := ⟨_, rfl⟩
    obtain ⟨id, hid⟩ : ∃ id, id = ((q.sched_dev_array did).swork_array cid).id := ⟨_, rfl⟩
    refine ⟨upd_swork did cid (fun w => { w with issue_ts := ts, wait_dt := uadd w.wait_dt dt })
      (tick (upd_stask st (fun t => { t with bmp_issue2comp := set_bit id t.bmp_issue2comp })
        (emit (.policy_issue did cid st hb) q))),
      fun hw => ?_, fun hw => ?_, ?_, ?_, ?_, ?_, ?_, ?_, ?_⟩
    · subst hts hdt hid
      simp [neon_policy_issue, hw, h0, getnstimeofday, emit]
      rfl
    · intro m' hm' id' hid'
      subst hm' hid' hts hdt hid
      simp [neon_policy_issue, hw, h0, getnstimeofday, emit]
      rfl
    · simp [emit]
    · intro a
      by_cases hst : a = st
      · subst hst; simp
      · simp [upd_stask_other _ _ _ _ hst]
    · intro h; exact absurd h h0
    · simp
    · simp
    · simp
    · intro h; exact absurd h h0

/-- What one call of `neon_policy_issue` does to the frontend's members: it
returns 0 with the issue2comp bit `sched_work->id` set when the slot holds a
work, and faults when it holds none. -/
theorem neon_policy_issue_core (work : Nat → neon_work_t) (did cid st hb : Nat)
    (q : sched_state) :
    (((q.sched_dev_array did).swork_array cid).neon_work ≠ 0 →
      (neon_policy_issue work did cid st hb q).1 = some 0 ∧
      ((neon_policy_issue work did cid st hb q).2.stask st).bmp_issue2comp
        ((q.sched_dev_array did).swork_array cid).id = true) ∧
    (((q.sched_dev_array did).swork_array cid).neon_work = 0 →
      (neon_policy_issue work did cid st hb q).1 = none) ∧
    issue_count (neon_policy_issue work did cid st hb q).2.events = issue_count q.events + 1 ∧
    (∀ a, ((neon_policy_issue work did cid st hb q).2.stask a).nrqst = (q.stask a).nrqst) ∧
    (((neon_policy_issue work did cid st hb q).2.sched_dev_array did).swork_array cid).nrqst
      = ((q.sched_dev_array did).swork_array cid).nrqst ∧
    (((neon_policy_issue work did cid st hb q).2.sched_dev_array did).swork_array cid).submit_ts
      = ((q.sched_dev_array did).swork_array cid).submit_ts ∧
    (hb = 0 →
      (neon_policy_issue work did cid st hb q).2.events
        = q.events ++ [.policy_issue did cid st 0] ∧
      (((neon_policy_issue work did cid st hb q).2.sched_dev_array did).swork_array cid).issue_ts
        = ((q.sched_dev_array did).swork_array cid).submit_ts ∧
      (((neon_policy_issue work did cid st hb q).2.sched_dev_array did).swork_array cid).wait_dt
        = ((q.sched_dev_array did).swork_array cid).wait_dt) := by
  obtain ⟨m, hn, hs, m1, m2, -, m4, m5, m6, m7⟩ := neon_policy_issue_head work did cid st hb q
  by_cases hw : ((q.sched_dev_array did).swork_array cid).neon_work = 0
  · rw [hn hw]
    refine ⟨fun h => absurd hw h, fun _ => rfl, ?_, m2, m5, m6, fun h => ?_⟩
    · simp [m1, issue_count, is_policy_issue]
    · subst h; exact ⟨m1, m7 rfl⟩
  · rw [hs hw _ rfl _ rfl]
    obtain ⟨e1, e2, e3, e4⟩ := neon_policy_issue_tail did cid st hb
      (upd_swork did cid (fun w =>
        { w with part_of_call := (work w.neon_work).part_of_call }) m) _ rfl _ rfl
    refine ⟨fun _ => ⟨rfl, ?_⟩, fun h => absurd h hw, ?_, ?_, ?_, ?_, fun h => ?_⟩
    · simpa [m4] using e2
    · dsimp only; rw [e1]; simp [m1, issue_count, is_policy_issue]
    · intro a; dsimp only; rw [e3 a]; simpa using m2 a
    · have := congrArg (fun x => x.2.2.2.2.2.2.1) e4; simpa [work_core, m5] using this
    · have := congrArg (fun x => x.2.2.1) e4; simpa [work_core, m6] using this
    · subst h
      refine ⟨by dsimp only; rw [e1]; simpa using m1, ?_, ?_⟩
      · have := congrArg (fun x => x.2.2.2.1) e4; simpa [work_core, (m7 rfl).1] using this
      · have := congrArg (fun x => x.2.2.2.2.2.1) e4; simpa [work_core, (m7 rfl).2] using this

/-- The slot that `neon_policy_start` leaves when it returns 0: it carries the
channel's id, the pid and the address of the work. -/
theorem neon_policy_start_slot (g : neon_global_t) (work : Nat → neon_work_t) (addr : Nat)
    (bmp_ok : Bool) (neon_work : Nat) (p : sched_state)
    (h : (neon_policy_start g work addr bmp_ok neon_work p).1 = 0) :
    (((neon_policy_start g work addr bmp_ok neon_work p).2.sched_dev_array
      (work neon_work).did).swork_array (work neon_work).cid).id = (work neon_work).cid ∧
    (((neon_policy_start g work addr bmp_ok neon_work p).2.sched_dev_array
      (work neon_work).did).swork_array (work neon_work).cid).pid = (work neon_work).neon_task ∧
    (((neon_policy_start g work addr bmp_ok neon_work p).2.sched_dev_array
      (work neon_work).did).swork_array (work neon_work).cid).neon_work = neon_work := by
  have hc : ∀ (did cid st : Nat) (m : sched_state),
      work_core (((upd_stask st
          (fun t => { t with bmp_start2stop := set_bit cid t.bmp_start2stop })
          (select_policy_start g did cid st m)).sched_dev_array did).swork_array cid)
        = work_core ((m.sched_dev_array did).swork_array cid) := by
    intro did cid st m
    simpa using (frame_start g did cid st m).2.2.2.1 did cid
  have key : ∀ (did cid st : Nat) (m : sched_state) (c n t : Nat),
      ((m.sched_dev_array did).swork_array cid).id = c →
      ((m.sched_dev_array did).swork_array cid).pid = t →
      ((m.sched_dev_array did).swork_array cid).neon_work = n →
      (((upd_stask st
          (fun t => { t with bmp_start2stop := set_bit cid t.bmp_start2stop })
          (select_policy_start g did cid st m)).sched_dev_array did).swork_array cid).id = c ∧
      (((upd_stask st
          (fun t => { t with bmp_start2stop := set_bit cid t.bmp_start2stop })
          (select_policy_start g did cid st m)).sched_dev_array did).swork_array cid).pid = t ∧
      (((upd_stask st
          (fun t => { t with bmp_start2stop := set_bit cid t.bmp_start2stop })
          (select_policy_start g did cid st m)).sched_dev_array did).swork_array cid).neon_work
        = n := by
    intro did cid st m c n t h1 h2 h3
    have := hc did cid st m
    simp only [work_core, Prod.mk.injEq] at this
    obtain ⟨a1, a2, -, -, -, -, -, -, a9⟩ := this
    exact ⟨a1.trans h1, a2.trans h2, a9.trans h3⟩
  unfold neon_policy_start at h ⊢
  dsimp only at h ⊢
  split_ifs at h ⊢
  all_goals first
    | (simp at h; done)
    | (dsimp only; refine key _ _ _ _ _ _ _ ?_ ?_ ?_ <;> simp)

/-- Counterexample for C5: under FCFS, once the work at address 100 (process
42, channel 3) is started, a SchedTask for process 42 exists on device 0 while
the slot of channel 5 holds no work. The submit of the work at address 102
(process 42, channel 5) calls `neon_policy_issue` once, which faults at the
read of `sched_work->neon_work`: the call does not return 0 and the task's
issue2comp bit for channel 5 is not set. -/
theorem neon_policy_submit_unstarted_faults :
    find_stask (example_started NEON_POLICY_FCFS).stask (example_sampling_works 102).neon_task
      ((example_started NEON_POLICY_FCFS).sched_dev_array
        (example_sampling_works 102).did).stask_list = 500 ∧
    (example_sampling_works 102).did = 0 ∧ (example_sampling_works 102).cid = 5 ∧
    (((example_started NEON_POLICY_FCFS).sched_dev_array 0).swork_array 5).id = 0 ∧
    (((example_started NEON_POLICY_FCFS).sched_dev_array 0).swork_array 5).neon_work = 0 ∧
    (neon_policy_submit example_sampling_works 102 (example_started NEON_POLICY_FCFS)).1
      = none ∧
    (neon_policy_submit example_sampling_works 102 (example_started NEON_POLICY_FCFS)).2.events
      = [.policy_issue 0 5 500 0] ∧
    ((neon_policy_submit example_sampling_works 102
      (example_started NEON_POLICY_FCFS)).2.stask 500).bmp_issue2comp 5 = false := by
  decide!

/-- C5, amended: for each of the three policies and every scheduler state in
which a SchedTask for the work's pid exists and the work is started on its
channel (the channel's slot carries the channel's id and holds a work, as
`neon_policy_start` leaves it), one call of `neon_policy_submit` returns 0
and calls the frontend `neon_policy_issue` exactly once; on return the task's
issue2comp bit for the channel is set and the work's and the task's `nrqst`
have each grown by 1 (as `unsigned long`). Under FCFS the one event raised is
the issue with `had_blocked = 0`, `issue_ts = submit_ts`, the time read at
submit, and the work's `wait_dt` is unchanged. -/
theorem neon_policy_submit_issues_once (work : Nat → neon_work_t) (neon_work : Nat)
    (p : sched_state)
    (htask : find_stask p.stask (work neon_work).neon_task
      (p.sched_dev_array (work neon_work).did).stask_list ≠ 0)
    (hslot : ((p.sched_dev_array (work neon_work).did).swork_array (work neon_work).cid).id
      = (work neon_work).cid)
    (hwork : ((p.sched_dev_array (work neon_work).did).swork_array
      (work neon_work).cid).neon_work ≠ 0) :
    (neon_policy_submit work neon_work p).1 = some 0 ∧
    issue_count (neon_policy_submit work neon_work p).2.events = issue_count p.events + 1 ∧
    ((neon_policy_submit work neon_work p).2.stask
      (find_stask p.stask (work neon_work).neon_task
        (p.sched_dev_array (work neon_work).did).stask_list)).bmp_issue2comp
        (work neon_work).cid = true ∧
    (((neon_policy_submit work neon_work p).2.sched_dev_array (work neon_work).did).swork_array
        (work neon_work).cid).nrqst
      = u64 (((p.sched_dev_array (work neon_work).did).swork_array (work neon_work).cid).nrqst
          + 1) ∧
    ((neon_policy_submit work neon_work p).2.stask
      (find_stask p.stask (work neon_work).neon_task
        (p.sched_dev_array (work neon_work).did).stask_list)).nrqst
      = u64 ((p.stask (find_stask p.stask (work neon_work).neon_task
          (p.sched_dev_array (work neon_work).did).stask_list)).nrqst + 1) ∧
    (p.policy_id = NEON_POLICY_FCFS →
      (neon_policy_submit work neon_work p).2.events
        = p.events ++ [.policy_issue (work neon_work).did (work neon_work).cid
            (find_stask p.stask (work neon_work).neon_task
              (p.sched_dev_array (work neon_work).did).stask_list) 0] ∧
      (((neon_policy_submit work neon_work p).2.sched_dev_array
          (work neon_work).did).swork_array (work neon_work).cid).issue_ts
        = (((neon_policy_submit work neon_work p).2.sched_dev_array
          (work neon_work).did).swork_array (work neon_work).cid).submit_ts ∧
      (((neon_policy_submit work neon_work p).2.sched_dev_array
          (work neon_work).did).swork_array (work neon_work).cid).submit_ts
        = getnstimeofday p ∧
      (((neon_policy_submit work neon_work p).2.sched_dev_array
          (work neon_work).did).swork_array (work neon_work).cid).wait_dt
        = ((p.sched_dev_array (work neon_work).did).swork_array
          (work neon_work).cid).wait_dt) := by
  generalize hdid : (work neon_work).did = did at *
  generalize hcid : (work neon_work).cid = cid at *
  generalize hpid : (work neon_work).neon_task = pid at *
  generalize hst : find_stask p.stask pid (p.sched_dev_array did).stask_list = st at *
  unfold neon_policy_submit
  simp only [hdid, hcid, hpid, hst, if_neg htask]
  generalize hp1 : upd_stask st (fun t => { t with nrqst := u64 (t.nrqst + 1) })
    (upd_swork did cid (fun w =>
      { w with
        exe_dt := uadd w.exe_dt
          (if test_bit cid ((tick p).stask st).bmp_issue2comp = true then
            elapsed_usec (getnstimeofday p) (((tick p).sched_dev_array did).swork_array cid).issue_ts
          else 0),
        nrqst := u64 (w.nrqst + 1),
        submit_ts := getnstimeofday p }) (tick p)) = p1
  have f1 : (p1.stask st).nrqst = u64 ((p.stask st).nrqst + 1) := by
    rw [← hp1]; simp
  have f2 : ((p1.sched_dev_array did).swork_array cid).nrqst
      = u64 (((p.sched_dev_array did).swork_array cid).nrqst + 1) := by
    rw [← hp1]; simp
  have f3 : ((p1.sched_dev_array did).swork_array cid).id = cid := by
    rw [← hp1]; simpa using hslot
  have f4 : ((p1.sched_dev_array did).swork_array cid).submit_ts = getnstimeofday p := by
    rw [← hp1]; simp
  have f5 : ((p1.sched_dev_array did).swork_array cid).wait_dt
      = ((p.sched_dev_array did).swork_array cid).wait_dt := by
    rw [← hp1]; simp
  have f6 : p1.events = p.events := by
    rw [← hp1]; simp
  have f7 : p1.policy_id = p.policy_id := by
    rw [← hp1]; simp
  have f9 : ((p1.sched_dev_array did).swork_array cid).neon_work ≠ 0 := by
    rw [← hp1]; simpa using hwork
  obtain ⟨hb, pre, heq, hsf, hfcfs⟩ := select_policy_submit_issue work did cid st p1
  rw [heq]
  obtain ⟨i0, -, i2, i4, i5, i6, i7⟩ := neon_policy_issue_core work did cid st hb pre
  obtain ⟨s1, -, -, s4, -, -, -, -, -, -, s11⟩ := hsf
  have g1 : (pre.stask st).nrqst = (p1.stask st).nrqst := by
    simpa [forget_issue, task_core] using congrArg (fun x => x.2.2.2.1) (s1 st)
  have g4 := s4 did cid
  simp only [forget_issue, work_core, Prod.mk.injEq] at g4
  obtain ⟨w1, -, w3, -, -, -, w7, -, w9⟩ := g4
  have g11 : issue_count pre.events = issue_count p1.events := by
    simpa [forget_issue] using s11
  obtain ⟨i1, i3⟩ := i0 (by rw [w9]; exact f9)
  refine ⟨by simp [i1], ?_, ?_, ?_, ?_, ?_⟩
  · rw [hook_outcome_snd, i2, g11, f6]
  · rw [w1, f3] at i3; exact i3
  · rw [hook_outcome_snd, i5, w7, f2]
  · rw [hook_outcome_snd, i4 st, g1, f1]
  · intro hpol
    obtain ⟨rfl, rfl⟩ := hfcfs (f7.trans hpol)
    obtain ⟨j1, j2, j3⟩ := i7 rfl
    simp only [hook_outcome_snd]
    refine ⟨by rw [j1, f6], by rw [j2, i6], by rw [i6, f4], by rw [j3, f5]⟩

/-- Witness for C5: under the sampling policy, in season BARRIER, the submit of
the started work at address 100 blocks and then issues once. -/
theorem neon_policy_submit_issues_once_witness :
    find_stask (example_started NEON_POLICY_SAMPLING).stask (example_works 100).neon_task
      ((example_started NEON_POLICY_SAMPLING).sched_dev_array
        (example_works 100).did).stask_list ≠ 0 ∧
    (((example_started NEON_POLICY_SAMPLING).sched_dev_array
      (example_works 100).did).swork_array (example_works 100).cid).id
        = (example_works 100).cid ∧
    (((example_started NEON_POLICY_SAMPLING).sched_dev_array
      (example_works 100).did).swork_array (example_works 100).cid).neon_work ≠ 0 ∧
    (neon_policy_submit example_works 100 (example_started NEON_POLICY_SAMPLING)).1 = some 0 ∧
    issue_count (neon_policy_submit example_works 100
        (example_started NEON_POLICY_SAMPLING)).2.events
      = issue_count (example_started NEON_POLICY_SAMPLING).events + 1 ∧
    (neon_policy_submit example_works 100 (example_started NEON_POLICY_SAMPLING)).2.events
      = [.wake_up_kthread, .sem_down 500, .policy_issue 0 3 500 1] :=
  ⟨by decide!, by decide!, by decide!,
   (neon_policy_submit_issues_once example_works 100 (example_started NEON_POLICY_SAMPLING)
      (by decide!) (by decide!) (by decide!)).1,
   (neon_policy_submit_issues_once example_works 100 (example_started NEON_POLICY_SAMPLING)
      (by decide!) (by decide!) (by decide!)).2.1,
   by decide!⟩

/-! ### Start and stop -/

theorem find_stask_mem (stask : Nat → sched_task_t) (pid : Nat) (l : List Nat)
    (h : find_stask stask pid l ≠ 0) :
    find_stask stask pid l ∈ l ∧ (stask (find_stask stask pid l)).pid = pid := by
  induction l with
  | nil => simp [find_stask] at h
  | cons a rest ih =>
    unfold find_stask at h ⊢
    split_ifs with hp
    · simp [hp]
    · rw [if_neg hp] at h
      exact ⟨List.mem_cons_of_mem _ (ih h).1, (ih h).2⟩

theorem find_stask_none (stask : Nat → sched_task_t) (pid : Nat) (l : List Nat)
    (h : find_stask stask pid l = 0) (h0 : 0 ∉ l) : ∀ a ∈ l, (stask a).pid ≠ pid := by
  induction l with
  | nil => simp
  | cons a rest ih =>
    unfold find_stask at h
    split_ifs at h with hp
    · exact absurd (h ▸ List.mem_cons_self _ _) h0
    · intro b hb
      rcases List.mem_cons.mp hb with rfl | hb
      · exact hp
      · exact ih h (fun h' => h0 (List.mem_cons_of_mem _ h')) b hb

theorem find_stask_congr (s1 s2 : Nat → sched_task_t) (pid : Nat) (l : List Nat)
    (h : ∀ a ∈ l, (s1 a).pid = (s2 a).pid) : find_stask s1 pid l = find_stask s2 pid l := by
  induction l with
  | nil => rfl
  | cons a rest ih =>
    unfold find_stask
    rw [h a (List.mem_cons_self _ _), ih (fun b hb => h b (List.mem_cons_of_mem _ hb))]

theorem bitmap_empty_iff (bmp : Nat → Bool) (n : Nat) :
    bitmap_empty bmp n = true ↔ ∀ i, i < n → bmp i = false := by
  simp [bitmap_empty, List.all_eq_true]

theorem bitmap_empty_false_iff (bmp : Nat → Bool) (n : Nat) :
    bitmap_empty bmp n = false ↔ ∃ i, i < n ∧ bmp i = true := by
  rw [← Bool.not_eq_true, bitmap_empty_iff]
  push_neg
  simp

theorem sched_frame.pid {m h : sched_state} (hf : sched_frame m h) (a : Nat) :
    (h.stask a).pid = (m.stask a).pid := by
  simpa [task_core] using congrArg (fun x => x.1) (hf.1 a)

theorem sched_frame.s2s {m h : sched_state} (hf : sched_frame m h) (a : Nat) :
    (h.stask a).bmp_start2stop = (m.stask a).bmp_start2stop := by
  simpa [task_core] using congrArg (fun x => x.2.1) (hf.1 a)

theorem sched_frame.list {m h : sched_state} (hf : sched_frame m h) (d : Nat) :
    (h.sched_dev_array d).stask_list = (m.sched_dev_array d).stask_list := hf.2.1 d

/-- The tail of `neon_policy_start`: the policy's start hook, then the set of
the start2stop bit. -/
theorem neon_policy_start_tail (g : neon_global_t) (did cid st : Nat) (m : sched_state) :
    ∀ q, q = upd_stask st (fun t => { t with bmp_start2stop := set_bit cid t.bmp_start2stop })
      (select_policy_start g did cid st m) →
    (∀ d, (q.sched_dev_array d).stask_list = (m.sched_dev_array d).stask_list) ∧
    (q.stask st).pid = (m.stask st).pid ∧
    (q.stask st).bmp_start2stop = set_bit cid (m.stask st).bmp_start2stop ∧
    (∀ a, a ≠ st → (q.stask a).pid = (m.stask a).pid ∧
      (q.stask a).bmp_start2stop = (m.stask a).bmp_start2stop) := by
  intro q hq
  have hf := frame_start g did cid st m
  subst hq
  refine ⟨fun d => by simp [hf.list], by simp [hf.pid], by simp [hf.s2s], fun a ha => ?_⟩
  simp [upd_stask_other _ _ _ _ ha, hf.pid, hf.s2s]

/-- The frontend's members after `neon_policy_start` when the task exists:
the list grows by the task only if its start2stop bitmap was empty, the bit of
the channel is set. -/
theorem neon_policy_start_found (g : neon_global_t) (work : Nat → neon_work_t) (addr : Nat)
    (bmp_ok : Bool) (neon_work : Nat) (p : sched_state) :
    ∀ did cid pid st, did = (work neon_work).did → cid = (work neon_work).cid →
    pid = (work neon_work).neon_task →
    st = find_stask p.stask pid (p.sched_dev_array did).stask_list → st ≠ 0 →
    (neon_policy_start g work addr bmp_ok neon_work p).1 = 0 ∧
    (∀ d, ((neon_policy_start g work addr bmp_ok neon_work p).2.sched_dev_array d).stask_list
      = if d = did ∧ bitmap_empty (p.stask st).bmp_start2stop (g.dev did).nchan = true then
          (p.sched_dev_array d).stask_list ++ [st]
        else (p.sched_dev_array d).stask_list) ∧
    ((neon_policy_start g work addr bmp_ok neon_work p).2.stask st).pid = (p.stask st).pid ∧
    ((neon_policy_start g work addr bmp_ok neon_work p).2.stask st).bmp_start2stop
      = set_bit cid (p.stask st).bmp_start2stop ∧
    (∀ a, a ≠ st →
      ((neon_policy_start g work addr bmp_ok neon_work p).2.stask a).pid = (p.stask a).pid ∧
      ((neon_policy_start g work addr bmp_ok neon_work p).2.stask a).bmp_start2stop
        = (p.stask a).bmp_start2stop) := by
  intro did cid pid st hdid hcid hpid hst hne
  obtain ⟨e1, e2, e3, e4⟩ := neon_policy_start_tail g did cid st _
    (neon_policy_start g work addr bmp_ok neon_work p).2
    (by simp only [neon_policy_start, ← hdid, ← hcid, ← hpid, ← hst, if_neg hne]; rfl)
  have hret : (neon_policy_start g work addr bmp_ok neon_work p).1 = 0 := by
    simp only [neon_policy_start, ← hdid, ← hcid, ← hpid, ← hst, if_neg hne]
  refine ⟨hret, fun d => ?_, ?_, ?_, fun a ha => ?_⟩
  · rw [e1 d]
    by_cases hb : bitmap_empty (p.stask st).bmp_start2stop (g.dev did).nchan = true
    · by_cases hd : d = did
      · subst hd; simp [hb]
      · simp [hb, hd, upd_sdev_other _ _ _ _ hd]
    · simp [hb]
  · rw [e2]; split_ifs <;> simp
  · rw [e3]; split_ifs <;> simp
  · rw [(e4 a ha).1, (e4 a ha).2]; split_ifs <;> simp

theorem bitmap_empty_zero (n : Nat) : bitmap_empty (fun _ => false) n = true := by
  simp [bitmap_empty]

@[simp] theorem alloc_stask_sdev (addr pid : Nat) (p : sched_state) :
    (alloc_stask addr pid p).sched_dev_array = p.sched_dev_array := rfl

@[simp] theorem alloc_stask_same (addr pid : Nat) (p : sched_state) :
    (alloc_stask addr pid p).stask addr = { sched_task_zero with pid := pid } := by
  simp [alloc_stask]

theorem alloc_stask_other (addr pid a : Nat) (p : sched_state) (h : a ≠ addr) :
    (alloc_stask addr pid p).stask a = p.stask a := by
  simp [alloc_stask, Function.update_noteq h]

theorem create_sched_task_ok (addr did pid : Nat) (p : sched_state) (h : addr ≠ 0) :
    create_sched_task addr true did pid p
      = (addr, select_policy_create addr (alloc_stask addr pid p)) := by
  simp [create_sched_task, h]

/-- The frontend's members after `neon_policy_start` when the task has to be
created and the allocations succeed: the new task, at address `addr`, joins
the end of the device's list with only the bit of the channel set. -/
theorem neon_policy_start_new (g : neon_global_t) (work : Nat → neon_work_t) (addr : Nat)
    (neon_work : Nat) (p : sched_state) :
    ∀ did cid pid, did = (work neon_work).did → cid = (work neon_work).cid →
    pid = (work neon_work).neon_task →
    find_stask p.stask pid (p.sched_dev_array did).stask_list = 0 → addr ≠ 0 →
    (neon_policy_start g work addr true neon_work p).1 = 0 ∧
    (∀ d, ((neon_policy_start g work addr true neon_work p).2.sched_dev_array d).stask_list
      = if d = did then (p.sched_dev_array d).stask_list ++ [addr]
        else (p.sched_dev_array d).stask_list) ∧
    ((neon_policy_start g work addr true neon_work p).2.stask addr).pid = pid ∧
    ((neon_policy_start g work addr true neon_work p).2.stask addr).bmp_start2stop
      = set_bit cid (fun _ => false) ∧
    (∀ a, a ≠ addr →
      ((neon_policy_start g work addr true neon_work p).2.stask a).pid = (p.stask a).pid ∧
      ((neon_policy_start g work addr true neon_work p).2.stask a).bmp_start2stop
        = (p.stask a).bmp_start2stop) := by
  intro did cid pid hdid hcid hpid hfind hne
  have hf := frame_create addr (alloc_stask addr pid p)
  obtain ⟨e1, e2, e3, e4⟩ := neon_policy_start_tail g did cid addr _
    (neon_policy_start g work addr true neon_work p).2
    (by simp only [neon_policy_start, ← hdid, ← hcid, ← hpid, hfind,
          create_sched_task_ok _ _ _ _ hne, if_neg hne, if_true]
        rfl)
  have hret : (neon_policy_start g work addr true neon_work p).1 = 0 := by
    simp only [neon_policy_start, ← hdid, ← hcid, ← hpid, hfind,
      create_sched_task_ok _ _ _ _ hne, if_neg hne, if_true]
  have hb : bitmap_empty ((select_policy_create addr (alloc_stask addr pid p)).stask
      addr).bmp_start2stop (g.dev did).nchan = true := by
    rw [hf.s2s addr]; simp [sched_task_zero, bitmap_empty_zero]
  simp only [upd_swork_stask, hb, if_true] at e1 e2 e3 e4
  refine ⟨hret, fun d => ?_, ?_, ?_, fun a ha => ?_⟩
  · rw [e1 d]
    by_cases hd : d = did
    · subst hd; simp [hf.list]
    · simp [hd, upd_sdev_other _ _ _ _ hd, hf.list]
  · rw [e2]; simp [hf.pid]
  · rw [e3]; simp [hf.s2s, sched_task_zero]
  · rw [(e4 a ha).1, (e4 a ha).2]
    simp [hf.pid, hf.s2s, alloc_stask_other _ _ _ _ ha]

theorem select_policy_destroy_sdev (st : Nat) (q : sched_state) :
    (select_policy_destroy st q).sched_dev_array = q.sched_dev_array := by
  simp only [select_policy_destroy, destroy_fcfs, destroy_timeslice, destroy_sampling]
  repeat' split
  all_goals simp [emit, upd_tslc_task, upd_smpl_task]

/-- The frontend's members after `neon_policy_stop` when the task exists: the
bit of the channel is cleared, the task leaves the list only if its start2stop
bitmap became empty, the slot of the work is zeroed. -/
theorem neon_policy_stop_found (g : neon_global_t) (work : Nat → neon_work_t)
    (neon_work : Nat) (p : sched_state) :
    ∀ did cid pid st, did = (work neon_work).did → cid = (work neon_work).cid →
    pid = (work neon_work).neon_task →
    st = find_stask p.stask pid (p.sched_dev_array did).stask_list → st ≠ 0 →
    (neon_policy_stop g work neon_work p).1 = 0 ∧
    (∀ d, ((neon_policy_stop g work neon_work p).2.sched_dev_array d).stask_list
      = if d = did ∧
          bitmap_empty (clear_bit cid (p.stask st).bmp_start2stop) (g.dev did).nchan = true then
          (p.sched_dev_array d).stask_list.erase st
        else (p.sched_dev_array d).stask_list) ∧
    (∀ a, ((neon_policy_stop g work neon_work p).2.stask a).pid = (p.stask a).pid) ∧
    ((neon_policy_stop g work neon_work p).2.stask st).bmp_start2stop
      = clear_bit cid (p.stask st).bmp_start2stop ∧
    (∀ a, a ≠ st →
      ((neon_policy_stop g work neon_work p).2.stask a).bmp_start2stop
        = (p.stask a).bmp_start2stop) ∧
    ((neon_policy_stop g work neon_work p).2.sched_dev_array did).swork_array cid
      = sched_work_zero := by
  intro did cid pid st hdid hcid hpid hst hne
  have hf := frame_stop g did cid st
    (upd_stask st (fun t => { t with bmp_start2stop := clear_bit cid t.bmp_start2stop }) p)
  have hret : (neon_policy_stop g work neon_work p).1 = 0 := by
    simp only [neon_policy_stop, ← hdid, ← hcid, ← hpid, ← hst, if_neg hne]
  have hb : ((upd_swork did cid (fun _ => sched_work_zero)
      (select_policy_stop g did cid st
        (upd_stask st (fun t => { t with bmp_start2stop := clear_bit cid t.bmp_start2stop })
          p))).stask st).bmp_start2stop = clear_bit cid (p.stask st).bmp_start2stop := by
    simp [hf.s2s]
  have hq : (neon_policy_stop g work neon_work p).2
      = if bitmap_empty (clear_bit cid (p.stask st).bmp_start2stop) (g.dev did).nchan = true then
          destroy_sched_task st (upd_sdev did
            (fun sd => { sd with stask_list := sd.stask_list.erase st })
            (upd_swork did cid (fun _ => sched_work_zero)
              (select_policy_stop g did cid st
                (upd_stask st
                  (fun t => { t with bmp_start2stop := clear_bit cid t.bmp_start2stop }) p))))
        else
          upd_swork did cid (fun _ => sched_work_zero)
            (select_policy_stop g did cid st
              (upd_stask st
                (fun t => { t with bmp_start2stop := clear_bit cid t.bmp_start2stop }) p)) := by
    simp only [neon_policy_stop, ← hdid, ← hcid, ← hpid, ← hst, if_neg hne, hb]
  have hp1 : ∀ a, ((upd_stask st
      (fun t => { t with bmp_start2stop := clear_bit cid t.bmp_start2stop }) p).stask a).pid
      = (p.stask a).pid := by
    intro a
    by_cases ha : a = st
    · subst ha; simp
    · simp [upd_stask_other _ _ _ _ ha]
  refine ⟨hret, fun d => ?_, fun a => ?_, ?_, fun a ha => ?_, ?_⟩
  all_goals rw [hq]
  all_goals
    by_cases hbe : bitmap_empty (clear_bit cid (p.stask st).bmp_start2stop) (g.dev did).nchan
      = true
  · by_cases hd : d = did
    · subst hd
      simp [hbe, destroy_sched_task, (frame_destroy _ _).list, hf.list]
    · simp [hbe, hd, destroy_sched_task, (frame_destroy _ _).list, hf.list,
        upd_sdev_other _ _ _ _ hd]
  · simp [hbe, hf.list]
  · simp [hbe, destroy_sched_task, (frame_destroy _ _).pid, hf.pid, hp1]
  · simp [hbe, hf.pid, hp1]
  · simp [hbe, destroy_sched_task, (frame_destroy _ _).s2s, hf.s2s]
  · simp [hbe, hf.s2s]
  · simp [hbe, destroy_sched_task, (frame_destroy _ _).s2s, hf.s2s, upd_stask_other _ _ _ _ ha]
  · simp [hbe, hf.s2s, upd_stask_other _ _ _ _ ha]
  · simp [hbe, destroy_sched_task, select_policy_destroy_sdev]
  · simp [hbe]

theorem neon_policy_stop_none (g : neon_global_t) (work : Nat → neon_work_t)
    (neon_work : Nat) (p : sched_state)
    (h : find_stask p.stask (work neon_work).neon_task
      (p.sched_dev_array (work neon_work).did).stask_list = 0) :
    neon_policy_stop g work neon_work p = (-1, p) := by
  simp only [neon_policy_stop, h, if_true]

/-! ### The invariant of the task lists -/

theorem stask_inv_start_found (N : Nat → Nat) (L : Nat → List Nat) (P : Nat → Nat)
    (B B' : Nat → Nat → Bool) (G : Nat → Nat → Nat → Bool) (did pid cid st : Nat)
    (hI : stask_inv N L P B G) (hst : st ∈ L did) (hpid : P st = pid) (hcid : cid < N did)
    (hB : B' st = set_bit cid (B st)) (hB' : ∀ a, a ≠ st → B' a = B a) :
    stask_inv N L P B'
      (fun d p c => if d = did ∧ p = pid ∧ c = cid then true else G d p c) := by
  obtain ⟨i1, i2, i3, i4, i5, i6, i7⟩ := hI
  refine ⟨i1, i2, i3, i4, ?_, ?_, ?_⟩
  · intro d a ha c
    by_cases hast : a = st
    · subst hast
      have hd : d = did := by
        by_contra hd
        exact i3 d did a hd ha hst
      subst hd
      rw [hB]
      by_cases hc : c = cid
      · subst hc; simp [set_bit, hpid]
      · simp [set_bit, hc, Function.update_noteq hc, i5 d a ha c]
    · rw [hB' a hast, i5 d a ha c]
      have : ¬ (d = did ∧ P a = pid ∧ c = cid) := by
        rintro ⟨rfl, hp, -⟩
        exact hast (i4 d a st ha hst (hp.trans hpid.symm))
      simp [this]
  · intro d p c h
    by_cases hnew : d = did ∧ p = pid ∧ c = cid
    · obtain ⟨rfl, rfl, rfl⟩ := hnew
      exact ⟨hcid, st, hst, hpid⟩
    · simp only [hnew, if_false] at h
      exact i6 d p c h
  · intro d a ha
    obtain ⟨c, hc⟩ := i7 d a ha
    exact ⟨c, by simp [hc]⟩

theorem stask_inv_start_new (N : Nat → Nat) (L L' : Nat → List Nat) (P P' : Nat → Nat)
    (B B' : Nat → Nat → Bool) (G : Nat → Nat → Nat → Bool) (did pid cid addr : Nat)
    (hI : stask_inv N L P B G) (hnone : ∀ a, a ∈ L did → P a ≠ pid) (hcid : cid < N did)
    (h0 : addr ≠ 0) (hfresh : ∀ d, addr ∉ L d)
    (hL : ∀ d, L' d = if d = did then L d ++ [addr] else L d)
    (hP : P' addr = pid) (hP' : ∀ a, a ≠ addr → P' a = P a)
    (hB : B' addr = set_bit cid (fun _ => false)) (hB' : ∀ a, a ≠ addr → B' a = B a) :
    stask_inv N L' P' B'
      (fun d p c => if d = did ∧ p = pid ∧ c = cid then true else G d p c) := by
  obtain ⟨i1, i2, i3, i4, i5, i6, i7⟩ := hI
  have hG : ∀ c, G did pid c = false := by
    intro c
    by_contra h
    obtain ⟨-, a, ha, hp⟩ := i6 did pid c (by simpa using h)
    exact hnone a ha hp
  have hmem : ∀ d a, a ∈ L' d → (a ∈ L d ∧ a ≠ addr) ∨ (d = did ∧ a = addr) := by
    intro d a ha
    rw [hL d] at ha
    by_cases hd : d = did
    · simp only [hd, if_true, List.mem_append, List.mem_singleton] at ha
      rcases ha with ha | ha
      · exact Or.inl ⟨hd ▸ ha, fun h => hfresh did (h ▸ ha)⟩
      · exact Or.inr ⟨hd, ha⟩
    · simp only [hd, if_false] at ha
      exact Or.inl ⟨ha, fun h => hfresh d (h ▸ ha)⟩
  have hsub : ∀ d a, a ∈ L d → a ∈ L' d := by
    intro d a ha
    rw [hL d]
    split_ifs <;> simp [ha]
  refine ⟨?_, ?_, ?_, ?_, ?_, ?_, ?_⟩
  · intro d
    rw [hL d]
    split_ifs with hd
    · subst hd
      exact List.Nodup.append (i1 d) (List.nodup_singleton _)
        (by simpa using hfresh d)
    · exact i1 d
  · intro d h
    rcases hmem d 0 h with ⟨h, -⟩ | ⟨-, h⟩
    · exact i2 d h
    · exact h0 h.symm
  · intro d e a hde ha hb
    rcases hmem d a ha with ⟨ha, hna⟩ | ⟨rfl, rfl⟩
    · rcases hmem e a hb with ⟨hb, -⟩ | ⟨-, rfl⟩
      · exact i3 d e a hde ha hb
      · exact hna rfl
    · rcases hmem e a hb with ⟨-, hna⟩ | ⟨rfl, -⟩
      · exact hna rfl
      · exact hde rfl
  · intro d a b ha hb hp
    rcases hmem d a ha with ⟨ha, hna⟩ | ⟨rfl, rfl⟩
    · rcases hmem d b hb with ⟨hb, hnb⟩ | ⟨rfl, rfl⟩
      · rw [hP' a hna, hP' b hnb] at hp
        exact i4 d a b ha hb hp
      · rw [hP' a hna, hP] at hp
        exact absurd hp (hnone a ha)
    · rcases hmem d b hb with ⟨hb, hnb⟩ | ⟨-, rfl⟩
      · rw [hP' b hnb, hP] at hp
        exact absurd hp.symm (hnone b hb)
      · rfl
  · intro d a ha c
    rcases hmem d a ha with ⟨ha, hna⟩ | ⟨rfl, rfl⟩
    · rw [hB' a hna, hP' a hna, i5 d a ha c]
      have : ¬ (d = did ∧ P a = pid ∧ c = cid) := by
        rintro ⟨rfl, hp, -⟩
        exact hnone a ha hp
      simp [this]
    · rw [hB, hP]
      by_cases hc : c = cid
      · subst hc; simp [set_bit]
      · simp [set_bit, hc, Function.update_noteq hc, hG c]
  · intro d p c h
    by_cases hnew : d = did ∧ p = pid ∧ c = cid
    · obtain ⟨rfl, rfl, rfl⟩ := hnew
      exact ⟨hcid, addr, by rw [hL d]; simp, hP⟩
    · simp only [hnew, if_false] at h
      obtain ⟨hc, a, ha, hp⟩ := i6 d p c h
      exact ⟨hc, a, hsub d a ha, by rw [hP' a (fun h => hfresh d (h ▸ ha))]; exact hp⟩
  · intro d a ha
    rcases hmem d a ha with ⟨ha, hna⟩ | ⟨rfl, rfl⟩
    · obtain ⟨c, hc⟩ := i7 d a ha
      exact ⟨c, by rw [hP' a hna]; simp [hc]⟩
    · exact ⟨cid, by simp [hP]⟩

theorem stask_inv_stop_found (N : Nat → Nat) (L L' : Nat → List Nat) (P : Nat → Nat)
    (B B' : Nat → Nat → Bool) (G : Nat → Nat → Nat → Bool) (did pid cid st : Nat)
    (hI : stask_inv N L P B G) (hst : st ∈ L did) (hpid : P st = pid)
    (hL : ∀ d, L' d = if d = did ∧ bitmap_empty (clear_bit cid (B st)) (N did) = true then
      (L d).erase st else L d)
    (hB : B' st = clear_bit cid (B st)) (hB' : ∀ a, a ≠ st → B' a = B a) :
    stask_inv N L' P B'
      (fun d p c => if d = did ∧ p = pid ∧ c = cid then false else G d p c) := by
  obtain ⟨i1, i2, i3, i4, i5, i6, i7⟩ := hI
  have hBst : ∀ c, B' st c = if c = cid then false else G did pid c := by
    intro c
    rw [hB]
    by_cases hc : c = cid
    · subst hc; simp [clear_bit]
    · simp [clear_bit, hc, Function.update_noteq hc, i5 did st hst c, hpid]
  have hin : ∀ d a, a ∈ L' d → a ∈ L d := by
    intro d a ha
    rw [hL d] at ha
    split_ifs at ha
    · exact List.mem_of_mem_erase ha
    · exact ha
  have hkeep : ∀ d, st ∈ L' d → bitmap_empty (clear_bit cid (B st)) (N did) = false := by
    intro d ha
    by_contra hbe
    have hbe : bitmap_empty (clear_bit cid (B st)) (N did) = true := by simpa using hbe
    have hd : d = did := by
      by_contra hd
      exact i3 d did st hd (hin d st ha) hst
    subst hd
    rw [hL d] at ha
    simp only [hbe, and_self, if_true] at ha
    exact (List.Nodup.mem_erase_iff (i1 d)).mp ha |>.1 rfl
  have hsub : ∀ d a, a ∈ L d → a ≠ st → a ∈ L' d := by
    intro d a ha hne
    rw [hL d]
    split_ifs
    · exact (List.mem_erase_of_ne hne).mpr ha
    · exact ha
  have hother : ∀ d a c, a ∈ L d → a ≠ st → ¬ (d = did ∧ P a = pid ∧ c = cid) := by
    rintro d a c ha hne ⟨rfl, hp, -⟩
    exact hne (i4 d a st ha hst (hp.trans hpid.symm))
  refine ⟨?_, ?_, ?_, ?_, ?_, ?_, ?_⟩
  · intro d
    rw [hL d]
    split_ifs
    · exact List.Nodup.erase _ (i1 d)
    · exact i1 d
  · intro d h
    exact i2 d (hin d 0 h)
  · intro d e a hde ha hb
    exact i3 d e a hde (hin d a ha) (hin e a hb)
  · intro d a b ha hb hp
    exact i4 d a b (hin d a ha) (hin d b hb) hp
  · intro d a ha c
    by_cases hast : a = st
    · subst hast
      have hd : d = did := by
        by_contra hd
        exact i3 d did a hd (hin d a ha) hst
      subst hd
      rw [hBst c]
      by_cases hc : c = cid
      · subst hc; simp [hpid]
      · simp [hc, hpid]
    · rw [hB' a hast, i5 d a (hin d a ha) c]
      simp [hother d a c (hin d a ha) hast]
  · intro d p c h
    have hnew : ¬ (d = did ∧ p = pid ∧ c = cid) := by
      intro hn
      simp [hn] at h
    simp only [hnew, if_false] at h
    obtain ⟨hc, a, ha, hp⟩ := i6 d p c h
    refine ⟨hc, a, ?_, hp⟩
    by_cases hast : a = st
    · subst hast
      have hd : d = did := by
        by_contra hd
        exact i3 d did a hd ha hst
      subst hd
      have hpp : p = pid := hp.symm.trans hpid
      subst hpp
      have hcc : c ≠ cid := fun hcc => hnew ⟨rfl, rfl, hcc⟩
      have hbit : clear_bit cid (B a) c = true := by
        rw [← hB, hBst c]; simp [hcc, h]
      have hne : bitmap_empty (clear_bit cid (B a)) (N d) = false :=
        (bitmap_empty_false_iff _ _).mpr ⟨c, hc, hbit⟩
      rw [hL d]
      simp [hne, ha]
    · exact hsub d a ha hast
  · intro d a ha
    by_cases hast : a = st
    · subst hast
      have hd : d = did := by
        by_contra hd
        exact i3 d did a hd (hin d a ha) hst
      subst hd
      obtain ⟨c, -, hc⟩ := (bitmap_empty_false_iff _ _).mp (hkeep d ha)
      rw [← hB, hBst c] at hc
      by_cases hcc : c = cid
      · simp [hcc] at hc
      · exact ⟨c, by simpa [hcc, hpid] using hc⟩
    · obtain ⟨c, hc⟩ := i7 d a (hin d a ha)
      exact ⟨c, by simp [hother d a c (hin d a ha) hast, hc]⟩

theorem stask_inv_congr (N : Nat → Nat) (L L' : Nat → List Nat) (P P' : Nat → Nat)
    (B B' : Nat → Nat → Bool) (G G' : Nat → Nat → Nat → Bool)
    (hL : ∀ d, L' d = L d) (hP : ∀ a, P' a = P a) (hB : ∀ a, B' a = B a)
    (hG : ∀ d p c, G' d p c = G d p c) (hI : stask_inv N L P B G) :
    stask_inv N L' P' B' G' := by
  obtain rfl : L' = L := funext hL
  obtain rfl : P' = P := funext hP
  obtain rfl : B' = B := funext hB
  obtain rfl : G' = G := funext fun d => funext fun p => funext fun c => hG d p c
  exact hI

theorem stask_inv_nonempty (N : Nat → Nat) (L : Nat → List Nat) (P : Nat → Nat)
    (B : Nat → Nat → Bool) (G : Nat → Nat → Nat → Bool) (hI : stask_inv N L P B G)
    (d a : Nat) (ha : a ∈ L d) : bitmap_empty (B a) (N d) = false := by
  obtain ⟨-, -, -, -, i5, i6, i7⟩ := hI
  obtain ⟨c, hc⟩ := i7 d a ha
  exact (bitmap_empty_false_iff _ _).mpr ⟨c, (i6 d _ c hc).1, by rw [i5 d a ha c, hc]⟩

theorem stask_inv_empty (N : Nat → Nat) (L : Nat → List Nat) (P : Nat → Nat)
    (B : Nat → Nat → Bool) (hL : ∀ d, L d = []) :
    stask_inv N L P B (fun _ _ _ => false) := by
  refine ⟨?_, ?_, ?_, ?_, ?_, ?_, ?_⟩ <;> simp [hL]

/-- One call keeps the invariant of the task lists, the record of started
channels following the call. -/
theorem sched_inv_step (g : neon_global_t) (work : Nat → neon_work_t) (p : sched_state)
    (G : Nat → Nat → Nat → Bool) (c : sched_call) (hI : sched_inv g p G)
    (hok : call_ok g work p c) :
    sched_inv g (run_call g work p c) (spec_started_step work G c) := by
  cases c with
  | start w addr =>
    obtain ⟨hcid, halloc⟩ := hok
    by_cases hf : find_stask p.stask (work w).neon_task
        (p.sched_dev_array (work w).did).stask_list = 0
    · obtain ⟨h0, hfresh⟩ := halloc hf
      obtain ⟨-, e1, e2, e3, e4⟩ :=
        neon_policy_start_new g work addr w p _ _ _ rfl rfl rfl hf h0
      exact stask_inv_start_new _ _ _ _ _ _ _ _ (work w).did (work w).neon_task (work w).cid
        addr hI (find_stask_none _ _ _ hf (hI.2.1 _)) hcid h0 hfresh e1 e2
        (fun a ha => (e4 a ha).1) e3 (fun a ha => (e4 a ha).2)
    · obtain ⟨hmem, hpid⟩ := find_stask_mem _ _ _ hf
      obtain ⟨-, e1, e2, e3, e4⟩ :=
        neon_policy_start_found g work addr true w p _ _ _ _ rfl rfl rfl rfl hf
      have hne := stask_inv_nonempty _ _ _ _ _ hI _ _ hmem
      have hI' := stask_inv_start_found _ _ _ _
        (fun a => ((run_call g work p (.start w addr)).stask a).bmp_start2stop) _
        (work w).did (work w).neon_task (work w).cid _ hI hmem hpid hcid e3
        (fun a ha => (e4 a ha).2)
      refine stask_inv_congr _ _ _ _ _ _ _ _ _ (fun d => ?_) (fun a => ?_) (fun a => rfl)
        (fun d q c => rfl) hI'
      · have := e1 d
        simp only [hne, Bool.false_eq_true, and_false, if_false] at this
        exact this
      · by_cases ha : a = find_stask p.stask (work w).neon_task
            (p.sched_dev_array (work w).did).stask_list
        · rw [ha]; exact e2
        · exact (e4 a ha).1
  | stop w =>
    by_cases hf : find_stask p.stask (work w).neon_task
        (p.sched_dev_array (work w).did).stask_list = 0
    · have hq : run_call g work p (.stop w) = p := by
        simp only [run_call, neon_policy_stop_none g work w p hf]
      rw [hq]
      refine stask_inv_congr _ _ _ _ _ _ _ _ _ (fun d => rfl) (fun a => rfl) (fun a => rfl)
        (fun d q c => ?_) hI
      simp only [spec_started_step]
      split_ifs with h
      · obtain ⟨rfl, rfl, rfl⟩ := h
        by_contra hG
        obtain ⟨-, a, ha, hp⟩ := hI.2.2.2.2.2.1 _ _ _ (Eq.symm (by simpa using hG))
        exact find_stask_none _ _ _ hf (hI.2.1 _) a ha hp
      · rfl
    · obtain ⟨hmem, hpid⟩ := find_stask_mem _ _ _ hf
      obtain ⟨-, e1, e2, e3, e4, -⟩ :=
        neon_policy_stop_found g work w p _ _ _ _ rfl rfl rfl rfl hf
      have hI' := stask_inv_stop_found _ _
        (fun d => ((run_call g work p (.stop w)).sched_dev_array d).stask_list) _ _
        (fun a => ((run_call g work p (.stop w)).stask a).bmp_start2stop) _
        (work w).did (work w).neon_task (work w).cid _ hI hmem hpid e1 e3 e4
      exact stask_inv_congr _ _ _ _ _ _ _ _ _ (fun d => rfl) e2 (fun a => rfl)
        (fun d q c => rfl) hI'

/-- A sequence of calls keeps the invariant of the task lists. -/
theorem sched_inv_run (g : neon_global_t) (work : Nat → neon_work_t)
    (calls : List sched_call) : ∀ (p : sched_state) (G : Nat → Nat → Nat → Bool),
    sched_inv g p G → calls_ok g work calls p →
    sched_inv g (run_calls g work calls p) (calls.foldl (spec_started_step work) G) := by
  induction calls with
  | nil => intro p G hI _; exact hI
  | cons c cs ih =>
    intro p G hI hok
    exact ih _ _ (sched_inv_step g work p G c hI hok.1) hok.2

theorem clear_set_bit_zero (cid n : Nat) :
    bitmap_empty (clear_bit cid (set_bit cid (fun _ => false))) n = true := by
  rw [bitmap_empty_iff]
  intro i _
  by_cases h : i = cid <;> simp [clear_bit, set_bit, Function.update, h]

/-- C8: starting from empty task lists and after any sequence of
`neon_policy_start` / `neon_policy_stop` calls on channels of their devices
whose allocations succeed (`calls_ok`), whether or not a stop matches an
earlier start, the task list of a device holds a task of a pid if and only if that pid has a
channel started and not stopped on the device; the start2stop bitmap of a task
on the list is the set of these channels and is not empty; no two tasks of a
list share a pid; and a start followed by the stop of one work leaves the list
empty and the slot of the work zeroed. -/
theorem neon_policy_start_stop_tasks (g : neon_global_t) (work : Nat → neon_work_t)
    (p : sched_state) (calls : List sched_call)
    (hempty : ∀ d, (p.sched_dev_array d).stask_list = [])
    (hok : calls_ok g work calls p) :
    (∀ did pid,
      (∃ a, a ∈ ((run_calls g work calls p).sched_dev_array did).stask_list ∧
        ((run_calls g work calls p).stask a).pid = pid) ↔
      ∃ cid, spec_started work calls did pid cid = true) ∧
    (∀ did a, a ∈ ((run_calls g work calls p).sched_dev_array did).stask_list →
      (∀ c, ((run_calls g work calls p).stask a).bmp_start2stop c
        = spec_started work calls did ((run_calls g work calls p).stask a).pid c) ∧
      bitmap_empty ((run_calls g work calls p).stask a).bmp_start2stop (g.dev did).nchan
        = false) ∧
    (∀ did, (((run_calls g work calls p).sched_dev_array did).stask_list.map
      (fun a => ((run_calls g work calls p).stask a).pid)).Nodup) ∧
    (∀ neon_work addr, addr ≠ 0 → (work neon_work).cid < (g.dev (work neon_work).did).nchan →
      ((run_calls g work [.start neon_work addr, .stop neon_work] p).sched_dev_array
        (work neon_work).did).stask_list = [] ∧
      ((run_calls g work [.start neon_work addr, .stop neon_work] p).sched_dev_array
        (work neon_work).did).swork_array (work neon_work).cid = sched_work_zero) := by
  have hI := sched_inv_run g work calls p _ (stask_inv_empty _ _ _ _ hempty) hok
  have hI2 := hI
  obtain ⟨i1, -, -, i4, i5, i6, i7⟩ := hI2
  refine ⟨fun did pid => ⟨?_, ?_⟩, fun did a ha => ⟨i5 did a ha, ?_⟩, fun did => ?_,
    fun w addr h0 hcid => ?_⟩
  · rintro ⟨a, ha, rfl⟩
    exact i7 did a ha
  · rintro ⟨cid, h⟩
    exact (i6 did pid cid h).2
  · exact stask_inv_nonempty _ _ _ _ _ hI did a ha
  · exact List.Nodup.map_on (fun a ha b hb h => i4 did a b ha hb h) (i1 did)
  · have hf : find_stask p.stask (work w).neon_task
        (p.sched_dev_array (work w).did).stask_list = 0 := by
      rw [hempty]; rfl
    obtain ⟨-, e1, e2, e3, -⟩ := neon_policy_start_new g work addr w p _ _ _ rfl rfl rfl hf h0
    have hl : ((neon_policy_start g work addr true w p).2.sched_dev_array
        (work w).did).stask_list = [addr] := by
      rw [e1, hempty]; simp
    have hfind : find_stask (neon_policy_start g work addr true w p).2.stask
        (work w).neon_task ((neon_policy_start g work addr true w p).2.sched_dev_array
          (work w).did).stask_list = addr := by
      rw [hl]; simp [find_stask, e2]
    obtain ⟨-, s1, -, -, -, s5⟩ := neon_policy_stop_found g work w
      (neon_policy_start g work addr true w p).2 _ _ _ addr rfl rfl rfl hfind.symm h0
    refine ⟨?_, s5⟩
    show ((neon_policy_stop g work w
      (neon_policy_start g work addr true w p).2).2.sched_dev_array
        (work w).did).stask_list = []
    rw [s1, e3, hl]
    simp [clear_set_bit_zero]

theorem neon_policy_start_stop_tasks_witness :
    (∀ d, ((example_sched NEON_POLICY_SAMPLING).sched_dev_array d).stask_list = []) ∧
    calls_ok example_global example_works example_calls (example_sched NEON_POLICY_SAMPLING) ∧
    (∃ a, a ∈ ((run_calls example_global example_works example_calls
          (example_sched NEON_POLICY_SAMPLING)).sched_dev_array 0).stask_list ∧
        ((run_calls example_global example_works example_calls
          (example_sched NEON_POLICY_SAMPLING)).stask a).pid = 43) ∧
    ¬ (∃ a, a ∈ ((run_calls example_global example_works example_calls
          (example_sched NEON_POLICY_SAMPLING)).sched_dev_array 0).stask_list ∧
        ((run_calls example_global example_works example_calls
          (example_sched NEON_POLICY_SAMPLING)).stask a).pid = 42) := by
  have h1 : ∀ d, ((example_sched NEON_POLICY_SAMPLING).sched_dev_array d).stask_list = [] :=
    fun _ => rfl
  have h2 : calls_ok example_global example_works example_calls
      (example_sched NEON_POLICY_SAMPLING) := by
    refine ⟨⟨by decide, fun _ => ⟨by decide, fun d => by simp [h1]⟩⟩,
      ⟨by decide, fun _ => ⟨by decide, fun d => ?_⟩⟩, trivial, trivial⟩
    have e := (neon_policy_start_new example_global example_works 500 100
      (example_sched NEON_POLICY_SAMPLING) _ _ _ rfl rfl rfl rfl (by decide)).2.1 d
    show 501 ∉ ((neon_policy_start example_global example_works 500 true 100
      (example_sched NEON_POLICY_SAMPLING)).2.sched_dev_array d).stask_list
    rw [e, h1]
    split_ifs <;> simp
  refine ⟨h1, h2, ((neon_policy_start_stop_tasks _ _ _ _ h1 h2).1 0 43).mpr ⟨4, by decide⟩,
    fun h => ?_⟩
  obtain ⟨c, hc⟩ := ((neon_policy_start_stop_tasks _ _ _ _ h1 h2).1 0 42).mp h
  simp [spec_started, example_calls, spec_started_step, example_works, example_work] at hc

/-! ### One pass of the polling thread -/

theorem table_frame_refl (T : Nat → Nat → Prop) (s : neon_state) : table_frame T s s :=
  ⟨rfl, fun _ => rfl, rfl, rfl, rfl, rfl, fun _ _ _ => ⟨rfl, rfl⟩⟩

theorem table_frame_trans (T : Nat → Nat → Prop) (s t u : neon_state)
    (h1 : table_frame T s t) (h2 : table_frame T t u) : table_frame T s u := by
  obtain ⟨a1, a2, a3, a4, a5, a6, a7⟩ := h1
  obtain ⟨b1, b2, b3, b4, b5, b6, b7⟩ := h2
  refine ⟨b1.trans a1, fun d => (b2 d).trans (a2 d), b3.trans a3, b4.trans a4, b5.trans a5,
    b6.trans a6, fun d c h => ⟨((b7 d c h).1).trans (a7 d c h).1,
      ((b7 d c h).2).trans (a7 d c h).2⟩⟩

theorem table_frame_mono (T U : Nat → Nat → Prop) (s t : neon_state)
    (hTU : ∀ d c, T d c → U d c) (h : table_frame T s t) : table_frame U s t := by
  obtain ⟨a1, a2, a3, a4, a5, a6, a7⟩ := h
  exact ⟨a1, a2, a3, a4, a5, a6, fun d c hc => a7 d c (fun ht => hc (hTU d c ht))⟩

theorem table_frame_done (T : Nat → Nat → Prop) (s t : neon_state) (did cid : Nat)
    (h : table_frame T s t) (hT : ¬ T did cid) : chan_done did cid t = chan_done did cid s := by
  obtain ⟨-, -, -, -, -, -, a7⟩ := h
  simp only [chan_done, test_bit, (a7 did cid hT).1, (a7 did cid hT).2]

theorem table_frame_marks (T : Nat → Nat → Prop) (s t : neon_state) (did cid : Nat)
    (h : table_frame T s t) (hT : ¬ T did cid) :
    polling_marks did cid t = polling_marks did cid s := by
  obtain ⟨-, -, a3, a4, a5, a6, a7⟩ := h
  simp only [polling_marks, test_bit, (a7 did cid hT).1, (a7 did cid hT).2, a3, a4, a5, a6]

theorem neon_work_complete_frame (did cid pid : Nat) (s : neon_state) :
    table_frame (fun d c => d = did ∧ c = cid) s (neon_work_complete did cid pid s) := by
  simp only [neon_work_complete]
  split_ifs with h1 h2
  · exact table_frame_refl _ _
  · refine ⟨rfl, fun d => ?_, rfl, rfl, rfl, rfl, fun d c h => ?_⟩
    · by_cases hd : d = did
      · subst hd; simp [upd_chan]
      · simp [upd_chan, upd_dev_dev_other _ _ _ _ hd]
    · by_cases hd : d = did
      · subst hd
        have hc : c ≠ cid := fun hc => h ⟨rfl, hc⟩
        simp [upd_chan, clear_bit, Function.update_noteq hc]
      · simp [upd_chan, upd_dev_dev_other _ _ _ _ hd]
  · refine ⟨rfl, fun d => ?_, rfl, rfl, rfl, rfl, fun d c h => ?_⟩
    · by_cases hd : d = did
      · subst hd; simp
      · simp [upd_dev_dev_other _ _ _ _ hd]
    · by_cases hd : d = did
      · subst hd
        have hc : c ≠ cid := fun hc => h ⟨rfl, hc⟩
        simp [clear_bit, Function.update_noteq hc]
      · simp [upd_dev_dev_other _ _ _ _ hd]

theorem kill_malicious_frame (T : Nat → Nat → Prop) (pid : Nat) (s : neon_state) :
    table_frame T s (kill_malicious pid s) := by
  unfold kill_malicious
  split
  · exact table_frame_refl _ _
  · split_ifs
    · exact ⟨rfl, fun _ => rfl, rfl, rfl, rfl, rfl, fun _ _ _ => ⟨rfl, rfl⟩⟩
    · exact table_frame_refl _ _

theorem upd_chan_frame (did cid : Nat) (f : neon_chan_t → neon_chan_t) (s : neon_state) :
    table_frame (fun d c => d = did ∧ c = cid) s
      { s with neon_global := upd_chan did cid f s.neon_global } := by
  refine ⟨rfl, fun d => by simp, rfl, rfl, rfl, rfl, fun d c h => ⟨?_, by simp⟩⟩
  exact upd_chan_chan_other _ _ _ _ _ _ (by tauto)

theorem polling_chan_frame (did cid lm : Nat) (s : neon_state) :
    table_frame (fun d c => d = did ∧ c = cid) s (polling_chan did cid lm s).2.2 := by
  simp only [polling_chan]
  split_ifs
  all_goals first
    | exact table_frame_refl _ _
    | exact neon_work_complete_frame did cid _ s
    | exact upd_chan_frame did cid _ s
    | exact kill_malicious_frame _ _ s
    | exact table_frame_trans _ _ _ _ (neon_work_complete_frame did cid _ s)
        (kill_malicious_frame _ _ _)
    | exact table_frame_trans _ _ _ _ (upd_chan_frame did cid _ s)
        (kill_malicious_frame _ _ _)

theorem polling_chan_no_mark (did cid : Nat) (s : neon_state)
    (hm : polling_marks did cid s = false)
    (hl : test_bit cid (s.neon_global.dev did).bmp_sub2comp = true) :
    (polling_chan did cid (s.neon_global.dev did).nchan s).1 = false ∧
    (polling_chan did cid (s.neon_global.dev did).nchan s).2.1
      = (s.neon_global.dev did).nchan := by
  simp only [polling_chan]
  split_ifs <;> simp_all [polling_marks]

theorem chan_done_kill (did cid pid : Nat) (s : neon_state) :
    chan_done did cid (kill_malicious pid s) = chan_done did cid s :=
  table_frame_done (fun _ _ => False) _ _ did cid (kill_malicious_frame _ pid s) (fun h => h)

theorem chan_done_complete (did cid pid : Nat) (s : neon_state)
    (hl : test_bit cid (s.neon_global.dev did).bmp_sub2comp = true) :
    chan_done did cid (neon_work_complete did cid pid s) = (false, 0, 0, 0) := by
  simp only [test_bit] at hl
  simp [neon_work_complete, hl, chan_done, test_bit, clear_bit, upd_chan]

theorem chan_done_upd_chan (did cid c : Nat) (f : neon_chan_t → neon_chan_t) (s : neon_state)
    (hf : ∀ x, (f x).pid = x.pid ∧ (f x).refc_kvaddr = x.refc_kvaddr ∧
      (f x).refc_target = x.refc_target) :
    chan_done did c { s with neon_global := upd_chan did cid f s.neon_global }
      = chan_done did c s := by
  by_cases hc : c = cid
  · subst hc
    simp [chan_done, hf]
  · simp [chan_done, upd_chan_chan_other did cid did c f s.neon_global (Or.inr hc)]

/-- What the first loop of `polling_refc_update` leaves of a live channel with
a free lock and a mapped counter: complete exactly when the counter read
reaches the target. -/
theorem polling_chan_own (did cid lm : Nat) (s : neon_state)
    (hl : test_bit cid (s.neon_global.dev did).bmp_sub2comp = true)
    (hlock : ((s.neon_global.dev did).chan cid).lock = false)
    (hmap : ((s.neon_global.dev did).chan cid).refc_kvaddr ≠ 0) :
    chan_done did cid (polling_chan did cid lm s).2.2
      = if u32 (s.kmem ((s.neon_global.dev did).chan cid).refc_kvaddr)
            ≥ ((s.neon_global.dev did).chan cid).refc_target then (false, 0, 0, 0)
        else chan_done did cid s := by
  by_cases hc : u32 (s.kmem ((s.neon_global.dev did).chan cid).refc_kvaddr)
      ≥ ((s.neon_global.dev did).chan cid).refc_target
  · rw [if_pos hc]
    simp only [polling_chan, hlock, if_neg hmap, hc, decide_True, if_true,
      Bool.false_eq_true, if_false]
    split_ifs <;> simp only [chan_done_kill, chan_done_complete _ _ _ _ hl]
  · rw [if_neg hc]
    simp only [polling_chan, hlock, if_neg hmap, hc, decide_False, if_true,
      Bool.false_eq_true, if_false]
    split_ifs <;> simp only [chan_done_kill] <;>
      first
        | rfl
        | exact chan_done_upd_chan did cid cid _ s (fun x => ⟨rfl, rfl, rfl⟩)

theorem foldl_rel {α β : Type} (R : α → α → Prop) (hr : ∀ a, R a a)
    (ht : ∀ a b c, R a b → R b c → R a c) (f : α → β → α) (l : List β)
    (hf : ∀ a b, b ∈ l → R a (f a b)) : ∀ a, R a (l.foldl f a) := by
  induction l with
  | nil => intro a; exact hr a
  | cons b rest ih =>
    intro a
    exact ht _ _ _ (hf a b (List.mem_cons_self _ _))
      (ih (fun a c hc => hf a c (List.mem_cons_of_mem _ hc)) (f a b))

theorem range_split (n i : Nat) (h : i < n) :
    ∃ l, List.range n = List.range i ++ i :: l ∧ ∀ b, b ∈ l → i < b := by
  induction n with
  | zero => omega
  | succ k ih =>
    rcases Nat.lt_succ_iff_lt_or_eq.mp h with hlt | rfl
    · obtain ⟨l, hl, hb⟩ := ih hlt
      refine ⟨l ++ [k], by rw [List.range_succ, hl]; simp, fun b hb' => ?_⟩
      rcases List.mem_append.mp hb' with hb' | hb'
      · exact hb b hb'
      · rw [List.mem_singleton.mp hb']; exact hlt
    · exact ⟨[], by rw [List.range_succ], by simp⟩

/-- The first loop of `polling_refc_update` over the channels `l` of device
`did` touches no other channel. -/
theorem polling_scan_frame (did : Nat) (l : List Nat) : ∀ (lm : Nat) (s : neon_state),
    table_frame (fun d c => d = did ∧ c ∈ l) s (polling_scan did l lm s).2 := by
  induction l with
  | nil => intro lm s; exact table_frame_refl _ _
  | cons a rest ih =>
    intro lm s
    have hown : table_frame (fun d c => d = did ∧ c ∈ a :: rest) s
        (polling_chan did a lm s).2.2 :=
      table_frame_mono (fun d c => d = did ∧ c = a) _ _ _
        (fun d c h => ⟨h.1, h.2 ▸ List.mem_cons_self _ _⟩) (polling_chan_frame did a lm s)
    have hrest : ∀ lm t, table_frame (fun d c => d = did ∧ c ∈ a :: rest) t
        (polling_scan did rest lm t).2 := fun lm t =>
      table_frame_mono (fun d c => d = did ∧ c ∈ rest) _ _ _
        (fun d c h => ⟨h.1, List.mem_cons_of_mem _ h.2⟩) (ih lm t)
    simp only [polling_scan]
    split_ifs
    · exact hown
    · exact table_frame_trans _ _ _ _ hown (hrest _ _)
    · exact hrest _ _

/-- The first loop of `polling_refc_update` passes the channels that it does
not mark likely malicious and goes on with the rest. -/
theorem polling_scan_prefix (did : Nat) (rest : List Nat) (l : List Nat) :
    ∀ (s : neon_state), l.Nodup → (∀ c, c ∈ l → polling_marks did c s = false) →
    ∃ t, polling_scan did (l ++ rest) (s.neon_global.dev did).nchan s
        = polling_scan did rest (s.neon_global.dev did).nchan t ∧
      table_frame (fun d c => d = did ∧ c ∈ l) s t := by
  induction l with
  | nil => intro s _ _; exact ⟨s, rfl, table_frame_refl _ _⟩
  | cons a l ih =>
    intro s hnd hm
    have hnd' := List.nodup_cons.mp hnd
    by_cases hb : test_bit a (s.neon_global.dev did).bmp_sub2comp = true
    · obtain ⟨h1, h2⟩ := polling_chan_no_mark did a s (hm a (List.mem_cons_self _ _)) hb
      have hfr := polling_chan_frame did a (s.neon_global.dev did).nchan s
      obtain ⟨t, e, ft⟩ := ih (polling_chan did a (s.neon_global.dev did).nchan s).2.2 hnd'.2
        (fun c hc => by
          rw [table_frame_marks _ _ _ did c hfr (fun h => hnd'.1 (h.2 ▸ hc))]
          exact hm c (List.mem_cons_of_mem _ hc))
      rw [hfr.2.1 did] at e
      refine ⟨t, ?_, ?_⟩
      · simp only [List.cons_append, polling_scan, hb, if_true, h1, h2, Bool.false_eq_true,
          if_false]
        exact e
      · exact table_frame_trans _ _ _ _
          (table_frame_mono (fun d c => d = did ∧ c = a) _ _ _
            (fun d c h => ⟨h.1, h.2 ▸ List.mem_cons_self _ _⟩) hfr)
          (table_frame_mono (fun d c => d = did ∧ c ∈ l) _ _ _
            (fun d c h => ⟨h.1, List.mem_cons_of_mem _ h.2⟩) ft)
    · obtain ⟨t, e, ft⟩ := ih s hnd'.2 (fun c hc => hm c (List.mem_cons_of_mem _ hc))
      refine ⟨t, ?_, table_frame_mono (fun d c => d = did ∧ c ∈ l) _ _ _
        (fun d c h => ⟨h.1, List.mem_cons_of_mem _ h.2⟩) ft⟩
      simp only [List.cons_append, polling_scan, hb, if_false]
      exact e

theorem polling_second_chance_frame (did lm : Nat) (s : neon_state) :
    table_frame (fun d _ => d = did) s (polling_second_chance did lm s) := by
  unfold polling_second_chance
  refine foldl_rel (table_frame (fun d _ => d = did)) (table_frame_refl _)
    (table_frame_trans _) _ _ (fun a b _ => ?_) s
  split_ifs
  · exact table_frame_mono (fun d c => d = did ∧ c = b) _ _ _ (fun d c h => h.1)
      (upd_chan_frame did b _ a)
  · exact table_frame_refl _ _
  · exact table_frame_refl _ _

theorem polling_second_chance_done (did lm c : Nat) (s : neon_state) :
    chan_done did c (polling_second_chance did lm s) = chan_done did c s := by
  unfold polling_second_chance
  refine foldl_rel (fun a b => chan_done did c b = chan_done did c a) (fun _ => rfl)
    (fun _ _ _ h1 h2 => h2.trans h1) _ _ (fun a b _ => ?_) s
  split_ifs
  · exact chan_done_upd_chan did b c _ a (fun x => ⟨rfl, rfl, rfl⟩)
  · rfl
  · rfl

/-- The body of the device loop of `polling_refc_update` touches the channels
of its device only. -/
theorem polling_dev_frame (did : Nat) (s : neon_state) :
    table_frame (fun d _ => d = did) s (polling_dev did s) := by
  have hscan := table_frame_mono
    (fun d c => d = did ∧ c ∈ List.range (s.neon_global.dev did).nchan) (fun d _ => d = did)
    _ _ (fun d c h => h.1)
    (polling_scan_frame did (List.range (s.neon_global.dev did).nchan)
      (s.neon_global.dev did).nchan s)
  simp only [polling_dev]
  split_ifs
  · exact table_frame_trans _ _ _ _ hscan (polling_second_chance_frame _ _ _)
  · exact hscan

/-- What the body of the device loop of `polling_refc_update` leaves of a live
channel with a free lock and a mapped counter, no channel of smaller index
being marked likely malicious. -/
theorem polling_dev_own (did cid : Nat) (s : neon_state)
    (hcid : cid < (s.neon_global.dev did).nchan)
    (hl : test_bit cid (s.neon_global.dev did).bmp_sub2comp = true)
    (hlock : ((s.neon_global.dev did).chan cid).lock = false)
    (hmap : ((s.neon_global.dev did).chan cid).refc_kvaddr ≠ 0)
    (hmal : ∀ c, c < cid → polling_marks did c s = false) :
    chan_done did cid (polling_dev did s)
      = if u32 (s.kmem ((s.neon_global.dev did).chan cid).refc_kvaddr)
            ≥ ((s.neon_global.dev did).chan cid).refc_target then (false, 0, 0, 0)
        else chan_done did cid s := by
  obtain ⟨l2, hsplit, hl2⟩ := range_split _ _ hcid
  obtain ⟨t, e, ft⟩ := polling_scan_prefix did (cid :: l2) (List.range cid) s
    (List.nodup_range cid) (fun c hc => hmal c (List.mem_range.mp hc))
  have hnot : ¬ (did = did ∧ cid ∈ List.range cid) := fun h =>
    absurd (List.mem_range.mp h.2) (Nat.lt_irrefl _)
  obtain ⟨-, -, k3, -, -, -, k7⟩ := ft
  have hchan := (k7 did cid hnot).1
  have hbit := (k7 did cid hnot).2
  have hlt : test_bit cid (t.neon_global.dev did).bmp_sub2comp = true := by
    simpa [test_bit, hbit] using hl
  have hown := polling_chan_own did cid (s.neon_global.dev did).nchan t hlt
    (by rw [hchan]; exact hlock) (by rw [hchan]; exact hmap)
  rw [hchan, k3] at hown
  have hdone_t : chan_done did cid t = chan_done did cid s := by
    simp only [chan_done, test_bit, hchan, hbit]
  rw [hdone_t] at hown
  have hsuffix : ∀ lm u, chan_done did cid (polling_scan did l2 lm u).2 = chan_done did cid u :=
    fun lm u => table_frame_done _ _ _ did cid (polling_scan_frame did l2 lm u)
      (fun h => absurd (hl2 cid h.2) (Nat.lt_irrefl _))
  have hscan : chan_done did cid
      (polling_scan did (List.range (s.neon_global.dev did).nchan)
        (s.neon_global.dev did).nchan s).2
      = chan_done did cid (polling_chan did cid (s.neon_global.dev did).nchan t).2.2 := by
    rw [hsplit, e]
    simp only [polling_scan, hlt, if_true]
    split_ifs
    · rfl
    · exact hsuffix _ _
  rw [← hown, ← hscan]
  simp only [polling_dev]
  split_ifs
  · exact polling_second_chance_done _ _ _ _
  · rfl

theorem polling_marks_off (did cid : Nat) (s : neon_state)
    (h : s.malicious_terminator = false) : polling_marks did cid s = false := by
  simp [polling_marks, h]

/-- What one pass of `polling_refc_update` leaves of a live channel with a
free lock and a mapped counter, no channel of smaller index on its device
being marked likely malicious. -/
theorem polling_refc_update_own (s : neon_state) (did cid : Nat)
    (hdid : did < s.neon_global.ndev) (hcid : cid < (s.neon_global.dev did).nchan)
    (hl : test_bit cid (s.neon_global.dev did).bmp_sub2comp = true)
    (hmap : ((s.neon_global.dev did).chan cid).refc_kvaddr ≠ 0)
    (hlock : ((s.neon_global.dev did).chan cid).lock = false)
    (hmal : ∀ c, c < cid → polling_marks did c s = false) :
    chan_done did cid (polling_refc_update s)
      = if u32 (s.kmem ((s.neon_global.dev did).chan cid).refc_kvaddr)
            ≥ ((s.neon_global.dev did).chan cid).refc_target then (false, 0, 0, 0)
        else chan_done did cid s := by
  obtain ⟨l2, hsplit, hl2⟩ := range_split _ _ hdid
  have hpre := foldl_rel (table_frame (fun d _ => d ∈ List.range did)) (table_frame_refl _)
    (table_frame_trans _) (fun s d => polling_dev d s) (List.range did)
    (fun a b hb => table_frame_mono (fun d _ => d = b) _ _ _ (fun d _ h => h ▸ hb)
      (polling_dev_frame b a)) s
  have hsuf := fun u => foldl_rel (table_frame (fun d _ => d ∈ l2)) (table_frame_refl _)
    (table_frame_trans _) (fun s d => polling_dev d s) l2
    (fun a b hb => table_frame_mono (fun d _ => d = b) _ _ _ (fun d _ h => h ▸ hb)
      (polling_dev_frame b a)) u
  have hnot : ¬ did ∈ List.range did := fun h => absurd (List.mem_range.mp h) (Nat.lt_irrefl _)
  have hnot2 : ¬ did ∈ l2 := fun h => absurd (hl2 did h) (Nat.lt_irrefl _)
  have hmarks := fun c => table_frame_marks _ _ _ did c hpre hnot
  have hdone := table_frame_done _ _ _ did cid hpre hnot
  obtain ⟨-, k2, k3, -, -, -, k7⟩ := hpre
  have hchan := (k7 did cid hnot).1
  have hbit := (k7 did cid hnot).2
  have hown := polling_dev_own did cid ((List.range did).foldl (fun s d => polling_dev d s) s)
    (by rw [k2]; exact hcid) (by simpa [test_bit, hbit] using hl)
    (by rw [hchan]; exact hlock) (by rw [hchan]; exact hmap)
    (fun c hc => by rw [hmarks c]; exact hmal c hc)
  rw [hchan, k3, hdone] at hown
  rw [← hown]
  simp only [polling_refc_update]
  rw [hsplit, List.foldl_append, List.foldl_cons]
  exact table_frame_done _ _ _ did cid (hsuf _) hnot2

/-- C4: in one pass of `polling_refc_update`, a live channel with a mapped
counter address and a free lock is complete afterwards (live bit cleared, pid,
counter address and target of the channel zeroed) if and only if the 32-bit
value read at the counter address is at least the target of the channel; when
the value is below the target the live bit stays set and the counter address
and target are unchanged. This holds for the channels that the pass reaches,
that is when no channel of smaller index on the device is marked likely
malicious (`polling_marks`), which makes the loop `break`; built as
`neon_sched.h` has it, without `NEON_MALICIOUS_TERMINATOR`, no channel is ever
marked. -/
theorem polling_refc_update_channel (s : neon_state) (did cid : Nat)
    (hdid : did < s.neon_global.ndev) (hcid : cid < (s.neon_global.dev did).nchan)
    (hl : test_bit cid (s.neon_global.dev did).bmp_sub2comp = true)
    (hmap : ((s.neon_global.dev did).chan cid).refc_kvaddr ≠ 0)
    (hlock : ((s.neon_global.dev did).chan cid).lock = false)
    (hmal : ∀ c, c < cid → polling_marks did c s = false) :
    ((test_bit cid ((polling_refc_update s).neon_global.dev did).bmp_sub2comp = false ∧
        (((polling_refc_update s).neon_global.dev did).chan cid).pid = 0 ∧
        (((polling_refc_update s).neon_global.dev did).chan cid).refc_kvaddr = 0 ∧
        (((polling_refc_update s).neon_global.dev did).chan cid).refc_target = 0) ↔
      u32 (s.kmem ((s.neon_global.dev did).chan cid).refc_kvaddr)
        ≥ ((s.neon_global.dev did).chan cid).refc_target) ∧
    (u32 (s.kmem ((s.neon_global.dev did).chan cid).refc_kvaddr)
        < ((s.neon_global.dev did).chan cid).refc_target →
      test_bit cid ((polling_refc_update s).neon_global.dev did).bmp_sub2comp = true ∧
      (((polling_refc_update s).neon_global.dev did).chan cid).refc_kvaddr
        = ((s.neon_global.dev did).chan cid).refc_kvaddr ∧
      (((polling_refc_update s).neon_global.dev did).chan cid).refc_target
        = ((s.neon_global.dev did).chan cid).refc_target) := by
  have h := polling_refc_update_own s did cid hdid hcid hl hmap hlock hmal
  by_cases hc : u32 (s.kmem ((s.neon_global.dev did).chan cid).refc_kvaddr)
      ≥ ((s.neon_global.dev did).chan cid).refc_target
  · rw [if_pos hc] at h
    simp only [chan_done, Prod.mk.injEq] at h
    exact ⟨⟨fun _ => hc, fun _ => h⟩, fun hlt => absurd hc (Nat.not_le.mpr hlt)⟩
  · rw [if_neg hc] at h
    simp only [chan_done, Prod.mk.injEq, hl] at h
    refine ⟨⟨fun hdone => ?_, fun hge => absurd hge hc⟩, fun _ => ⟨h.1, h.2.2.1, h.2.2.2⟩⟩
    rw [h.1] at hdone
    exact absurd hdone.1 (by simp)

/-- Witness for C4: target 7, the counter reading 6 and then 7. -/
theorem polling_refc_update_channel_witness :
    (0 < (example_live 6).neon_global.ndev ∧
      3 < ((example_live 6).neon_global.dev 0).nchan ∧
      test_bit 3 ((example_live 6).neon_global.dev 0).bmp_sub2comp = true ∧
      (((example_live 6).neon_global.dev 0).chan 3).refc_kvaddr ≠ 0 ∧
      (((example_live 6).neon_global.dev 0).chan 3).lock = false ∧
      (((example_live 6).neon_global.dev 0).chan 3).refc_target = 7 ∧
      ∀ c, c < 3 → polling_marks 0 c (example_live 6) = false) ∧
    (test_bit 3 ((polling_refc_update (example_live 6)).neon_global.dev 0).bmp_sub2comp = true ∧
      (((polling_refc_update (example_live 6)).neon_global.dev 0).chan 3).refc_kvaddr = 0x5000 ∧
      (((polling_refc_update (example_live 6)).neon_global.dev 0).chan 3).refc_target = 7) ∧
    (test_bit 3 ((polling_refc_update (example_live 7)).neon_global.dev 0).bmp_sub2comp = false ∧
      (((polling_refc_update (example_live 7)).neon_global.dev 0).chan 3).pid = 0 ∧
      (((polling_refc_update (example_live 7)).neon_global.dev 0).chan 3).refc_kvaddr = 0 ∧
      (((polling_refc_update (example_live 7)).neon_global.dev 0).chan 3).refc_target = 0) :=
  ⟨⟨by decide!, by decide!, by decide!, by decide!, by decide!, by decide!,
      fun c _ => polling_marks_off 0 c _ (by decide!)⟩,
    (polling_refc_update_channel (example_live 6) 0 3 (by decide!) (by decide!) (by decide!)
      (by decide!) (by decide!) (fun c _ => polling_marks_off 0 c _ (by decide!))).2
      (by decide!),
    (polling_refc_update_channel (example_live 7) 0 3 (by decide!) (by decide!) (by decide!)
      (by decide!) (by decide!) (fun c _ => polling_marks_off 0 c _ (by decide!))).1.mpr
      (by decide!)⟩

/-! ### The reference-counter parsers -/

/-- For a command of at least 6 bytes that does not wrap around the address
space, every word that `tesla_refc_eval` reads lies inside the command. -/
theorem tesla_refc_reads_inside (mem : Nat → Nat) (workload : neon_workload_t)
    (start size : Nat) (h6 : 6 ≤ size) (hfit : start + size < 2 ^ 64) :
    ∀ a, a ∈ tesla_refc_reads mem workload (start, size) →
      start ≤ a ∧ a + 4 ≤ start + size := by
  simp only [tesla_refc_reads, sizeof_int, Nat.reduceMul]
  split_ifs <;> simp only [List.forall_mem_cons, List.not_mem_nil, false_implies, implies_true,
    and_true] <;> unfold usub uadd at * <;> omega

/-- For a command of at least 6 bytes that does not wrap around the address
space, every word that `kepler_refc_eval` reads lies inside the command. -/
theorem kepler_refc_reads_inside (mem : Nat → Nat) (workload : neon_workload_t)
    (start size : Nat) (h6 : 6 ≤ size) (hfit : start + size < 2 ^ 64) :
    ∀ a, a ∈ kepler_refc_reads mem workload (start, size) →
      start ≤ a ∧ a + 4 ≤ start + size := by
  simp only [kepler_refc_reads, sizeof_int, Nat.reduceMul]
  split_ifs <;> simp only [List.forall_mem_cons, List.not_mem_nil, false_implies, implies_true,
    and_true] <;> unfold usub uadd at * <;> omega

/-- The result of `tesla_refc_eval` is a function of the words that it reads. -/
theorem tesla_refc_eval_congr (mem1 mem2 : Nat → Nat) (workload : neon_workload_t)
    (cmd_tuple out : Nat × Nat)
    (h : ∀ a, a ∈ tesla_refc_reads mem1 workload cmd_tuple →
      neon_uptr_read mem1 a = neon_uptr_read mem2 a) :
    tesla_refc_eval mem1 workload cmd_tuple out = tesla_refc_eval mem2 workload cmd_tuple out := by
  simp only [tesla_refc_reads, sizeof_int, Nat.reduceMul] at h
  simp only [tesla_refc_eval, sizeof_int, Nat.reduceMul]
  split_ifs at h with h1 h2 h3 h4 h5 <;>
    simp only [List.forall_mem_cons, List.not_mem_nil, false_implies, implies_true,
      and_true] at h
  · simp only [h1, h2, if_true]
  · obtain ⟨e1, e2, e3⟩ := h
    simp only [h1, h2, if_true, if_false, ← e1, ← e2, ← e3, h3]
  · simp only [h1, h2, if_true, if_false, ← h, h3, h4]
  · obtain ⟨e1, e2, e3, e4⟩ := h
    simp only [h1, h2, if_true, if_false, ← e1, ← e2, ← e3, ← e4, h3, h4, h5]
  · obtain ⟨e1, e2⟩ := h
    simp only [h1, h2, if_true, if_false, ← e1, ← e2, h3, h4, h5]
  · simp only [h1, if_false]

/-- The result of `kepler_refc_eval` is a function of the words that it reads. -/
theorem kepler_refc_eval_congr (mem1 mem2 : Nat → Nat) (workload : neon_workload_t)
    (cmd_tuple out : Nat × Nat)
    (h : ∀ a, a ∈ kepler_refc_reads mem1 workload cmd_tuple →
      neon_uptr_read mem1 a = neon_uptr_read mem2 a) :
    kepler_refc_eval mem1 workload cmd_tuple out
      = kepler_refc_eval mem2 workload cmd_tuple out := by
  simp only [kepler_refc_reads, sizeof_int, Nat.reduceMul] at h
  simp only [kepler_refc_eval, sizeof_int, Nat.reduceMul]
  split_ifs at h <;>
    simp only [List.forall_mem_cons, List.not_mem_nil, false_implies, implies_true,
      and_true] at h <;>
    simp_all only [if_true, if_false, not_true_eq_false, not_false_eq_true]

/-- For a command of at least 6 bytes that does not wrap around the address
space, both parsers are functions of the words of the command. -/
theorem refc_eval_command_only (mem1 mem2 : Nat → Nat) (workload : neon_workload_t)
    (start size : Nat) (out : Nat × Nat) (h6 : 6 ≤ size) (hfit : start + size < 2 ^ 64)
    (hsame : ∀ a, start ≤ a → a + 4 ≤ start + size →
      neon_uptr_read mem1 a = neon_uptr_read mem2 a) :
    tesla_refc_eval mem1 workload (start, size) out
      = tesla_refc_eval mem2 workload (start, size) out ∧
    kepler_refc_eval mem1 workload (start, size) out
      = kepler_refc_eval mem2 workload (start, size) out :=
  ⟨tesla_refc_eval_congr mem1 mem2 workload (start, size) out (fun a ha =>
      hsame a (tesla_refc_reads_inside mem1 workload start size h6 hfit a ha).1
        (tesla_refc_reads_inside mem1 workload start size h6 hfit a ha).2),
    kepler_refc_eval_congr mem1 mem2 workload (start, size) out (fun a ha =>
      hsame a (kepler_refc_reads_inside mem1 workload start size h6 hfit a ha).1
        (kepler_refc_reads_inside mem1 workload start size h6 hfit a ha).2)⟩

/-- C12: on the compute command `(start, size) = (0x1000, 0)` the guard
`cmd_size - 0x6 < 4 * sizeof(int)` wraps around and lets both parsers read the
word at `0xfea`, 22 bytes below the start of the command, and a second word
further below; the result then depends on memory outside the command: with
`0x104310` stored at `0xfea`, `tesla_refc_eval` succeeds with the words at
`0xff2` and `0xff6`, with zeroes there it fails. -/
theorem refc_eval_reads_below_start :
    tesla_refc_reads (fun _ => 0) NEON_WORKLOAD_COMPUTE (0x1000, 0) = [0xfea, 0xfda] ∧
    kepler_refc_reads (fun _ => 0) NEON_WORKLOAD_COMPUTE (0x1000, 0) = [0xfea, 0xfde] ∧
    tesla_refc_eval (fun _ => 0) NEON_WORKLOAD_COMPUTE (0x1000, 0) (0, 0)
      = (-1, (0xDEAD, 0xC0DE)) ∧
    tesla_refc_reads (fun a => if a = 0xfea then 0x104310 else if a = 0xff2 then 0xbeef0
        else if a = 0xff6 then 7 else 0) NEON_WORKLOAD_COMPUTE (0x1000, 0)
      = [0xfea, 0xff2, 0xff6] ∧
    tesla_refc_eval (fun a => if a = 0xfea then 0x104310 else if a = 0xff2 then 0xbeef0
        else if a = 0xff6 then 7 else 0) NEON_WORKLOAD_COMPUTE (0x1000, 0) (0, 0)
      = (0, (0xbeef0, 7)) := by
  refine ⟨by decide, by decide, by decide, by decide, by decide⟩

/-! ### The token holder -/

@[simp] theorem token_view_emit (e : neon_event) (p : sched_state) :
    token_view (emit e p) = token_view p := rfl

@[simp] theorem token_view_tick (p : sched_state) : token_view (tick p) = token_view p := rfl

@[simp] theorem token_view_upd_stask (a : Nat) (f : sched_task_t → sched_task_t)
    (p : sched_state) : token_view (upd_stask a f p) = token_view p := rfl

theorem token_view_upd_sdev (did : Nat) (f : sched_dev_t → sched_dev_t) (p : sched_state)
    (hf : ∀ sd, (f sd).stask_list = sd.stask_list ∧
      (f sd).ps.tslc.token_holder = sd.ps.tslc.token_holder) :
    token_view (upd_sdev did f p) = token_view p := by
  funext d
  by_cases h : d = did
  · subst h; simp [token_view, hf]
  · simp [token_view, upd_sdev_other _ _ _ _ h]

@[simp] theorem token_view_upd_swork (did cid : Nat) (f : sched_work_t → sched_work_t)
    (p : sched_state) : token_view (upd_swork did cid f p) = token_view p :=
  token_view_upd_sdev _ _ _ (fun _ => ⟨rfl, rfl⟩)

@[simp] theorem token_view_upd_smpl_dev (did : Nat) (f : sampling_dev_t → sampling_dev_t)
    (p : sched_state) : token_view (upd_smpl_dev did f p) = token_view p :=
  token_view_upd_sdev _ _ _ (fun _ => ⟨rfl, rfl⟩)

@[simp] theorem token_view_upd_smpl_work (did cid : Nat) (f : sampling_work_t → sampling_work_t)
    (p : sched_state) : token_view (upd_smpl_work did cid f p) = token_view p :=
  token_view_upd_swork _ _ _ _

@[simp] theorem token_view_upd_tslc_task (a : Nat) (f : timeslice_task_t → timeslice_task_t)
    (p : sched_state) : token_view (upd_tslc_task a f p) = token_view p := rfl

@[simp] theorem token_view_upd_smpl_task (a : Nat) (f : sampling_task_t → sampling_task_t)
    (p : sched_state) : token_view (upd_smpl_task a f p) = token_view p := rfl

theorem token_view_upd_tslc_dev (did : Nat) (f : timeslice_dev_t → timeslice_dev_t)
    (p : sched_state) (hf : ∀ x, (f x).token_holder = x.token_holder) :
    token_view (upd_tslc_dev did f p) = token_view p :=
  token_view_upd_sdev _ _ _ (fun sd => ⟨rfl, hf sd.ps.tslc⟩)

theorem token_view_set_holder (did h : Nat) (p : sched_state) (d : Nat) :
    token_view (upd_tslc_dev did (fun x => { x with token_holder := h }) p) d
      = if d = did then ((token_view p d).1, h) else token_view p d := by
  by_cases hd : d = did
  · subst hd; simp [token_view, upd_tslc_dev]
  · simp [token_view, upd_tslc_dev, upd_sdev_other _ _ _ _ hd, hd]

theorem token_step_refl (p : sched_state) : token_step p p :=
  fun _ => ⟨rfl, Or.inl rfl⟩

theorem token_step_trans (p q r : sched_state) (h1 : token_step p q) (h2 : token_step q r) :
    token_step p r := by
  intro d
  obtain ⟨a1, a2⟩ := h1 d
  obtain ⟨b1, b2⟩ := h2 d
  refine ⟨b1.trans a1, ?_⟩
  rcases b2 with b | b | b
  · rw [b]; exact a2
  · exact Or.inr (Or.inl b)
  · exact Or.inr (Or.inr (a1 ▸ b))

theorem token_step_of_view (p q : sched_state) (h : token_view q = token_view p) :
    token_step p q := fun d => by rw [h]; exact ⟨rfl, Or.inl rfl⟩

theorem token_ok_step (n : Nat) (p q : sched_state) (hp : token_ok n p)
    (h : token_step p q) : token_ok n q := by
  intro d hd
  obtain ⟨a1, a2⟩ := h d
  rcases a2 with a | a | a
  · rw [a, a1]; exact hp d hd
  · exact Or.inl a
  · exact Or.inr (a1 ▸ a)

theorem token_view_foldl {α : Type} (f : sched_state → α → sched_state)
    (hf : ∀ q a, token_view (f q a) = token_view q) (l : List α) :
    ∀ q, token_view (l.foldl f q) = token_view q := by
  induction l with
  | nil => intro q; rfl
  | cons a rest ih => intro q; rw [List.foldl_cons, ih, hf]

@[simp] theorem token_view_reengage_task (g : neon_global_t) (did st arm : Nat)
    (p : sched_state) : token_view (neon_policy_reengage_task g did st arm p) = token_view p := by
  unfold neon_policy_reengage_task
  apply token_view_foldl
  intro q a
  simp only [reengage_work]
  split_ifs <;> rfl

@[simp] theorem token_view_policy_update (g : neon_global_t) (did st : Nat) (busy : Nat → Bool)
    (p : sched_state) : token_view (neon_policy_update g did st busy p) = token_view p := by
  unfold neon_policy_update
  apply token_view_foldl
  intro q a
  simp only []
  split_ifs <;> rfl

theorem list_next_mem (l : List Nat) (h : Nat) : list_next l h = h ∨ list_next l h ∈ l := by
  unfold list_next
  have hsub : ∀ x, x ∈ l.dropWhile (fun a => a ≠ h) → x ∈ l :=
    fun x hx => (List.dropWhile_sublist _).subset hx
  split
  · exact Or.inl rfl
  · next x heq =>
    have hx : x ∈ l := hsub x (by rw [heq]; simp)
    cases l with
    | nil => simp at hx
    | cons a rest => exact Or.inr (by simp)
  · next x b rest heq =>
    exact Or.inr (hsub b (by rw [heq]; simp))

theorem token_turn_step (did rep : Nat) (p : sched_state) :
    token_step p (token_turn did rep p).2 := by
  have hset : ∀ h, (h = (token_view p did).2 ∨ h = 0 ∨ h ∈ (token_view p did).1) →
      token_step p (upd_tslc_dev did (fun x => { x with token_holder := h }) p) := by
    intro h hh d
    rw [token_view_set_holder]
    by_cases hd : d = did
    · subst hd; simpa using hh
    · simp [hd]
  have hnew : ∀ h, (h = (token_view p did).2 ∨ h = 0 ∨ h ∈ (token_view p did).1) →
      ∀ q, token_view q = token_view
        (upd_tslc_dev did (fun x => { x with token_holder := h }) p) → token_step p q :=
    fun h hh q hq => token_step_trans _ _ _ (hset h hh) (token_step_of_view _ _ hq)
  have hA : list_next (p.sched_dev_array did).stask_list
        (p.sched_dev_array did).ps.tslc.token_holder = (token_view p did).2 ∨
      list_next (p.sched_dev_array did).stask_list
        (p.sched_dev_array did).ps.tslc.token_holder = 0 ∨
      list_next (p.sched_dev_array did).stask_list
        (p.sched_dev_array did).ps.tslc.token_holder ∈ (token_view p did).1 := by
    rcases list_next_mem (p.sched_dev_array did).stask_list
      (p.sched_dev_array did).ps.tslc.token_holder with e | e
    · exact Or.inl e
    · exact Or.inr (Or.inr e)
  have hB : (p.sched_dev_array did).stask_list.headD 0 = (token_view p did).2 ∨
      (p.sched_dev_array did).stask_list.headD 0 = 0 ∨
      (p.sched_dev_array did).stask_list.headD 0 ∈ (token_view p did).1 := by
    simp only [token_view]
    cases (p.sched_dev_array did).stask_list with
    | nil => exact Or.inr (Or.inl rfl)
    | cons a rest => exact Or.inr (Or.inr (by simp))
  simp only [token_turn]
  split_ifs
  all_goals first
    | (refine hnew _ hA _ ?_; simp; done)
    | (refine hnew _ hB _ ?_; simp)

theorem token_loop_step (did : Nat) (fuel : Nat) :
    ∀ (rep : Nat) (p : sched_state), token_step p (token_loop did fuel rep p) := by
  induction fuel with
  | zero => intro rep p; exact token_step_refl p
  | succ n ih =>
    intro rep p
    simp only [token_loop]
    split_ifs
    · exact token_step_trans _ _ _ (token_turn_step did rep p) (ih _ _)
    · exact token_turn_step did rep p

@[simp] theorem token_view_token_grant (g : neon_global_t) (did nh a : Nat) (p : sched_state) :
    token_view (token_grant g did nh a p) = token_view p := by
  simp only [token_grant]
  split_ifs <;> simp

theorem update_token_holder_step (g : neon_global_t) (did : Nat) (p : sched_state) :
    token_step p (update_token_holder g did p) := by
  simp only [update_token_holder]
  split_ifs
  · exact token_step_refl p
  · exact token_step_trans _ _ _ (token_loop_step did _ 0 p)
      (token_step_of_view _ _ (token_view_foldl _ (fun q a => by simp) _ _))

theorem sched_frame.policy {m h : sched_state} (hf : sched_frame m h) :
    h.policy_id = m.policy_id := hf.2.2.2.2.1

@[simp] theorem token_view_tslc_update_ts (did v : Nat) (p : sched_state) :
    token_view (upd_tslc_dev did (fun d => { d with update_ts := v }) p) = token_view p :=
  token_view_upd_tslc_dev did (fun d => { d with update_ts := v }) p (fun _ => rfl)

@[simp] theorem token_view_tslc_action (did v : Nat) (p : sched_state) :
    token_view (upd_tslc_dev did (fun d => { d with action := v }) p) = token_view p :=
  token_view_upd_tslc_dev did (fun d => { d with action := v }) p (fun _ => rfl)

@[simp] theorem token_view_tslc_timer (did : Nat) (t : hrtimer) (p : sched_state) :
    token_view (upd_tslc_dev did (fun d => { d with token_timer := t }) p) = token_view p :=
  token_view_upd_tslc_dev did (fun d => { d with token_timer := t }) p (fun _ => rfl)

@[simp] theorem token_view_tslc_timer_start (did : Nat) (p : sched_state) :
    token_view (upd_tslc_dev did
      (fun d => { d with token_timer := hrtimer_start d.token_timer }) p) = token_view p :=
  token_view_upd_tslc_dev did (fun d => { d with token_timer := hrtimer_start d.token_timer }) p
    (fun _ => rfl)

@[simp] theorem token_view_token_timer_cancel (did : Nat) (p : sched_state) :
    token_view (token_timer_cancel did p).2 = token_view p := by
  simp only [token_timer_cancel, token_view_tslc_timer]

theorem token_step_congr {p r r' : sched_state} (h : token_view r = token_view r') :
    token_step p r ↔ token_step p r' := by
  unfold token_step
  rw [h]

theorem token_step_congr_left {p q r : sched_state} (h : token_view q = token_view p)
    (hs : token_step q r) : token_step p r :=
  token_step_trans _ _ _ (token_step_of_view _ _ h) hs

@[simp] theorem token_step_emit_iff (p q : sched_state) (e : neon_event) :
    token_step p (emit e q) ↔ token_step p q := token_step_congr (by simp)

@[simp] theorem token_step_tick_iff (p q : sched_state) :
    token_step p (tick q) ↔ token_step p q := token_step_congr (by simp)

@[simp] theorem token_step_upd_stask_iff (p q : sched_state) (a : Nat)
    (f : sched_task_t → sched_task_t) : token_step p (upd_stask a f q) ↔ token_step p q :=
  token_step_congr (by simp)

@[simp] theorem token_step_upd_swork_iff (p q : sched_state) (did cid : Nat)
    (f : sched_work_t → sched_work_t) : token_step p (upd_swork did cid f q) ↔ token_step p q :=
  token_step_congr (by simp)

@[simp] theorem token_step_upd_tslc_task_iff (p q : sched_state) (a : Nat)
    (f : timeslice_task_t → timeslice_task_t) :
    token_step p (upd_tslc_task a f q) ↔ token_step p q := token_step_congr (by simp)

@[simp] theorem token_step_update_ts_iff (p q : sched_state) (did v : Nat) :
    token_step p (upd_tslc_dev did (fun d => { d with update_ts := v }) q) ↔ token_step p q :=
  token_step_congr (by simp)

@[simp] theorem token_step_action_iff (p q : sched_state) (did v : Nat) :
    token_step p (upd_tslc_dev did (fun d => { d with action := v }) q) ↔ token_step p q :=
  token_step_congr (by simp)

@[simp] theorem token_step_timer_start_iff (p q : sched_state) (did : Nat) :
    token_step p (upd_tslc_dev did
      (fun d => { d with token_timer := hrtimer_start d.token_timer }) q) ↔ token_step p q :=
  token_step_congr (by simp)

@[simp] theorem token_step_timer_cancel_iff (p q : sched_state) (did : Nat) :
    token_step p (token_timer_cancel did q).2 ↔ token_step p q := token_step_congr (by simp)

@[simp] theorem token_step_reengage_iff (p q : sched_state) (g : neon_global_t)
    (did st arm : Nat) :
    token_step p (neon_policy_reengage_task g did st arm q) ↔ token_step p q :=
  token_step_congr (by simp)

@[simp] theorem token_step_policy_update_iff (p q : sched_state) (g : neon_global_t)
    (did st : Nat) (busy : Nat → Bool) :
    token_step p (neon_policy_update g did st busy q) ↔ token_step p q :=
  token_step_congr (by simp)

/-- Passing the token from a state with the lists and holders of `p`. -/
theorem update_token_holder_step_of (g : neon_global_t) (did : Nat) (p q : sched_state)
    (h : token_view q = token_view p) : token_step p (update_token_holder g did q) :=
  token_step_congr_left h (update_token_holder_step g did q)

theorem start_timeslice_step (g : neon_global_t) (did cid st : Nat) (p : sched_state) :
    token_step p (start_timeslice g did cid st p) := by
  simp only [start_timeslice]
  split_ifs
  · exact update_token_holder_step g did p
  · exact token_step_refl p

theorem complete_timeslice_step (g : neon_global_t) (did cid st : Nat) (p : sched_state) :
    token_step p (complete_timeslice g did cid st p) := by
  simp only [complete_timeslice]
  split_ifs
  all_goals try simp only [token_step_timer_start_iff, token_step_timer_cancel_iff,
    token_step_update_ts_iff]
  all_goals first
    | exact token_step_refl p
    | exact update_token_holder_step_of g did p _ (by simp)

theorem stop_timeslice_step (g : neon_global_t) (did cid st : Nat) (p : sched_state) :
    token_step p (stop_timeslice g did cid st p) := by
  have hdrop : ∀ q, token_step p q →
      token_step p (upd_tslc_dev did (fun d => { d with token_holder := 0 }) q) := by
    intro q hq d
    rw [token_view_set_holder]
    by_cases hd : d = did
    · subst hd; simp [(hq d).1]
    · simp [hd, hq d]
  simp only [stop_timeslice]
  split_ifs
  all_goals try simp only [token_step_emit_iff, token_step_action_iff,
    token_step_timer_cancel_iff, token_step_upd_tslc_task_iff]
  all_goals first
    | exact token_step_refl p
    | exact update_token_holder_step g did p
    | exact hdrop _ (update_token_holder_step g did p)

/-- The token is not left with a task whose last work stops. -/
theorem stop_timeslice_drops (g : neon_global_t) (did cid st : Nat) (p : sched_state)
    (h0 : st ≠ 0) (hl : (p.sched_dev_array did).stask_list ≠ [])
    (hb : bitmap_empty (p.stask st).bmp_start2stop (g.dev did).nchan = true) :
    (token_view (stop_timeslice g did cid st p) did).2 ≠ st := by
  have hv : ∀ q : sched_state, (token_view q did).2 ≠ st →
      ∀ r, token_view r = token_view q → (token_view r did).2 ≠ st :=
    fun q hq r hr => by rw [hr]; exact hq
  have hdrop : ∀ q, (token_view
      (upd_tslc_dev did (fun d => { d with token_holder := 0 }) q) did).2 ≠ st := by
    intro q
    rw [token_view_set_holder]
    simpa using Ne.symm h0
  by_cases hh : (p.sched_dev_array did).ps.tslc.token_holder = st
  · simp only [stop_timeslice, hh, hb, hl, ne_eq, not_false_eq_true, and_self, if_true]
    split_ifs
    all_goals first
      | (refine hv _ (hdrop (update_token_holder g did p)) _ ?_; simp; done)
      | (refine hv (update_token_holder g did p) ?_ _ ?_
         · show ((update_token_holder g did p).sched_dev_array did).ps.tslc.token_holder ≠ st
           assumption
         · simp)
  · have hp : (token_view p did).2 ≠ st := hh
    simp only [stop_timeslice, hh, false_and, if_false]
    split_ifs
    all_goals (refine hv p hp _ ?_; simp)

theorem token_step_foldl {α : Type} (f : sched_state → α → sched_state)
    (hf : ∀ q a, token_step q (f q a)) (l : List α) :
    ∀ q, token_step q (l.foldl f q) := by
  induction l with
  | nil => intro q; exact token_step_refl q
  | cons a rest ih => intro q; exact token_step_trans _ _ _ (hf q a) (ih _)

theorem event_timeslice_pass_step (g : neon_global_t) (busy : Nat → Nat → Nat → Bool)
    (now_ts : timespec) (i : Nat) (p : sched_state) :
    token_step p (event_timeslice_pass g busy now_ts i p) := by
  simp only [event_timeslice_pass]
  split_ifs
  all_goals try simp only [token_step_timer_start_iff, token_step_timer_cancel_iff,
    token_step_update_ts_iff, token_step_reengage_iff, token_step_policy_update_iff]
  all_goals first
    | exact token_step_refl p
    | exact update_token_holder_step_of g i p _ (by simp)

theorem event_timeslice_dev_step (g : neon_global_t) (busy : Nat → Nat → Nat → Bool)
    (now_ts : timespec) (i : Nat) (p : sched_state) :
    token_step p (event_timeslice_dev g busy now_ts i p) := by
  simp only [event_timeslice_dev]
  split_ifs
  · exact token_step_refl p
  · exact token_step_congr_left (token_view_tslc_action i 0 p)
      (event_timeslice_pass_step g busy now_ts i _)
  · exact event_timeslice_pass_step g busy now_ts i p

theorem event_timeslice_step (g : neon_global_t) (busy : Nat → Nat → Nat → Bool)
    (p : sched_state) : token_step p (event_timeslice g busy p) := by
  simp only [event_timeslice]
  exact token_step_congr_left (token_view_tick p)
    (token_step_foldl _ (fun q a => event_timeslice_dev_step g busy _ a q) _ _)

theorem token_step_drop_all (f : timeslice_dev_t → timeslice_dev_t)
    (hf : ∀ x, (f x).token_holder = 0) (l : List Nat) (q : sched_state) :
    token_step q (l.foldl (fun p i => upd_tslc_dev i f p) q) := by
  refine token_step_foldl _ (fun q i d => ?_) l q
  by_cases hd : d = i
  · subst hd; simp [token_view, upd_tslc_dev, hf]
  · simp [token_view, upd_tslc_dev, upd_sdev_other _ _ _ _ hd]

theorem reset_timeslice_step (g : neon_global_t) (k1 k2 nctx : Nat) (p : sched_state) :
    token_step p (reset_timeslice g k1 k2 nctx p) := by
  by_cases h1 : nctx = 1
  · have h0 : ¬ nctx = 0 := by omega
    simp only [reset_timeslice, h1, if_true, Nat.one_ne_zero, if_false]
    exact token_step_congr_left (q := { p with timeslice_T := _, disengage := _ }) rfl
      (token_step_drop_all (fun d => { d with token_holder := 0, update_ts := 0,
                                              token_timer := hrtimer_start d.token_timer })
        (fun _ => rfl) _ _)
  · by_cases h0 : nctx = 0
    · simp only [reset_timeslice, h0, Nat.zero_ne_one, if_false, if_true]
      exact token_step_drop_all (fun d => { d with action := 0, token_holder := 0,
                                                   update_ts := 0, token_timer := .inactive })
        (fun _ => rfl) _ _
    · simp only [reset_timeslice, h1, h0, if_false]
      exact token_step_refl p

/-- After `reset_timeslice` with one context or none, no device has a token
holder. -/
theorem reset_timeslice_clears (g : neon_global_t) (k1 k2 nctx : Nat) (p : sched_state)
    (hn : nctx = 0 ∨ nctx = 1) :
    ∀ d, d < g.ndev → (token_view (reset_timeslice g k1 k2 nctx p) d).2 = 0 := by
  have key : ∀ (f : timeslice_dev_t → timeslice_dev_t), (∀ x, (f x).token_holder = 0) →
      ∀ (l : List Nat) (q : sched_state) (d : Nat), d ∈ l ∨ (token_view q d).2 = 0 →
      (token_view (l.foldl (fun p i => upd_tslc_dev i f p) q) d).2 = 0 := by
    intro f hf l
    induction l with
    | nil => intro q d h; simpa using h
    | cons a rest ih =>
      intro q d h
      rw [List.foldl_cons]
      apply ih
      by_cases hda : d = a
      · subst hda; right; simp [token_view, upd_tslc_dev, hf]
      · rcases h with h | h
        · left; simpa [hda] using h
        · right; simpa [token_view, upd_tslc_dev, upd_sdev_other _ _ _ _ hda] using h
  intro d hd
  simp only [reset_timeslice]
  rcases hn with rfl | rfl
  · simp only [Nat.zero_ne_one, if_false, if_true]
    exact key _ (fun _ => rfl) _ _ _ (Or.inl (List.mem_range.mpr hd))
  · simp only [if_true, Nat.one_ne_zero, if_false]
    exact key _ (fun _ => rfl) _ _ _ (Or.inl (List.mem_range.mpr hd))

/-! ### The selected policy stays -/

@[simp] theorem select_policy_create_policy (st : Nat) (q : sched_state) :
    (select_policy_create st q).policy_id = q.policy_id := (frame_create st q).policy

@[simp] theorem select_policy_destroy_policy (st : Nat) (q : sched_state) :
    (select_policy_destroy st q).policy_id = q.policy_id := (frame_destroy st q).policy

@[simp] theorem select_policy_start_policy (g : neon_global_t) (did cid st : Nat)
    (q : sched_state) : (select_policy_start g did cid st q).policy_id = q.policy_id :=
  (frame_start g did cid st q).policy

@[simp] theorem select_policy_stop_policy (g : neon_global_t) (did cid st : Nat)
    (q : sched_state) : (select_policy_stop g did cid st q).policy_id = q.policy_id :=
  (frame_stop g did cid st q).policy

@[simp] theorem select_policy_issue_policy (did cid st hb : Nat) (q : sched_state) :
    (select_policy_issue did cid st hb q).policy_id = q.policy_id :=
  (frame_issue did cid st hb q).policy

@[simp] theorem select_policy_complete_policy (g : neon_global_t) (did cid st : Nat)
    (q : sched_state) : (select_policy_complete g did cid st q).policy_id = q.policy_id :=
  (frame_complete g did cid st q).policy

@[simp] theorem alloc_stask_policy (addr pid : Nat) (q : sched_state) :
    (alloc_stask addr pid q).policy_id = q.policy_id := rfl

@[simp] theorem neon_policy_issue_policy (work : Nat → neon_work_t) (did cid st hb : Nat)
    (q : sched_state) : (neon_policy_issue work did cid st hb q).2.policy_id = q.policy_id := by
  simp only [neon_policy_issue]
  split_ifs <;> simp

@[simp] theorem select_policy_submit_policy (work : Nat → neon_work_t) (did cid st : Nat)
    (q : sched_state) : (select_policy_submit work did cid st q).2.policy_id = q.policy_id := by
  obtain ⟨hb, pre, e, hf, -⟩ := select_policy_submit_issue work did cid st q
  rw [e, hook_outcome_snd, neon_policy_issue_policy]
  exact hf.policy

theorem neon_policy_start_policy (g : neon_global_t) (work : Nat → neon_work_t) (addr : Nat)
    (bmp_ok : Bool) (w : Nat) (q : sched_state) :
    (neon_policy_start g work addr bmp_ok w q).2.policy_id = q.policy_id := by
  simp only [neon_policy_start, create_sched_task]
  split_ifs <;> simp

theorem neon_policy_stop_policy (g : neon_global_t) (work : Nat → neon_work_t)
    (w : Nat) (q : sched_state) :
    (neon_policy_stop g work w q).2.policy_id = q.policy_id := by
  simp only [neon_policy_stop, destroy_sched_task]
  split_ifs <;> simp

theorem neon_policy_submit_policy (work : Nat → neon_work_t) (w : Nat) (q : sched_state) :
    (neon_policy_submit work w q).2.policy_id = q.policy_id := by
  simp only [neon_policy_submit]
  split_ifs <;> simp

theorem neon_policy_complete_policy (g : neon_global_t) (did cid pid : Nat) (q : sched_state) :
    (neon_policy_complete g did cid pid q).policy_id = q.policy_id := by
  simp only [neon_policy_complete]
  split_ifs <;> simp

/-! ### The token holder stays on the list -/

theorem token_ok_congr {n : Nat} {r r' : sched_state} (h : token_view r = token_view r') :
    token_ok n r ↔ token_ok n r' := by
  unfold token_ok
  rw [h]

@[simp] theorem token_view_alloc_stask (addr pid : Nat) (p : sched_state) :
    token_view (alloc_stask addr pid p) = token_view p := rfl

@[simp] theorem token_view_select_create (st : Nat) (p : sched_state) :
    token_view (select_policy_create st p) = token_view p := by
  simp only [select_policy_create, create_fcfs, create_timeslice, create_sampling]
  split <;> simp

@[simp] theorem token_view_select_destroy (st : Nat) (p : sched_state) :
    token_view (select_policy_destroy st p) = token_view p := by
  simp only [select_policy_destroy, destroy_fcfs, destroy_timeslice, destroy_sampling]
  repeat' split
  all_goals simp

@[simp] theorem upd_tslc_task_policy (a : Nat) (f : timeslice_task_t → timeslice_task_t)
    (q : sched_state) : (upd_tslc_task a f q).policy_id = q.policy_id := rfl

@[simp] theorem upd_tslc_dev_policy (did : Nat) (f : timeslice_dev_t → timeslice_dev_t)
    (q : sched_state) : (upd_tslc_dev did f q).policy_id = q.policy_id := rfl

theorem token_view_policy_issue (work : Nat → neon_work_t) (did cid st hb : Nat)
    (p : sched_state) (hp : p.policy_id = NEON_POLICY_TIMESLICE) :
    token_view (neon_policy_issue work did cid st hb p).2 = token_view p := by
  simp only [neon_policy_issue, select_policy_issue]
  split_ifs <;> simp [hp, issue_timeslice]

theorem token_view_select_submit (work : Nat → neon_work_t) (did cid st : Nat)
    (q : sched_state) (hq : q.policy_id = NEON_POLICY_TIMESLICE) :
    token_view (select_policy_submit work did cid st q).2 = token_view q := by
  simp only [select_policy_submit, hq, submit_timeslice, hook_outcome_snd]
  split_ifs <;> rw [token_view_policy_issue _ _ _ _ _ _ (by simp [hq])] <;> simp

theorem token_view_policy_submit (work : Nat → neon_work_t) (w : Nat) (p : sched_state)
    (hp : p.policy_id = NEON_POLICY_TIMESLICE) :
    token_view (neon_policy_submit work w p).2 = token_view p := by
  simp only [neon_policy_submit]
  split_ifs
  · rfl
  all_goals rw [token_view_select_submit _ _ _ _ _ (by simp [hp])]
  all_goals simp

theorem token_ok_append (n did x : Nat) (q : sched_state) (h : token_ok n q) :
    token_ok n (upd_sdev did
      (fun sd => { sd with stask_list := sd.stask_list ++ [x] }) q) := by
  intro d hd
  by_cases hdd : d = did
  · subst hdd
    rcases h d hd with h | h
    · left; simpa [token_view] using h
    · right; simp only [token_view] at h; simp [token_view, h]
  · simpa [token_view, upd_sdev_other _ _ _ _ hdd] using h d hd

theorem neon_policy_start_token (g : neon_global_t) (work : Nat → neon_work_t) (addr : Nat)
    (bmp_ok : Bool) (w : Nat) (p : sched_state) (n : Nat)
    (hp : p.policy_id = NEON_POLICY_TIMESLICE) (hok : token_ok n p) :
    token_ok n (neon_policy_start g work addr bmp_ok w p).2 := by
  have hstart : ∀ did cid st q, q.policy_id = NEON_POLICY_TIMESLICE → token_ok n q →
      token_ok n (select_policy_start g did cid st q) := by
    intro did cid st q hq h
    simp only [select_policy_start, hq]
    exact token_ok_step n _ _ h (start_timeslice_step g did cid st q)
  have hbase : ∀ q, token_view q = token_view p → token_ok n q :=
    fun q hq => (token_ok_congr hq).mpr hok
  simp only [neon_policy_start]
  generalize hr : (if find_stask p.stask (work w).neon_task
      (p.sched_dev_array (work w).did).stask_list = 0
    then create_sched_task addr bmp_ok (work w).did (work w).neon_task p
    else (find_stask p.stask (work w).neon_task
      (p.sched_dev_array (work w).did).stask_list, p)) = r
  have hv : token_view r.2 = token_view p := by
    rw [← hr]; simp only [create_sched_task]; split_ifs <;> simp
  have hq : r.2.policy_id = NEON_POLICY_TIMESLICE := by
    rw [← hr]; simp only [create_sched_task]; split_ifs <;> simp [hp]
  split_ifs
  · exact hbase _ hv
  · rw [token_ok_congr (token_view_upd_stask _ _ _)]
    apply hstart _ _ _ _ (by simp [hq])
    apply token_ok_append
    exact hbase _ (by simp [hv])
  · rw [token_ok_congr (token_view_upd_stask _ _ _)]
    apply hstart _ _ _ _ (by simp [hq])
    exact hbase _ (by simp [hv])

theorem token_ok_erase (n did x : Nat) (q : sched_state) (h : token_ok n q)
    (hx : (token_view q did).2 ≠ x) :
    token_ok n (upd_sdev did
      (fun sd => { sd with stask_list := sd.stask_list.erase x }) q) := by
  intro d hd
  by_cases hdd : d = did
  · subst hdd
    rcases h d hd with h | h
    · left; simpa [token_view] using h
    · right
      simp only [token_view] at h hx
      simpa [token_view] using (List.mem_erase_of_ne hx).mpr h
  · simpa [token_view, upd_sdev_other _ _ _ _ hdd] using h d hd

theorem neon_policy_stop_token (g : neon_global_t) (work : Nat → neon_work_t)
    (w : Nat) (p : sched_state) (n : Nat)
    (hp : p.policy_id = NEON_POLICY_TIMESLICE) (hok : token_ok n p) :
    token_ok n (neon_policy_stop g work w p).2 := by
  simp only [neon_policy_stop, destroy_sched_task]
  generalize hst : find_stask p.stask (work w).neon_task
    (p.sched_dev_array (work w).did).stask_list = st
  generalize hp1 : upd_stask st
    (fun t => { t with bmp_start2stop := clear_bit (work w).cid t.bmp_start2stop }) p = p1
  have hq1 : p1.policy_id = NEON_POLICY_TIMESLICE := by rw [← hp1]; simpa using hp
  have hv1 : token_view p1 = token_view p := by rw [← hp1]; simp
  have h2 : select_policy_stop g (work w).did (work w).cid st p1 =
      stop_timeslice g (work w).did (work w).cid st p1 := by
    simp only [select_policy_stop, hq1]
  have hok2 : token_ok n (stop_timeslice g (work w).did (work w).cid st p1) :=
    token_ok_step n _ _ ((token_ok_congr hv1).mpr hok) (stop_timeslice_step _ _ _ _ _)
  split_ifs with h0 hb
  · exact hok
  · rw [token_ok_congr (token_view_select_destroy _ _)]
    have hmem := (find_stask_mem p.stask (work w).neon_task
      (p.sched_dev_array (work w).did).stask_list (by rw [hst]; exact h0)).1
    rw [hst] at hmem
    have hl : (p1.sched_dev_array (work w).did).stask_list ≠ [] := by
      have e : (p1.sched_dev_array (work w).did).stask_list =
          (p.sched_dev_array (work w).did).stask_list := by rw [← hp1]; simp
      rw [e]; exact List.ne_nil_of_mem hmem
    have hb1 : bitmap_empty (p1.stask st).bmp_start2stop (g.dev (work w).did).nchan = true := by
      rw [← (frame_stop g (work w).did (work w).cid st p1).s2s st]
      simpa using hb
    have hne := stop_timeslice_drops g (work w).did (work w).cid st p1 h0 hl hb1
    rw [h2]
    refine token_ok_erase n (work w).did st _
      ((token_ok_congr (token_view_upd_swork _ _ _ _)).mpr hok2) ?_
    rw [token_view_upd_swork]
    exact hne
  · rw [h2, token_ok_congr (token_view_upd_swork _ _ _ _)]
    exact hok2

theorem neon_policy_submit_token (work : Nat → neon_work_t) (w : Nat) (p : sched_state)
    (n : Nat) (hp : p.policy_id = NEON_POLICY_TIMESLICE) (hok : token_ok n p) :
    token_ok n (neon_policy_submit work w p).2 :=
  (token_ok_congr (token_view_policy_submit work w p hp)).mpr hok

theorem neon_policy_complete_token (g : neon_global_t) (did cid pid : Nat) (p : sched_state)
    (n : Nat) (hp : p.policy_id = NEON_POLICY_TIMESLICE) (hok : token_ok n p) :
    token_ok n (neon_policy_complete g did cid pid p) := by
  have hc : ∀ st q, q.policy_id = NEON_POLICY_TIMESLICE → token_view q = token_view p →
      token_ok n (select_policy_complete g did cid st q) := by
    intro st q hq hv
    simp only [select_policy_complete, hq]
    exact token_ok_step n _ _ ((token_ok_congr hv).mpr hok) (complete_timeslice_step g did cid st q)
  simp only [neon_policy_complete]
  split_ifs
  · exact hok
  · exact hc _ _ (by simp [hp]) (by simp)
  · exact hc _ _ (by simp [hp]) (by simp)

theorem select_policy_event_token (g : neon_global_t) (busy : Nat → Nat → Nat → Bool)
    (p : sched_state) (n : Nat) (hp : p.policy_id = NEON_POLICY_TIMESLICE)
    (hok : token_ok n p) : token_ok n (select_policy_event g busy p) := by
  simp only [select_policy_event, hp]
  exact token_ok_step n _ _ hok (event_timeslice_step g busy p)

theorem select_policy_reset_token (g : neon_global_t) (k1 k2 nctx : Nat)
    (p : sched_state) (n : Nat) (hp : p.policy_id = NEON_POLICY_TIMESLICE)
    (hok : token_ok n p) : token_ok n (select_policy_reset g k1 k2 nctx p) := by
  simp only [select_policy_reset, hp]
  exact token_ok_step n _ _ hok (reset_timeslice_step g k1 k2 nctx p)

theorem select_policy_reset_clears (g : neon_global_t) (k1 k2 nctx : Nat)
    (p : sched_state) (hp : p.policy_id = NEON_POLICY_TIMESLICE)
    (hn : nctx = 0 ∨ nctx = 1) : token_ok g.ndev (select_policy_reset g k1 k2 nctx p) := by
  simp only [select_policy_reset, hp]
  exact fun d hd => Or.inl (reset_timeslice_clears g k1 k2 nctx p hn d hd)

theorem foldl_policy {α : Type} (f : sched_state → α → sched_state)
    (h : ∀ q a, (f q a).policy_id = q.policy_id) (l : List α) (q : sched_state) :
    (l.foldl f q).policy_id = q.policy_id := by
  induction l generalizing q with
  | nil => rfl
  | cons a rest ih => rw [List.foldl_cons, ih, h]

theorem reset_timeslice_policy (g : neon_global_t) (k1 k2 nctx : Nat) (p : sched_state) :
    (reset_timeslice g k1 k2 nctx p).policy_id = p.policy_id := by
  simp only [reset_timeslice]
  split_ifs <;> simp [foldl_policy]

theorem event_timeslice_policy (g : neon_global_t) (busy : Nat → Nat → Nat → Bool)
    (p : sched_state) : (event_timeslice g busy p).policy_id = p.policy_id := by
  have hu : ∀ i q, (update_token_holder g i q).policy_id = q.policy_id :=
    fun i q => (frame_update_token_holder g i q).policy
  have hn : ∀ i st b q, (neon_policy_update g i st b q).policy_id = q.policy_id := by
    intro i st b q
    simp only [neon_policy_update]
    apply foldl_policy
    intro q a
    split_ifs <;> simp
  have hr : ∀ i st a q, (neon_policy_reengage_task g i st a q).policy_id = q.policy_id :=
    fun i st a q => (frame_reengage_task g i st a q).policy
  have hc : ∀ i q, (token_timer_cancel i q).2.policy_id = q.policy_id :=
    fun i q => (frame_token_timer_cancel i q).policy
  have hpass : ∀ ts i q, (event_timeslice_pass g busy ts i q).policy_id = q.policy_id := by
    intro ts i q
    simp only [event_timeslice_pass]
    split_ifs <;> simp [hu, hn, hr, hc]
  simp only [event_timeslice]
  rw [foldl_policy]
  · simp
  · intro q a
    simp only [event_timeslice_dev]
    split_ifs <;> simp [hpass]

theorem run_policy_call_policy (g : neon_global_t) (work : Nat → neon_work_t)
    (p : sched_state) (c : policy_call) (hp : p.policy_id = NEON_POLICY_TIMESLICE) :
    (run_policy_call g work p c).policy_id = NEON_POLICY_TIMESLICE := by
  cases c with
  | reset k1 k2 nctx =>
    simp only [run_policy_call, select_policy_reset, hp, reset_timeslice_policy]
  | start w addr b => simp only [run_policy_call, neon_policy_start_policy, hp]
  | stop w => simp only [run_policy_call, neon_policy_stop_policy, hp]
  | submit w => simp only [run_policy_call, neon_policy_submit_policy, hp]
  | complete did cid pid => simp only [run_policy_call, neon_policy_complete_policy, hp]
  | event busy => simp only [run_policy_call, select_policy_event, hp, event_timeslice_policy]

theorem run_policy_call_token (g : neon_global_t) (work : Nat → neon_work_t)
    (p : sched_state) (c : policy_call) (n : Nat) (hp : p.policy_id = NEON_POLICY_TIMESLICE)
    (hok : token_ok n p) : token_ok n (run_policy_call g work p c) := by
  cases c with
  | reset k1 k2 nctx => exact select_policy_reset_token g k1 k2 nctx p n hp hok
  | start w addr b => exact neon_policy_start_token g work addr b w p n hp hok
  | stop w => exact neon_policy_stop_token g work w p n hp hok
  | submit w => exact neon_policy_submit_token work w p n hp hok
  | complete did cid pid => exact neon_policy_complete_token g did cid pid p n hp hok
  | event busy => exact select_policy_event_token g busy p n hp hok

theorem run_policy_calls_token (g : neon_global_t) (work : Nat → neon_work_t)
    (calls : List policy_call) (n : Nat) (p : sched_state)
    (hp : p.policy_id = NEON_POLICY_TIMESLICE) (hok : token_ok n p) :
    token_ok n (run_policy_calls g work calls p) := by
  induction calls generalizing p with
  | nil => exact hok
  | cons c rest ih =>
    exact ih _ (run_policy_call_policy g work p c hp) (run_policy_call_token g work p c n hp hok)

/-- C13: under the timeslice policy, in every state reached from a reset for no
or for the first context through any calls of reset, start, stop, submit,
complete and event, each device has one token-holder entry, and it is `NULL`
or the address of a task on the task list of the device at that time. A task
that stop takes off the list to destroy it no longer holds the token. -/
theorem timeslice_token_holder_on_list (g : neon_global_t) (work : Nat → neon_work_t)
    (knob_T knob_disengage nctx : Nat) (p0 : sched_state) (calls : List policy_call)
    (hp : p0.policy_id = NEON_POLICY_TIMESLICE) (hn : nctx = 0 ∨ nctx = 1) (d : Nat)
    (hd : d < g.ndev) :
    ((run_policy_calls g work calls
        (select_policy_reset g knob_T knob_disengage nctx p0)).sched_dev_array d).ps.tslc.token_holder
        = 0 ∨
    ((run_policy_calls g work calls
        (select_policy_reset g knob_T knob_disengage nctx p0)).sched_dev_array d).ps.tslc.token_holder
      ∈ ((run_policy_calls g work calls
        (select_policy_reset g knob_T knob_disengage nctx p0)).sched_dev_array d).stask_list :=
  run_policy_calls_token g work calls g.ndev _
    (by simp only [select_policy_reset, hp, reset_timeslice_policy])
    (select_policy_reset_clears g knob_T knob_disengage nctx p0 hp hn) d hd

theorem timeslice_token_holder_on_list_witness :
    (example_sched NEON_POLICY_TIMESLICE).policy_id = NEON_POLICY_TIMESLICE ∧
    (0 : Nat) < example_global.ndev ∧
    (((run_policy_calls example_global example_works example_policy_calls
        (select_policy_reset example_global 30 1 1
          (example_sched NEON_POLICY_TIMESLICE))).sched_dev_array 0).ps.tslc.token_holder = 0 ∨
     ((run_policy_calls example_global example_works example_policy_calls
        (select_policy_reset example_global 30 1 1
          (example_sched NEON_POLICY_TIMESLICE))).sched_dev_array 0).ps.tslc.token_holder
      ∈ ((run_policy_calls example_global example_works example_policy_calls
        (select_policy_reset example_global 30 1 1
          (example_sched NEON_POLICY_TIMESLICE))).sched_dev_array 0).stask_list) :=
  ⟨rfl, by decide, timeslice_token_holder_on_list example_global example_works 30 1 1
    (example_sched NEON_POLICY_TIMESLICE) example_policy_calls rfl (Or.inr rfl) 0 (by decide)⟩

/-! ### Round-robin order of the token -/

theorem dropWhile_ne_append (pre : List Nat) (x : Nat) (rest : List Nat) (h : x ∉ pre) :
    (pre ++ x :: rest).dropWhile (fun a => decide (a ≠ x)) = x :: rest := by
  induction pre with
  | nil => simp [List.dropWhile]
  | cons a pre ih =>
    have ha : a ≠ x := fun e => h (e ▸ List.mem_cons_self _ _)
    have hx : x ∉ pre := fun e => h (List.mem_cons_of_mem _ e)
    rw [List.cons_append, List.dropWhile_cons, if_pos (by simpa using ha)]
    exact ih hx

theorem list_next_append (pre : List Nat) (x : Nat) (rest : List Nat) (h : x ∉ pre) :
    list_next (pre ++ x :: rest) x =
      match rest with
      | [] => (pre ++ [x]).headD x
      | b :: _ => b := by
  unfold list_next
  rw [dropWhile_ne_append pre x rest h]
  cases rest with
  | nil => rfl
  | cons b r => rfl

theorem indexOf_append_self (pre : List Nat) (x : Nat) (rest : List Nat) (h : x ∉ pre) :
    (pre ++ x :: rest).indexOf x = pre.length := by
  induction pre with
  | nil => simp
  | cons a pre ih =>
    have ha : a ≠ x := fun e => h (e ▸ List.mem_cons_self _ _)
    have hx : x ∉ pre := fun e => h (List.mem_cons_of_mem _ e)
    simp [List.indexOf_cons, ha, ih hx]

theorem list_next_eq_spec (l : List Nat) (x : Nat) (hx : x ∈ l) (h0 : x ≠ 0) :
    list_next l x = spec_candidate l x := by
  obtain ⟨pre, rest, hl, hpre⟩ : ∃ pre rest, l = pre ++ x :: rest ∧ x ∉ pre := by
    induction l with
    | nil => simp at hx
    | cons a t ih =>
      by_cases ha : a = x
      · exact ⟨[], t, by simp [ha], by simp⟩
      · have hx' : x ∈ t := by
          rcases List.mem_cons.mp hx with e | e
          · exact absurd e.symm ha
          · exact e
        obtain ⟨pre, rest, e, hp⟩ := ih hx'
        refine ⟨a :: pre, rest, by simp [e], ?_⟩
        simp only [List.mem_cons, not_or]
        exact ⟨fun e => ha e.symm, hp⟩
  subst hl
  rw [list_next_append pre x rest hpre]
  simp only [spec_candidate, h0, if_false, indexOf_append_self pre x rest hpre]
  cases rest with
  | nil =>
    simp only [List.length_append, List.length_cons, List.length_nil, Nat.mod_self]
    cases pre <;> simp
  | cons b r =>
    have hlt : pre.length + 1 < (pre ++ x :: b :: r).length := by simp
    rw [Nat.mod_eq_of_lt hlt, List.getD_eq_getElem _ _ hlt]
    simp [List.getElem_append_right]

theorem code_candidate_eq_spec (l : List Nat) (x : Nat) (hx : x = 0 ∨ x ∈ l) :
    (if x ≠ 0 then list_next l x else l.headD 0) = spec_candidate l x := by
  by_cases h0 : x = 0
  · simp [h0, spec_candidate]
  · rw [if_pos h0]
    exact list_next_eq_spec l x (hx.resolve_left h0) h0

theorem spec_candidate_mem (l : List Nat) (x : Nat) (hl : l ≠ []) : spec_candidate l x ∈ l := by
  have hpos : 0 < l.length := List.length_pos.mpr hl
  unfold spec_candidate
  split_ifs
  · cases l with
    | nil => exact absurd rfl hl
    | cons a t => simp
  · rw [List.getD_eq_getElem _ _ (Nat.mod_lt _ hpos)]
    exact List.getElem_mem _

theorem spec_candidate_ne (l : List Nat) (x : Nat) (hnd : l.Nodup) (h2 : 2 ≤ l.length)
    (h0 : 0 ∉ l) (hx : x = 0 ∨ x ∈ l) : spec_candidate l x ≠ x := by
  have hl : l ≠ [] := by intro e; rw [e] at h2; simp at h2
  by_cases hz : x = 0
  · intro e
    have := spec_candidate_mem l x hl
    rw [e, hz] at this
    exact h0 this
  · have hm : x ∈ l := hx.resolve_left hz
    have hi : l.indexOf x < l.length := List.indexOf_lt_length.mpr hm
    have hpos : 0 < l.length := by omega
    have hmod : (l.indexOf x + 1) % l.length < l.length := Nat.mod_lt _ hpos
    simp only [spec_candidate, hz, if_false]
    rw [List.getD_eq_getElem _ _ hmod]
    intro e
    have e2 : l[(l.indexOf x + 1) % l.length] = l[l.indexOf x] := by
      rw [e]; exact (List.getElem_indexOf hi).symm
    have := (List.Nodup.getElem_inj_iff hnd).mp e2
    by_cases hlast : l.indexOf x + 1 = l.length
    · rw [hlast, Nat.mod_self] at this; omega
    · rw [Nat.mod_eq_of_lt (by omega)] at this; omega

@[simp] theorem rr_view_emit (e : neon_event) (q : sched_state) (did : Nat) :
    rr_view (emit e q) did = rr_view q did := rfl

theorem rr_view_foldl {α : Type} (did : Nat) (f : sched_state → α → sched_state)
    (hf : ∀ q a, rr_view (f q a) did = rr_view q did) (l : List α) :
    ∀ q, rr_view (l.foldl f q) did = rr_view q did := by
  induction l with
  | nil => intro q; rfl
  | cons a rest ih => intro q; rw [List.foldl_cons, ih, hf]

@[simp] theorem rr_view_reengage_task (g : neon_global_t) (d st arm : Nat)
    (p : sched_state) (did : Nat) :
    rr_view (neon_policy_reengage_task g d st arm p) did = rr_view p did := by
  unfold neon_policy_reengage_task
  apply rr_view_foldl
  intro q a
  simp only [reengage_work]
  split_ifs <;> simp

@[simp] theorem upd_stask_timeslice_T (a : Nat) (f : sched_task_t → sched_task_t)
    (q : sched_state) : (upd_stask a f q).timeslice_T = q.timeslice_T := rfl

@[simp] theorem upd_sdev_timeslice_T (did : Nat) (f : sched_dev_t → sched_dev_t)
    (q : sched_state) : (upd_sdev did f q).timeslice_T = q.timeslice_T := rfl

@[simp] theorem TS_overuse_upd_sdev (did : Nat) (f : sched_dev_t → sched_dev_t)
    (q : sched_state) : TS_overuse (upd_sdev did f q) = TS_overuse q := rfl

theorem TS_overuse_upd_tslc_task (a : Nat) (f : timeslice_task_t → timeslice_task_t)
    (q : sched_state) :
    TS_overuse (upd_tslc_task a f q) =
      Function.update (TS_overuse q) a (f (q.stask a).ps.tslc).overuse := by
  funext b
  by_cases hb : b = a
  · subst hb; simp [TS_overuse, upd_tslc_task]
  · simp [TS_overuse, upd_tslc_task, upd_stask_other _ _ _ _ hb, Function.update_noteq hb]

@[simp] theorem rr_view_sem_up (a : Nat) (q : sched_state) (did : Nat) :
    rr_view (upd_tslc_task a (fun t => { t with sem_count := t.sem_count + 1 }) q) did =
      rr_view q did := by
  simp only [rr_view, TS_overuse_upd_tslc_task]
  simp [upd_tslc_task, TS_token_holder, TS_overuse]

@[simp] theorem rr_view_token_grant (g : neon_global_t) (d nh a : Nat) (p : sched_state)
    (did : Nat) : rr_view (token_grant g d nh a p) did = rr_view p did := by
  simp only [token_grant]
  split_ifs <;> simp

theorem rr_view_set_holder (did c : Nat) (p : sched_state) :
    rr_view (upd_tslc_dev did (fun d => { d with token_holder := c }) p) did =
      ((p.sched_dev_array did).stask_list, c, p.timeslice_T, TS_overuse p) := by
  simp [rr_view, upd_tslc_dev, TS_token_holder, TS_overuse]

theorem rr_view_skip (did c : Nat) (x : Int) (p : sched_state) :
    rr_view (upd_tslc_task c (fun t => { t with overuse := t.overuse - x })
        (upd_tslc_dev did (fun d => { d with token_holder := c }) p)) did =
      ((p.sched_dev_array did).stask_list, c, p.timeslice_T,
        Function.update (TS_overuse p) c (TS_overuse p c - x)) := by
  simp only [rr_view, TS_overuse_upd_tslc_task]
  simp [upd_tslc_task, upd_tslc_dev, TS_token_holder, TS_overuse]

theorem token_turn_give (did rep : Nat) (p : sched_state) (c : Nat)
    (hc : c = spec_candidate (p.sched_dev_array did).stask_list (TS_token_holder p did))
    (hh : TS_token_holder p did = 0 ∨
      TS_token_holder p did ∈ (p.sched_dev_array did).stask_list)
    (hov : TS_overuse p c ≤ timeslice_usec p) :
    token_turn did rep p = (0, upd_tslc_dev did (fun d => { d with token_holder := c }) p) := by
  have hcc := code_candidate_eq_spec _ _ hh
  rw [← hc] at hcc
  simp only [TS_token_holder] at hcc
  simp only [token_turn, hcc]
  rw [if_neg]
  simpa [TS_overuse, timeslice_usec, upd_tslc_dev] using hov

theorem token_turn_skip (did rep : Nat) (p : sched_state) (c : Nat)
    (hc : c = spec_candidate (p.sched_dev_array did).stask_list (TS_token_holder p did))
    (hh : TS_token_holder p did = 0 ∨
      TS_token_holder p did ∈ (p.sched_dev_array did).stask_list)
    (hne : c ≠ TS_token_holder p did)
    (hov : TS_overuse p c > timeslice_usec p) :
    token_turn did rep p = (1, upd_tslc_task c
      (fun t => { t with overuse := t.overuse - timeslice_usec p })
      (upd_tslc_dev did (fun d => { d with token_holder := c }) p)) := by
  have hcc := code_candidate_eq_spec _ _ hh
  rw [← hc] at hcc
  simp only [TS_token_holder] at hcc hne
  simp only [token_turn, hcc]
  rw [if_pos, if_neg (fun e => hne e.symm)]
  · rfl
  · simpa [TS_overuse, timeslice_usec, upd_tslc_dev] using hov

theorem rr_view_eq_iff (p : sched_state) (did : Nat) (l : List Nat) (h T : Nat)
    (ov : Nat → Int) :
    rr_view p did = (l, h, T, ov) ↔
      (p.sched_dev_array did).stask_list = l ∧ TS_token_holder p did = h ∧
        p.timeslice_T = T ∧ TS_overuse p = ov := by
  simp [rr_view]

theorem token_fuel_pos (did : Nat) (p : sched_state) :
    ((p.sched_dev_array did).stask_list.map (fun a => (TS_overuse p a).toNat)).sum + 1 <
      token_fuel did p := by
  simp only [token_fuel, TS_overuse]
  omega

theorem overuse_sum_lt (l : List Nat) (ov : Nat → Int) (c : Nat) (x : Int) (hc : c ∈ l)
    (hx : 0 < x) (hov : x < ov c) :
    (l.map (fun a => (Function.update ov c (ov c - x) a).toNat)).sum <
      (l.map (fun a => (ov a).toNat)).sum := by
  apply List.sum_lt_sum
  · intro a _
    by_cases h : a = c
    · subst h; simp only [Function.update_same]; omega
    · simp only [Function.update_noteq h]; exact le_refl _
  · exact ⟨c, hc, by simp only [Function.update_same]; omega⟩

theorem token_loop_give (did fuel rep : Nat) (p : sched_state) (c : Nat)
    (hc : c = spec_candidate (p.sched_dev_array did).stask_list (TS_token_holder p did))
    (hh : TS_token_holder p did = 0 ∨
      TS_token_holder p did ∈ (p.sched_dev_array did).stask_list)
    (hov : TS_overuse p c ≤ timeslice_usec p) :
    token_loop did (fuel + 1) rep p =
      upd_tslc_dev did (fun d => { d with token_holder := c }) p := by
  simp only [token_loop, token_turn_give did rep p c hc hh hov]
  simp

theorem token_loop_spec (did : Nat) (l : List Nat) (T : Nat) (hnd : l.Nodup)
    (h2 : 2 ≤ l.length) (h0 : 0 ∉ l) (hT : 1 ≤ T) :
    ∀ (fuel rep : Nat) (p : sched_state), (p.sched_dev_array did).stask_list = l →
      p.timeslice_T = T → (TS_token_holder p did = 0 ∨ TS_token_holder p did ∈ l) →
      (l.map (fun a => (TS_overuse p a).toNat)).sum < fuel →
      ∃ h' ov', rr_view (token_loop did fuel rep p) did = (l, h', T, ov') ∧
        spec_token_pass l ((T : Int) * USEC_PER_MSEC) (TS_token_holder p did)
          (TS_overuse p) h' ov' := by
  have hl0 : l ≠ [] := by intro e; rw [e] at h2; simp at h2
  intro fuel
  induction fuel with
  | zero => intro rep p _ _ _ hs; omega
  | succ n ih =>
    intro rep p hl hTp hh hs
    have hus : timeslice_usec p = (T : Int) * USEC_PER_MSEC := by rw [timeslice_usec, hTp]
    have hc : spec_candidate l (TS_token_holder p did) =
        spec_candidate (p.sched_dev_array did).stask_list (TS_token_holder p did) := by rw [hl]
    have hh' : TS_token_holder p did = 0 ∨
        TS_token_holder p did ∈ (p.sched_dev_array did).stask_list := by rw [hl]; exact hh
    by_cases hov : TS_overuse p (spec_candidate l (TS_token_holder p did)) ≤
        (T : Int) * USEC_PER_MSEC
    · rw [token_loop_give did n rep p _ hc hh' (by rw [hus]; exact hov)]
      exact ⟨_, _, by rw [rr_view_set_holder, hl, hTp], .give _ _ hov⟩
    · have hov' := not_le.mp hov
      have hne := spec_candidate_ne l _ hnd h2 h0 hh
      have hmem := spec_candidate_mem l (TS_token_holder p did) hl0
      have hv := rr_view_skip did (spec_candidate l (TS_token_holder p did))
        (timeslice_usec p) p
      rw [hl, hTp, hus] at hv
      obtain ⟨e1, e2, e3, e4⟩ := (rr_view_eq_iff _ _ _ _ _ _).mp hv
      have hpos : (0 : Int) < (T : Int) * USEC_PER_MSEC := by
        simp only [USEC_PER_MSEC]; omega
      have hsum := overuse_sum_lt l (TS_overuse p) _ _ hmem hpos hov'
      simp only [token_loop, token_turn_skip did rep p _ hc hh' hne (by rw [hus]; exact hov'),
        if_true]
      rw [hus]
      obtain ⟨h', ov', hv', hs'⟩ := ih 1 _ e1 e3 (Or.inr (by rw [e2]; exact hmem))
        (by rw [e4]; omega)
      rw [e2, e4] at hs'
      exact ⟨h', ov', hv', .skip _ _ _ _ hov' hs'⟩

theorem token_loop_fuel (did : Nat) (l : List Nat) (T : Nat) (hnd : l.Nodup)
    (h2 : 2 ≤ l.length) (h0 : 0 ∉ l) (hT : 1 ≤ T) :
    ∀ (fuel fuel' rep : Nat) (p : sched_state), (p.sched_dev_array did).stask_list = l →
      p.timeslice_T = T → (TS_token_holder p did = 0 ∨ TS_token_holder p did ∈ l) →
      (l.map (fun a => (TS_overuse p a).toNat)).sum < fuel →
      (l.map (fun a => (TS_overuse p a).toNat)).sum < fuel' →
      token_loop did fuel rep p = token_loop did fuel' rep p := by
  have hl0 : l ≠ [] := by intro e; rw [e] at h2; simp at h2
  intro fuel
  induction fuel with
  | zero => intro fuel' rep p _ _ _ hs; omega
  | succ n ih =>
    intro fuel' rep p hl hTp hh hs hs'
    obtain ⟨m, rfl⟩ : ∃ m, fuel' = m + 1 := ⟨fuel' - 1, by omega⟩
    have hus : timeslice_usec p = (T : Int) * USEC_PER_MSEC := by rw [timeslice_usec, hTp]
    have hc : spec_candidate l (TS_token_holder p did) =
        spec_candidate (p.sched_dev_array did).stask_list (TS_token_holder p did) := by rw [hl]
    have hh' : TS_token_holder p did = 0 ∨
        TS_token_holder p did ∈ (p.sched_dev_array did).stask_list := by rw [hl]; exact hh
    by_cases hov : TS_overuse p (spec_candidate l (TS_token_holder p did)) ≤
        (T : Int) * USEC_PER_MSEC
    · rw [token_loop_give did n rep p _ hc hh' (by rw [hus]; exact hov),
        token_loop_give did m rep p _ hc hh' (by rw [hus]; exact hov)]
    · have hov' := not_le.mp hov
      have hne := spec_candidate_ne l _ hnd h2 h0 hh
      have hmem := spec_candidate_mem l (TS_token_holder p did) hl0
      have hv := rr_view_skip did (spec_candidate l (TS_token_holder p did))
        (timeslice_usec p) p
      rw [hl, hTp, hus] at hv
      obtain ⟨e1, e2, e3, e4⟩ := (rr_view_eq_iff _ _ _ _ _ _).mp hv
      have hpos : (0 : Int) < (T : Int) * USEC_PER_MSEC := by
        simp only [USEC_PER_MSEC]; omega
      have hsum := overuse_sum_lt l (TS_overuse p) _ _ hmem hpos hov'
      simp only [token_loop, token_turn_skip did rep p _ hc hh' hne (by rw [hus]; exact hov'),
        if_true]
      rw [hus]
      exact ih m 1 _ e1 e3 (Or.inr (by rw [e2]; exact hmem)) (by rw [e4]; omega)
        (by rw [e4]; omega)

/-- C15: on a device with at least two tasks (a list without repeated or
`NULL` entries, the holder none or on it, `timeslice_T` at least 1 as reset
leaves it), the loop of `update_token_holder` ends, more turns than
`token_fuel` allows changing nothing, and holder and overuses go from their old
to their new values by a pass of the token as the specification has it: every
round-robin candidate whose overuse exceeds one timeslice is skipped, its
overuse lowered by exactly `timeslice_T * 1000` microseconds per skip, and the
first candidate in round-robin order whose overuse does not exceed one
timeslice gets the token. -/
theorem update_token_holder_penalty (g : neon_global_t) (did : Nat) (p : sched_state)
    (hnd : (p.sched_dev_array did).stask_list.Nodup)
    (h2 : 2 ≤ (p.sched_dev_array did).stask_list.length)
    (h0 : 0 ∉ (p.sched_dev_array did).stask_list) (hT : 1 ≤ p.timeslice_T)
    (hh : TS_token_holder p did = 0 ∨
      TS_token_holder p did ∈ (p.sched_dev_array did).stask_list) :
    (∀ fuel, token_fuel did p ≤ fuel →
      token_loop did fuel 0 p = token_loop did (token_fuel did p) 0 p) ∧
    spec_token_pass (p.sched_dev_array did).stask_list (timeslice_usec p)
      (TS_token_holder p did) (TS_overuse p)
      (TS_token_holder (update_token_holder g did p) did)
      (TS_overuse (update_token_holder g did p)) := by
  have hl0 : (p.sched_dev_array did).stask_list ≠ [] := by
    intro e; rw [e] at h2; simp at h2
  have hf := token_fuel_pos did p
  refine ⟨fun fuel hfuel => token_loop_fuel did _ _ hnd h2 h0 hT fuel _ 0 p rfl rfl hh
    (by omega) (by omega), ?_⟩
  obtain ⟨h', ov', hv, hs⟩ := token_loop_spec did _ _ hnd h2 h0 hT (token_fuel did p) 0 p
    rfl rfl hh (by omega)
  have hv2 : rr_view (update_token_holder g did p) did =
      ((p.sched_dev_array did).stask_list, h', p.timeslice_T, ov') := by
    simp only [update_token_holder, if_neg hl0]
    rw [rr_view_foldl did _ (fun q a => rr_view_token_grant g did _ a q did), hv]
  obtain ⟨_, e2, _, e4⟩ := (rr_view_eq_iff _ _ _ _ _ _).mp hv2
  rw [e2, e4]
  exact hs

theorem update_token_holder_penalty_witness :
    (example_penalty.sched_dev_array 0).stask_list.Nodup ∧
    2 ≤ (example_penalty.sched_dev_array 0).stask_list.length ∧
    0 ∉ (example_penalty.sched_dev_array 0).stask_list ∧
    1 ≤ example_penalty.timeslice_T ∧
    (TS_token_holder example_penalty 0 = 0 ∨
      TS_token_holder example_penalty 0 ∈ (example_penalty.sched_dev_array 0).stask_list) ∧
    spec_token_pass [500, 501] 30000 501 (TS_overuse example_penalty)
      (TS_token_holder (update_token_holder example_global 0 example_penalty) 0)
      (TS_overuse (update_token_holder example_global 0 example_penalty)) ∧
    TS_overuse example_penalty 500 = 40000 ∧ TS_overuse example_penalty 501 = 0 ∧
    TS_token_holder (update_token_holder example_global 0 example_penalty) 0 = 501 ∧
    TS_overuse (update_token_holder example_global 0 example_penalty) 500 = 10000 ∧
    TS_overuse (update_token_holder example_global 0 example_penalty) 501 = 0 :=
  ⟨by decide, by decide, by decide, by decide, by decide,
    (update_token_holder_penalty example_global 0 example_penalty (by decide) (by decide)
      (by decide) (by decide) (by decide)).2,
    by decide, by decide, by decide, by decide, by decide⟩

theorem spec_candidate_eq_getD (l : List Nat) (h : Nat) (hl : l ≠ []) :
    spec_candidate l h = l.getD ((if h = 0 then 0 else l.indexOf h + 1) % l.length) 0 := by
  unfold spec_candidate
  split_ifs
  · cases l with
    | nil => exact absurd rfl hl
    | cons a t => simp
  · rfl

theorem update_token_holder_give (g : neon_global_t) (did : Nat) (p : sched_state)
    (hl : (p.sched_dev_array did).stask_list ≠ [])
    (hh : TS_token_holder p did = 0 ∨
      TS_token_holder p did ∈ (p.sched_dev_array did).stask_list)
    (hov : ∀ a ∈ (p.sched_dev_array did).stask_list, TS_overuse p a ≤ timeslice_usec p) :
    rr_view (update_token_holder g did p) did =
      ((p.sched_dev_array did).stask_list,
        spec_candidate (p.sched_dev_array did).stask_list (TS_token_holder p did),
        p.timeslice_T, TS_overuse p) := by
  obtain ⟨n, hn⟩ : ∃ n, token_fuel did p = n + 1 :=
    ⟨token_fuel did p - 1, by have := token_fuel_pos did p; omega⟩
  simp only [update_token_holder, if_neg hl]
  rw [rr_view_foldl did _ (fun q a => rr_view_token_grant g did _ a q did), hn,
    token_loop_give did n 0 p _ rfl hh (hov _ (spec_candidate_mem _ _ hl)), rr_view_set_holder]

theorem update_token_holder_iterate (g : neon_global_t) (did : Nat) (l : List Nat) (T : Nat)
    (ov : Nat → Int) (hl : l ≠ []) (hnd : l.Nodup) (h0 : 0 ∉ l)
    (hov : ∀ a ∈ l, ov a ≤ (T : Int) * USEC_PER_MSEC) :
    ∀ (k : Nat) (p : sched_state) (h : Nat), rr_view p did = (l, h, T, ov) → (h = 0 ∨ h ∈ l) →
      TS_token_holder ((update_token_holder g did)^[k + 1] p) did =
        l.getD (((if h = 0 then 0 else l.indexOf h + 1) + k) % l.length) 0 := by
  have hpos : 0 < l.length := List.length_pos.mpr hl
  have hstep : ∀ (p : sched_state) (h : Nat), rr_view p did = (l, h, T, ov) →
      (h = 0 ∨ h ∈ l) →
      rr_view (update_token_holder g did p) did = (l, spec_candidate l h, T, ov) := by
    intro p h hv hh
    obtain ⟨e1, e2, e3, e4⟩ := (rr_view_eq_iff _ _ _ _ _ _).mp hv
    have := update_token_holder_give g did p (by rw [e1]; exact hl)
      (by rw [e1, e2]; exact hh)
      (by rw [e1, e4, timeslice_usec, e3]; exact hov)
    rw [e1, e2, e3, e4] at this
    exact this
  intro k
  induction k with
  | zero =>
    intro p h hv hh
    have := ((rr_view_eq_iff _ _ _ _ _ _).mp (hstep p h hv hh)).2.1
    simp only [Function.iterate_succ, Function.iterate_zero, Function.comp_apply, id_eq,
      Nat.add_zero]
    rw [this, spec_candidate_eq_getD l h hl]
  | succ k ih =>
    intro p h hv hh
    rw [Function.iterate_succ_apply]
    have hc := spec_candidate_mem l h hl
    have hc0 : spec_candidate l h ≠ 0 := fun e => h0 (e ▸ hc)
    rw [ih (update_token_holder g did p) _ (hstep p h hv hh) (Or.inr hc), if_neg hc0]
    have hmod : (if h = 0 then 0 else l.indexOf h + 1) % l.length < l.length :=
      Nat.mod_lt _ hpos
    have hi : l.indexOf (spec_candidate l h) =
        (if h = 0 then 0 else l.indexOf h + 1) % l.length := by
      rw [spec_candidate_eq_getD l h hl, List.getD_eq_getElem _ _ hmod]
      exact List.indexOf_getElem hnd _ hmod
    rw [hi]
    congr 1
    rw [Nat.add_assoc, Nat.mod_add_mod, Nat.add_comm 1 k]

/-- C14: on a non-empty task list without repeated or `NULL` entries on which
no task's overuse exceeds one timeslice, the holder being none or on the list,
`update_token_holder` sets the token holder to the list successor of the
previous holder, wrapping from the last task to the first, or to the first task
when there was no holder; and the holders after the first, second, ..., n-th of
n consecutive calls on an n-task list are the list rotated to start behind the
previous holder: each task once, in list order. -/
theorem update_token_holder_round_robin (g : neon_global_t) (did : Nat) (p : sched_state)
    (hl : (p.sched_dev_array did).stask_list ≠ [])
    (hnd : (p.sched_dev_array did).stask_list.Nodup)
    (h0 : 0 ∉ (p.sched_dev_array did).stask_list)
    (hh : TS_token_holder p did = 0 ∨
      TS_token_holder p did ∈ (p.sched_dev_array did).stask_list)
    (hov : ∀ a ∈ (p.sched_dev_array did).stask_list, TS_overuse p a ≤ timeslice_usec p) :
    TS_token_holder (update_token_holder g did p) did =
      spec_candidate (p.sched_dev_array did).stask_list (TS_token_holder p did) ∧
    (List.range (p.sched_dev_array did).stask_list.length).map
      (fun k => TS_token_holder ((update_token_holder g did)^[k + 1] p) did) =
      (p.sched_dev_array did).stask_list.rotate
        (if TS_token_holder p did = 0 then 0
         else (p.sched_dev_array did).stask_list.indexOf (TS_token_holder p did) + 1) := by
  refine ⟨((rr_view_eq_iff _ _ _ _ _ _).mp (update_token_holder_give g did p hl hh hov)).2.1, ?_⟩
  have hpos : 0 < (p.sched_dev_array did).stask_list.length := List.length_pos.mpr hl
  apply List.ext_getElem (by simp)
  intro i h1 h2
  simp only [List.getElem_map, List.getElem_range]
  rw [update_token_holder_iterate g did _ p.timeslice_T (TS_overuse p) hl hnd h0 hov i p
    (TS_token_holder p did) rfl hh, List.getElem_rotate,
    List.getD_eq_getElem _ _ (Nat.mod_lt _ hpos)]
  simp only [Nat.add_comm]

theorem update_token_holder_round_robin_witness :
    (example_two_tasks.sched_dev_array 0).stask_list ≠ [] ∧
    (example_two_tasks.sched_dev_array 0).stask_list.Nodup ∧
    0 ∉ (example_two_tasks.sched_dev_array 0).stask_list ∧
    (TS_token_holder example_two_tasks 0 = 0 ∨
      TS_token_holder example_two_tasks 0 ∈ (example_two_tasks.sched_dev_array 0).stask_list) ∧
    (∀ a ∈ (example_two_tasks.sched_dev_array 0).stask_list,
      TS_overuse example_two_tasks a ≤ timeslice_usec example_two_tasks) ∧
    TS_token_holder (update_token_holder example_global 0 example_two_tasks) 0 = 500 ∧
    [TS_token_holder ((update_token_holder example_global 0)^[1] example_two_tasks) 0,
      TS_token_holder ((update_token_holder example_global 0)^[2] example_two_tasks) 0] =
      [500, 501] :=
  ⟨by decide, by decide, by decide, by decide, by decide,
    (update_token_holder_round_robin example_global 0 example_two_tasks (by decide) (by decide)
      (by decide) (by decide) (by decide)).1,
    (update_token_holder_round_robin example_global 0 example_two_tasks (by decide) (by decide)
      (by decide) (by decide) (by decide)).2⟩

/-! ### Submission under the timeslice policy -/

theorem neon_policy_issue_timeslice (work : Nat → neon_work_t) (did cid st hb : Nat)
    (q : sched_state) (hq : q.policy_id = NEON_POLICY_TIMESLICE) :
    (neon_policy_issue work did cid st hb q).2.events =
        q.events ++ [.policy_issue did cid st hb] ∧
      ((neon_policy_issue work did cid st hb q).2.stask st).ps.tslc.sem_count =
        (q.stask st).ps.tslc.sem_count := by
  simp only [neon_policy_issue, select_policy_issue]
  split_ifs <;> simp [hq, issue_timeslice, emit]

/-- The two branches of `submit_timeslice`: without a wait it is the call of
`neon_policy_issue` with `had_blocked = 0`; with a wait it clears the
issue2comp bit `sched_work->id`, lowers `sem_count`, waits, and calls
`neon_policy_issue` with `had_blocked = 1`. -/
theorem submit_timeslice_branches (work : Nat → neon_work_t) (did cid st : Nat)
    (p : sched_state) :
    (¬ (st ≠ TS_token_holder p did ∨ (p.sched_dev_array did).ps.tslc.update_ts ≠ 0) →
      submit_timeslice work did cid st p
        = hook_outcome (neon_policy_issue work did cid st 0 p)) ∧
    ((st ≠ TS_token_holder p did ∨ (p.sched_dev_array did).ps.tslc.update_ts ≠ 0) →
      ∀ id, id = ((p.sched_dev_array did).swork_array cid).id →
      submit_timeslice work did cid st p = hook_outcome (neon_policy_issue work did cid st 1
        (emit (.sem_down st) (upd_tslc_task st (fun t => { t with sem_count := t.sem_count - 1 })
          (upd_stask st (fun t => { t with bmp_issue2comp := clear_bit id t.bmp_issue2comp })
            p))))) := by
  refine ⟨fun h => ?_, fun h id hid => ?_⟩
  · simp only [TS_token_holder] at h
    simp only [submit_timeslice, if_neg h]
    simp
  · simp only [TS_token_holder] at h
    subst hid
    simp only [submit_timeslice, if_pos h]
    simp

/-- Counterexample for C16: under the timeslice policy the task at 500 holds
the token of device 0, the task at 501 (process 43) has a request issued on
channel 0, and the slot of channel 5, which holds no work, carries id 0. A
submit of the task at 501 on channel 5 waits, but the bit it clears first is
the issue2comp bit of channel 0, that of `sched_work->id`, not the bit of
channel 5. -/
theorem submit_timeslice_clears_slot_id_bit :
    example_slot_pending.policy_id = NEON_POLICY_TIMESLICE ∧
    TS_token_holder example_slot_pending 0 = 500 ∧
    ((example_slot_pending.sched_dev_array 0).swork_array 5).id = 0 ∧
    (example_slot_pending.stask 501).bmp_issue2comp 0 = true ∧
    submit_timeslice example_slot_works 0 5 501 example_slot_pending
      = hook_outcome (neon_policy_issue example_slot_works 0 5 501 1
        (emit (.sem_down 501)
          (upd_tslc_task 501 (fun t => { t with sem_count := t.sem_count - 1 })
            (upd_stask 501 (fun t => { t with bmp_issue2comp := clear_bit 0 t.bmp_issue2comp })
              example_slot_pending)))) ∧
    ((upd_stask 501 (fun t => { t with bmp_issue2comp := clear_bit 0 t.bmp_issue2comp })
      example_slot_pending).stask 501).bmp_issue2comp 0 = false ∧
    clear_bit 5 (example_slot_pending.stask 501).bmp_issue2comp 0 = true ∧
    (submit_timeslice example_slot_works 0 5 501 example_slot_pending).2.events
      = example_slot_pending.events ++ [.sem_down 501, .policy_issue 0 5 501 1] :=
  ⟨by decide!, by decide!, by decide!, by decide!,
   (submit_timeslice_branches example_slot_works 0 5 501 example_slot_pending).2
      (Or.inl (by decide!)) 0 (by decide!),
   by decide!, by decide!, by decide!⟩

/-- C16, amended: under the timeslice policy, for every state of the
scheduler's data in which the channel's slot carries the channel's id (the
work of the channel is started, as `neon_policy_start` leaves it),
`submit_timeslice` waits on the task's semaphore if and only if the task is not
the token holder or an update is pending (`update_ts != 0`). When it does not
wait, it is one call of `neon_policy_issue` with `had_blocked = 0`. When it
waits, it first clears the channel's issue2comp bit and lowers the task's
`sem_count` by exactly 1, and after the wait calls `neon_policy_issue` with
`had_blocked = 1`; so a request of a task that is not the holder is never
issued without the wait. -/
theorem submit_timeslice_blocks (work : Nat → neon_work_t) (did cid st : Nat)
    (p : sched_state) (hp : p.policy_id = NEON_POLICY_TIMESLICE)
    (hslot : ((p.sched_dev_array did).swork_array cid).id = cid) :
    (neon_event.sem_down st ∈ (submit_timeslice work did cid st p).2.events.drop p.events.length ↔
      (st ≠ TS_token_holder p did ∨ (p.sched_dev_array did).ps.tslc.update_ts ≠ 0)) ∧
    (¬ (st ≠ TS_token_holder p did ∨ (p.sched_dev_array did).ps.tslc.update_ts ≠ 0) →
      submit_timeslice work did cid st p = hook_outcome (neon_policy_issue work did cid st 0 p) ∧
      (submit_timeslice work did cid st p).2.events =
        p.events ++ [.policy_issue did cid st 0]) ∧
    ((st ≠ TS_token_holder p did ∨ (p.sched_dev_array did).ps.tslc.update_ts ≠ 0) →
      ∃ q : sched_state,
        (q.stask st).bmp_issue2comp = clear_bit cid (p.stask st).bmp_issue2comp ∧
        (q.stask st).ps.tslc.sem_count = (p.stask st).ps.tslc.sem_count - 1 ∧
        q.events = p.events ++ [.sem_down st] ∧
        submit_timeslice work did cid st p
          = hook_outcome (neon_policy_issue work did cid st 1 q) ∧
        (submit_timeslice work did cid st p).2.events =
          p.events ++ [.sem_down st, .policy_issue did cid st 1] ∧
        ((submit_timeslice work did cid st p).2.stask st).ps.tslc.sem_count =
          (p.stask st).ps.tslc.sem_count - 1) := by
  have hno := (submit_timeslice_branches work did cid st p).1
  have hyes : (st ≠ TS_token_holder p did ∨ (p.sched_dev_array did).ps.tslc.update_ts ≠ 0) →
      submit_timeslice work did cid st p = hook_outcome (neon_policy_issue work did cid st 1
        (emit (.sem_down st) (upd_tslc_task st (fun t => { t with sem_count := t.sem_count - 1 })
          (upd_stask st (fun t => { t with bmp_issue2comp := clear_bit cid t.bmp_issue2comp })
            p)))) :=
    fun h => (submit_timeslice_branches work did cid st p).2 h cid hslot.symm
  refine ⟨?_, fun h => ⟨hno h, ?_⟩, fun h => ⟨_, ?_, ?_, ?_, hyes h, ?_, ?_⟩⟩
  · by_cases h : st ≠ TS_token_holder p did ∨ (p.sched_dev_array did).ps.tslc.update_ts ≠ 0
    · rw [hyes h, hook_outcome_snd,
        (neon_policy_issue_timeslice work did cid st 1 _ (by simp [hp, emit])).1]
      simp [emit, upd_tslc_task, h]
    · rw [hno h, hook_outcome_snd, (neon_policy_issue_timeslice work did cid st 0 _ hp).1]
      simp [h]
  · rw [hno h, hook_outcome_snd, (neon_policy_issue_timeslice work did cid st 0 _ hp).1]
  · simp [emit, upd_tslc_task]
  · simp [emit, upd_tslc_task]
  · simp [emit, upd_tslc_task]
  · rw [hyes h, hook_outcome_snd,
      (neon_policy_issue_timeslice work did cid st 1 _ (by simp [hp, emit])).1]
    simp [emit, upd_tslc_task]
  · rw [hyes h, hook_outcome_snd,
      (neon_policy_issue_timeslice work did cid st 1 _ (by simp [hp, emit])).2]
    simp [emit, upd_tslc_task]

/-- Witness for C16: after the start of the work at address 100 its task at
500 holds the token of device 0; a submit on channel 3 by a task at 501 waits
and is issued with `had_blocked = 1`. -/
theorem submit_timeslice_blocks_witness :
    (example_started NEON_POLICY_TIMESLICE).policy_id = NEON_POLICY_TIMESLICE ∧
    (((example_started NEON_POLICY_TIMESLICE).sched_dev_array 0).swork_array 3).id = 3 ∧
    TS_token_holder (example_started NEON_POLICY_TIMESLICE) 0 = 500 ∧
    (neon_event.sem_down 501 ∈
      (submit_timeslice example_works 0 3 501
        (example_started NEON_POLICY_TIMESLICE)).2.events.drop
        (example_started NEON_POLICY_TIMESLICE).events.length ↔
      (501 ≠ TS_token_holder (example_started NEON_POLICY_TIMESLICE) 0 ∨
        ((example_started NEON_POLICY_TIMESLICE).sched_dev_array 0).ps.tslc.update_ts ≠ 0)) ∧
    (submit_timeslice example_works 0 3 501 (example_started NEON_POLICY_TIMESLICE)).2.events =
      (example_started NEON_POLICY_TIMESLICE).events ++
        [.sem_down 501, .policy_issue 0 3 501 1] ∧
    (submit_timeslice example_works 0 3 500 (example_started NEON_POLICY_TIMESLICE)).2.events =
      (example_started NEON_POLICY_TIMESLICE).events ++ [.policy_issue 0 3 500 0] :=
  ⟨by decide!, by decide!, by decide!,
   (submit_timeslice_blocks example_works 0 3 501 (example_started NEON_POLICY_TIMESLICE)
      (by decide!) (by decide!)).1,
   by decide!, by decide!⟩

/-! ### Submission under the sampling policy -/

theorem neon_policy_issue_sampling_events (work : Nat → neon_work_t) (did cid st hb : Nat)
    (q : sched_state) (hq : q.policy_id = NEON_POLICY_SAMPLING) :
    (neon_policy_issue work did cid st hb q).2.events =
      q.events ++ [.policy_issue did cid st hb] := by
  simp only [neon_policy_issue, select_policy_issue, issue_sampling]
  split_ifs <;> simp [hq, emit] <;> repeat' split
  all_goals simp [upd_smpl_task, upd_smpl_work, emit]

/-- Counterexample for C17: in season SAMPLING with the task at 501 sampled,
a submit of the task at 500 on its unheeded channel 5 is issued with
`had_blocked = 0`, without a wait. -/
theorem submit_sampling_unheeded_not_blocked :
    example_sampling_season.policy_id = NEON_POLICY_SAMPLING ∧
    (example_sampling_season.sched_dev_array 0).ps.smpl.season = DFQ_TASK_SAMPLING ∧
    (example_sampling_season.sched_dev_array 0).ps.smpl.sampled_task = 501 ∧
    ((example_sampling_season.sched_dev_array 0).swork_array 5).ps.smpl.heed = 0 ∧
    (submit_sampling example_sampling_works 0 5 500 example_sampling_season).2.events =
      example_sampling_season.events ++ [.policy_issue 0 5 500 0] := by
  decide!

/-- C17, amended: under the sampling policy, for every state of the scheduler's
data whose season on the device is SAMPLING and every submitting work that is
heeded and engaged, `submit_sampling` calls `neon_policy_issue` with
`had_blocked = 0` only if the submitting task is the device's `sampled_task`;
the submit of any other task first waits on the task's semaphore and is issued
with `had_blocked = 1`. -/
theorem submit_sampling_exclusive (work : Nat → neon_work_t) (did cid st : Nat)
    (p : sched_state) (hp : p.policy_id = NEON_POLICY_SAMPLING)
    (hs : (p.sched_dev_array did).ps.smpl.season = DFQ_TASK_SAMPLING)
    (hw : ((p.sched_dev_array did).swork_array cid).ps.smpl.heed ≠ 0 ∧
      ((p.sched_dev_array did).swork_array cid).ps.smpl.engage ≠ 0) :
    (neon_event.policy_issue did cid st 0 ∈
        (submit_sampling work did cid st p).2.events.drop p.events.length →
      (p.sched_dev_array did).ps.smpl.sampled_task = st) ∧
    ((p.sched_dev_array did).ps.smpl.sampled_task ≠ st →
      (submit_sampling work did cid st p).2.events.drop p.events.length =
          [.sem_down st, .policy_issue did cid st 1] ∨
      (submit_sampling work did cid st p).2.events.drop p.events.length =
          [.wake_up_kthread, .sem_down st, .policy_issue did cid st 1]) := by
  have hw' : ¬ (((p.sched_dev_array did).swork_array cid).ps.smpl.heed = 0 ∨
      ((p.sched_dev_array did).swork_array cid).ps.smpl.engage = 0) := by
    rintro (h | h)
    · exact hw.1 h
    · exact hw.2 h
  by_cases hst : (p.sched_dev_array did).ps.smpl.sampled_task = st
  · exact ⟨fun _ => hst, fun h => absurd hst h⟩
  · have key : (submit_sampling work did cid st p).2.events.drop p.events.length =
          [.sem_down st, .policy_issue did cid st 1] ∨
        (submit_sampling work did cid st p).2.events.drop p.events.length =
          [.wake_up_kthread, .sem_down st, .policy_issue did cid st 1] := by
      have hc : (p.sched_dev_array did).ps.smpl.sampled_task ≠ st ∨
          (p.sched_dev_array did).ps.smpl.update_ts ≠ 0 ∨
          (p.stask st).ps.smpl.nrqst_sampled ≥ NEON_SAMPLING_CRITICAL_MASS := Or.inl hst
      simp only [submit_sampling, if_neg hw', hs, if_pos hc, hook_outcome_snd]
      by_cases hn : (p.stask st).ps.smpl.nrqst_sampled ≥ NEON_SAMPLING_CRITICAL_MASS
      · right
        simp only [if_pos hn]
        split_ifs with h1 h2 h3
        all_goals try exact absurd rfl h2
        all_goals try exact absurd rfl h3
        all_goals rw [neon_policy_issue_sampling_events _ _ _ _ _ _
          (by simp [hp, emit, upd_smpl_task, upd_smpl_dev, sampling_wake, season_timer_cancel])]
        all_goals simp [emit, upd_smpl_task, upd_smpl_dev, sampling_wake, season_timer_cancel]
      · left
        simp only [if_neg hn]
        split_ifs with h1 h2 h3
        all_goals try exact absurd rfl h2
        all_goals try exact absurd rfl h3
        all_goals rw [neon_policy_issue_sampling_events _ _ _ _ _ _
          (by simp [hp, emit, upd_smpl_task, upd_smpl_dev, sampling_wake, season_timer_cancel])]
        all_goals simp [emit, upd_smpl_task, upd_smpl_dev, sampling_wake, season_timer_cancel]
    refine ⟨fun hmem => ?_, fun _ => key⟩
    rcases key with k | k <;> rw [k] at hmem <;> simp at hmem

/-- Witness for C17: in season SAMPLING with the task at 501 sampled, a submit
of the task at 500 on its heeded channel 3 waits and is issued with
`had_blocked = 1`. -/
theorem submit_sampling_exclusive_witness :
    example_sampling_season.policy_id = NEON_POLICY_SAMPLING ∧
    (example_sampling_season.sched_dev_array 0).ps.smpl.season = DFQ_TASK_SAMPLING ∧
    (((example_sampling_season.sched_dev_array 0).swork_array 3).ps.smpl.heed ≠ 0 ∧
      ((example_sampling_season.sched_dev_array 0).swork_array 3).ps.smpl.engage ≠ 0) ∧
    ((example_sampling_season.sched_dev_array 0).ps.smpl.sampled_task ≠ 500 →
      (submit_sampling example_sampling_works 0 3 500 example_sampling_season).2.events.drop
          example_sampling_season.events.length =
          [.sem_down 500, .policy_issue 0 3 500 1] ∨
      (submit_sampling example_sampling_works 0 3 500 example_sampling_season).2.events.drop
          example_sampling_season.events.length =
          [.wake_up_kthread, .sem_down 500, .policy_issue 0 3 500 1]) ∧
    (submit_sampling example_sampling_works 0 3 500 example_sampling_season).2.events =
      [.sem_down 500, .policy_issue 0 3 500 1] :=
  ⟨by decide!, by decide!, by decide!,
   (submit_sampling_exclusive example_sampling_works 0 3 500 example_sampling_season
      (by decide!) (by decide!) (by decide!)).2,
   by decide!⟩

/-! ### The season cycle -/

theorem season_path_append (s m s' : season_t) (a b : List (season_t × season_t))
    (h1 : season_path s a m = true) (h2 : season_path m b s' = true) :
    season_path s (a ++ b) s' = true := by
  induction a generalizing s with
  | nil =>
    simp only [season_path, decide_eq_true_eq] at h1
    rw [h1]; exact h2
  | cons x rest ih =>
    obtain ⟨o, n⟩ := x
    simp only [season_path, Bool.and_eq_true, decide_eq_true_eq, List.cons_append] at h1 ⊢
    exact ⟨h1.1, ih _ h1.2⟩

@[simp] theorem season_step_refl (d : Nat) (p : sched_state) : season_step d p p :=
  ⟨[], by simp, by simp [season_path], rfl⟩

theorem season_step_trans (d : Nat) {p q r : sched_state} (h1 : season_step d p q)
    (h2 : season_step d q r) : season_step d p r := by
  obtain ⟨a, ha, hpa, hqa⟩ := h1
  obtain ⟨b, hb, hpb, hqb⟩ := h2
  exact ⟨a ++ b, by rw [hb, ha, List.append_assoc], season_path_append _ _ _ _ _ hpa hpb,
    hqb.trans hqa⟩

theorem season_step_congr {d : Nat} {p r r' : sched_state}
    (h : season_view d r = season_view d r') : season_step d p r ↔ season_step d p r' := by
  unfold season_step
  rw [h]

theorem season_step_of_view (d : Nat) (p q : sched_state)
    (h : season_view d q = season_view d p) : season_step d p q :=
  (season_step_congr h).mpr (season_step_refl d p)

@[simp] theorem season_view_emit (d : Nat) (e : neon_event) (q : sched_state)
    (he : is_season_set e = false) : season_view d (emit e q) = season_view d q := by
  cases e <;> simp [is_season_set] at he <;>
    simp [season_view, season_log, emit, DFQ_season, List.filterMap_append]

@[simp] theorem season_view_tick (d : Nat) (q : sched_state) :
    season_view d (tick q) = season_view d q := rfl

@[simp] theorem season_view_upd_stask (d a : Nat) (f : sched_task_t → sched_task_t)
    (q : sched_state) : season_view d (upd_stask a f q) = season_view d q := rfl

@[simp] theorem season_view_upd_sdev (d did : Nat) (f : sched_dev_t → sched_dev_t)
    (q : sched_state) (hf : ∀ x, (f x).ps.smpl.season = x.ps.smpl.season) :
    season_view d (upd_sdev did f q) = season_view d q := by
  simp only [season_view, DFQ_season, upd_sdev_events]
  by_cases h : d = did
  · subst h; simp [hf]
  · simp [upd_sdev_other _ _ _ _ h]

@[simp] theorem season_view_upd_swork (d did cid : Nat) (f : sched_work_t → sched_work_t)
    (q : sched_state) : season_view d (upd_swork did cid f q) = season_view d q := by
  unfold upd_swork
  exact season_view_upd_sdev d did _ q (fun _ => rfl)

@[simp] theorem season_view_upd_smpl_task (d a : Nat) (f : sampling_task_t → sampling_task_t)
    (q : sched_state) : season_view d (upd_smpl_task a f q) = season_view d q := rfl

@[simp] theorem season_view_upd_tslc_task (d a : Nat) (f : timeslice_task_t → timeslice_task_t)
    (q : sched_state) : season_view d (upd_tslc_task a f q) = season_view d q := rfl

@[simp] theorem season_view_upd_smpl_work (d did cid : Nat)
    (f : sampling_work_t → sampling_work_t) (q : sched_state) :
    season_view d (upd_smpl_work did cid f q) = season_view d q := by
  unfold upd_smpl_work
  exact season_view_upd_swork d did cid _ q

@[simp] theorem season_view_upd_smpl_dev (d did : Nat) (f : sampling_dev_t → sampling_dev_t)
    (q : sched_state) (hf : ∀ x, (f x).season = x.season) :
    season_view d (upd_smpl_dev did f q) = season_view d q := by
  unfold upd_smpl_dev
  exact season_view_upd_sdev d did _ q (fun x => hf _)

@[simp] theorem season_view_alloc_stask (d addr pid : Nat) (q : sched_state) :
    season_view d (alloc_stask addr pid q) = season_view d q := rfl

theorem season_view_foldl {α : Type} (d : Nat) (f : sched_state → α → sched_state)
    (hf : ∀ q a, season_view d (f q a) = season_view d q) (l : List α) :
    ∀ q, season_view d (l.foldl f q) = season_view d q := by
  induction l with
  | nil => intro q; rfl
  | cons a rest ih => intro q; rw [List.foldl_cons, ih, hf]

theorem season_step_foldl {α : Type} (d : Nat) (f : sched_state → α → sched_state)
    (hf : ∀ q a, season_step d q (f q a)) (l : List α) :
    ∀ q, season_step d q (l.foldl f q) := by
  induction l with
  | nil => intro q; exact season_step_refl d q
  | cons a rest ih => intro q; exact season_step_trans d (hf q a) (ih _)

theorem season_step_set_season (d i : Nat) (s : season_t) (q : sched_state)
    (h : i ≠ d ∨ season_edge (DFQ_season q d) s = true) :
    season_step d q (set_season i s q) := by
  by_cases hi : i = d
  · subst hi
    have he := h.resolve_left (fun x => x rfl)
    refine ⟨[(DFQ_season q i, s)], ?_, ?_, rfl⟩
    · simp [season_view, season_log, set_season, emit, List.filterMap_append, DFQ_season,
        upd_smpl_dev]
    · simp only [DFQ_season] at he
      simp [season_view, season_path, set_season, emit, DFQ_season, upd_smpl_dev, he]
  · refine season_step_of_view d _ _ ?_
    have hd : d ≠ i := fun e => hi e.symm
    simp [season_view, season_log, set_season, emit, List.filterMap_append, DFQ_season, hi,
      upd_smpl_dev, upd_sdev_other _ _ _ _ hd]

theorem DFQ_season_set_season (i : Nat) (s : season_t) (q : sched_state) :
    DFQ_season (set_season i s q) i = s := by
  simp [set_season, emit, DFQ_season, upd_smpl_dev]

theorem DFQ_season_of_view {d : Nat} {p q : sched_state}
    (h : season_view d q = season_view d p) : DFQ_season q d = DFQ_season p d :=
  congrArg (fun x => x.2.1) h

theorem policy_of_view {d : Nat} {p q : sched_state}
    (h : season_view d q = season_view d p) : q.policy_id = p.policy_id :=
  congrArg (fun x => x.2.2) h

theorem season_step_policy {d : Nat} {p q : sched_state} (h : season_step d p q) :
    q.policy_id = p.policy_id := by
  obtain ⟨_, _, _, e⟩ := h
  exact e

@[simp] theorem season_view_sampling_wake (d did : Nat) (q : sched_state) :
    season_view d (sampling_wake did q) = season_view d q := by
  simp [sampling_wake, is_season_set]

@[simp] theorem season_view_season_timer_cancel (d did : Nat) (q : sched_state) :
    season_view d (season_timer_cancel did q).2 = season_view d q := by
  simp [season_timer_cancel]

@[simp] theorem season_view_add_sem_up (d st n : Nat) (q : sched_state) :
    season_view d { q with events := q.events ++ List.replicate n (.sem_up st) } =
      season_view d q := by
  have h : List.filterMap (fun e =>
      match e with
      | neon_event.season_set d' last_season season =>
        if d' = d then some (last_season, season) else none
      | _ => none) (List.replicate n (neon_event.sem_up st)) = [] := by
    induction n with
    | zero => rfl
    | succ n ih => simp [List.replicate_succ, ih]
  simp [season_view, season_log, List.filterMap_append, h, DFQ_season]

@[simp] theorem season_view_sampling_unblock_all (d st : Nat) (q : sched_state) :
    season_view d (sampling_unblock_all st q) = season_view d q := by
  simp only [sampling_unblock_all]
  rw [season_view_add_sem_up]
  split_ifs <;> simp

@[simp] theorem season_view_neon_policy_update (d : Nat) (g : neon_global_t) (did st : Nat)
    (b : Nat → Bool) (q : sched_state) :
    season_view d (neon_policy_update g did st b q) = season_view d q := by
  simp only [neon_policy_update]
  apply season_view_foldl
  intro q a
  split_ifs <;> simp

@[simp] theorem season_view_create_sampling (d st : Nat) (q : sched_state) :
    season_view d (create_sampling st q) = season_view d q := by
  simp [create_sampling]

@[simp] theorem season_view_destroy_sampling (d st : Nat) (q : sched_state) :
    season_view d (destroy_sampling st q) = season_view d q := by
  simp only [destroy_sampling]
  split_ifs <;> simp [is_season_set]

@[simp] theorem season_view_start_sampling (d did cid st : Nat) (q : sched_state) :
    season_view d (start_sampling did cid st q) = season_view d q := by
  simp only [start_sampling]
  split_ifs <;> simp

@[simp] theorem season_view_stop_sampling (d : Nat) (g : neon_global_t) (did cid st : Nat)
    (q : sched_state) : season_view d (stop_sampling g did cid st q) = season_view d q := by
  simp only [stop_sampling]
  repeat' split
  all_goals simp [is_season_set]

@[simp] theorem season_view_issue_sampling (d did cid st hb : Nat) (q : sched_state) :
    season_view d (issue_sampling did cid st hb q) = season_view d q := by
  simp only [issue_sampling]
  repeat' split
  all_goals simp

@[simp] theorem season_view_complete_sampling (d : Nat) (g : neon_global_t) (did cid st : Nat)
    (q : sched_state) : season_view d (complete_sampling g did cid st q) = season_view d q := by
  simp only [complete_sampling]
  repeat' split
  all_goals simp

theorem season_view_policy_issue (d : Nat) (work : Nat → neon_work_t) (did cid st hb : Nat)
    (q : sched_state) (hq : q.policy_id = NEON_POLICY_SAMPLING) :
    season_view d (neon_policy_issue work did cid st hb q).2 = season_view d q := by
  simp only [neon_policy_issue, select_policy_issue]
  split_ifs <;> simp [hq, is_season_set]

theorem season_view_submit_sampling (d : Nat) (work : Nat → neon_work_t) (did cid st : Nat)
    (q : sched_state) (hq : q.policy_id = NEON_POLICY_SAMPLING) :
    season_view d (submit_sampling work did cid st q).2 = season_view d q := by
  have hi : ∀ hb r, season_view d r = season_view d q → r.policy_id = NEON_POLICY_SAMPLING →
      season_view d (neon_policy_issue work did cid st hb r).2 = season_view d q :=
    fun hb r hv hr => (season_view_policy_issue d work did cid st hb r hr).trans hv
  simp only [submit_sampling]
  repeat' split
  all_goals rw [hook_outcome_snd]
  all_goals apply hi
  all_goals first
    | (simp [is_season_set]; done)
    | (simp [hq, sampling_wake, season_timer_cancel, emit, upd_smpl_task, upd_smpl_dev,
        upd_smpl_work]; done)

theorem season_view_policy_start (d : Nat) (g : neon_global_t) (work : Nat → neon_work_t)
    (addr : Nat) (bmp_ok : Bool) (w : Nat) (p : sched_state)
    (hp : p.policy_id = NEON_POLICY_SAMPLING) :
    season_view d (neon_policy_start g work addr bmp_ok w p).2 = season_view d p := by
  have hs : ∀ did cid st q, q.policy_id = NEON_POLICY_SAMPLING →
      season_view d (select_policy_start g did cid st q) = season_view d q := by
    intro did cid st q hq
    simp only [select_policy_start, hq, season_view_start_sampling]
  simp only [neon_policy_start]
  generalize hr : (if find_stask p.stask (work w).neon_task
      (p.sched_dev_array (work w).did).stask_list = 0
    then create_sched_task addr bmp_ok (work w).did (work w).neon_task p
    else (find_stask p.stask (work w).neon_task
      (p.sched_dev_array (work w).did).stask_list, p)) = r
  have hv : season_view d r.2 = season_view d p := by
    rw [← hr]; simp only [create_sched_task, select_policy_create]
    split_ifs <;> simp [hp]
  have hq : r.2.policy_id = NEON_POLICY_SAMPLING := by
    rw [← hr]; simp only [create_sched_task]; split_ifs <;> simp [hp]
  split_ifs
  · exact hv
  · rw [season_view_upd_stask, hs _ _ _ _ (by simp [hq])]
    simp [hv]
  · rw [season_view_upd_stask, hs _ _ _ _ (by simp [hq])]
    simp [hv]

theorem season_view_policy_stop (d : Nat) (g : neon_global_t) (work : Nat → neon_work_t)
    (w : Nat) (p : sched_state) (hp : p.policy_id = NEON_POLICY_SAMPLING) :
    season_view d (neon_policy_stop g work w p).2 = season_view d p := by
  have hs : ∀ did cid st q, q.policy_id = NEON_POLICY_SAMPLING →
      season_view d (select_policy_stop g did cid st q) = season_view d q := by
    intro did cid st q hq
    simp only [select_policy_stop, hq, season_view_stop_sampling]
  have hd : ∀ st q, q.policy_id = NEON_POLICY_SAMPLING →
      season_view d (select_policy_destroy st q) = season_view d q := by
    intro st q hq
    simp only [select_policy_destroy, hq, season_view_destroy_sampling]
  simp only [neon_policy_stop, destroy_sched_task]
  split_ifs
  · rfl
  · rw [hd _ _ (by simp [hp])]
    simp [hs, hp]
  · rw [season_view_upd_swork, hs _ _ _ _ (by simp [hp]), season_view_upd_stask]

theorem season_view_policy_submit (d : Nat) (work : Nat → neon_work_t) (w : Nat)
    (p : sched_state) (hp : p.policy_id = NEON_POLICY_SAMPLING) :
    season_view d (neon_policy_submit work w p).2 = season_view d p := by
  have hs : ∀ did cid st q, q.policy_id = NEON_POLICY_SAMPLING →
      season_view d (select_policy_submit work did cid st q).2 = season_view d q := by
    intro did cid st q hq
    simp only [select_policy_submit, hq]
    exact season_view_submit_sampling d work did cid st q hq
  simp only [neon_policy_submit]
  split_ifs
  · rfl
  all_goals rw [hs _ _ _ _ (by simp [hp])]
  all_goals simp

theorem season_view_policy_complete (d : Nat) (g : neon_global_t) (did cid pid : Nat)
    (p : sched_state) (hp : p.policy_id = NEON_POLICY_SAMPLING) :
    season_view d (neon_policy_complete g did cid pid p) = season_view d p := by
  have hs : ∀ st q, q.policy_id = NEON_POLICY_SAMPLING →
      season_view d (select_policy_complete g did cid st q) = season_view d q := by
    intro st q hq
    simp only [select_policy_complete, hq, season_view_complete_sampling]
  simp only [neon_policy_complete]
  split_ifs
  · rfl
  all_goals rw [hs _ _ (by simp [hp])]
  all_goals simp

theorem season_view_foldl_pair {α β : Type} (d : Nat) (f : β × sched_state → α → β × sched_state)
    (hf : ∀ acc a, season_view d (f acc a).2 = season_view d acc.2) (l : List α) :
    ∀ acc, season_view d (l.foldl f acc).2 = season_view d acc.2 := by
  induction l with
  | nil => intro acc; rfl
  | cons a rest ih => intro acc; rw [List.foldl_cons, ih, hf]

theorem season_view_ite (d : Nat) (c : Prop) [Decidable c] (a b : sched_state) :
    season_view d (if c then a else b) = if c then season_view d a else season_view d b := by
  split_ifs <;> rfl

theorem season_view_update_vtimes (d did : Nat) (p : sched_state) :
    season_view d (update_vtimes did p) = season_view d p := by
  simp only [update_vtimes]
  simp [season_view_foldl, season_view_foldl_pair, season_view_ite, apply_ite Prod.snd]

theorem season_view_sample_walk (d did : Nat) (l : List Nat) :
    ∀ p, season_view d (sample_walk did l p).2 = season_view d p := by
  induction l with
  | nil => intro p; rfl
  | cons a rest ih =>
    intro p
    simp only [sample_walk]
    split_ifs
    · rfl
    · rw [ih]; simp

theorem season_view_update_sampled_task (d did : Nat) (p : sched_state) :
    season_view d (update_sampled_task did p) = season_view d p := by
  simp only [update_sampled_task]
  repeat' split
  all_goals simp [season_view_sample_walk]

theorem season_step_congr_left {d : Nat} {p q r : sched_state}
    (h : season_view d q = season_view d p) (hs : season_step d q r) : season_step d p r :=
  season_step_trans d (season_step_of_view d _ _ h) hs

theorem season_step_set_of_view (d i : Nat) (s : season_t) (p q : sched_state)
    (hv : season_view d q = season_view d p)
    (h : i = d → season_edge (DFQ_season p d) s = true) :
    season_step d p (set_season i s q) := by
  refine season_step_congr_left hv (season_step_set_season d i s q ?_)
  by_cases hi : i = d
  · right; rw [DFQ_season_of_view hv]; exact h hi
  · left; exact hi

theorem update_now_season (d did : Nat) (p : sched_state)
    (hs : did = d → DFQ_season p d = DFQ_TASK_SAMPLING) :
    season_step d p (update_now did p).2 := by
  have hv := season_view_update_sampled_task d did p
  simp only [update_now]
  refine (season_step_congr (season_view_foldl d _ ?_ _ _)).mpr ?_
  · intro q a
    split_ifs <;> simp [is_season_set]
  · split_ifs
    · exact season_step_of_view d _ _ (by simp [hv])
    · refine (season_step_congr (season_view_update_vtimes d did _)).mpr ?_
      exact season_step_set_of_view d did _ p _ (by simp [hv])
        (fun h => by rw [hs h]; rfl)
    · refine (season_step_congr (season_view_update_vtimes d did _)).mpr ?_
      exact season_step_set_of_view d did _ p _ (by simp [hv])
        (fun h => by rw [hs h]; rfl)

theorem season_view_event_sampling_count (d : Nat) (g : neon_global_t) (i st : Nat)
    (p : sched_state) : season_view d (event_sampling_count g i st p) = season_view d p := by
  simp only [event_sampling_count]
  apply season_view_foldl
  intro q j
  split_ifs <;> simp [is_season_set]

theorem event_sampling_freerun_season (d : Nat) (g : neon_global_t) (i : Nat) (p : sched_state)
    (hs : i = d → DFQ_season p d = DFQ_TASK_FREERUN) :
    season_step d p (event_sampling_freerun g i p).2 ∧
      DFQ_season (event_sampling_freerun g i p).2 i = DFQ_TASK_BARRIER := by
  simp only [event_sampling_freerun]
  refine ⟨season_step_set_of_view d i _ p _ ?_ (fun h => by rw [hs h]; rfl),
    DFQ_season_set_season _ _ _⟩
  apply season_view_foldl
  intro q j
  split_ifs <;> simp [is_season_set]

theorem event_sampling_barrier_season (d : Nat) (g : neon_global_t)
    (busy : Nat → Nat → Nat → Bool) (i : Nat) (p : sched_state)
    (hs : i = d → DFQ_season p d = DFQ_TASK_BARRIER) :
    season_step d p (event_sampling_barrier g busy i p).2 ∧
      ((event_sampling_barrier g busy i p).1 = false →
        season_view d (event_sampling_barrier g busy i p).2 = season_view d p) := by
  have hv : ∀ q, season_view d q = season_view d p →
      season_view d ((q.sched_dev_array i).stask_list.foldl (fun q stask =>
        event_sampling_count g i stask
          (if (q.stask stask).ps.smpl.held_back = 0 then
            neon_policy_update g i stask (busy i stask) q
          else q)) q) = season_view d p := by
    intro q hq
    rw [season_view_foldl d _ (fun q a => by
      rw [season_view_event_sampling_count]; split_ifs <;> simp)]
    exact hq
  simp only [event_sampling_barrier]
  split_ifs
  · refine ⟨season_step_set_of_view d i _ p _ (hv _ (by simp)) (fun h => by rw [hs h]; rfl), ?_⟩
    intro h; simp at h
  · exact ⟨season_step_of_view d _ _ (hv _ (by simp)), fun _ => hv _ (by simp)⟩

theorem event_sampling_sampling_season (d : Nat) (g : neon_global_t) (ts i : Nat)
    (p : sched_state) (hs : i = d → DFQ_season p d = DFQ_TASK_SAMPLING) :
    season_step d p (event_sampling_sampling g ts i p).2 := by
  simp only [event_sampling_sampling]
  split_ifs
  · refine season_step_of_view d _ _ ?_
    simp [season_view_foldl_pair, season_view_ite, apply_ite Prod.snd]
  · refine season_step_of_view d _ _ ?_
    simp [season_view_foldl_pair, season_view_ite, apply_ite Prod.snd]
  · exact update_now_season d i p hs

theorem event_sampling_from_draining_season (d : Nat) (g : neon_global_t) (ts i : Nat)
    (p : sched_state)
    (hs : i = d → DFQ_season p d = DFQ_TASK_BARRIER ∨ DFQ_season p d = DFQ_TASK_DRAINING) :
    season_step d p (event_sampling_from_draining g ts i p).2 := by
  simp only [event_sampling_from_draining]
  refine season_step_trans d (season_step_set_of_view d i DFQ_TASK_SAMPLING p p rfl ?_)
    (event_sampling_sampling_season d g ts i _ ?_)
  · intro h
    rcases hs h with e | e <;> rw [e] <;> rfl
  · intro h
    rw [← h]
    exact DFQ_season_set_season _ _ _

theorem event_sampling_from_barrier_season (d : Nat) (g : neon_global_t)
    (busy : Nat → Nat → Nat → Bool) (ts i : Nat) (p : sched_state)
    (hs : i = d → DFQ_season p d = DFQ_TASK_BARRIER) :
    season_step d p (event_sampling_from_barrier g busy ts i p).2 := by
  have hb := event_sampling_barrier_season d g busy i p hs
  simp only [event_sampling_from_barrier]
  split_ifs with h
  · exact hb.1
  · have hv := hb.2 (by simpa using h)
    refine season_step_trans d hb.1 (event_sampling_from_draining_season d g ts i _ ?_)
    intro e
    left
    rw [DFQ_season_of_view hv]
    exact hs e

theorem event_sampling_switch_season (d : Nat) (g : neon_global_t)
    (busy : Nat → Nat → Nat → Bool) (ts i : Nat) (p : sched_state) :
    season_step d p (event_sampling_switch g busy ts i p).2 := by
  simp only [event_sampling_switch]
  split
  · next heq =>
    have hf := event_sampling_freerun_season d g i p (fun e => by rw [← e]; exact heq)
    split_ifs
    · exact hf.1
    · exact season_step_trans d hf.1
        (event_sampling_from_barrier_season d g busy ts i _ (fun e => by rw [← e]; exact hf.2))
  · next heq =>
    exact event_sampling_from_barrier_season d g busy ts i p (fun e => by rw [← e]; exact heq)
  · next heq =>
    exact event_sampling_from_draining_season d g ts i p
      (fun e => Or.inr (by rw [← e]; exact heq))
  · next heq =>
    exact event_sampling_sampling_season d g ts i p (fun e => by rw [← e]; exact heq)
  · exact season_step_refl d p

theorem event_sampling_dev_season (d : Nat) (g : neon_global_t)
    (busy : Nat → Nat → Nat → Bool) (i : Nat) (p : sched_state) :
    season_step d p (event_sampling_dev g busy i p) := by
  have hsw := season_step_congr_left (season_view_tick d p)
    (event_sampling_switch_season d g busy (usec_of (getnstimeofday p)) i (tick p))
  simp only [event_sampling_dev]
  split_ifs
  · exact (season_step_congr (by simp)).mpr hsw
  · exact (season_step_congr (by simp)).mpr hsw
  · exact hsw

theorem event_sampling_loop_season (d : Nat) (g : neon_global_t)
    (busy : Nat → Nat → Nat → Bool) (l : List Nat) :
    ∀ p, season_step d p (event_sampling_loop g busy l p) := by
  induction l with
  | nil => intro p; exact season_step_refl d p
  | cons i rest ih =>
    intro p
    have hv : season_view d (upd_smpl_dev i (fun d => { d with action := 0 }) p) =
        season_view d p := by simp
    simp only [event_sampling_loop]
    split_ifs
    all_goals first
      | exact season_step_congr_left hv (ih _)
      | exact season_step_of_view d _ _ hv
      | exact season_step_congr_left hv
          (season_step_trans d (event_sampling_dev_season d g busy i _) (ih _))
      | exact ih _
      | exact season_step_refl d p
      | exact season_step_trans d (event_sampling_dev_season d g busy i _) (ih _)

theorem run_policy_call_season (d : Nat) (g : neon_global_t) (work : Nat → neon_work_t)
    (p : sched_state) (c : policy_call) (hc : c.is_reset = false)
    (hp : p.policy_id = NEON_POLICY_SAMPLING) :
    season_step d p (run_policy_call g work p c) := by
  cases c with
  | reset k1 k2 nctx => simp [policy_call.is_reset] at hc
  | start w addr b => exact season_step_of_view d _ _ (season_view_policy_start d g work _ _ w p hp)
  | stop w => exact season_step_of_view d _ _ (season_view_policy_stop d g work w p hp)
  | submit w => exact season_step_of_view d _ _ (season_view_policy_submit d work w p hp)
  | complete did cid pid =>
    exact season_step_of_view d _ _ (season_view_policy_complete d g did cid pid p hp)
  | event busy =>
    simp only [run_policy_call, select_policy_event, hp, event_sampling]
    exact event_sampling_loop_season d g busy _ p

theorem run_policy_calls_season (d : Nat) (g : neon_global_t) (work : Nat → neon_work_t)
    (calls : List policy_call) :
    ∀ p, (∀ c ∈ calls, c.is_reset = false) → p.policy_id = NEON_POLICY_SAMPLING →
      season_step d p (run_policy_calls g work calls p) := by
  induction calls with
  | nil => intro p _ _; exact season_step_refl d p
  | cons c rest ih =>
    intro p hc hp
    have h1 := run_policy_call_season d g work p c (hc c (List.mem_cons_self _ _)) hp
    exact season_step_trans d h1
      (ih _ (fun x hx => hc x (List.mem_cons_of_mem _ hx)) ((season_step_policy h1).trans hp))

theorem season_path_edges (l : List (season_t × season_t)) :
    ∀ s s', season_path s l s' = true → ∀ x ∈ l, season_edge x.1 x.2 = true := by
  induction l with
  | nil => intro s s' _ x hx; simp at hx
  | cons y rest ih =>
    intro s s' h x hx
    obtain ⟨o, n⟩ := y
    simp only [season_path, Bool.and_eq_true, decide_eq_true_eq] at h
    rcases List.mem_cons.mp hx with e | e
    · rw [e]; exact h.1.2
    · exact ih _ _ h.2 x e

/-- C18: under the sampling policy, along every sequence of calls of start,
stop, submit, complete and event (no reset), the stores to the season of a
device recorded meanwhile lead from the season before to the season after, each
store replacing the season that the one before it left and each following an
edge of the cycle: BARRIER to DRAINING, BARRIER to SAMPLING, DRAINING to
SAMPLING, SAMPLING to FREERUN or FREERUN to BARRIER. One run of the event
handler may make several such stores in a row. -/
theorem season_changes_follow_cycle (g : neon_global_t) (work : Nat → neon_work_t)
    (calls : List policy_call) (p : sched_state) (d : Nat)
    (hc : ∀ c ∈ calls, c.is_reset = false) (hp : p.policy_id = NEON_POLICY_SAMPLING) :
    ∃ new, season_log d (run_policy_calls g work calls p).events =
        season_log d p.events ++ new ∧
      season_path (DFQ_season p d) new (DFQ_season (run_policy_calls g work calls p) d) = true ∧
      ∀ x ∈ new, season_edge x.1 x.2 = true := by
  obtain ⟨new, h1, h2, _⟩ := run_policy_calls_season d g work calls p hc hp
  exact ⟨new, h1, h2, season_path_edges new _ _ h2⟩

/-- Witness for C18: from season BARRIER a submit, the event handler, the
completion and the event handler again take device 0 to DRAINING and on to
SAMPLING. -/
theorem season_changes_follow_cycle_witness :
    (∀ c ∈ example_season_calls, c.is_reset = false) ∧
    (example_started NEON_POLICY_SAMPLING).policy_id = NEON_POLICY_SAMPLING ∧
    (∃ new, season_log 0 (run_policy_calls example_global example_works example_season_calls
          (example_started NEON_POLICY_SAMPLING)).events =
        season_log 0 (example_started NEON_POLICY_SAMPLING).events ++ new ∧
      season_path (DFQ_season (example_started NEON_POLICY_SAMPLING) 0) new
        (DFQ_season (run_policy_calls example_global example_works example_season_calls
          (example_started NEON_POLICY_SAMPLING)) 0) = true ∧
      ∀ x ∈ new, season_edge x.1 x.2 = true) ∧
    season_log 0 (run_policy_calls example_global example_works example_season_calls
        (example_started NEON_POLICY_SAMPLING)).events =
      [(DFQ_TASK_BARRIER, DFQ_TASK_DRAINING), (DFQ_TASK_DRAINING, DFQ_TASK_SAMPLING)] :=
  ⟨by simp [example_season_calls, policy_call.is_reset], by decide!,
   season_changes_follow_cycle example_global example_works example_season_calls
     (example_started NEON_POLICY_SAMPLING) 0
     (by simp [example_season_calls, policy_call.is_reset]) (by decide!),
   by decide!⟩

/-! ### Pending work at the barrier -/

theorem heeded_incomplete_rqst_congr (g : neon_global_t) (i a : Nat) (p q : sched_state)
    (h1 : q.stask a = p.stask a)
    (h2 : (q.sched_dev_array i).swork_array = (p.sched_dev_array i).swork_array) :
    heeded_incomplete_rqst g i a q = heeded_incomplete_rqst g i a p := by
  simp only [heeded_incomplete_rqst, h1, h2]

theorem event_sampling_count_fold (i : Nat) (l : List Nat) :
    ∀ q : sched_state,
      (l.foldl (fun q j =>
        if ((q.sched_dev_array i).swork_array j).ps.smpl.heed = 0 then q
        else upd_smpl_dev i (fun d => { d with countdown := u32 (d.countdown + 1) })
          (if ((q.sched_dev_array i).swork_array j).ps.smpl.engage = 0 then
            emit .kernel_bug q else q)) q).stask = q.stask ∧
      ((l.foldl (fun q j =>
        if ((q.sched_dev_array i).swork_array j).ps.smpl.heed = 0 then q
        else upd_smpl_dev i (fun d => { d with countdown := u32 (d.countdown + 1) })
          (if ((q.sched_dev_array i).swork_array j).ps.smpl.engage = 0 then
            emit .kernel_bug q else q)) q).sched_dev_array i).swork_array =
        (q.sched_dev_array i).swork_array ∧
      ((l.foldl (fun q j =>
        if ((q.sched_dev_array i).swork_array j).ps.smpl.heed = 0 then q
        else upd_smpl_dev i (fun d => { d with countdown := u32 (d.countdown + 1) })
          (if ((q.sched_dev_array i).swork_array j).ps.smpl.engage = 0 then
            emit .kernel_bug q else q)) q).sched_dev_array i).stask_list =
        (q.sched_dev_array i).stask_list ∧
      (DFQ_countdown q i < 2 ^ 32 →
        DFQ_countdown (l.foldl (fun q j =>
          if ((q.sched_dev_array i).swork_array j).ps.smpl.heed = 0 then q
          else upd_smpl_dev i (fun d => { d with countdown := u32 (d.countdown + 1) })
            (if ((q.sched_dev_array i).swork_array j).ps.smpl.engage = 0 then
              emit .kernel_bug q else q)) q) i =
          (DFQ_countdown q i + (l.filter (fun j =>
            decide (((q.sched_dev_array i).swork_array j).ps.smpl.heed ≠ 0))).length) % 2 ^ 32) := by
  induction l with
  | nil =>
    intro q
    refine ⟨rfl, rfl, rfl, fun h => ?_⟩
    simp only [List.foldl_nil, List.filter_nil, List.length_nil, Nat.add_zero]
    exact (Nat.mod_eq_of_lt h).symm
  | cons j rest ih =>
    intro q
    simp only [List.foldl_cons]
    by_cases hh : ((q.sched_dev_array i).swork_array j).ps.smpl.heed = 0
    · simp only [if_pos hh]
      obtain ⟨a1, a2, a3, a4⟩ := ih q
      refine ⟨a1, a2, a3, fun h => ?_⟩
      rw [a4 h, List.filter_cons_of_neg (by simpa using hh)]
    · simp only [if_neg hh]
      generalize hq1 : upd_smpl_dev i (fun d => { d with countdown := u32 (d.countdown + 1) })
        (if ((q.sched_dev_array i).swork_array j).ps.smpl.engage = 0 then
          emit .kernel_bug q else q) = q1
      have e1 : q1.stask = q.stask := by rw [← hq1]; split_ifs <;> rfl
      have e2 : (q1.sched_dev_array i).swork_array = (q.sched_dev_array i).swork_array := by
        rw [← hq1]; split_ifs <;> simp [upd_smpl_dev, emit]
      have e3 : (q1.sched_dev_array i).stask_list = (q.sched_dev_array i).stask_list := by
        rw [← hq1]; split_ifs <;> simp [upd_smpl_dev, emit]
      have e4 : DFQ_countdown q1 i = u32 (DFQ_countdown q i + 1) := by
        rw [← hq1]; split_ifs <;> simp [upd_smpl_dev, emit, DFQ_countdown]
      obtain ⟨a1, a2, a3, a4⟩ := ih q1
      refine ⟨a1.trans e1, a2.trans e2, a3.trans e3, fun h => ?_⟩
      have hlt : DFQ_countdown q1 i < 2 ^ 32 := by
        rw [e4]; unfold u32; exact Nat.mod_lt _ (by norm_num)
      rw [a4 hlt, e2, e4, List.filter_cons_of_pos (by simpa using hh), List.length_cons]
      unfold u32
      omega

theorem event_sampling_count_spec (g : neon_global_t) (i a : Nat) (q : sched_state) :
    (event_sampling_count g i a q).stask = q.stask ∧
    ((event_sampling_count g i a q).sched_dev_array i).swork_array =
      (q.sched_dev_array i).swork_array ∧
    ((event_sampling_count g i a q).sched_dev_array i).stask_list =
      (q.sched_dev_array i).stask_list ∧
    (DFQ_countdown q i < 2 ^ 32 →
      DFQ_countdown (event_sampling_count g i a q) i =
        (DFQ_countdown q i + heeded_incomplete_rqst g i a q) % 2 ^ 32) := by
  simp only [event_sampling_count, heeded_incomplete_rqst]
  exact event_sampling_count_fold i _ q

theorem neon_policy_update_spec (g : neon_global_t) (i a : Nat) (b : Nat → Bool)
    (q : sched_state) :
    (neon_policy_update g i a b q).sched_dev_array = q.sched_dev_array ∧
    ∀ a', a' ≠ a → (neon_policy_update g i a b q).stask a' = q.stask a' := by
  simp only [neon_policy_update]
  generalize set_bits (q.stask a).bmp_start2stop (g.dev i).nchan = l
  induction l generalizing q with
  | nil => exact ⟨rfl, fun _ _ => rfl⟩
  | cons j rest ih =>
    simp only [List.foldl_cons]
    split_ifs
    · exact ⟨(ih _).1.trans rfl,
        fun a' ha => ((ih _).2 a' ha).trans (upd_stask_other _ _ _ _ ha)⟩
    · exact ih q

theorem event_sampling_tasks_fold (g : neon_global_t) (busy : Nat → Nat → Nat → Bool)
    (i : Nat) (l : List Nat) :
    ∀ q : sched_state, l.Nodup → DFQ_countdown q i < 2 ^ 32 →
      ((l.foldl (fun q stask =>
        event_sampling_count g i stask
          (if (q.stask stask).ps.smpl.held_back = 0 then
            neon_policy_update g i stask (busy i stask) q
          else q)) q).sched_dev_array i).swork_array = (q.sched_dev_array i).swork_array ∧
      ((l.foldl (fun q stask =>
        event_sampling_count g i stask
          (if (q.stask stask).ps.smpl.held_back = 0 then
            neon_policy_update g i stask (busy i stask) q
          else q)) q).sched_dev_array i).stask_list = (q.sched_dev_array i).stask_list ∧
      (∀ a, a ∉ l → (l.foldl (fun q stask =>
        event_sampling_count g i stask
          (if (q.stask stask).ps.smpl.held_back = 0 then
            neon_policy_update g i stask (busy i stask) q
          else q)) q).stask a = q.stask a) ∧
      DFQ_countdown (l.foldl (fun q stask =>
        event_sampling_count g i stask
          (if (q.stask stask).ps.smpl.held_back = 0 then
            neon_policy_update g i stask (busy i stask) q
          else q)) q) i =
        (DFQ_countdown q i + (l.map (fun a => heeded_incomplete_rqst g i a
          (l.foldl (fun q stask =>
            event_sampling_count g i stask
              (if (q.stask stask).ps.smpl.held_back = 0 then
                neon_policy_update g i stask (busy i stask) q
              else q)) q))).sum) % 2 ^ 32 := by
  induction l with
  | nil =>
    intro q _ h
    refine ⟨rfl, rfl, fun _ _ => rfl, ?_⟩
    simp only [List.foldl_nil, List.map_nil, List.sum_nil, Nat.add_zero]
    exact (Nat.mod_eq_of_lt h).symm
  | cons a rest ih =>
    intro q hnd h
    simp only [List.foldl_cons]
    generalize hu : (if (q.stask a).ps.smpl.held_back = 0 then
      neon_policy_update g i a (busy i a) q else q) = qu
    have u1 : qu.sched_dev_array = q.sched_dev_array := by
      rw [← hu]; split_ifs
      · exact (neon_policy_update_spec g i a _ q).1
      · rfl
    have u2 : ∀ a', a' ≠ a → qu.stask a' = q.stask a' := by
      intro a' ha; rw [← hu]; split_ifs
      · exact (neon_policy_update_spec g i a _ q).2 a' ha
      · rfl
    obtain ⟨c1, c2, c3, c4⟩ := event_sampling_count_spec g i a qu
    have hcq : DFQ_countdown qu i = DFQ_countdown q i := by
      simp only [DFQ_countdown, u1]
    have hlt : DFQ_countdown (event_sampling_count g i a qu) i < 2 ^ 32 := by
      rw [c4 (by rw [hcq]; exact h)]; exact Nat.mod_lt _ (by norm_num)
    have hna : a ∉ rest := (List.nodup_cons.mp hnd).1
    obtain ⟨r1, r2, r3, r4⟩ := ih (event_sampling_count g i a qu) (List.nodup_cons.mp hnd).2 hlt
    refine ⟨?_, ?_, ?_, ?_⟩
    · rw [r1, c2, u1]
    · rw [r2, c3, u1]
    · intro a' ha'
      simp only [List.mem_cons, not_or] at ha'
      rw [r3 a' ha'.2, c1, u2 a' ha'.1]
    · rw [r4, c4 (by rw [hcq]; exact h), hcq, List.map_cons, List.sum_cons,
        heeded_incomplete_rqst_congr g i a (event_sampling_count g i a qu) _
          (r3 a hna) r1,
        heeded_incomplete_rqst_congr g i a qu _ (by rw [c1]) c2]
      omega

theorem heeded_pending_congr (g : neon_global_t) (i : Nat) (p q : sched_state)
    (h1 : q.stask = p.stask)
    (h2 : (q.sched_dev_array i).swork_array = (p.sched_dev_array i).swork_array)
    (h3 : (q.sched_dev_array i).stask_list = (p.sched_dev_array i).stask_list) :
    heeded_pending g i q = heeded_pending g i p := by
  simp only [heeded_pending, heeded_incomplete_rqst, h1, h2, h3]

theorem event_sampling_barrier_out (g : neon_global_t) (busy : Nat → Nat → Nat → Bool)
    (i : Nat) (p : sched_state) (hnd : (p.sched_dev_array i).stask_list.Nodup) :
    DFQ_countdown (event_sampling_barrier g busy i p).2 i =
      heeded_pending g i (event_sampling_barrier g busy i p).2 % 2 ^ 32 ∧
    (((event_sampling_barrier g busy i p).1 = true ∧
        0 < DFQ_countdown (event_sampling_barrier g busy i p).2 i ∧
        DFQ_season (event_sampling_barrier g busy i p).2 i = DFQ_TASK_DRAINING) ∨
      ((event_sampling_barrier g busy i p).1 = false ∧
        DFQ_countdown (event_sampling_barrier g busy i p).2 i = 0 ∧
        DFQ_season (event_sampling_barrier g busy i p).2 i = DFQ_season p i)) := by
  simp only [event_sampling_barrier]
  generalize hq0 : upd_smpl_dev i (fun d => { d with countdown := 0 }) p = q0
  have hl : (q0.sched_dev_array i).stask_list = (p.sched_dev_array i).stask_list := by
    rw [← hq0]; simp [upd_smpl_dev]
  have hc0 : DFQ_countdown q0 i = 0 := by
    rw [← hq0]; simp [DFQ_countdown, upd_smpl_dev]
  have hv0 : season_view i q0 = season_view i p := by
    rw [← hq0]; simp
  obtain ⟨r1, r2, r3, r4⟩ := event_sampling_tasks_fold g busy i
    (q0.sched_dev_array i).stask_list q0 (by rw [hl]; exact hnd) (by rw [hc0]; norm_num)
  have hsv := season_view_foldl i (fun q stask =>
      event_sampling_count g i stask
        (if (q.stask stask).ps.smpl.held_back = 0 then
          neon_policy_update g i stask (busy i stask) q
        else q)) (fun q a => by
      rw [season_view_event_sampling_count]; split_ifs <;> simp)
    (q0.sched_dev_array i).stask_list q0
  rw [hc0, Nat.zero_add] at r4
  generalize (q0.sched_dev_array i).stask_list.foldl (fun q stask =>
      event_sampling_count g i stask
        (if (q.stask stask).ps.smpl.held_back = 0 then
          neon_policy_update g i stask (busy i stask) q
        else q)) q0 = f at r1 r2 r3 r4 hsv ⊢
  have hp : DFQ_countdown f i = heeded_pending g i f % 2 ^ 32 := by
    rw [r4, heeded_pending, r2]
  split_ifs with h
  · refine ⟨?_, Or.inl ⟨rfl, ?_, DFQ_season_set_season _ _ _⟩⟩
    · rw [heeded_pending_congr g i f (set_season i DFQ_TASK_DRAINING f) rfl
        (by simp [set_season, emit, upd_smpl_dev]) (by simp [set_season, emit, upd_smpl_dev])]
      simpa [DFQ_countdown, set_season, emit, upd_smpl_dev] using hp
    · simpa [DFQ_countdown, set_season, emit, upd_smpl_dev] using h
  · refine ⟨hp, Or.inr ⟨rfl, ?_, DFQ_season_of_view (hsv.trans hv0)⟩⟩
    simpa [DFQ_countdown] using h

/-- Counterexample for C19: with one request issued on the unheeded channel 5
and one on the heeded channel 4, the event handler in season BARRIER sets the
countdown to 1 and enters DRAINING, while two issue2comp bits are set over the
tasks on the list. -/
theorem event_sampling_countdown_skips_unheeded :
    example_barrier.policy_id = NEON_POLICY_SAMPLING ∧
    DFQ_season example_barrier 0 = DFQ_TASK_BARRIER ∧
    spec_pending example_global 0
      (select_policy_event example_global (fun _ _ _ => false) example_barrier) = 2 ∧
    DFQ_countdown
      (select_policy_event example_global (fun _ _ _ => false) example_barrier) 0 = 1 ∧
    DFQ_season
      (select_policy_event example_global (fun _ _ _ => false) example_barrier) 0 =
        DFQ_TASK_DRAINING := by
  decide!

/-- C19, amended: when `event_sampling` handles a device in season BARRIER
(its task list without repeated entries), the BARRIER case sets the drain
countdown to the number of issued-but-not-complete works on heeded channels of
the device: the number of set issue2comp bits on channels with `heed != 0`,
over all tasks on the task list, as the bits are once `neon_policy_update` has
run for the tasks not held back (as `unsigned int`). If the countdown is
greater than 0 the season becomes DRAINING and the switch is left; if it is 0
the handler goes straight on to the DRAINING case, which enters SAMPLING. -/
theorem event_sampling_barrier_countdown (g : neon_global_t)
    (busy : Nat → Nat → Nat → Bool) (ts i : Nat) (p : sched_state)
    (hs : DFQ_season p i = DFQ_TASK_BARRIER)
    (hnd : (p.sched_dev_array i).stask_list.Nodup) :
    DFQ_countdown (event_sampling_barrier g busy i p).2 i =
      heeded_pending g i (event_sampling_barrier g busy i p).2 % 2 ^ 32 ∧
    (0 < DFQ_countdown (event_sampling_barrier g busy i p).2 i →
      event_sampling_switch g busy ts i p = (0, (event_sampling_barrier g busy i p).2) ∧
      DFQ_season (event_sampling_barrier g busy i p).2 i = DFQ_TASK_DRAINING) ∧
    (DFQ_countdown (event_sampling_barrier g busy i p).2 i = 0 →
      event_sampling_switch g busy ts i p =
        event_sampling_sampling g ts i
          (set_season i DFQ_TASK_SAMPLING (event_sampling_barrier g busy i p).2) ∧
      DFQ_season (event_sampling_barrier g busy i p).2 i = DFQ_TASK_BARRIER ∧
      DFQ_season (set_season i DFQ_TASK_SAMPLING (event_sampling_barrier g busy i p).2) i =
        DFQ_TASK_SAMPLING) := by
  obtain ⟨h1, h2⟩ := event_sampling_barrier_out g busy i p hnd
  have hsw : event_sampling_switch g busy ts i p = event_sampling_from_barrier g busy ts i p := by
    simp only [DFQ_season] at hs
    simp only [event_sampling_switch, hs]
  refine ⟨h1, fun hpos => ?_, fun hzero => ?_⟩
  · rcases h2 with ⟨a, _, c⟩ | ⟨_, b, _⟩
    · refine ⟨?_, c⟩
      rw [hsw]
      simp only [event_sampling_from_barrier, a, if_true]
    · omega
  · rcases h2 with ⟨_, b, _⟩ | ⟨a, _, c⟩
    · omega
    · refine ⟨?_, c.trans hs, DFQ_season_set_season _ _ _⟩
      rw [hsw]
      simp only [event_sampling_from_barrier, a, event_sampling_from_draining]
      simp

/-- Witness for C19: in the barrier example the countdown is set to 1, the
one request on a heeded channel, and the device enters DRAINING. -/
theorem event_sampling_barrier_countdown_witness :
    DFQ_season example_barrier 0 = DFQ_TASK_BARRIER ∧
    (example_barrier.sched_dev_array 0).stask_list.Nodup ∧
    DFQ_countdown (event_sampling_barrier example_global (fun _ _ _ => false) 0
        example_barrier).2 0 =
      heeded_pending example_global 0 (event_sampling_barrier example_global
        (fun _ _ _ => false) 0 example_barrier).2 % 2 ^ 32 ∧
    heeded_pending example_global 0 (event_sampling_barrier example_global
        (fun _ _ _ => false) 0 example_barrier).2 = 1 ∧
    DFQ_season (event_sampling_barrier example_global (fun _ _ _ => false) 0
        example_barrier).2 0 = DFQ_TASK_DRAINING :=
  ⟨by decide!, by decide!,
   (event_sampling_barrier_countdown example_global (fun _ _ _ => false) 0 0 example_barrier
      (by decide!) (by decide!)).1,
   by decide!, by decide!⟩

/-! ### Draining -/

/-- Counterexample for C20: in season DRAINING with a countdown of 1, the
completion of the request on the unheeded channel 5 leaves the countdown at 1
and raises nothing. -/
theorem complete_sampling_unheeded_keeps_countdown :
    example_draining.policy_id = NEON_POLICY_SAMPLING ∧
    DFQ_season example_draining 0 = DFQ_TASK_DRAINING ∧
    DFQ_countdown example_draining 0 = 1 ∧
    test_bit 5 (example_draining.stask 500).bmp_issue2comp = true ∧
    DFQ_countdown (complete_sampling example_global 0 5 500 example_draining) 0 = 1 ∧
    DFQ_countdown (neon_policy_complete example_global 0 5 42 example_draining) 0 = 1 ∧
    ((neon_policy_complete example_global 0 5 42 example_draining).sched_dev_array
      0).ps.smpl.action = 0 := by
  decide!

theorem event_sampling_first (g : neon_global_t) (busy : Nat → Nat → Nat → Bool)
    (q : sched_state) (hn : 0 < g.ndev) (ha : (q.sched_dev_array 0).ps.smpl.action = 1) :
    event_sampling g busy q =
      event_sampling_loop g busy ((List.range (g.ndev - 1)).map Nat.succ)
        (event_sampling_dev g busy 0 (upd_smpl_dev 0 (fun d => { d with action := 0 }) q)) := by
  obtain ⟨n, hn'⟩ : ∃ n, g.ndev = n + 1 := ⟨g.ndev - 1, by omega⟩
  simp only [event_sampling, hn', List.range_succ_eq_map, Nat.add_sub_cancel,
    event_sampling_loop, ha]
  simp

theorem season_step_log {d : Nat} {p q : sched_state} (h : season_step d p q) :
    ∃ new, season_log d q.events = season_log d p.events ++ new := by
  obtain ⟨new, h1, _⟩ := h
  exact ⟨new, h1⟩

theorem event_sampling_dev_draining (g : neon_global_t) (busy : Nat → Nat → Nat → Bool)
    (i : Nat) (q : sched_state) (hs : DFQ_season q i = DFQ_TASK_DRAINING) :
    season_step i (set_season i DFQ_TASK_SAMPLING (tick q)) (event_sampling_dev g busy i q) := by
  have hs' : ((tick q).sched_dev_array i).ps.smpl.season = DFQ_TASK_DRAINING := hs
  have hsw := event_sampling_sampling_season i g (usec_of (getnstimeofday q)) i
    (set_season i DFQ_TASK_SAMPLING (tick q)) (fun _ => DFQ_season_set_season _ _ _)
  simp only [event_sampling_dev, event_sampling_switch, hs', event_sampling_from_draining]
  split_ifs
  · exact (season_step_congr (by simp)).mpr hsw
  · exact (season_step_congr (by simp)).mpr hsw
  · exact hsw

theorem upd_smpl_dev_congr (did : Nat) (f f' : sampling_dev_t → sampling_dev_t)
    (q : sched_state)
    (h : f (q.sched_dev_array did).ps.smpl = f' (q.sched_dev_array did).ps.smpl) :
    upd_smpl_dev did f q = upd_smpl_dev did f' q := by
  simp only [upd_smpl_dev, upd_sdev, h]

theorem complete_sampling_draining (g : neon_global_t) (did cid st : Nat) (p : sched_state)
    (hs : DFQ_season p did = DFQ_TASK_DRAINING)
    (hw : ((p.sched_dev_array did).swork_array cid).ps.smpl.heed ≠ 0 ∧
      ((p.sched_dev_array did).swork_array cid).ps.smpl.engage ≠ 0)
    (hn : 1 ≤ DFQ_countdown p did) (hn32 : DFQ_countdown p did < 2 ^ 32) :
    complete_sampling g did cid st p =
      if DFQ_countdown p did = 1 then
        sampling_wake did
          (upd_smpl_dev did (fun d => { d with countdown := DFQ_countdown p did - 1 }) (tick p))
      else upd_smpl_dev did (fun d => { d with countdown := DFQ_countdown p did - 1 }) (tick p) := by
  have hw' : ¬ (((p.sched_dev_array did).swork_array cid).ps.smpl.heed = 0 ∨
      ((p.sched_dev_array did).swork_array cid).ps.smpl.engage = 0) := by
    rintro (h | h)
    · exact hw.1 h
    · exact hw.2 h
  have hsT : ((tick p).sched_dev_array did).ps.smpl.season = DFQ_TASK_DRAINING := hs
  have hu : u32 (((tick p).sched_dev_array did).ps.smpl.countdown + (2 ^ 32 - 1)) =
      DFQ_countdown p did - 1 := by
    have e : ((tick p).sched_dev_array did).ps.smpl.countdown = DFQ_countdown p did := rfl
    rw [e]; unfold u32; omega
  have hq : upd_smpl_dev did (fun d => { d with countdown := u32 (d.countdown + (2 ^ 32 - 1)) })
      (tick p) =
      upd_smpl_dev did (fun d => { d with countdown := DFQ_countdown p did - 1 }) (tick p) := by
    apply upd_smpl_dev_congr
    simp only [hu]
  simp only [complete_sampling, if_neg hw', hsT, hq]
  have hc : ((upd_smpl_dev did (fun d => { d with countdown := DFQ_countdown p did - 1 })
      (tick p)).sched_dev_array did).ps.smpl.countdown = DFQ_countdown p did - 1 := by
    simp [upd_smpl_dev]
  rw [hc]
  by_cases h1 : DFQ_countdown p did = 1
  · rw [if_pos h1, if_pos (by omega)]
  · rw [if_neg h1, if_neg (by omega)]

/-- C20, amended: in season DRAINING with countdown n >= 1, every call of
`complete_sampling` on the device for a heeded and engaged work lowers the
countdown by exactly 1 and leaves the season; exactly when the countdown
reaches 0 the action flag of the device is raised and the event thread woken,
and then the next `event_sampling` stores SAMPLING over DRAINING on the main
device. -/
theorem complete_sampling_countdown (g : neon_global_t) (busy : Nat → Nat → Nat → Bool)
    (did cid st : Nat) (p : sched_state)
    (hs : DFQ_season p did = DFQ_TASK_DRAINING)
    (hw : ((p.sched_dev_array did).swork_array cid).ps.smpl.heed ≠ 0 ∧
      ((p.sched_dev_array did).swork_array cid).ps.smpl.engage ≠ 0)
    (hn : 1 ≤ DFQ_countdown p did) (hn32 : DFQ_countdown p did < 2 ^ 32) :
    DFQ_countdown (complete_sampling g did cid st p) did = DFQ_countdown p did - 1 ∧
    DFQ_season (complete_sampling g did cid st p) did = DFQ_TASK_DRAINING ∧
    (DFQ_countdown p did = 1 →
      ((complete_sampling g did cid st p).sched_dev_array did).ps.smpl.action = 1 ∧
      (complete_sampling g did cid st p).events = p.events ++ [.wake_up_kthread]) ∧
    (DFQ_countdown p did ≠ 1 →
      ((complete_sampling g did cid st p).sched_dev_array did).ps.smpl.action =
        (p.sched_dev_array did).ps.smpl.action ∧
      (complete_sampling g did cid st p).events = p.events) ∧
    (DFQ_countdown p did = 1 → did = 0 → 0 < g.ndev →
      ∃ rest, season_log 0 (event_sampling g busy (complete_sampling g did cid st p)).events =
        season_log 0 (complete_sampling g did cid st p).events ++
          (DFQ_TASK_DRAINING, DFQ_TASK_SAMPLING) :: rest) := by
  have hf := complete_sampling_draining g did cid st p hs hw hn hn32
  simp only [DFQ_season] at hs
  have h1 : DFQ_countdown (complete_sampling g did cid st p) did = DFQ_countdown p did - 1 := by
    rw [hf]; split_ifs <;> simp [DFQ_countdown, sampling_wake, emit, upd_smpl_dev]
  have h2 : DFQ_season (complete_sampling g did cid st p) did = DFQ_TASK_DRAINING := by
    rw [hf]; split_ifs <;> simp [DFQ_season, sampling_wake, emit, upd_smpl_dev, tick, hs]
  have h3 : DFQ_countdown p did = 1 →
      ((complete_sampling g did cid st p).sched_dev_array did).ps.smpl.action = 1 ∧
      (complete_sampling g did cid st p).events = p.events ++ [.wake_up_kthread] := by
    intro h
    rw [hf, if_pos h]
    simp [sampling_wake, emit, upd_smpl_dev, tick]
  refine ⟨h1, h2, h3, ?_, ?_⟩
  · intro h
    rw [hf, if_neg h]
    simp [upd_smpl_dev, tick]
  · intro h hd hnd
    subst hd
    generalize complete_sampling g 0 cid st p = q at h2 h3 ⊢
    have ha := (h3 h).1
    rw [event_sampling_first g busy q hnd ha]
    have hq1 : DFQ_season (upd_smpl_dev 0 (fun d => { d with action := 0 }) q) 0 =
        DFQ_TASK_DRAINING := by
      rw [← h2]; simp [DFQ_season, upd_smpl_dev]
    obtain ⟨rest, hrest⟩ := season_step_log (season_step_trans 0
      (event_sampling_dev_draining g busy 0 _ hq1)
      (event_sampling_loop_season 0 g busy _ _))
    refine ⟨rest, ?_⟩
    rw [hrest]
    simp only [DFQ_season] at h2
    simp [season_log, set_season, emit, tick, upd_smpl_dev, List.filterMap_append, h2]

/-- Witness for C20: in the draining example the completion of the request on
the heeded channel 4 takes the countdown from 1 to 0 and raises the action
flag, and the event handler then enters SAMPLING. -/
theorem complete_sampling_countdown_witness :
    DFQ_season example_draining 0 = DFQ_TASK_DRAINING ∧
    (((example_draining.sched_dev_array 0).swork_array 4).ps.smpl.heed ≠ 0 ∧
      ((example_draining.sched_dev_array 0).swork_array 4).ps.smpl.engage ≠ 0) ∧
    1 ≤ DFQ_countdown example_draining 0 ∧ DFQ_countdown example_draining 0 < 2 ^ 32 ∧
    DFQ_countdown (complete_sampling example_global 0 4 501 example_draining) 0 =
      DFQ_countdown example_draining 0 - 1 ∧
    DFQ_countdown (complete_sampling example_global 0 4 501 example_draining) 0 = 0 ∧
    ((complete_sampling example_global 0 4 501 example_draining).sched_dev_array
      0).ps.smpl.action = 1 ∧
    DFQ_season (event_sampling example_global (fun _ _ _ => false)
      (complete_sampling example_global 0 4 501 example_draining)) 0 = DFQ_TASK_SAMPLING :=
  ⟨by decide!, by decide!, by decide!, by decide!,
   (complete_sampling_countdown example_global (fun _ _ _ => false) 0 4 501 example_draining
      (by decide!) (by decide!) (by decide!) (by decide!)).1,
   by decide!, by decide!, by decide!⟩

/-! ### Device table initialisation -/

/-- Initialising a channel leaves the channel layout of the device alone. -/
lemma neon_chan_init_layout (io : Nat → Nat) (dev : neon_dev_t) (cid : Nat) :
    (neon_chan_init io dev cid).2.nchan = dev.nchan ∧
    (neon_chan_init io dev cid).2.reg_base = dev.reg_base ∧
    (neon_chan_init io dev cid).2.reg_ofs = dev.reg_ofs := by
  unfold neon_chan_init
  simp only [upd_dev_chan]
  split_ifs <;> exact ⟨rfl, rfl, rfl⟩

/-- A channel whose index register can be mapped initialises. -/
lemma neon_chan_init_ok (io : Nat → Nat) (hio : ∀ a, io a ≠ 0) (dev : neon_dev_t) (cid : Nat) :
    (neon_chan_init io dev cid).1 = 0 := by
  unfold neon_chan_init
  simp [upd_dev_chan, hio]

/-- The channel loop leaves the channel layout of the device alone. -/
lemma neon_dev_init_loop_layout (io : Nat → Nat) :
    ∀ (fuel i : Nat) (dev : neon_dev_t),
      (neon_dev_init_loop io fuel i dev).2.nchan = dev.nchan ∧
      (neon_dev_init_loop io fuel i dev).2.reg_base = dev.reg_base ∧
      (neon_dev_init_loop io fuel i dev).2.reg_ofs = dev.reg_ofs := by
  intro fuel
  induction fuel with
  | zero => intro i dev; exact ⟨rfl, rfl, rfl⟩
  | succ n ih =>
    intro i dev
    have h := neon_chan_init_layout io dev i
    unfold neon_dev_init_loop
    split_ifs
    · exact h
    · have h2 := ih (u32 (i + 1)) (neon_chan_init io dev i).2
      exact ⟨h2.1.trans h.1, h2.2.1.trans h.2.1, h2.2.2.trans h.2.2⟩
    · exact ⟨rfl, rfl, rfl⟩

/-- When every index register can be mapped, the channel loop runs to the
last channel. -/
lemma neon_dev_init_loop_done (io : Nat → Nat) (hio : ∀ a, io a ≠ 0) :
    ∀ (fuel i : Nat) (dev : neon_dev_t), dev.nchan ≤ i + fuel → i ≤ dev.nchan →
      dev.nchan < 2 ^ 32 → (neon_dev_init_loop io fuel i dev).1 = dev.nchan := by
  intro fuel
  induction fuel with
  | zero =>
    intro i dev h1 h2 _
    simp only [neon_dev_init_loop]
    omega
  | succ n ih =>
    intro i dev h1 h2 h3
    unfold neon_dev_init_loop
    have hl := neon_chan_init_layout io dev i
    by_cases hi : i < dev.nchan
    · rw [if_pos hi, if_neg (by simp [neon_chan_init_ok io hio])]
      have hu : u32 (i + 1) = i + 1 := by
        unfold u32
        exact Nat.mod_eq_of_lt (by omega)
      rw [hu, ih (i + 1) _ (by rw [hl.1]; omega) (by rw [hl.1]; omega) (by rw [hl.1]; exact h3)]
      exact hl.1
    · rw [if_neg hi]
      simp only
      omega

/-- The layout chosen for a GTX275. -/
lemma neon_dev_layout_gtx275 (b0 b1 : Nat) (dev : neon_dev_t) :
    neon_dev_layout b0 b1 0x10de 0x5e6 0x1171 dev =
      some { dev with nchan := 64, reg_base := (b0 + 0xc00000) % 2 ^ 64, reg_ofs := 0x2000 } := by
  simp [neon_dev_layout, NVIDIA_VENDOR, GTX670_DEVICE_ID, GTX275_DEVICE_ID, EVGA_SUBSYSTEM,
    GTX275_CHANNELS, NEON_TESLA_CHANNEL_BASE, NEON_TESLA_CHANNEL_OFFSET, uadd]

/-- The layout chosen for an NVS295. -/
lemma neon_dev_layout_nvs295 (b0 b1 : Nat) (dev : neon_dev_t) :
    neon_dev_layout b0 b1 0x10de 0x6fd 0x62e dev =
      some { dev with nchan := 32, reg_base := (b0 + 0xc00000) % 2 ^ 64, reg_ofs := 0x2000 } := by
  simp [neon_dev_layout, NVIDIA_VENDOR, GTX670_DEVICE_ID, GTX275_DEVICE_ID, NVS295_DEVICE_ID,
    NVIDIA_SUBSYSTEM, NVS295_CHANNELS, NEON_TESLA_CHANNEL_BASE, NEON_TESLA_CHANNEL_OFFSET, uadd]

/-- The layout chosen for a GTX670. -/
lemma neon_dev_layout_gtx670 (b0 b1 : Nat) (dev : neon_dev_t) :
    neon_dev_layout b0 b1 0x10de 0x1189 0x1265 dev =
      some { dev with nchan := 96, reg_base := (b1 + 0x7d60000) % 2 ^ 64, reg_ofs := 0x200 } := by
  simp [neon_dev_layout, NVIDIA_VENDOR, GTX670_DEVICE_ID, ZOTAC_SUBSYSTEM, GTX670_CHANNELS,
    NEON_KEPLER_CHANNEL_BASE, NEON_KEPLER_CHANNEL_OFFSET, uadd]

/-- What `neon_dev_init` does once the layout is chosen: every result it
returns carries the layout, and it returns 0 when both allocations succeed and
every index register can be mapped. -/
lemma neon_dev_init_of_layout (io : Nat → Nat) (bmp_alloc chan_alloc : Bool) (id : Nat)
    (dev_info : Nat → Nat) (dev dev1 : neon_dev_t)
    (hl : neon_dev_layout (u64 (dev_info 0)) (u64 (dev_info 2)) (u32 (dev_info 4))
      (u32 (dev_info 5)) (u32 (dev_info 6)) { dev with id := id } = some dev1)
    (hn : dev1.nchan < 2 ^ 32) :
    (∀ r d, neon_dev_init io bmp_alloc chan_alloc id dev_info dev = some (r, d) →
      d.nchan = dev1.nchan ∧ d.reg_base = dev1.reg_base ∧ d.reg_ofs = dev1.reg_ofs) ∧
    (bmp_alloc = true → chan_alloc = true → (∀ a, io a ≠ 0) →
      ∃ d, neon_dev_init io bmp_alloc chan_alloc id dev_info dev = some (0, d)) := by
  unfold neon_dev_init
  simp only [hl]
  constructor
  · intro r d h
    split_ifs at h with h1 h2 h3
    · simp only [Option.some.injEq, Prod.mk.injEq] at h
      rw [← h.2]
      exact ⟨rfl, rfl, rfl⟩
    · simp only [Option.some.injEq, Prod.mk.injEq] at h
      rw [← h.2]
      exact ⟨rfl, rfl, rfl⟩
    · simp only [Option.some.injEq, Prod.mk.injEq] at h
      rw [← h.2]
      exact neon_dev_init_loop_layout io _ _ _
  · intro hb hc hio
    rw [if_neg (by simp [hb]), if_neg (by simp [hc]), if_neg]
    · exact ⟨_, rfl⟩
    · rw [not_not]
      exact neon_dev_init_loop_done io hio _ _ _ (by simp) (by simp) hn

/-- C27 (amended): `neon_dev_init` configures a device from the vendor,
device and subsystem ids it reads from the device info. A Tesla GTX275 gets 64
(0x40) channels with register base BAR0 + 0xc00000 and stride 0x2000; a Tesla
NVS295 gets 32 channels with the same layout; a Kepler GTX670 gets 96 channels
with register base BAR1 + 0x7d60000 and stride 0x200: every result the function
returns for such a device carries these values, and the function returns 0 when
its two allocations succeed and every index register can be mapped. Every other
triple is rejected with -1. -/
theorem neon_dev_init_device_table (io : Nat → Nat) (bmp_alloc chan_alloc : Bool) (id : Nat)
    (dev_info : Nat → Nat) (dev : neon_dev_t) :
    ((u32 (dev_info 4) = 0x10de ∧ u32 (dev_info 5) = 0x5e6 ∧ u32 (dev_info 6) = 0x1171) →
      (∀ r d, neon_dev_init io bmp_alloc chan_alloc id dev_info dev = some (r, d) →
        d.nchan = 64 ∧ d.reg_base = (u64 (dev_info 0) + 0xc00000) % 2 ^ 64 ∧
        d.reg_ofs = 0x2000) ∧
      (bmp_alloc = true → chan_alloc = true → (∀ a, io a ≠ 0) →
        ∃ d, neon_dev_init io bmp_alloc chan_alloc id dev_info dev = some (0, d))) ∧
    ((u32 (dev_info 4) = 0x10de ∧ u32 (dev_info 5) = 0x6fd ∧ u32 (dev_info 6) = 0x62e) →
      (∀ r d, neon_dev_init io bmp_alloc chan_alloc id dev_info dev = some (r, d) →
        d.nchan = 32 ∧ d.reg_base = (u64 (dev_info 0) + 0xc00000) % 2 ^ 64 ∧
        d.reg_ofs = 0x2000) ∧
      (bmp_alloc = true → chan_alloc = true → (∀ a, io a ≠ 0) →
        ∃ d, neon_dev_init io bmp_alloc chan_alloc id dev_info dev = some (0, d))) ∧
    ((u32 (dev_info 4) = 0x10de ∧ u32 (dev_info 5) = 0x1189 ∧ u32 (dev_info 6) = 0x1265) →
      (∀ r d, neon_dev_init io bmp_alloc chan_alloc id dev_info dev = some (r, d) →
        d.nchan = 96 ∧ d.reg_base = (u64 (dev_info 2) + 0x7d60000) % 2 ^ 64 ∧
        d.reg_ofs = 0x200) ∧
      (bmp_alloc = true → chan_alloc = true → (∀ a, io a ≠ 0) →
        ∃ d, neon_dev_init io bmp_alloc chan_alloc id dev_info dev = some (0, d))) ∧
    (¬ (u32 (dev_info 4) = 0x10de ∧ u32 (dev_info 5) = 0x5e6 ∧ u32 (dev_info 6) = 0x1171) →
      ¬ (u32 (dev_info 4) = 0x10de ∧ u32 (dev_info 5) = 0x6fd ∧ u32 (dev_info 6) = 0x62e) →
      ¬ (u32 (dev_info 4) = 0x10de ∧ u32 (dev_info 5) = 0x1189 ∧ u32 (dev_info 6) = 0x1265) →
      neon_dev_init io bmp_alloc chan_alloc id dev_info dev = some (-1, { dev with id := id })) := by
  refine ⟨fun h => ?_, fun h => ?_, fun h => ?_, fun h1 h2 h3 => ?_⟩
  · have hl := neon_dev_layout_gtx275 (u64 (dev_info 0)) (u64 (dev_info 2)) { dev with id := id }
    rw [← h.1, ← h.2.1, ← h.2.2] at hl
    exact neon_dev_init_of_layout io bmp_alloc chan_alloc id dev_info dev _ hl (by norm_num)
  · have hl := neon_dev_layout_nvs295 (u64 (dev_info 0)) (u64 (dev_info 2)) { dev with id := id }
    rw [← h.1, ← h.2.1, ← h.2.2] at hl
    exact neon_dev_init_of_layout io bmp_alloc chan_alloc id dev_info dev _ hl (by norm_num)
  · have hl := neon_dev_layout_gtx670 (u64 (dev_info 0)) (u64 (dev_info 2)) { dev with id := id }
    rw [← h.1, ← h.2.1, ← h.2.2] at hl
    exact neon_dev_init_of_layout io bmp_alloc chan_alloc id dev_info dev _ hl (by norm_num)
  · unfold neon_dev_init
    have hl : neon_dev_layout (u64 (dev_info 0)) (u64 (dev_info 2)) (u32 (dev_info 4))
        (u32 (dev_info 5)) (u32 (dev_info 6)) { dev with id := id } = none := by
      simp only [neon_dev_layout, NVIDIA_VENDOR, GTX670_DEVICE_ID, ZOTAC_SUBSYSTEM,
        GTX275_DEVICE_ID, EVGA_SUBSYSTEM, NVS295_DEVICE_ID, NVIDIA_SUBSYSTEM, if_neg h1,
        if_neg h2, if_neg h3]
    simp only [hl]

/-- C27 witness: a GTX275 whose allocations succeed is initialised with 64
channels. -/
theorem neon_dev_init_device_table_witness :
    ∃ d, neon_dev_init (fun a => a + 1) true true 0 example_dev_info example_dev = some (0, d) ∧
      d.nchan = 64 ∧ d.reg_base = 0xfa000000 + 0xc00000 ∧ d.reg_ofs = 0x2000 := by
  have h := (neon_dev_init_device_table (fun a => a + 1) true true 0 example_dev_info
    example_dev).1 (by decide)
  obtain ⟨d, hd⟩ := h.2 rfl rfl (fun a => Nat.succ_ne_zero a)
  exact ⟨d, hd, h.1 0 d hd⟩

/-- C27 counterexample: the device info of a GTX275 is accepted, and the
device is given 64 channels, not 40. -/
theorem neon_dev_init_gtx275_has_64_channels :
    ∃ d, neon_dev_init (fun a => a + 1) true true 0 example_dev_info example_dev = some (0, d) ∧
      d.nchan = 64 ∧ d.nchan ≠ 40 := by
  have hl := neon_dev_layout_gtx275 (u64 (example_dev_info 0)) (u64 (example_dev_info 2))
    { example_dev with id := 0 }
  have h := neon_dev_init_of_layout (fun a => a + 1) true true 0 example_dev_info example_dev _
    hl (by norm_num)
  obtain ⟨d, hd⟩ := h.2 rfl rfl (fun a => Nat.succ_ne_zero a)
  have hn := (h.1 0 d hd).1
  exact ⟨d, hd, hn, by rw [hn]; decide⟩

/-! ### Virtual-time update -/

/-- Stores of the same value are the same store. -/
lemma upd_smpl_task_congr (a : Nat) (f g : sampling_task_t → sampling_task_t) (q : sched_state)
    (h : f (q.stask a).ps.smpl = g (q.stask a).ps.smpl) :
    upd_smpl_task a f q = upd_smpl_task a g q := by
  unfold upd_smpl_task upd_stask
  dsimp only
  rw [h]

/-- A store of the value already there changes nothing. -/
lemma upd_smpl_task_self (a : Nat) (f : sampling_task_t → sampling_task_t) (q : sched_state)
    (h : f (q.stask a).ps.smpl = (q.stask a).ps.smpl) : upd_smpl_task a f q = q := by
  rw [upd_smpl_task_congr a f (fun t => t) q h]
  unfold upd_smpl_task upd_stask
  simp

/-- The entries of a task after a store to them. -/
lemma upd_smpl_task_same (a : Nat) (f : sampling_task_t → sampling_task_t) (q : sched_state) :
    ((upd_smpl_task a f q).stask a).ps.smpl = f (q.stask a).ps.smpl := by
  simp [upd_smpl_task]

/-- A store to the entries of a task leaves the other tasks alone. -/
lemma upd_smpl_task_other (a b : Nat) (f : sampling_task_t → sampling_task_t) (q : sched_state)
    (h : b ≠ a) : (upd_smpl_task a f q).stask b = q.stask b := by
  unfold upd_smpl_task
  exact upd_stask_other _ _ _ _ h

/-- The body of the second loop of `update_vtimes`, by its two effects. -/
lemma vt_second_step_eq (epoch_dt total : Nat) (acc : Nat × sched_state) (a : Nat) :
    (if (acc.2.stask a).ps.smpl.held_back ≠ 0 then
        (if (acc.2.stask a).ps.smpl.vtime < acc.1 then (acc.2.stask a).ps.smpl.vtime else acc.1,
          acc.2)
      else if (acc.2.stask a).ps.smpl.nrqst_sampled = 0 then acc
      else
        (if ((upd_smpl_task a (fun t => { t with
                vtime := uadd t.vtime
                  (umul (avg_exe_dt (acc.2.stask a).ps.smpl) epoch_dt / total) })
              acc.2).stask a).ps.smpl.vtime < acc.1 then
            ((upd_smpl_task a (fun t => { t with
                vtime := uadd t.vtime
                  (umul (avg_exe_dt (acc.2.stask a).ps.smpl) epoch_dt / total) })
              acc.2).stask a).ps.smpl.vtime
          else acc.1,
          upd_smpl_task a (fun t => { t with
            vtime := uadd t.vtime
              (umul (avg_exe_dt (acc.2.stask a).ps.smpl) epoch_dt / total) }) acc.2)) =
      (vt_min_step epoch_dt total acc.1 (acc.2.stask a).ps.smpl,
        upd_smpl_task a (vt_advance epoch_dt total) acc.2) := by
  unfold vt_min_step
  by_cases h1 : (acc.2.stask a).ps.smpl.held_back ≠ 0
  · rw [if_pos h1, if_pos h1, upd_smpl_task_self a _ _ (by unfold vt_advance; rw [if_pos h1])]
  · rw [if_neg h1, if_neg h1]
    by_cases h2 : (acc.2.stask a).ps.smpl.nrqst_sampled = 0
    · rw [if_pos h2, if_pos h2,
        upd_smpl_task_self a _ _ (by unfold vt_advance; rw [if_neg h1, if_pos h2])]
    · rw [if_neg h2, if_neg h2]
      rw [upd_smpl_task_congr a _ (vt_advance epoch_dt total) acc.2
        (by unfold vt_advance; rw [if_neg h1, if_neg h2]), upd_smpl_task_same]

/-- The body of the third loop of `update_vtimes`, as one store. -/
lemma vt_third_step_eq (did : Nat) (q : sched_state) (a : Nat) :
    (if (q.stask a).ps.smpl.vtime < (q.sched_dev_array did).ps.smpl.vtime then
        upd_smpl_task a (fun t => { t with vtime := (q.sched_dev_array did).ps.smpl.vtime }) q
      else q) = upd_smpl_task a (vt_pull (q.sched_dev_array did).ps.smpl.vtime) q := by
  by_cases h : (q.stask a).ps.smpl.vtime < (q.sched_dev_array did).ps.smpl.vtime
  · rw [if_pos h]
    exact upd_smpl_task_congr a _ _ q (by unfold vt_pull; rw [if_pos h])
  · rw [if_neg h, upd_smpl_task_self a _ _ (by unfold vt_pull; rw [if_neg h])]

/-- The body of the last loop of `update_vtimes`, as one store. -/
lemma vt_last_step_eq (did epoch_dt : Nat) (q : sched_state) (a : Nat) :
    upd_smpl_task a (fun t => { t with
        held_back :=
          if (q.stask a).ps.smpl.vtime > uadd (q.sched_dev_array did).ps.smpl.vtime epoch_dt
          then 1 else 0,
        exe_dt_sampled := 0, nrqst_sampled := 0, ncall_sampled := 0 }) q =
      upd_smpl_task a (vt_decide (q.sched_dev_array did).ps.smpl.vtime epoch_dt) q :=
  upd_smpl_task_congr a _ _ q rfl

/-- The four loops of `update_vtimes`, each by its body. -/
lemma update_vtimes_loops (did : Nat) (p : sched_state) :
    update_vtimes did p =
      (let l := (p.sched_dev_array did).stask_list
       let first := l.foldl (vt_first_step p) (0, 0)
       let r : Nat × sched_state :=
         if first.1 = 0 ∨ first.2 = 0 then (0, p)
         else
           let epoch_dt := spec_season_epoch did p
           let second : Nat × sched_state := l.foldl (fun acc a =>
             (vt_min_step epoch_dt first.2 acc.1 (acc.2.stask a).ps.smpl,
              upd_smpl_task a (vt_advance epoch_dt first.2) acc.2)) (2 ^ 64 - 1, p)
           (epoch_dt,
            if second.1 < 2 ^ 64 - 1 then
              l.foldl (fun q a =>
                upd_smpl_task a (vt_pull (q.sched_dev_array did).ps.smpl.vtime) q)
                (upd_smpl_dev did (fun d => { d with vtime := second.1 }) second.2)
            else second.2)
       upd_smpl_dev did (fun d => { d with sampling_season_dt := 0, sampled_task := 0 })
         (l.foldl (fun q a =>
            upd_smpl_task a (vt_decide (q.sched_dev_array did).ps.smpl.vtime r.1) q)
            (upd_smpl_dev did (fun d => { d with active := first.1 }) r.2))) := by
  simp only [update_vtimes, vt_second_step_eq, vt_third_step_eq, vt_last_step_eq]
  rfl

/-- The first loop of `update_vtimes` from any intermediate value. -/
lemma vt_first_fold_aux (p : sched_state) :
    ∀ (l : List Nat) (x y : Nat), y < 2 ^ 64 →
      (l.foldl (vt_first_step p) (x, y)).1 =
        (if (l.any (fun a => spec_active (p.stask a).ps.smpl)) = true then 1 else x) ∧
      (l.foldl (vt_first_step p) (x, y)).2 < 2 ^ 64 ∧
      (l.foldl (vt_first_step p) (x, y)).2 % 2 ^ 64 =
        (y + ((l.filter (fun a => spec_accounted (p.stask a).ps.smpl)).map
          (fun a => avg_exe_dt (p.stask a).ps.smpl)).sum) % 2 ^ 64 := by
  intro l
  induction l with
  | nil => intro x y hy; exact ⟨rfl, hy, rfl⟩
  | cons a l ih =>
    intro x y hy
    rw [List.foldl_cons]
    by_cases h1 : (p.stask a).ps.smpl.held_back ≠ 0
    · have hs : vt_first_step p (x, y) a = (1, y) := by
        unfold vt_first_step
        simp only [if_pos h1]
      rw [hs]
      have hact : spec_active (p.stask a).ps.smpl = true := by simp [spec_active, h1]
      have hacc : spec_accounted (p.stask a).ps.smpl = false := by simp [spec_accounted, h1]
      obtain ⟨i1, i2, i3⟩ := ih 1 y hy
      refine ⟨?_, i2, ?_⟩
      · rw [i1]
        simp [hact]
      · rw [i3]
        simp [hacc]
    · by_cases h2 : (p.stask a).ps.smpl.nrqst_sampled = 0
      · have hs : vt_first_step p (x, y) a = (x, y) := by
          unfold vt_first_step
          simp only [if_neg h1, if_pos h2]
        rw [hs]
        rw [not_not] at h1
        have hact : spec_active (p.stask a).ps.smpl = false := by simp [spec_active, h1, h2]
        have hacc : spec_accounted (p.stask a).ps.smpl = false := by simp [spec_accounted, h2]
        obtain ⟨i1, i2, i3⟩ := ih x y hy
        refine ⟨?_, i2, ?_⟩
        · rw [i1]
          simp [hact]
        · rw [i3]
          simp [hacc]
      · have hs : vt_first_step p (x, y) a = (1, uadd y (avg_exe_dt (p.stask a).ps.smpl)) := by
          unfold vt_first_step
          simp only [if_neg h1, if_neg h2]
        rw [hs]
        rw [not_not] at h1
        have hact : spec_active (p.stask a).ps.smpl = true := by
          simp [spec_active, Nat.pos_of_ne_zero h2]
        have hacc : spec_accounted (p.stask a).ps.smpl = true := by
          simp [spec_accounted, h1, Nat.pos_of_ne_zero h2]
        have hlt : uadd y (avg_exe_dt (p.stask a).ps.smpl) < 2 ^ 64 :=
          Nat.mod_lt _ (by norm_num)
        obtain ⟨i1, i2, i3⟩ := ih 1 _ hlt
        refine ⟨?_, i2, ?_⟩
        · rw [i1]
          simp [hact]
        · rw [i3]
          simp only [List.filter_cons, hacc, if_true, List.map_cons, List.sum_cons]
          unfold uadd
          rw [Nat.add_mod, Nat.mod_mod, ← Nat.add_mod, Nat.add_assoc]

/-- The first loop of `update_vtimes` gathers the activity of the device and
the total average of its accounted tasks. -/
lemma vt_first_fold (did : Nat) (p : sched_state) :
    (p.sched_dev_array did).stask_list.foldl (vt_first_step p) (0, 0) =
      (spec_activity did p, spec_total_avg_exe_dt did p) := by
  obtain ⟨i1, i2, i3⟩ := vt_first_fold_aux p (p.sched_dev_array did).stask_list 0 0 (by norm_num)
  refine Prod.ext ?_ ?_
  · rw [i1]
    rfl
  · rw [Nat.mod_eq_of_lt i2, Nat.zero_add] at i3
    exact i3

/-- A loop that stores to the entries of each task of a list, by a rule that
may read the devices: the devices stay, and each task has the rule applied as
many times as it is on the list. -/
lemma foldl_upd_smpl_task (G : (Nat → sched_dev_t) → sampling_task_t → sampling_task_t) :
    ∀ (l : List Nat) (p : sched_state),
      (l.foldl (fun q a => upd_smpl_task a (G q.sched_dev_array) q) p).sched_dev_array =
        p.sched_dev_array ∧
      (l.foldl (fun q a => upd_smpl_task a (G q.sched_dev_array) q) p).sampling_X =
        p.sampling_X ∧
      ∀ a, ((l.foldl (fun q a => upd_smpl_task a (G q.sched_dev_array) q) p).stask a).ps.smpl =
        (G p.sched_dev_array)^[l.count a] (p.stask a).ps.smpl := by
  intro l
  induction l with
  | nil => intro p; exact ⟨rfl, rfl, fun _ => rfl⟩
  | cons b l ih =>
    intro p
    rw [List.foldl_cons]
    obtain ⟨i1, i2, i3⟩ := ih (upd_smpl_task b (G p.sched_dev_array) p)
    refine ⟨i1.trans rfl, i2.trans rfl, fun a => ?_⟩
    rw [i3 a]
    have hs : (upd_smpl_task b (G p.sched_dev_array) p).sched_dev_array = p.sched_dev_array := rfl
    rw [hs, List.count_cons]
    by_cases hab : b = a
    · subst hab
      rw [upd_smpl_task_same]
      simp [Function.iterate_succ_apply]
    · rw [upd_smpl_task_other b a _ _ (Ne.symm hab)]
      simp [hab]

/-- The state that the second loop of `update_vtimes` leaves does not depend
on the minimum it gathers. -/
lemma vt_second_fold_state (e T : Nat) :
    ∀ (l : List Nat) (m : Nat) (p : sched_state),
      (l.foldl (fun (acc : Nat × sched_state) a =>
        (vt_min_step e T acc.1 (acc.2.stask a).ps.smpl,
          upd_smpl_task a (vt_advance e T) acc.2)) (m, p)).2 =
        l.foldl (fun q a => upd_smpl_task a (vt_advance e T) q) p := by
  intro l
  induction l with
  | nil => intro m p; rfl
  | cons b l ih =>
    intro m p
    rw [List.foldl_cons, List.foldl_cons]
    exact ih _ _

/-- The minimum that the second loop of `update_vtimes` gathers over a list
without repetition, from the entries the tasks have on entry. -/
lemma vt_second_fold_min (e T : Nat) :
    ∀ (l : List Nat) (m : Nat) (p : sched_state), l.Nodup →
      (l.foldl (fun (acc : Nat × sched_state) a =>
        (vt_min_step e T acc.1 (acc.2.stask a).ps.smpl,
          upd_smpl_task a (vt_advance e T) acc.2)) (m, p)).1 =
        l.foldl (fun m a => vt_min_step e T m (p.stask a).ps.smpl) m := by
  intro l
  induction l with
  | nil => intro m p _; rfl
  | cons b l ih =>
    intro m p hnd
    rw [List.foldl_cons, List.foldl_cons]
    rw [List.nodup_cons] at hnd
    rw [ih _ _ hnd.2]
    refine List.foldl_ext _ _ _ ?_
    intro m' a ha
    rw [upd_smpl_task_other b a _ _ (fun h => hnd.1 (h ▸ ha))]

/-- Function `update_vtimes` from its label `just_decide` on. -/
lemma update_vtimes_form (did : Nat) (p : sched_state) :
    update_vtimes did p =
      upd_smpl_dev did (fun d => { d with sampling_season_dt := 0, sampled_task := 0 })
        ((p.sched_dev_array did).stask_list.foldl (fun q a =>
            upd_smpl_task a
              (vt_decide (q.sched_dev_array did).ps.smpl.vtime (spec_epoch_dt did p)) q)
          (upd_smpl_dev did (fun d => { d with active := spec_activity did p })
            (vt_middle did p))) := by
  rw [update_vtimes_loops]
  simp only [vt_first_fold]
  unfold vt_middle vt_second spec_epoch_dt
  by_cases h : spec_activity did p = 0 ∨ spec_total_avg_exe_dt did p = 0
  · simp only [if_pos h]
  · simp only [if_neg h]

/-- The devices after a store to the sampling entries of one of them. -/
lemma upd_smpl_dev_vtime (did : Nat) (f : sampling_dev_t → sampling_dev_t) (q : sched_state) :
    ((upd_smpl_dev did f q).sched_dev_array did).ps.smpl = f (q.sched_dev_array did).ps.smpl := by
  simp [upd_smpl_dev]

/-- A store to the sampling entries of a device leaves its task list alone. -/
lemma upd_smpl_dev_list (did d : Nat) (f : sampling_dev_t → sampling_dev_t) (q : sched_state) :
    ((upd_smpl_dev did f q).sched_dev_array d).stask_list = (q.sched_dev_array d).stask_list := by
  unfold upd_smpl_dev
  by_cases h : d = did
  · subst h
    simp
  · rw [upd_sdev_other _ _ _ _ h]

/-- A store to the sampling entries of a device leaves the tasks alone. -/
lemma upd_smpl_dev_stask (did : Nat) (f : sampling_dev_t → sampling_dev_t) (q : sched_state) :
    (upd_smpl_dev did f q).stask = q.stask := rfl

/-- The rule of the last loop of `update_vtimes` applied once or more is the
rule applied once to entries with the same virtual time. -/
lemma vt_decide_iterate (D E : Nat) (t : sampling_task_t) :
    ∀ n, 0 < n → ((vt_decide D E)^[n] t).vtime = t.vtime ∧
      ((vt_decide D E)^[n] t).held_back = (if t.vtime > uadd D E then 1 else 0) ∧
      ((vt_decide D E)^[n] t).exe_dt_sampled = 0 ∧ ((vt_decide D E)^[n] t).nrqst_sampled = 0 ∧
      ((vt_decide D E)^[n] t).ncall_sampled = 0 := by
  intro n
  induction n with
  | zero => intro h; exact absurd h (lt_irrefl 0)
  | succ n ih =>
    intro _
    rw [Function.iterate_succ_apply']
    by_cases hn : 0 < n
    · obtain ⟨h1, h2, h3, h4, h5⟩ := ih hn
      refine ⟨h1, ?_, rfl, rfl, rfl⟩
      show (if ((vt_decide D E)^[n] t).vtime > uadd D E then 1 else 0) = _
      rw [h1]
    · have h0 : n = 0 := by omega
      subst h0
      exact ⟨rfl, rfl, rfl, rfl, rfl⟩

/-- After `update_vtimes` every task of the list is held back exactly when its
virtual time exceeds the device's by more than the epoch the last loop uses,
and its counters are 0. -/
lemma update_vtimes_decision (did : Nat) (p : sched_state) (a : Nat)
    (ha : a ∈ (p.sched_dev_array did).stask_list) :
    ((update_vtimes did p).stask a).ps.smpl.held_back =
      (if ((update_vtimes did p).stask a).ps.smpl.vtime >
          uadd ((update_vtimes did p).sched_dev_array did).ps.smpl.vtime (spec_epoch_dt did p)
        then 1 else 0) ∧
    ((update_vtimes did p).stask a).ps.smpl.exe_dt_sampled = 0 ∧
    ((update_vtimes did p).stask a).ps.smpl.nrqst_sampled = 0 ∧
    ((update_vtimes did p).stask a).ps.smpl.ncall_sampled = 0 := by
  rw [update_vtimes_form]
  obtain ⟨h1, _, h3⟩ := foldl_upd_smpl_task
    (fun sda => vt_decide (sda did).ps.smpl.vtime (spec_epoch_dt did p))
    (p.sched_dev_array did).stask_list
    (upd_smpl_dev did (fun d => { d with active := spec_activity did p }) (vt_middle did p))
  obtain ⟨i1, i2, i3, i4, i5⟩ := vt_decide_iterate
    (((upd_smpl_dev did (fun d => { d with active := spec_activity did p })
      (vt_middle did p)).sched_dev_array did).ps.smpl.vtime) (spec_epoch_dt did p)
    (((upd_smpl_dev did (fun d => { d with active := spec_activity did p })
      (vt_middle did p)).stask a).ps.smpl) _ (List.count_pos_iff.mpr ha)
  rw [upd_smpl_dev_stask, upd_smpl_dev_vtime]
  simp only [h1, h3]
  rw [i1, i2, i3, i4, i5]
  exact ⟨rfl, rfl, rfl, rfl⟩

/-- The virtual time that the second loop of `update_vtimes` leaves in a task
is its updated virtual time. -/
lemma vt_advance_vtime (did : Nat) (p : sched_state) (a : Nat) :
    (vt_advance (spec_season_epoch did p) (spec_total_avg_exe_dt did p)
      (p.stask a).ps.smpl).vtime = spec_vtime_updated did p a := by
  unfold vt_advance spec_vtime_updated spec_accounted
  by_cases h1 : (p.stask a).ps.smpl.held_back ≠ 0
  · simp [h1]
  · rw [not_not] at h1
    by_cases h2 : (p.stask a).ps.smpl.nrqst_sampled = 0
    · simp [h1, h2]
    · simp [h1, h2, Nat.pos_of_ne_zero h2]

/-- The second loop of `update_vtimes` at one task: a task that is held back
or accounted lowers the minimum to its updated virtual time. -/
lemma vt_min_step_eq (did : Nat) (p : sched_state) (m a : Nat) :
    vt_min_step (spec_season_epoch did p) (spec_total_avg_exe_dt did p) m (p.stask a).ps.smpl =
      if spec_active (p.stask a).ps.smpl = true then min m (spec_vtime_updated did p a)
      else m := by
  have hv := vt_advance_vtime did p a
  unfold vt_min_step
  rw [hv]
  unfold spec_active spec_vtime_updated spec_accounted
  by_cases h1 : (p.stask a).ps.smpl.held_back ≠ 0
  · simp only [if_pos h1]
    simp only [h1, ne_eq, not_false_eq_true, true_or, decide_True, if_true, false_and,
      decide_False, Bool.false_eq_true, if_false]
    split_ifs with h
    · exact (min_eq_right (le_of_lt h)).symm
    · exact (min_eq_left (not_lt.mp h)).symm
  · simp only [if_neg h1]
    rw [not_not] at h1
    by_cases h2 : (p.stask a).ps.smpl.nrqst_sampled = 0
    · simp [h1, h2]
    · simp only [if_neg h2]
      have h3 : 0 < (p.stask a).ps.smpl.nrqst_sampled := Nat.pos_of_ne_zero h2
      simp only [h1, h3, ne_eq, not_true_eq_false, false_or, decide_True, if_true, and_self]
      split_ifs with h
      · exact (min_eq_right (le_of_lt h)).symm
      · exact (min_eq_left (not_lt.mp h)).symm

/-- The minimum gathered from the entries of entry is a fold of `min` over the
updated virtual times of the tasks that are held back or accounted. -/
lemma vt_min_fold (did : Nat) (p : sched_state) :
    ∀ (l : List Nat) (m : Nat),
      l.foldl (fun m a => vt_min_step (spec_season_epoch did p) (spec_total_avg_exe_dt did p) m
        (p.stask a).ps.smpl) m =
      ((l.filter (fun a => spec_active (p.stask a).ps.smpl)).map
        (spec_vtime_updated did p)).foldl min m := by
  intro l
  induction l with
  | nil => intro m; rfl
  | cons b l ih =>
    intro m
    rw [List.foldl_cons, ih, vt_min_step_eq, List.filter_cons]
    by_cases h : spec_active (p.stask b).ps.smpl = true
    · simp only [if_pos h, List.map_cons, List.foldl_cons]
    · simp only [if_neg h]

/-- A fold of `min` is a lower bound of its start and of the list, and it is
one of them. -/
lemma foldl_min_spec : ∀ (xs : List Nat) (m : Nat),
    xs.foldl min m ≤ m ∧ (∀ x ∈ xs, xs.foldl min m ≤ x) ∧
      (xs.foldl min m = m ∨ xs.foldl min m ∈ xs) := by
  intro xs
  induction xs with
  | nil => intro m; exact ⟨le_refl _, fun _ h => absurd h (List.not_mem_nil _), Or.inl rfl⟩
  | cons y xs ih =>
    intro m
    rw [List.foldl_cons]
    obtain ⟨h1, h2, h3⟩ := ih (min m y)
    refine ⟨le_trans h1 (min_le_left _ _), ?_, ?_⟩
    · intro x hx
      rcases List.mem_cons.mp hx with rfl | hx
      · exact le_trans h1 (min_le_right _ _)
      · exact h2 x hx
    · rcases h3 with h3 | h3
      · rcases min_choice m y with h | h
        · exact Or.inl (h3.trans h)
        · exact Or.inr (List.mem_cons.mpr (Or.inl (h3.trans h)))
      · exact Or.inr (List.mem_cons.mpr (Or.inr h3))

/-- The second loop of `update_vtimes` over a list without repetition: the
minimum it gathers and the state it leaves. -/
lemma vt_second_spec (did : Nat) (p : sched_state)
    (hnd : (p.sched_dev_array did).stask_list.Nodup) :
    (vt_second did p).1 = spec_min_vtime did p ∧
    (vt_second did p).2.sched_dev_array = p.sched_dev_array ∧
    ∀ a ∈ (p.sched_dev_array did).stask_list,
      (((vt_second did p).2.stask a).ps.smpl =
        vt_advance (spec_season_epoch did p) (spec_total_avg_exe_dt did p)
          (p.stask a).ps.smpl) := by
  unfold vt_second
  rw [vt_second_fold_min _ _ _ _ _ hnd, vt_second_fold_state, vt_min_fold]
  obtain ⟨h1, _, h3⟩ := foldl_upd_smpl_task
    (fun _ => vt_advance (spec_season_epoch did p) (spec_total_avg_exe_dt did p))
    (p.sched_dev_array did).stask_list p
  refine ⟨rfl, h1, fun a ha => ?_⟩
  rw [h3 a, List.count_eq_one_of_mem hnd ha]
  rfl

/-- The state of `update_vtimes` at its label `just_decide`, for a list without
repetition on a device that showed activity with a total average that is not 0:
when the minimum is below the sentinel `2 ^ 64 - 1` the device takes it as its
virtual time and every task of the list has the larger of its updated virtual
time and that minimum; else the device keeps its virtual time and the tasks
have their updated virtual times. -/
lemma vt_middle_spec (did : Nat) (p : sched_state)
    (hnd : (p.sched_dev_array did).stask_list.Nodup)
    (hact : spec_activity did p ≠ 0) (hT : spec_total_avg_exe_dt did p ≠ 0) :
    ((vt_middle did p).sched_dev_array did).ps.smpl.vtime =
      (if spec_min_vtime did p < 2 ^ 64 - 1 then spec_min_vtime did p
        else (p.sched_dev_array did).ps.smpl.vtime) ∧
    ((vt_middle did p).sched_dev_array did).stask_list = (p.sched_dev_array did).stask_list ∧
    ∀ a ∈ (p.sched_dev_array did).stask_list,
      ((vt_middle did p).stask a).ps.smpl.vtime =
        (if spec_min_vtime did p < 2 ^ 64 - 1 then
          max (spec_vtime_updated did p a) (spec_min_vtime did p)
        else spec_vtime_updated did p a) := by
  obtain ⟨s1, s2, s3⟩ := vt_second_spec did p hnd
  unfold vt_middle
  rw [if_neg (by simp [hact, hT]), s1]
  by_cases hM : spec_min_vtime did p < 2 ^ 64 - 1
  · simp only [if_pos hM]
    obtain ⟨h1, _, h3⟩ := foldl_upd_smpl_task
      (fun sda => vt_pull (sda did).ps.smpl.vtime)
      (p.sched_dev_array did).stask_list
      (upd_smpl_dev did (fun d => { d with vtime := spec_min_vtime did p }) (vt_second did p).2)
    rw [h1]
    refine ⟨?_, ?_, fun a ha => ?_⟩
    · rw [upd_smpl_dev_vtime]
    · rw [upd_smpl_dev_list, s2]
    · rw [h3 a, List.count_eq_one_of_mem hnd ha, upd_smpl_dev_stask, s3 a ha]
      simp only [Function.iterate_one, upd_smpl_dev_vtime]
      unfold vt_pull
      rw [vt_advance_vtime]
      split_ifs with h
      · exact (max_eq_right (le_of_lt h)).symm
      · rw [vt_advance_vtime]
        exact (max_eq_left (not_lt.mp h)).symm
  · simp only [if_neg hM]
    refine ⟨by rw [s2], by rw [s2], fun a ha => ?_⟩
    rw [s3 a ha, vt_advance_vtime]

/-- The virtual times after `update_vtimes`: those of its label
`just_decide`. -/
lemma update_vtimes_vtime (did : Nat) (p : sched_state) :
    ((update_vtimes did p).sched_dev_array did).ps.smpl.vtime =
      ((vt_middle did p).sched_dev_array did).ps.smpl.vtime ∧
    ∀ a, ((update_vtimes did p).stask a).ps.smpl.vtime =
      ((vt_middle did p).stask a).ps.smpl.vtime := by
  rw [update_vtimes_form]
  obtain ⟨h1, _, h3⟩ := foldl_upd_smpl_task
    (fun sda => vt_decide (sda did).ps.smpl.vtime (spec_epoch_dt did p))
    (p.sched_dev_array did).stask_list
    (upd_smpl_dev did (fun d => { d with active := spec_activity did p }) (vt_middle did p))
  rw [upd_smpl_dev_stask, upd_smpl_dev_vtime]
  simp only [h1, h3]
  refine ⟨by rw [upd_smpl_dev_vtime], fun a => ?_⟩
  rw [upd_smpl_dev_stask]
  generalize (p.sched_dev_array did).stask_list.count a = n
  induction n with
  | zero => rfl
  | succ n ih =>
    rw [Function.iterate_succ_apply']
    exact ih

/-- A task of the list that is held back or accounted makes the device
active. -/
lemma spec_activity_of_mem (did : Nat) (p : sched_state) (a : Nat)
    (ha : a ∈ (p.sched_dev_array did).stask_list)
    (hact : spec_active (p.stask a).ps.smpl = true) : spec_activity did p = 1 := by
  unfold spec_activity
  rw [if_pos]
  exact List.any_eq_true.mpr ⟨a, ha, hact⟩

/-- The minimum is a lower bound of the updated virtual times of the tasks that
are held back or accounted. -/
lemma spec_min_vtime_le (did : Nat) (p : sched_state) (a : Nat)
    (ha : a ∈ (p.sched_dev_array did).stask_list)
    (hact : spec_active (p.stask a).ps.smpl = true) :
    spec_min_vtime did p ≤ spec_vtime_updated did p a := by
  unfold spec_min_vtime
  refine (foldl_min_spec _ _).2.1 _ (List.mem_map.mpr ⟨a, ?_, rfl⟩)
  exact List.mem_filter.mpr ⟨ha, hact⟩

/-- A minimum below the sentinel is the updated virtual time of a task that is
held back or accounted. -/
lemma spec_min_vtime_attained (did : Nat) (p : sched_state)
    (hM : spec_min_vtime did p < 2 ^ 64 - 1) :
    ∃ a ∈ (p.sched_dev_array did).stask_list, spec_active (p.stask a).ps.smpl = true ∧
      spec_vtime_updated did p a = spec_min_vtime did p := by
  have h := (foldl_min_spec (((p.sched_dev_array did).stask_list.filter
      (fun a => spec_active (p.stask a).ps.smpl)).map (spec_vtime_updated did p))
      (2 ^ 64 - 1)).2.2
  rcases h with h | h
  · exact absurd h (ne_of_lt hM)
  · obtain ⟨a, ha, hv⟩ := List.mem_map.mp h
    obtain ⟨h1, h2⟩ := List.mem_filter.mp ha
    exact ⟨a, h1, h2, hv⟩

/-- An accounted task is one that marks the device as active. -/
lemma spec_active_of_accounted (t : sampling_task_t) (h : spec_accounted t = true) :
    spec_active t = true := by
  unfold spec_accounted at h
  unfold spec_active
  simp only [decide_eq_true_eq] at h ⊢
  exact Or.inr h.2

/-- The requests per call of `update_vtimes` are the sampled requests per
sampled call, rounded to the nearest integer. -/
lemma nrqst_per_call_round (t : sampling_task_t) (hw : t.nrqst_sampled < 2 ^ 63) :
    nrqst_per_call t =
      (if 0 < t.ncall_sampled then
        t.nrqst_sampled / t.ncall_sampled +
          (if t.ncall_sampled ≤ 2 * (t.nrqst_sampled % t.ncall_sampled) then 1 else 0)
      else 1) := by
  unfold nrqst_per_call
  by_cases hc : 0 < t.ncall_sampled
  · rw [if_pos hc, if_pos hc]
    generalize t.nrqst_sampled = nr at hw ⊢
    generalize t.ncall_sampled = nc at hc ⊢
    have hr : nr % nc < nc := Nat.mod_lt _ hc
    have hle : nr % nc ≤ nr := Nat.mod_le _ _
    have hu : uadd nr (nr % nc) = nr + nr % nc := by
      unfold uadd
      exact Nat.mod_eq_of_lt (by omega)
    rw [hu]
    have hd : nr + nr % nc = 2 * (nr % nc) + nc * (nr / nc) := by
      have := Nat.div_add_mod nr nc
      omega
    rw [hd, Nat.add_mul_div_left _ _ hc, Nat.add_comm]
    congr 1
    by_cases h2 : nc ≤ 2 * (nr % nc)
    · rw [if_pos h2]
      exact Nat.div_eq_of_lt_le (by omega) (by omega)
    · rw [if_neg h2]
      exact Nat.div_eq_of_lt (by omega)
  · rw [if_neg hc, if_neg hc]

/-- C21 (amended): in `update_vtimes`, for every task of a list without
repetition that is not held back and has `nrqst_sampled > 0` (below 2^63), the
per-call request count is `(nrqst_sampled + nrqst_sampled mod ncall_sampled) /
ncall_sampled`, which is `nrqst_sampled / ncall_sampled` rounded to the
nearest integer (halves up), when `ncall_sampled > 0`, and 1 otherwise; the
task's average is `nrqst_per_call * exe_dt_sampled / nrqst_sampled`, the
product taken as an unsigned long and the division an integer division; and,
the total average not being 0, the virtual time of the task advances by that
average times `sampling_season_dt * sampling_X` over the total average. -/
theorem update_vtimes_avg_exe_dt (did : Nat) (p : sched_state) (a : Nat)
    (hnd : (p.sched_dev_array did).stask_list.Nodup)
    (ha : a ∈ (p.sched_dev_array did).stask_list)
    (hh : (p.stask a).ps.smpl.held_back = 0)
    (hn : 0 < (p.stask a).ps.smpl.nrqst_sampled)
    (hw : (p.stask a).ps.smpl.nrqst_sampled < 2 ^ 63)
    (hT : spec_total_avg_exe_dt did p ≠ 0) :
    nrqst_per_call (p.stask a).ps.smpl =
      (if 0 < (p.stask a).ps.smpl.ncall_sampled then
        ((p.stask a).ps.smpl.nrqst_sampled +
          (p.stask a).ps.smpl.nrqst_sampled % (p.stask a).ps.smpl.ncall_sampled) /
            (p.stask a).ps.smpl.ncall_sampled
      else 1) ∧
    nrqst_per_call (p.stask a).ps.smpl =
      (if 0 < (p.stask a).ps.smpl.ncall_sampled then
        (p.stask a).ps.smpl.nrqst_sampled / (p.stask a).ps.smpl.ncall_sampled +
          (if (p.stask a).ps.smpl.ncall_sampled ≤
              2 * ((p.stask a).ps.smpl.nrqst_sampled % (p.stask a).ps.smpl.ncall_sampled)
            then 1 else 0)
      else 1) ∧
    avg_exe_dt (p.stask a).ps.smpl =
      (nrqst_per_call (p.stask a).ps.smpl * (p.stask a).ps.smpl.exe_dt_sampled) % 2 ^ 64 /
        (p.stask a).ps.smpl.nrqst_sampled ∧
    ((update_vtimes did p).stask a).ps.smpl.vtime =
      uadd (p.stask a).ps.smpl.vtime
        (umul (avg_exe_dt (p.stask a).ps.smpl)
          (umul (p.sched_dev_array did).ps.smpl.sampling_season_dt p.sampling_X) /
          spec_total_avg_exe_dt did p) := by
  have hacc : spec_accounted (p.stask a).ps.smpl = true := by
    unfold spec_accounted
    simp [hh, hn]
  have hactive := spec_active_of_accounted _ hacc
  refine ⟨?_, nrqst_per_call_round _ hw, rfl, ?_⟩
  · unfold nrqst_per_call
    by_cases hc : 0 < (p.stask a).ps.smpl.ncall_sampled
    · rw [if_pos hc, if_pos hc]
      have hle : (p.stask a).ps.smpl.nrqst_sampled % (p.stask a).ps.smpl.ncall_sampled ≤
          (p.stask a).ps.smpl.nrqst_sampled := Nat.mod_le _ _
      have hu : uadd (p.stask a).ps.smpl.nrqst_sampled
          ((p.stask a).ps.smpl.nrqst_sampled % (p.stask a).ps.smpl.ncall_sampled) =
          (p.stask a).ps.smpl.nrqst_sampled +
            (p.stask a).ps.smpl.nrqst_sampled % (p.stask a).ps.smpl.ncall_sampled := by
        unfold uadd
        exact Nat.mod_eq_of_lt (by omega)
      rw [hu]
    · rw [if_neg hc, if_neg hc]
  · have hact : spec_activity did p ≠ 0 := by
      rw [spec_activity_of_mem did p a ha hactive]
      exact one_ne_zero
    rw [(update_vtimes_vtime did p).2 a, (vt_middle_spec did p hnd hact hT).2.2 a ha]
    have hv : spec_vtime_updated did p a =
        uadd (p.stask a).ps.smpl.vtime
          (umul (avg_exe_dt (p.stask a).ps.smpl)
            (umul (p.sched_dev_array did).ps.smpl.sampling_season_dt p.sampling_X) /
            spec_total_avg_exe_dt did p) := by
      unfold spec_vtime_updated
      simp only [hacc, if_true]
      rfl
    rw [← hv]
    split_ifs
    · exact max_eq_left (spec_min_vtime_le did p a ha hactive)
    · rfl

/-- C21 witness: the first task of the example with a held-back peer is
accounted. -/
theorem update_vtimes_avg_exe_dt_witness :
    avg_exe_dt (example_vtimes_held.stask 500).ps.smpl = 10 ∧
      ((update_vtimes 0 example_vtimes_held).stask 500).ps.smpl.vtime = 100 := by
  have h := update_vtimes_avg_exe_dt 0 example_vtimes_held 500 (by decide!) (by decide!)
    (by decide!) (by decide!) (by decide!) (by decide!)
  refine ⟨by decide!, ?_⟩
  rw [h.2.2.2]
  decide!

/-- C21 counterexample: with 7 sampled requests in 3 sampled calls the
per-call request count is 2, not the ceiling 3 of 7 / 3. -/
theorem nrqst_per_call_seven_three :
    nrqst_per_call (example_vt_task 0 7 3 10 0) = 2 ∧
      nrqst_per_call (example_vt_task 0 7 3 10 0) ≠ (7 + 3 - 1) / 3 := by
  decide!

/-- C22 (amended): after `update_vtimes` on a device whose task list has no
repetition, with at least one accounted task (not held back,
`nrqst_sampled > 0`) and a total average that is not 0, the virtual time of the
device is the minimum of the updated virtual times of the accounted tasks and
of the virtual times of the held-back tasks, provided that minimum is below the
sentinel `2 ^ 64 - 1` of the loop: it is a lower bound of them, it is one of
them, and no task of the list is left with a virtual time below it (a task
that was behind is set equal to it, any other keeps its updated virtual
time). -/
theorem update_vtimes_dev_vtime_min (did : Nat) (p : sched_state) (a0 : Nat)
    (hnd : (p.sched_dev_array did).stask_list.Nodup)
    (ha0 : a0 ∈ (p.sched_dev_array did).stask_list)
    (hacc : spec_accounted (p.stask a0).ps.smpl = true)
    (hT : spec_total_avg_exe_dt did p ≠ 0)
    (hM : spec_min_vtime did p < 2 ^ 64 - 1) :
    ((update_vtimes did p).sched_dev_array did).ps.smpl.vtime = spec_min_vtime did p ∧
    (∀ a ∈ (p.sched_dev_array did).stask_list, spec_active (p.stask a).ps.smpl = true →
      ((update_vtimes did p).sched_dev_array did).ps.smpl.vtime ≤ spec_vtime_updated did p a) ∧
    (∃ a ∈ (p.sched_dev_array did).stask_list, spec_active (p.stask a).ps.smpl = true ∧
      spec_vtime_updated did p a = ((update_vtimes did p).sched_dev_array did).ps.smpl.vtime) ∧
    (∀ a ∈ (p.sched_dev_array did).stask_list,
      ((update_vtimes did p).sched_dev_array did).ps.smpl.vtime ≤
        ((update_vtimes did p).stask a).ps.smpl.vtime ∧
      ((update_vtimes did p).stask a).ps.smpl.vtime =
        max (spec_vtime_updated did p a)
          ((update_vtimes did p).sched_dev_array did).ps.smpl.vtime) := by
  have hact : spec_activity did p ≠ 0 := by
    rw [spec_activity_of_mem did p a0 ha0 (spec_active_of_accounted _ hacc)]
    exact one_ne_zero
  obtain ⟨m1, _, m3⟩ := vt_middle_spec did p hnd hact hT
  obtain ⟨u1, u2⟩ := update_vtimes_vtime did p
  have hd : ((update_vtimes did p).sched_dev_array did).ps.smpl.vtime = spec_min_vtime did p := by
    rw [u1, m1, if_pos hM]
  rw [hd]
  refine ⟨rfl, fun a ha h => spec_min_vtime_le did p a ha h, spec_min_vtime_attained did p hM,
    fun a ha => ?_⟩
  rw [u2 a, m3 a ha, if_pos hM]
  exact ⟨le_max_right _ _, rfl⟩

/-- C22 witness: the example with a held-back peer. -/
theorem update_vtimes_dev_vtime_min_witness :
    ((update_vtimes 0 example_vtimes_held).sched_dev_array 0).ps.smpl.vtime = 11 := by
  have h := update_vtimes_dev_vtime_min 0 example_vtimes_held 500 (by decide!) (by decide!)
    (by decide!) (by decide!) (by decide!)
  rw [h.1]
  decide!

/-- C22 counterexample: the only accounted task ends at virtual time 100, yet
the device takes 11, the virtual time of the held-back task. -/
theorem update_vtimes_min_counts_held_back :
    spec_accounted (example_vtimes_held.stask 500).ps.smpl = true ∧
    spec_accounted (example_vtimes_held.stask 501).ps.smpl = false ∧
    spec_total_avg_exe_dt 0 example_vtimes_held = 10 ∧
    ((update_vtimes 0 example_vtimes_held).stask 500).ps.smpl.vtime = 100 ∧
    ((update_vtimes 0 example_vtimes_held).sched_dev_array 0).ps.smpl.vtime = 11 := by
  decide!

/-- The decision of `update_vtimes` in general: for every task on the device's
task list and every prior state, the task's `held_back` flag is 1 if and only
if its virtual time exceeds `device.vtime + epoch_dt`, and 0 otherwise, where
`epoch_dt` is `sampling_season_dt` (its value on entry) times `sampling_X`
when the device showed activity (some task held back or with sampled requests)
and the total average is not 0, and is left at 0 by the jump to `just_decide`
otherwise; and the task's `exe_dt_sampled`, `nrqst_sampled` and
`ncall_sampled` counters are 0. -/
theorem update_vtimes_held_back (did : Nat) (p : sched_state) (a : Nat)
    (ha : a ∈ (p.sched_dev_array did).stask_list) :
    (((update_vtimes did p).stask a).ps.smpl.held_back = 1 ↔
      ((update_vtimes did p).stask a).ps.smpl.vtime >
        uadd ((update_vtimes did p).sched_dev_array did).ps.smpl.vtime
          (if spec_activity did p = 0 ∨ spec_total_avg_exe_dt did p = 0 then 0
            else umul (p.sched_dev_array did).ps.smpl.sampling_season_dt p.sampling_X)) ∧
    (((update_vtimes did p).stask a).ps.smpl.held_back = 0 ∨
      ((update_vtimes did p).stask a).ps.smpl.held_back = 1) ∧
    ((update_vtimes did p).stask a).ps.smpl.exe_dt_sampled = 0 ∧
    ((update_vtimes did p).stask a).ps.smpl.nrqst_sampled = 0 ∧
    ((update_vtimes did p).stask a).ps.smpl.ncall_sampled = 0 := by
  obtain ⟨h1, h2, h3, h4⟩ := update_vtimes_decision did p a ha
  refine ⟨?_, ?_, h2, h3, h4⟩
  · rw [h1]
    unfold spec_epoch_dt spec_season_epoch
    split_ifs <;> simp_all
  · rw [h1]
    split_ifs
    · exact Or.inr rfl
    · exact Or.inl rfl

/-- The decision of `update_vtimes` at the first task of the idle example. -/
theorem update_vtimes_held_back_witness :
    ((update_vtimes 0 example_vtimes_idle).stask 500).ps.smpl.nrqst_sampled = 0 :=
  (update_vtimes_held_back 0 example_vtimes_idle 500 (by decide!)).2.2.2.1

/-- C23: on an idle device (no task held back, none with sampled requests)
`update_vtimes` jumps to `just_decide` with `epoch_dt` still 0 and holds back
the task at virtual time 5 against a device at virtual time 0, although 5 does
not exceed 0 + 20 * 5, the device's virtual time plus `sampling_season_dt`
times `sampling_X`, and although the decision is commented "decide to block
advanced tasks if the whole system is not idle"; the device is recorded as not
active, and a second run of `update_vtimes` keeps the task held back. -/
theorem update_vtimes_idle_holds_back :
    ((update_vtimes 0 example_vtimes_idle).stask 500).ps.smpl.held_back = 1 ∧
    ((update_vtimes 0 example_vtimes_idle).stask 500).ps.smpl.vtime = 5 ∧
    ((update_vtimes 0 example_vtimes_idle).sched_dev_array 0).ps.smpl.vtime = 0 ∧
    (example_vtimes_idle.sched_dev_array 0).ps.smpl.sampling_season_dt = 20 ∧
    example_vtimes_idle.sampling_X = 5 ∧
    (∀ a ∈ (example_vtimes_idle.sched_dev_array 0).stask_list,
      (example_vtimes_idle.stask a).ps.smpl.held_back = 0 ∧
      (example_vtimes_idle.stask a).ps.smpl.nrqst_sampled = 0) ∧
    ((update_vtimes 0 example_vtimes_idle).sched_dev_array 0).ps.smpl.active = 0 ∧
    ¬ (((update_vtimes 0 example_vtimes_idle).stask 500).ps.smpl.vtime >
      uadd ((update_vtimes 0 example_vtimes_idle).sched_dev_array 0).ps.smpl.vtime
        (umul (example_vtimes_idle.sched_dev_array 0).ps.smpl.sampling_season_dt
          example_vtimes_idle.sampling_X)) ∧
    ((update_vtimes 0 (update_vtimes 0 example_vtimes_idle)).stask 500).ps.smpl.held_back
      = 1 := by
  decide!

/-- The average of `update_vtimes` depends on the three counters only. -/
lemma avg_exe_dt_congr (t u : sampling_task_t) (hn : u.nrqst_sampled = t.nrqst_sampled)
    (hc : u.ncall_sampled = t.ncall_sampled) (he : u.exe_dt_sampled = t.exe_dt_sampled) :
    avg_exe_dt u = avg_exe_dt t := by
  unfold avg_exe_dt nrqst_per_call
  rw [hn, hc, he]

/-- C24 (amended): for a device whose task list holds two tasks that start with
virtual time equal to `device.vtime`, are not held back, and have equal sampled
counters (same `nrqst_sampled > 0`, `ncall_sampled` and `exe_dt_sampled`) with
an average that is not 0, one run of `update_vtimes` increases `device.vtime`
by `sampling_X * sampling_season_dt / 2` (integer division; with
`sampling_X = 5`, two and a half times the accumulated sampling-season
duration): each of the two tasks advances by its half of the epoch. The
products and sums are assumed to fit an unsigned long, the new virtual time
below the sentinel `2 ^ 64 - 1`. -/
theorem update_vtimes_two_equal_tasks (did : Nat) (p : sched_state) (A B : Nat)
    (hl : (p.sched_dev_array did).stask_list = [A, B]) (hAB : A ≠ B)
    (hvA : (p.stask A).ps.smpl.vtime = (p.sched_dev_array did).ps.smpl.vtime)
    (hvB : (p.stask B).ps.smpl.vtime = (p.sched_dev_array did).ps.smpl.vtime)
    (hhA : (p.stask A).ps.smpl.held_back = 0) (hhB : (p.stask B).ps.smpl.held_back = 0)
    (hn : (p.stask B).ps.smpl.nrqst_sampled = (p.stask A).ps.smpl.nrqst_sampled)
    (hc : (p.stask B).ps.smpl.ncall_sampled = (p.stask A).ps.smpl.ncall_sampled)
    (he : (p.stask B).ps.smpl.exe_dt_sampled = (p.stask A).ps.smpl.exe_dt_sampled)
    (hn0 : 0 < (p.stask A).ps.smpl.nrqst_sampled)
    (havg : 0 < avg_exe_dt (p.stask A).ps.smpl)
    (h1 : 2 * avg_exe_dt (p.stask A).ps.smpl < 2 ^ 64)
    (h2 : (p.sched_dev_array did).ps.smpl.sampling_season_dt * p.sampling_X < 2 ^ 64)
    (h3 : avg_exe_dt (p.stask A).ps.smpl *
      ((p.sched_dev_array did).ps.smpl.sampling_season_dt * p.sampling_X) < 2 ^ 64)
    (h4 : (p.sched_dev_array did).ps.smpl.vtime +
      p.sampling_X * (p.sched_dev_array did).ps.smpl.sampling_season_dt / 2 < 2 ^ 64 - 1) :
    ((update_vtimes did p).sched_dev_array did).ps.smpl.vtime =
      (p.sched_dev_array did).ps.smpl.vtime +
        p.sampling_X * (p.sched_dev_array did).ps.smpl.sampling_season_dt / 2 := by
  have hnd : (p.sched_dev_array did).stask_list.Nodup := by
    rw [hl]
    simp [hAB]
  have haB := avg_exe_dt_congr (p.stask A).ps.smpl (p.stask B).ps.smpl hn hc he
  have hn0B : 0 < (p.stask B).ps.smpl.nrqst_sampled := by rw [hn]; exact hn0
  have haccA : spec_accounted (p.stask A).ps.smpl = true := by
    unfold spec_accounted
    simp [hhA, hn0]
  have haccB : spec_accounted (p.stask B).ps.smpl = true := by
    unfold spec_accounted
    simp [hhB, hn0B]
  have hactA := spec_active_of_accounted _ haccA
  have hactB := spec_active_of_accounted _ haccB
  have hT : spec_total_avg_exe_dt did p = 2 * avg_exe_dt (p.stask A).ps.smpl := by
    unfold spec_total_avg_exe_dt
    rw [hl]
    simp only [List.filter_cons, haccA, haccB, if_true, List.filter_nil, List.map_cons,
      List.map_nil, List.sum_cons, List.sum_nil, haB, Nat.add_zero]
    rw [← Nat.two_mul]
    exact Nat.mod_eq_of_lt h1
  have hE : spec_season_epoch did p =
      (p.sched_dev_array did).ps.smpl.sampling_season_dt * p.sampling_X := by
    unfold spec_season_epoch umul
    exact Nat.mod_eq_of_lt h2
  have hvt : umul (avg_exe_dt (p.stask A).ps.smpl) (spec_season_epoch did p) /
      spec_total_avg_exe_dt did p =
      p.sampling_X * (p.sched_dev_array did).ps.smpl.sampling_season_dt / 2 := by
    rw [hT, hE]
    unfold umul
    rw [Nat.mod_eq_of_lt h3, Nat.mul_comm 2, Nat.mul_div_mul_left _ _ havg, Nat.mul_comm]
  have hnewA : spec_vtime_updated did p A = (p.sched_dev_array did).ps.smpl.vtime +
      p.sampling_X * (p.sched_dev_array did).ps.smpl.sampling_season_dt / 2 := by
    unfold spec_vtime_updated
    simp only [haccA, if_true]
    rw [hvt, hvA]
    unfold uadd
    exact Nat.mod_eq_of_lt (by omega)
  have hnewB : spec_vtime_updated did p B = (p.sched_dev_array did).ps.smpl.vtime +
      p.sampling_X * (p.sched_dev_array did).ps.smpl.sampling_season_dt / 2 := by
    unfold spec_vtime_updated
    simp only [haccB, if_true]
    rw [haB, hvt, hvB]
    unfold uadd
    exact Nat.mod_eq_of_lt (by omega)
  have hM : spec_min_vtime did p = (p.sched_dev_array did).ps.smpl.vtime +
      p.sampling_X * (p.sched_dev_array did).ps.smpl.sampling_season_dt / 2 := by
    unfold spec_min_vtime
    rw [hl]
    simp only [List.filter_cons, hactA, hactB, if_true, List.filter_nil, List.map_cons,
      List.map_nil, List.foldl_cons, List.foldl_nil, hnewA, hnewB]
    rw [min_eq_right (le_of_lt h4), min_self]
  have hact : spec_activity did p ≠ 0 := by
    rw [spec_activity_of_mem did p A (by rw [hl]; exact List.mem_cons_self _ _) hactA]
    exact one_ne_zero
  have hT0 : spec_total_avg_exe_dt did p ≠ 0 := by
    rw [hT]
    omega
  rw [(update_vtimes_vtime did p).1, (vt_middle_spec did p hnd hact hT0).1, hM, if_pos h4]

/-- C24 witness: two tasks with one sampled request of 10 microseconds each,
after 20 microseconds of sampling seasons: the device advances by 50. -/
theorem update_vtimes_two_equal_tasks_witness :
    ((update_vtimes 0 example_vtimes_equal).sched_dev_array 0).ps.smpl.vtime = 0 + 5 * 20 / 2 :=
  update_vtimes_two_equal_tasks 0 example_vtimes_equal 500 501 (by decide!) (by decide)
    (by decide!) (by decide!) (by decide!) (by decide!) (by decide!) (by decide!) (by decide!)
    (by decide!) (by decide!) (by decide!) (by decide!) (by decide!) (by decide!)

/-- C24 counterexample: two equal tasks that start at the virtual time 0 of the
device, `sampling_X = 5` and 20 microseconds of sampling seasons: the device
ends at 50, not at 5 * 20. -/
theorem update_vtimes_equal_tasks_half_epoch :
    (example_vtimes_equal.sched_dev_array 0).stask_list = [500, 501] ∧
    (example_vtimes_equal.stask 500).ps.smpl = example_vt_task 0 1 0 10 0 ∧
    (example_vtimes_equal.stask 501).ps.smpl = example_vt_task 0 1 0 10 0 ∧
    (example_vtimes_equal.sched_dev_array 0).ps.smpl.vtime = 0 ∧
    (example_vtimes_equal.sched_dev_array 0).ps.smpl.sampling_season_dt = 20 ∧
    example_vtimes_equal.sampling_X = 5 ∧
    ((update_vtimes 0 example_vtimes_equal).sched_dev_array 0).ps.smpl.vtime = 50 := by
  decide!

/-! ### The token on a device with a single task -/

/-- The view of the token loop after a reset of the overuse of the candidate. -/
lemma rr_view_solo (did c : Nat) (p : sched_state) :
    rr_view (upd_tslc_task c (fun t => { t with overuse := 0 })
        (upd_tslc_dev did (fun d => { d with token_holder := c }) p)) did =
      ((p.sched_dev_array did).stask_list, c, p.timeslice_T,
        Function.update (TS_overuse p) c 0) := by
  simp only [rr_view, TS_overuse_upd_tslc_task]
  simp [upd_tslc_task, upd_tslc_dev, TS_token_holder, TS_overuse]

/-- One turn of the token loop on a single-task list whose task holds the token
and has overused the device: the overuse is reset, `repeat` is left as it
was. -/
lemma token_turn_solo (did rep : Nat) (p : sched_state) (A : Nat)
    (hl : (p.sched_dev_array did).stask_list = [A]) (hA : A ≠ 0)
    (hh : TS_token_holder p did = A) (hov : TS_overuse p A > timeslice_usec p) :
    token_turn did rep p = (rep, upd_tslc_task A (fun t => { t with overuse := 0 })
      (upd_tslc_dev did (fun d => { d with token_holder := A }) p)) := by
  simp only [TS_token_holder] at hh
  have hn : list_next [A] A = A := by simp [list_next]
  simp only [token_turn, hl, hh, hn, if_pos hA]
  rw [if_pos (by simpa [TS_overuse, timeslice_usec, upd_tslc_dev] using hov)]
  simp

/-- The candidate on a single-task list is the task. -/
lemma spec_candidate_single (A h : Nat) (hh : h = 0 ∨ h = A) : spec_candidate [A] h = A := by
  unfold spec_candidate
  rcases hh with rfl | rfl
  · simp
  · by_cases h0 : h = 0
    · simp [h0]
    · simp [h0]

/-- The token loop on a single-task list whose task holds the token and has
overused the device ends after its first turn. -/
lemma token_loop_solo (did fuel : Nat) (p : sched_state) (A : Nat)
    (hl : (p.sched_dev_array did).stask_list = [A]) (hA : A ≠ 0)
    (hh : TS_token_holder p did = A) (hov : TS_overuse p A > timeslice_usec p) :
    token_loop did (fuel + 1) 0 p = upd_tslc_task A (fun t => { t with overuse := 0 })
      (upd_tslc_dev did (fun d => { d with token_holder := A }) p) := by
  simp only [token_loop, token_turn_solo did 0 p A hl hA hh hov]
  simp

/-- The token loop on a single-task list without a token holder, the task
having overused the device: one timeslice is taken off the overuse, and what
is left is reset when it still exceeds one timeslice. -/
lemma token_loop_first (did : Nat) (p : sched_state) (A : Nat)
    (hl : (p.sched_dev_array did).stask_list = [A]) (hA : A ≠ 0)
    (hh : TS_token_holder p did = 0) (hov : TS_overuse p A > timeslice_usec p) :
    ∃ q, (∀ n, token_loop did (n + 3) 0 p = q) ∧
      rr_view q did = ([A], A, p.timeslice_T, Function.update (TS_overuse p) A
        (if TS_overuse p A - timeslice_usec p > timeslice_usec p then 0
          else TS_overuse p A - timeslice_usec p)) := by
  have hT0 : (0 : Int) ≤ timeslice_usec p := by
    unfold timeslice_usec USEC_PER_MSEC
    positivity
  have hc : A = spec_candidate (p.sched_dev_array did).stask_list (TS_token_holder p did) := by
    rw [hl, spec_candidate_single A _ (Or.inl hh)]
  have h1 := token_turn_skip did 0 p A hc (Or.inl hh) (by rw [hh]; exact hA) hov
  generalize hp1 : upd_tslc_task A (fun t => { t with overuse := t.overuse - timeslice_usec p })
    (upd_tslc_dev did (fun d => { d with token_holder := A }) p) = p1 at h1
  have hv1 := rr_view_skip did A (timeslice_usec p) p
  rw [hp1, hl] at hv1
  obtain ⟨l1, hh1, t1, o1⟩ := (rr_view_eq_iff _ _ _ _ _ _).mp hv1
  have hus1 : timeslice_usec p1 = timeslice_usec p := by
    unfold timeslice_usec
    rw [t1]
  have ho1 : TS_overuse p1 A = TS_overuse p A - timeslice_usec p := by
    rw [o1, Function.update_same]
  by_cases h2 : TS_overuse p A - timeslice_usec p > timeslice_usec p
  · have ht2 := token_turn_solo did 1 p1 A l1 hA hh1 (by rw [ho1, hus1]; exact h2)
    generalize hp2 : upd_tslc_task A (fun t => { t with overuse := 0 })
      (upd_tslc_dev did (fun d => { d with token_holder := A }) p1) = p2 at ht2
    have hv2 := rr_view_solo did A p1
    rw [hp2, l1, t1, o1] at hv2
    obtain ⟨l2, hh2, t2, o2⟩ := (rr_view_eq_iff _ _ _ _ _ _).mp hv2
    have hc2 : A = spec_candidate (p2.sched_dev_array did).stask_list
        (TS_token_holder p2 did) := by
      rw [l2, spec_candidate_single A _ (Or.inr hh2)]
    have ho2 : TS_overuse p2 A ≤ timeslice_usec p2 := by
      rw [o2, Function.update_same]
      unfold timeslice_usec
      rw [t2]
      exact hT0
    have ht3 := token_turn_give did 1 p2 A hc2
      (Or.inr (by rw [hh2, l2]; exact List.mem_singleton.mpr rfl)) ho2
    refine ⟨upd_tslc_dev did (fun d => { d with token_holder := A }) p2, fun n => ?_, ?_⟩
    · simp only [token_loop, h1, ht2, ht3]
      simp
    · rw [rr_view_set_holder, l2, t2, o2, if_pos h2]
      simp
  · have hc1 : A = spec_candidate (p1.sched_dev_array did).stask_list
        (TS_token_holder p1 did) := by
      rw [l1, spec_candidate_single A _ (Or.inr hh1)]
    have ht2 := token_turn_give did 1 p1 A hc1
      (Or.inr (by rw [hh1, l1]; exact List.mem_singleton.mpr rfl))
      (by rw [ho1, hus1]; exact not_lt.mp h2)
    refine ⟨upd_tslc_dev did (fun d => { d with token_holder := A }) p1, fun n => ?_, ?_⟩
    · simp only [token_loop, h1, ht2]
      simp
    · rw [rr_view_set_holder, l1, t1, o1, if_neg h2]

/-- The fuel of the token loop on a single-task list allows for three turns and
more. -/
lemma token_fuel_single (did : Nat) (p : sched_state) (A : Nat)
    (hl : (p.sched_dev_array did).stask_list = [A]) : ∃ n, token_fuel did p = n + 3 := by
  refine ⟨(TS_overuse p A).toNat, ?_⟩
  simp only [token_fuel, hl, TS_overuse]
  simp
  omega

/-- C30 (amended): when the device's task list holds exactly one task and that
task's overuse exceeds one timeslice, `update_token_holder` makes that task the
token holder. When the task was the previous holder its overuse is reset to 0.
When there was no previous holder one timeslice is subtracted from its overuse
first, and what is left is reset to 0 only if it still exceeds one timeslice.
The loop ends within the turns the model allows it: more turns change
nothing. -/
theorem update_token_holder_single_task (g : neon_global_t) (did : Nat) (p : sched_state)
    (A : Nat) (hl : (p.sched_dev_array did).stask_list = [A]) (hA : A ≠ 0)
    (hov : TS_overuse p A > timeslice_usec p) :
    (TS_token_holder p did = A →
      (∀ fuel, token_fuel did p ≤ fuel →
        token_loop did fuel 0 p = token_loop did (token_fuel did p) 0 p) ∧
      TS_token_holder (update_token_holder g did p) did = A ∧
      TS_overuse (update_token_holder g did p) A = 0) ∧
    (TS_token_holder p did = 0 →
      (∀ fuel, token_fuel did p ≤ fuel →
        token_loop did fuel 0 p = token_loop did (token_fuel did p) 0 p) ∧
      TS_token_holder (update_token_holder g did p) did = A ∧
      TS_overuse (update_token_holder g did p) A =
        (if TS_overuse p A - timeslice_usec p > timeslice_usec p then 0
          else TS_overuse p A - timeslice_usec p)) := by
  have hl0 : (p.sched_dev_array did).stask_list ≠ [] := by
    rw [hl]
    exact List.cons_ne_nil _ _
  obtain ⟨n, hn⟩ := token_fuel_single did p A hl
  have hv : rr_view (update_token_holder g did p) did =
      rr_view (token_loop did (token_fuel did p) 0 p) did := by
    simp only [update_token_holder, if_neg hl0]
    rw [rr_view_foldl did _ (fun q a => rr_view_token_grant g did _ a q did)]
  constructor
  · intro hh
    have hloop := fun fuel => token_loop_solo did fuel p A hl hA hh hov
    refine ⟨fun fuel hfuel => ?_, ?_⟩
    · obtain ⟨k, hk⟩ : ∃ k, fuel = k + 1 := ⟨fuel - 1, by omega⟩
      rw [hk, hn, hloop k, hloop (n + 2)]
    · rw [hn, hloop (n + 2), rr_view_solo] at hv
      obtain ⟨_, e2, _, e4⟩ := (rr_view_eq_iff _ _ _ _ _ _).mp hv
      rw [e2, e4, Function.update_same]
      exact ⟨rfl, rfl⟩
  · intro hh
    obtain ⟨q, hq, hvq⟩ := token_loop_first did p A hl hA hh hov
    refine ⟨fun fuel hfuel => ?_, ?_⟩
    · obtain ⟨k, hk⟩ : ∃ k, fuel = k + 3 := ⟨fuel - 3, by omega⟩
      rw [hk, hn, hq k, hq n]
    · rw [hn, hq n, hvq] at hv
      obtain ⟨_, e2, _, e4⟩ := (rr_view_eq_iff _ _ _ _ _ _).mp hv
      rw [e2, e4, Function.update_same]
      exact ⟨rfl, rfl⟩

/-- C30 witness: the single task of the example, with no previous holder and an
overuse of 40000 microseconds, gets the token and is left with an overuse of
10000 microseconds. -/
theorem update_token_holder_single_task_witness :
    TS_token_holder (update_token_holder example_global 0 example_single_task) 0 = 500 ∧
    TS_overuse (update_token_holder example_global 0 example_single_task) 500 = 10000 := by
  have h := ((update_token_holder_single_task example_global 0 example_single_task 500
    (by decide!) (by decide) (by decide!)).2 (by decide!)).2
  refine ⟨h.1, ?_⟩
  rw [h.2]
  decide!

/-- C30 counterexample: `timeslice_T = 30`, a single task with an overuse of
40000 microseconds and no previous holder: the task gets the token, and its
overuse is 10000 microseconds, not 0. -/
theorem update_token_holder_single_keeps_overuse :
    (example_single_task.sched_dev_array 0).stask_list = [500] ∧
    example_single_task.timeslice_T = 30 ∧
    TS_token_holder example_single_task 0 = 0 ∧
    TS_overuse example_single_task 500 = 40000 ∧
    TS_token_holder (update_token_holder example_global 0 example_single_task) 0 = 500 ∧
    TS_overuse (update_token_holder example_global 0 example_single_task) 500 = 10000 := by
  decide!

/-! ### Reset at a checkpoint -/

/-- The reset hook of the sampling policy leaves the selected policy alone. -/
lemma reset_sampling_policy_id (g : neon_global_t) (kT kX nctx : Nat) (p : sched_state) :
    (reset_sampling g kT kX nctx p).policy_id = p.policy_id := by
  unfold reset_sampling
  simp only
  split_ifs <;> rfl

/-- The sampling period and the free-run factor after the reset hook of the
sampling policy at the first context. -/
lemma reset_sampling_knobs (g : neon_global_t) (kT kX : Nat) (p : sched_state) :
    (reset_sampling g kT kX 1 p).sampling_T =
      (if (if kT < NEON_POLLING_T_MIN then NEON_POLLING_T_MIN else kT) > NEON_SAMPLING_T_MAX
        then NEON_SAMPLING_T_MAX
        else (if kT < NEON_POLLING_T_MIN then NEON_POLLING_T_MIN else kT)) ∧
    (reset_sampling g kT kX 1 p).sampling_X =
      (if kX = 0 then NEON_SAMPLING_X_DEFAULT else kX) := by
  unfold reset_sampling
  simp only [if_true, if_neg one_ne_zero]
  split_ifs <;> exact ⟨rfl, rfl⟩

/-- The bounds of the sampling period and of the free-run factor after the
reset hook of the sampling policy at the first context. -/
lemma reset_sampling_bounds (g : neon_global_t) (kT kX : Nat) (p : sched_state) :
    1 ≤ (reset_sampling g kT kX 1 p).sampling_T ∧
    (reset_sampling g kT kX 1 p).sampling_T ≤ 1000 ∧
    1 ≤ (reset_sampling g kT kX 1 p).sampling_X := by
  obtain ⟨h1, h2⟩ := reset_sampling_knobs g kT kX p
  rw [h1, h2]
  unfold NEON_POLLING_T_MIN NEON_SAMPLING_T_MAX NEON_SAMPLING_X_DEFAULT
  refine ⟨?_, ?_, ?_⟩ <;> split_ifs <;> omega

/-- When the sampling policy is the selected one after `neon_policy_reset`, the
reset ended in its reset hook. -/
lemma neon_policy_reset_sampling (g : neon_global_t) (k : sysctl_knobs) (nctx : Nat)
    (p : sched_state)
    (hp : (neon_policy_reset g k nctx p).policy_id = NEON_POLICY_SAMPLING) :
    ∃ q, neon_policy_reset g k nctx p = reset_sampling g k.sampling_T k.sampling_X nctx q := by
  unfold neon_policy_reset at hp ⊢
  simp only at hp ⊢
  generalize (if nctx = 0 ∨ nctx = 1 then
    if p.policy_id ≠ (match k.policy_name with
        | some i => i
        | none => NEON_DEFAULT_POLICY) ∧ nctx = 1 then
      select_policy_init g { select_policy_fini g p with
        policy_id := (match k.policy_name with
          | some i => i
          | none => NEON_DEFAULT_POLICY) }
    else p
    else p) = q at hp ⊢
  cases hq : q.policy_id
  · rw [hq] at hp
    simp only at hp
    rw [hq] at hp
    exact absurd hp (by decide)
  · rw [hq] at hp
    simp only at hp
    rw [reset_timeslice_policy, hq] at hp
    exact absurd hp (by decide)
  · exact ⟨q, rfl⟩

/-- C28 (amended): for every requested `sampling_T` and `sampling_X` and every
polling period in effect, after `reset_sampling(1)` the effective `sampling_T`
satisfies `NEON_POLLING_T_MIN <= sampling_T <= 1000`, the floor being the
minimal polling period 1 and not the polling period in effect, and the
effective `sampling_X` is `>= 1`: so it is after the reset hook of the sampling
policy on any state, and after `neon_sched_reset(1)` whenever it leaves the
sampling policy selected, the polling period then in effect being in
[1, 1000]. -/
theorem reset_sampling_period_bounds (k : sysctl_knobs) (s : neon_state)
    (hp : (neon_sched_reset k 1 s).sched.policy_id = NEON_POLICY_SAMPLING) :
    (NEON_POLLING_T_MIN ≤ (neon_sched_reset k 1 s).sched.sampling_T ∧
      (neon_sched_reset k 1 s).sched.sampling_T ≤ 1000 ∧
      1 ≤ (neon_sched_reset k 1 s).sched.sampling_X ∧
      1 ≤ (neon_sched_reset k 1 s).polling_T ∧ (neon_sched_reset k 1 s).polling_T ≤ 1000) ∧
    (∀ (kT kX : Nat),
      NEON_POLLING_T_MIN ≤ (reset_sampling s.neon_global kT kX 1 s.sched).sampling_T ∧
      (reset_sampling s.neon_global kT kX 1 s.sched).sampling_T ≤ 1000 ∧
      1 ≤ (reset_sampling s.neon_global kT kX 1 s.sched).sampling_X) := by
  refine ⟨?_, fun kT kX => reset_sampling_bounds _ kT kX _⟩
  have hs : (neon_sched_reset k 1 s).sched = neon_policy_reset s.neon_global k 1 s.sched := by
    unfold neon_sched_reset
    simp
  have hT : (neon_sched_reset k 1 s).polling_T =
      (if (if k.polling_T < NEON_POLLING_T_MIN then NEON_POLLING_T_MIN else k.polling_T) >
          NEON_POLLING_T_MAX then NEON_POLLING_T_MAX
        else (if k.polling_T < NEON_POLLING_T_MIN then NEON_POLLING_T_MIN
          else k.polling_T)) := by
    unfold neon_sched_reset
    simp
  rw [hs] at hp ⊢
  obtain ⟨q, hq⟩ := neon_policy_reset_sampling _ k 1 _ hp
  rw [hq, hT]
  obtain ⟨b1, b2, b3⟩ := reset_sampling_bounds s.neon_global k.sampling_T k.sampling_X q
  refine ⟨b1, b2, b3, ?_, ?_⟩
  · unfold NEON_POLLING_T_MIN NEON_POLLING_T_MAX
    split_ifs <;> omega
  · unfold NEON_POLLING_T_MIN NEON_POLLING_T_MAX
    split_ifs <;> omega

/-- C28 witness: the reset of the example under the sampling policy with the
knobs of the example. -/
theorem reset_sampling_period_bounds_witness :
    NEON_POLLING_T_MIN ≤
      (neon_sched_reset example_knobs 1
        (example_state NEON_POLICY_SAMPLING 0)).sched.sampling_T ∧
    (neon_sched_reset example_knobs 1
      (example_state NEON_POLICY_SAMPLING 0)).sched.sampling_T ≤ 1000 :=
  ⟨(reset_sampling_period_bounds example_knobs (example_state NEON_POLICY_SAMPLING 0)
      (by decide!)).1.1,
    (reset_sampling_period_bounds example_knobs (example_state NEON_POLICY_SAMPLING 0)
      (by decide!)).1.2.1⟩

/-- C28 counterexample: with a polling period of 10 milliseconds and a
requested sampling period of 5 the effective sampling period is 5, below the
polling period in effect. -/
theorem reset_sampling_below_polling_period :
    example_knobs.polling_T = 10 ∧ example_knobs.sampling_T = 5 ∧
    (neon_sched_reset example_knobs 1 (example_state NEON_POLICY_SAMPLING 0)).polling_T = 10 ∧
    (neon_sched_reset example_knobs 1
      (example_state NEON_POLICY_SAMPLING 0)).sched.sampling_T = 5 ∧
    ¬ ((neon_sched_reset example_knobs 1 (example_state NEON_POLICY_SAMPLING 0)).polling_T ≤
      (neon_sched_reset example_knobs 1
        (example_state NEON_POLICY_SAMPLING 0)).sched.sampling_T) := by
  decide!

/-! ### Page arming -/

/-- The complement of the present bit. -/
lemma unot_page_present : unot _PAGE_PRESENT = 2 ^ 64 - (1 + 1) := by
  norm_num [unot, _PAGE_PRESENT]

/-- Clearing the present bit clears it. -/
lemma land_unot_present (x : Nat) : (x &&& unot _PAGE_PRESENT) &&& _PAGE_PRESENT = 0 := by
  rw [unot_page_present]
  apply Nat.eq_of_testBit_eq
  intro i
  simp only [_PAGE_PRESENT, Nat.testBit_and,
    Nat.testBit_two_pow_sub_succ (by norm_num : 1 < 2 ^ 64), Nat.zero_testBit]
  cases i with
  | zero => simp
  | succ n => simp [Nat.testBit_succ]

/-- Putting the saved present bit back restores the page-table entry. -/
lemma lor_saved_present (x : Nat) (hx : x < 2 ^ 64) :
    (x &&& unot _PAGE_PRESENT) ||| (x &&& _PAGE_PRESENT) = x := by
  rw [unot_page_present]
  apply Nat.eq_of_testBit_eq
  intro i
  simp only [_PAGE_PRESENT, Nat.testBit_or, Nat.testBit_and,
    Nat.testBit_two_pow_sub_succ (by norm_num : 1 < 2 ^ 64)]
  cases i with
  | zero => simp
  | succ n =>
    by_cases hn : n + 1 < 64
    · simp [Nat.testBit_succ, hn]
    · have : x.testBit (n + 1) = false :=
        Nat.testBit_lt_two_pow
          (lt_of_lt_of_le hx (Nat.pow_le_pow_right (by norm_num) (by omega)))
      simp [this]

/-- Putting a saved present bit back into an entry whose present bit is clear
sets the present bit to the saved one. -/
lemma lor_present_bit (y x : Nat) (hy : y &&& _PAGE_PRESENT = 0) :
    (y ||| (x &&& _PAGE_PRESENT)) &&& _PAGE_PRESENT = x &&& _PAGE_PRESENT := by
  rw [Nat.and_distrib_right, hy, Nat.zero_or, Nat.and_assoc, Nat.and_self]

/-- One call of `neon_page_arming` keeps the invariant of the sequence and
leaves the page armed exactly when the call was an arm. -/
lemma neon_page_arming_inv (page : neon_page_t) (ptes : Nat → Nat) (arm : Nat)
    (st : neon_page_t × (Nat → Nat)) (h : page_arming_inv page ptes st) :
    page_arming_inv page ptes (neon_page_arming arm st.1 st.2) ∧
      (neon_page_arming arm st.1 st.2).1.armed = (if arm = 1 then 1 else 0) := by
  obtain ⟨h1, h2, h3, h4⟩ := h
  unfold neon_page_arming
  by_cases ha : arm = 1
  · simp only [if_pos ha]
    by_cases hb : st.1.armed = 1
    · simp only [if_pos hb]
      exact ⟨⟨h1, h2, h3, h4⟩, hb⟩
    · simp only [if_neg hb]
      have h0 : st.1.armed = 0 := h2.resolve_right hb
      refine ⟨⟨h1, Or.inr rfl, fun h => absurd h one_ne_zero, fun _ => ⟨?_, ?_⟩⟩, trivial⟩
      · dsimp only
        rw [h1, Function.update_same]
        exact land_unot_present _
      · dsimp only
        rw [h1]
        exact h3 h0
  · simp only [if_neg ha]
    by_cases hb : st.1.armed = 0
    · simp only [if_pos hb]
      exact ⟨⟨h1, h2, h3, h4⟩, hb⟩
    · simp only [if_neg hb]
      have h1' : st.1.armed = 1 := h2.resolve_left hb
      obtain ⟨h5, h6⟩ := h4 h1'
      refine ⟨⟨h1, Or.inl rfl, fun _ => ?_, fun h => absurd h zero_ne_one⟩, trivial⟩
      dsimp only
      rw [h1, Function.update_same, h6]
      unfold page_present
      exact lor_present_bit _ _ h5

/-- A sequence of calls of `neon_page_arming` keeps its invariant. -/
lemma page_arming_run_inv (page : neon_page_t) (ptes : Nat → Nat) :
    ∀ (calls : List Nat) (st : neon_page_t × (Nat → Nat)), page_arming_inv page ptes st →
      page_arming_inv page ptes
        (calls.foldl (fun st arm => neon_page_arming arm st.1 st.2) st) := by
  intro calls
  induction calls with
  | nil => intro st h; exact h
  | cons c rest ih =>
    intro st h
    rw [List.foldl_cons]
    exact ih _ (neon_page_arming_inv page ptes c st h).1

/-- Arming an armed page changes nothing. -/
lemma neon_page_arming_armed (page : neon_page_t) (ptes : Nat → Nat) (h : page.armed = 1) :
    neon_page_arming 1 page ptes = (page, ptes) := by
  unfold neon_page_arming
  rw [if_pos rfl, if_pos h]

/-- The present bit is 0 or 1. -/
lemma page_present_bit (page : neon_page_t) (ptes : Nat → Nat) :
    page_present page ptes = 0 ∨ page_present page ptes = 1 := by
  unfold page_present _PAGE_PRESENT
  rw [Nat.and_one_is_mod]
  omega

/-- C25 (amended): for every tracked page with original PTE present bit `p`
and every finite sequence of `neon_page_arming` calls (arm or disarm) that
starts from the disarmed state, the PTE present bit after the sequence equals
`p` when the last call of the sequence was a disarm and is clear when it was an
arm, the saved present bit then being `p`; so, when `p` is set, it equals `p`
if and only if the last call was a disarm. Arming an already-armed page changes
neither the PTE nor the saved present bit, so a later disarm still restores
`p`. -/
theorem neon_page_arming_sequence (page : neon_page_t) (ptes : Nat → Nat) (pre : List Nat)
    (c : Nat) (h0 : page.armed = 0) :
    (c ≠ 1 →
      page_present page (page_arming_run (pre ++ [c]) page ptes).2 = page_present page ptes ∧
      (page_arming_run (pre ++ [c]) page ptes).1.armed = 0) ∧
    (c = 1 →
      page_present page (page_arming_run (pre ++ [c]) page ptes).2 = 0 ∧
      (page_arming_run (pre ++ [c]) page ptes).1.armed = 1 ∧
      (page_arming_run (pre ++ [c]) page ptes).1.saved_ptev = page_present page ptes) ∧
    (page_present page ptes = 1 →
      (page_present page (page_arming_run (pre ++ [c]) page ptes).2 = page_present page ptes ↔
        c ≠ 1)) ∧
    (∀ (pg : neon_page_t) (pt : Nat → Nat), pg.armed = 1 →
      neon_page_arming 1 pg pt = (pg, pt)) := by
  have hinit : page_arming_inv page ptes (page, ptes) :=
    ⟨rfl, Or.inl h0, fun _ => rfl, fun h => absurd (h0.symm.trans h) zero_ne_one⟩
  have hpre := page_arming_run_inv page ptes pre _ hinit
  have hrun : page_arming_run (pre ++ [c]) page ptes =
      neon_page_arming c
        (pre.foldl (fun st arm => neon_page_arming arm st.1 st.2) (page, ptes)).1
        (pre.foldl (fun st arm => neon_page_arming arm st.1 st.2) (page, ptes)).2 := by
    unfold page_arming_run
    rw [List.foldl_append]
    rfl
  obtain ⟨⟨i1, i2, i3, i4⟩, harm⟩ := neon_page_arming_inv page ptes c _ hpre
  rw [← hrun] at i1 i2 i3 i4 harm
  have hd : c ≠ 1 →
      page_present page (page_arming_run (pre ++ [c]) page ptes).2 = page_present page ptes ∧
      (page_arming_run (pre ++ [c]) page ptes).1.armed = 0 := by
    intro hc
    rw [if_neg hc] at harm
    exact ⟨i3 harm, harm⟩
  have ha : c = 1 →
      page_present page (page_arming_run (pre ++ [c]) page ptes).2 = 0 ∧
      (page_arming_run (pre ++ [c]) page ptes).1.armed = 1 ∧
      (page_arming_run (pre ++ [c]) page ptes).1.saved_ptev = page_present page ptes := by
    intro hc
    rw [if_pos hc] at harm
    exact ⟨(i4 harm).1, harm, (i4 harm).2⟩
  refine ⟨hd, ha, fun hp => ⟨fun h hc => ?_, fun hc => (hd hc).1⟩,
    fun pg pt h => neon_page_arming_armed pg pt h⟩
  rw [(ha hc).1, hp] at h
  exact zero_ne_one h

/-- C25 witness: arm, arm again, disarm on a page whose entry is present. -/
theorem neon_page_arming_sequence_witness :
    page_present example_page (page_arming_run [1, 1, 0] example_page example_ptes).2 = 1 ∧
    (page_arming_run [1, 1, 0] example_page example_ptes).1.armed = 0 :=
  (neon_page_arming_sequence example_page example_ptes [1, 1] 0 (by decide)).1 (by decide)

/-- C25 counterexample: on a page whose entry is not present, after a single
arm the present bit equals the original one although the last call was an
arm. -/
theorem neon_page_arming_absent_page :
    example_page.armed = 0 ∧
    page_present example_page example_ptes_absent = 0 ∧
    page_present example_page (page_arming_run [1] example_page example_ptes_absent).2 =
      page_present example_page example_ptes_absent ∧
    (page_arming_run [1] example_page example_ptes_absent).1.armed = 1 := by
  decide!

/-! ### Tasks, contexts and sharers -/

/-- The invariant of the reachable states reads the threads alive, their
neon-task pointers, the allocated neon-tasks and the neon-tasks only. -/
lemma control_inv_congr (s s' : control_state) (h1 : s'.live = s.live)
    (h2 : s'.cpu_neon_task = s.cpu_neon_task) (h3 : s'.task_alloc = s.task_alloc)
    (h4 : s'.neon_task = s.neon_task) (h : control_inv s) : control_inv s' := by
  unfold control_inv spec_sharing_threads at h ⊢
  rw [h1, h2, h3, h4]
  exact h

/-- Taking a thread off a list of distinct threads lowers the number of those
with a given property by one when the thread has it, and leaves it otherwise. -/
lemma filter_erase_length (p : Nat → Bool) :
    ∀ (l : List Nat) (t : Nat), l.Nodup → t ∈ l →
      ((l.erase t).filter p).length + (if p t = true then 1 else 0) = (l.filter p).length := by
  intro l
  induction l with
  | nil => intro t _ ht; exact absurd ht (List.not_mem_nil _)
  | cons a l ih =>
    intro t hnd ht
    rw [List.nodup_cons] at hnd
    by_cases hat : a = t
    · subst hat
      rw [List.erase_cons_head, List.filter_cons]
      by_cases hp : p a = true
      · simp [hp]
      · simp [hp]
    · have htl : t ∈ l := by
        rcases List.mem_cons.mp ht with h | h
        · exact absurd h.symm hat
        · exact h
      rw [List.erase_cons_tail (by simpa using hat), List.filter_cons, List.filter_cons]
      have := ih t hnd.2 htl
      by_cases hp : p a = true
      · simp only [hp, if_true, List.length_cons]
        omega
      · simp only [hp]
        exact this

/-- The number of threads that refer to a neon-task, when one thread is
redirected. -/
lemma sharing_threads_update (live : List Nat) (ptr : Nat → Nat) (cur nt a : Nat)
    (hnd : live.Nodup) (hcur : cur ∈ live) :
    (live.filter (fun t => Function.update ptr cur nt t = a)).length +
        (if ptr cur = a then 1 else 0) =
      (live.filter (fun t => ptr t = a)).length + (if nt = a then 1 else 0) := by
  induction live with
  | nil => exact absurd hcur (List.not_mem_nil _)
  | cons b l ih =>
    rw [List.nodup_cons] at hnd
    by_cases hb : b = cur
    · subst hb
      have hl : l.filter (fun t => decide (Function.update ptr b nt t = a)) =
          l.filter (fun t => decide (ptr t = a)) := by
        apply List.filter_congr
        intro t ht
        have : t ≠ b := fun h => hnd.1 (h ▸ ht)
        rw [Function.update_noteq this]
      rw [List.filter_cons, List.filter_cons, hl]
      simp only [Function.update_same, decide_eq_true_eq]
      by_cases h1 : nt = a <;> by_cases h2 : ptr b = a <;> simp [h1, h2]
    · have hcl : cur ∈ l := by
        rcases List.mem_cons.mp hcur with h | h
        · exact absurd h.symm hb
        · exact h
      have := ih hnd.2 hcl
      rw [List.filter_cons, List.filter_cons]
      simp only [Function.update_noteq hb, decide_eq_true_eq]
      by_cases h2 : ptr b = a
      · simp only [h2, if_true, List.length_cons]
        omega
      · simp only [h2, if_false]
        exact this

/-- The lookup of the neon-task in `neon_rqst_pre_context` keeps the threads
alive; it keeps the invariant when it fails, and has the neon-task ready for
the context when it succeeds. -/
lemma pre_context_task_inv (s : control_state) (cur ta : Nat) (hinv : control_inv s)
    (hcur : cur ∈ s.live) (hta : ta ∉ s.task_alloc) :
    (pre_context_task cur ta s).2.live = s.live ∧
    ((pre_context_task cur ta s).1 = 0 → control_inv (pre_context_task cur ta s).2) ∧
    ((pre_context_task cur ta s).1 ≠ 0 →
      attach_ready (pre_context_task cur ta s).2 cur (pre_context_task cur ta s).1) := by
  obtain ⟨i1, i2, i3, i4⟩ := hinv
  unfold pre_context_task
  by_cases h0 : s.cpu_neon_task cur = 0
  · rw [if_pos h0]
    unfold neon_task_init
    by_cases hta0 : ta = 0
    · simp only [if_pos hta0, if_true]
      exact ⟨trivial, fun _ => ⟨i1, i2, i3, i4⟩, fun h => absurd rfl h⟩
    · simp only [if_neg hta0]
      refine ⟨rfl, fun h => absurd h hta0, fun _ => ?_⟩
      have hfresh : ∀ t ∈ s.live, s.cpu_neon_task t ≠ ta := by
        intro t ht h
        by_cases hz : s.cpu_neon_task t = 0
        · exact hta0 (h.symm.trans hz)
        · exact hta (h ▸ i3 t ht hz)
      have hcount : ∀ a, a ≠ 0 → spec_sharing_threads
          (control_emit .try_module_get { s with
            task_alloc := ta :: s.task_alloc,
            neon_task := Function.update s.neon_task ta
              { pid := cur, malicious := 0, sharers := 0, nctx := 0, ctx_list := [] } }) a =
          spec_sharing_threads s a := fun a _ => rfl
      refine ⟨⟨i1, i2, fun t ht hz => List.mem_cons_of_mem _ (i3 t ht hz), fun t ht hz => ?_⟩,
        hta0, List.mem_cons_self _ _, Or.inr h0, ?_, ?_⟩
      · have hne : s.cpu_neon_task t ≠ ta := hfresh t ht
        have := i4 t ht hz
        simp only [control_emit, Function.update_noteq hne]
        exact this
      · simp [control_emit]
      · have hc0 : spec_sharing_threads s ta = 0 := by
          unfold spec_sharing_threads
          rw [List.length_eq_zero, List.filter_eq_nil_iff]
          intro t ht
          simpa using hfresh t ht
        have hne : ¬ s.cpu_neon_task cur = ta := fun h => hta0 (h.symm.trans h0)
        simp only [control_emit, Function.update_same]
        rw [if_neg hne]
        show 0 + 1 = spec_sharing_threads s ta + 1
        rw [hc0]
  · rw [if_neg h0]
    refine ⟨rfl, fun h => absurd h h0, fun _ => ?_⟩
    have := i4 cur hcur h0
    refine ⟨⟨i1, i2, i3, i4⟩, h0, i3 cur hcur h0, Or.inl rfl, this.1, ?_⟩
    rw [if_pos rfl, Nat.add_zero]
    exact this.2

/-- The threads and neon-tasks after the end of `neon_rqst_pre_context`. -/
lemma pre_context_save_view (cur nt c : Nat) (s : control_state) :
    (pre_context_save cur nt c s).live = s.live ∧
    (pre_context_save cur nt c s).cpu_neon_task = Function.update s.cpu_neon_task cur nt ∧
    (pre_context_save cur nt c s).task_alloc = s.task_alloc ∧
    (pre_context_save cur nt c s).neon_task = Function.update s.neon_task nt
      { s.neon_task nt with ctx_list := c :: (s.neon_task nt).ctx_list,
                            nctx := uadd (s.neon_task nt).nctx 1 } := by
  unfold pre_context_save
  simp only
  split_ifs <;> simp [upd_neon_task, control_emit]

/-- Attaching a context to a neon-task that is ready for it keeps the
invariant. -/
lemma attach_inv (s s' : control_state) (cur nt c : Nat) (h : attach_ready s cur nt)
    (hcur : cur ∈ s.live) (h1 : s'.live = s.live)
    (h2 : s'.cpu_neon_task = Function.update s.cpu_neon_task cur nt)
    (h3 : s'.task_alloc = s.task_alloc)
    (h4 : s'.neon_task = Function.update s.neon_task nt
      { s.neon_task nt with ctx_list := c :: (s.neon_task nt).ctx_list,
                            nctx := uadd (s.neon_task nt).nctx 1 }) :
    control_inv s' := by
  obtain ⟨⟨i1, i2, i3, i4⟩, hnt0, hnta, hptr, hnctx, hsh⟩ := h
  unfold control_inv spec_sharing_threads
  unfold spec_sharing_threads at i4 hsh
  rw [h1, h2, h3, h4]
  refine ⟨i1, i2, fun t ht hz => ?_, fun t ht hz => ?_⟩
  · by_cases htc : t = cur
    · rw [htc, Function.update_same]
      exact hnta
    · rw [Function.update_noteq htc] at hz ⊢
      exact i3 t ht hz
  · by_cases hb : Function.update s.cpu_neon_task cur nt t = nt
    · rw [hb, Function.update_same]
      have hupd := sharing_threads_update s.live s.cpu_neon_task cur nt nt i1 hcur
      rw [if_pos rfl] at hupd
      refine ⟨?_, ?_⟩
      · simp only [List.length_cons]
        rw [hnctx]
        unfold uadd
        omega
      · simp only
        by_cases hp : s.cpu_neon_task cur = nt
        · rw [if_pos hp] at hupd hsh
          omega
        · rw [if_neg hp] at hupd hsh
          omega
    · have htc : t ≠ cur := by
        intro h
        rw [h, Function.update_same] at hb
        exact hb rfl
      rw [Function.update_noteq htc] at hz hb ⊢
      rw [Function.update_noteq hb]
      have hupd := sharing_threads_update s.live s.cpu_neon_task cur nt (s.cpu_neon_task t)
        i1 hcur
      have hp : ¬ s.cpu_neon_task cur = s.cpu_neon_task t := by
        intro h
        rcases hptr with h' | h'
        · exact hb (h.symm.trans h')
        · exact hz (h.symm.trans h')
      rw [if_neg hp, if_neg (fun h => hb h.symm)] at hupd
      have := i4 t ht hz
      refine ⟨this.1, ?_⟩
      rw [this.2]
      omega

/-- The search and the creation of the context in `neon_rqst_pre_context`
keep the invariant. -/
lemma pre_context_ctx_inv (s : control_state) (cur key ca nt : Nat)
    (h : attach_ready s cur nt) (hcur : cur ∈ s.live) :
    control_inv (pre_context_ctx cur key ca nt s).2 := by
  unfold pre_context_ctx
  by_cases hany : (s.neon_task nt).ctx_list.any (fun c => (s.ctx c).key = key) = true
  · rw [if_pos hany]
    exact h.1
  · rw [if_neg hany]
    unfold neon_ctx_init
    by_cases hca : ca = 0
    · simp only [if_pos hca, if_true]
      exact control_inv_congr s _ rfl rfl rfl rfl h.1
    · simp only [if_neg hca, if_false]
      obtain ⟨v1, v2, v3, v4⟩ := pre_context_save_view cur nt ca
        { s with
          ctx_ever := u32 (s.ctx_ever + 1),
          ctx := Function.update s.ctx ca
            { id := u32 (s.ctx_ever + 1), key := key, map_list := [], fault_list := [],
              work_list := [] } }
      exact attach_inv s _ cur nt ca h hcur v1 v2 v3 v4

/-- A context creation request keeps the invariant. -/
lemma neon_rqst_pre_context_inv (s : control_state) (cur : Nat) (cmd : Nat → Nat)
    (ta ca : Nat) (hinv : control_inv s) (hcur : cur ∈ s.live) (hta : ta ∉ s.task_alloc) :
    control_inv (neon_rqst_pre_context cur cmd ta ca s).2 := by
  unfold neon_rqst_pre_context
  simp only
  obtain ⟨t1, t2, t3⟩ := pre_context_task_inv s cur ta hinv hcur hta
  split_ifs with h1 h2
  · exact hinv
  · exact t2 h2
  · exact pre_context_ctx_inv _ cur _ ca _ (t3 h2) (by rw [t1]; exact hcur)

/-- The number of threads that refer to a neon-task, with a new thread. -/
lemma sharing_threads_cons (live : List Nat) (ptr : Nat → Nat) (child a : Nat) :
    ((child :: live).filter (fun t => ptr t = a)).length =
      (live.filter (fun t => ptr t = a)).length + (if ptr child = a then 1 else 0) := by
  rw [List.filter_cons]
  by_cases h : ptr child = a
  · simp [h]
  · simp [h]

/-- The threads of a list that refer to a neon-task do so after the pointer of
a thread that is not on the list is set. -/
lemma sharing_threads_update_other (live : List Nat) (ptr : Nat → Nat) (child nt a : Nat)
    (hc : child ∉ live) :
    live.filter (fun t => Function.update ptr child nt t = a) =
      live.filter (fun t => ptr t = a) := by
  apply List.filter_congr
  intro t ht
  have : t ≠ child := fun h => hc (h ▸ ht)
  rw [Function.update_noteq this]

/-- A clone keeps the invariant. -/
lemma clone_inv (s : control_state) (cur flags child : Nat) (hinv : control_inv s)
    (hok : control_call_ok s (.clone cur flags child)) :
    control_inv (run_control_call s (.clone cur flags child)) := by
  obtain ⟨i1, i2, i3, i4⟩ := hinv
  obtain ⟨hcur, hchild, hlen, hvm, hptr⟩ := hok
  unfold run_control_call neon_copy_task
  simp only
  by_cases h0 : s.cpu_neon_task cur = 0
  · rw [if_pos h0]
    have hc0 : s.cpu_neon_task child = 0 := by
      rcases hptr with h | h
      · exact h
      · exact h.trans h0
    unfold control_inv spec_sharing_threads
    unfold spec_sharing_threads at i4
    refine ⟨List.nodup_cons.mpr ⟨hchild, i1⟩, by simpa using hlen, fun t ht hz => ?_,
      fun t ht hz => ?_⟩
    · rcases List.mem_cons.mp ht with h | h
      · exact absurd (h ▸ hc0) hz
      · exact i3 t h hz
    · rcases List.mem_cons.mp ht with h | h
      · exact absurd (h ▸ hc0) hz
      · have := i4 t h hz
        refine ⟨this.1, ?_⟩
        simp only
        rw [sharing_threads_cons, if_neg (fun e => hz (e.symm.trans hc0)), Nat.add_zero]
        exact this.2
  · rw [if_neg h0]
    have hf : flags &&& CLONE_VM ≠ 0 := hvm.resolve_right h0
    rw [if_pos hf]
    have hcurinv := i4 cur hcur h0
    unfold spec_sharing_threads at hcurinv
    have hle : (s.live.filter (fun t => s.cpu_neon_task t = s.cpu_neon_task cur)).length ≤
        s.live.length := List.length_filter_le _ _
    have hu : uadd (s.neon_task (s.cpu_neon_task cur)).sharers 1 =
        (s.neon_task (s.cpu_neon_task cur)).sharers + 1 := by
      unfold uadd
      exact Nat.mod_eq_of_lt (by omega)
    unfold control_inv spec_sharing_threads
    unfold spec_sharing_threads at i4
    simp only [upd_neon_task]
    refine ⟨List.nodup_cons.mpr ⟨hchild, i1⟩, by simpa using hlen, fun t ht hz => ?_,
      fun t ht hz => ?_⟩
    · rcases List.mem_cons.mp ht with h | h
      · rw [h, Function.update_same]
        exact i3 cur hcur h0
      · have hne : t ≠ child := fun e => hchild (e ▸ h)
        rw [Function.update_noteq hne] at hz ⊢
        exact i3 t h hz
    · rw [sharing_threads_cons, sharing_threads_update_other _ _ _ _ _ hchild,
        Function.update_same]
      by_cases hb : Function.update s.cpu_neon_task child (s.cpu_neon_task cur) t =
          s.cpu_neon_task cur
      · rw [hb, Function.update_same, if_pos rfl, hu]
        exact ⟨hcurinv.1, by rw [hcurinv.2]⟩
      · have hne : t ≠ child := by
          intro e
          rw [e, Function.update_same] at hb
          exact hb rfl
        have htl : t ∈ s.live := by
          rcases List.mem_cons.mp ht with h | h
          · exact absurd h hne
          · exact h
        rw [Function.update_noteq hne] at hz hb ⊢
        rw [Function.update_noteq hb, if_neg (fun e => hb e.symm), Nat.add_zero]
        exact i4 t htl hz

/-- The number of threads that refer to a neon-task, with one thread less. -/
lemma sharing_threads_erase (live : List Nat) (ptr : Nat → Nat) (t a : Nat) (hnd : live.Nodup)
    (ht : t ∈ live) :
    ((live.erase t).filter (fun u => ptr u = a)).length + (if ptr t = a then 1 else 0) =
      (live.filter (fun u => ptr u = a)).length := by
  have := filter_erase_length (fun u => decide (ptr u = a)) live t hnd ht
  simpa using this

/-- The threads and neon-tasks after the end of `neon_exit_task`. -/
lemma exit_task_release_view (t nt : Nat) (s : control_state) :
    (exit_task_release t nt s).live = s.live ∧
    (exit_task_release t nt s).cpu_neon_task = Function.update s.cpu_neon_task t 0 ∧
    (exit_task_release t nt s).task_alloc = s.task_alloc.erase nt ∧
    (exit_task_release t nt s).neon_task = s.neon_task := by
  unfold exit_task_release
  dsimp only
  split_ifs <;> exact ⟨rfl, rfl, rfl, rfl⟩

/-- The result of `neon_exit_task`, case by case. -/
lemma neon_exit_task_cases (unclean : Nat → Bool) (t : Nat) (s : control_state) :
    neon_exit_task unclean t s =
      (if s.cpu_neon_task t = 0 then s
      else if (s.neon_task (s.cpu_neon_task t)).sharers > 0 then
        upd_neon_task (s.cpu_neon_task t) (fun x => { x with sharers := usub x.sharers 1 }) s
      else if (neon_task_fini unclean (s.cpu_neon_task t)
          (upd_neon_task (s.cpu_neon_task t)
            (fun x => { x with sharers := usub x.sharers 1 }) s)).1 < 0 then
        (neon_task_fini unclean (s.cpu_neon_task t)
          (upd_neon_task (s.cpu_neon_task t)
            (fun x => { x with sharers := usub x.sharers 1 }) s)).2
      else
        exit_task_release t (s.cpu_neon_task t)
          (neon_task_fini unclean (s.cpu_neon_task t)
            (upd_neon_task (s.cpu_neon_task t)
              (fun x => { x with sharers := usub x.sharers 1 }) s)).2) := rfl

/-- The invariant after the exit of thread `t`, from what the exit leaves of
the pointers and neon-tasks of the other threads. -/
lemma exit_view_inv (s s' : control_state) (t : Nat) (hinv : control_inv s) (ht : t ∈ s.live)
    (h1 : s'.live = s.live.erase t)
    (h2 : ∀ u ∈ s.live.erase t, s'.cpu_neon_task u = s.cpu_neon_task u)
    (h3 : ∀ u ∈ s.live.erase t, s.cpu_neon_task u ≠ 0 → s.cpu_neon_task u ∈ s'.task_alloc)
    (h4 : ∀ u ∈ s.live.erase t, s.cpu_neon_task u ≠ 0 →
      (s'.neon_task (s.cpu_neon_task u)).nctx = (s.neon_task (s.cpu_neon_task u)).nctx ∧
      (s'.neon_task (s.cpu_neon_task u)).ctx_list =
        (s.neon_task (s.cpu_neon_task u)).ctx_list ∧
      (s'.neon_task (s.cpu_neon_task u)).sharers +
          (if s.cpu_neon_task t = s.cpu_neon_task u then 1 else 0) =
        (s.neon_task (s.cpu_neon_task u)).sharers) :
    control_inv s' := by
  obtain ⟨i1, i2, i3, i4⟩ := hinv
  unfold spec_sharing_threads at i4
  have hmem : ∀ u, u ∈ s.live.erase t → u ∈ s.live := fun u hu => List.mem_of_mem_erase hu
  unfold control_inv spec_sharing_threads
  rw [h1]
  refine ⟨i1.erase t, lt_of_le_of_lt (List.length_erase_le _ _) i2, fun u hu hz => ?_,
    fun u hu hz => ?_⟩
  · have e := h2 u hu
    have hz' : s.cpu_neon_task u ≠ 0 := fun h => hz (e.trans h)
    exact e.symm ▸ h3 u hu hz'
  · have e := h2 u hu
    have hz' : s.cpu_neon_task u ≠ 0 := fun h => hz (e.trans h)
    have hf : (s.live.erase t).filter (fun v => decide (s'.cpu_neon_task v = s'.cpu_neon_task u)) =
        (s.live.erase t).filter (fun v => decide (s.cpu_neon_task v = s.cpu_neon_task u)) := by
      apply List.filter_congr
      intro v hv
      rw [h2 v hv, e]
    have hrec : s'.neon_task (s'.cpu_neon_task u) = s'.neon_task (s.cpu_neon_task u) :=
      congrArg _ e
    rw [hf, hrec]
    obtain ⟨a1, a2, a3⟩ := h4 u hu hz'
    obtain ⟨b1, b2⟩ := i4 u (hmem u hu) hz'
    have he := sharing_threads_erase s.live s.cpu_neon_task t (s.cpu_neon_task u) i1 ht
    rw [a1, a2]
    refine ⟨b1, ?_⟩
    omega

/-- A thread exit keeps the invariant. -/
lemma exit_inv (s : control_state) (t : Nat) (unclean : Nat → Bool) (hinv : control_inv s)
    (hok : control_call_ok s (.exit t unclean)) :
    control_inv (run_control_call s (.exit t unclean)) := by
  have ht : t ∈ s.live := hok
  have hinv' := hinv
  obtain ⟨i1, i2, i3, i4⟩ := hinv
  have hmem : ∀ u, u ∈ s.live.erase t → u ∈ s.live ∧ u ≠ t := by
    intro u hu
    exact ⟨List.mem_of_mem_erase hu, fun e => (List.Nodup.not_mem_erase i1) (e ▸ hu)⟩
  unfold spec_sharing_threads at i4
  unfold run_control_call
  dsimp only
  rw [neon_exit_task_cases]
  by_cases h0 : s.cpu_neon_task t = 0
  · rw [if_pos h0]
    refine exit_view_inv s _ t hinv' ht rfl (fun _ _ => rfl)
      (fun u hu hz => i3 u (hmem u hu).1 hz) (fun u hu hz => ⟨rfl, rfl, ?_⟩)
    rw [if_neg (fun e => hz (e.symm.trans h0))]
    rfl
  · rw [if_neg h0]
    have htinv := i4 t ht h0
    have het := sharing_threads_erase s.live s.cpu_neon_task t (s.cpu_neon_task t) i1 ht
    rw [if_pos rfl] at het
    by_cases hs : (s.neon_task (s.cpu_neon_task t)).sharers > 0
    · rw [if_pos hs]
      have hlt : (s.neon_task (s.cpu_neon_task t)).sharers < 2 ^ 64 := by
        have hle : (s.live.filter (fun u => s.cpu_neon_task u = s.cpu_neon_task t)).length ≤
            s.live.length := List.length_filter_le _ _
        omega
      have husub : usub (s.neon_task (s.cpu_neon_task t)).sharers 1 =
          (s.neon_task (s.cpu_neon_task t)).sharers - 1 := by
        unfold usub
        have h1 : (1 : Nat) % 2 ^ 64 = 1 := by norm_num
        rw [h1]
        have h2 : (s.neon_task (s.cpu_neon_task t)).sharers + (2 ^ 64 - 1) =
            ((s.neon_task (s.cpu_neon_task t)).sharers - 1) + 2 ^ 64 := by omega
        rw [h2, Nat.add_mod_right]
        exact Nat.mod_eq_of_lt (by omega)
      refine exit_view_inv s _ t hinv' ht rfl (fun _ _ => rfl)
        (fun u hu hz => i3 u (hmem u hu).1 hz) (fun u hu hz => ?_)
      simp only [upd_neon_task]
      by_cases hb : s.cpu_neon_task t = s.cpu_neon_task u
      · rw [if_pos hb, ← hb, Function.update_same]
        refine ⟨rfl, rfl, ?_⟩
        show usub (s.neon_task (s.cpu_neon_task t)).sharers 1 + 1 = _
        rw [husub]
        omega
      · rw [if_neg hb, Function.update_noteq (fun e => hb e.symm)]
        exact ⟨rfl, rfl, rfl⟩
    · rw [if_neg hs]
      have hs0 : (s.neon_task (s.cpu_neon_task t)).sharers = 0 := by omega
      have hnone : ∀ u, u ∈ s.live.erase t → s.cpu_neon_task u ≠ s.cpu_neon_task t := by
        intro u hu e
        have hz : ((s.live.erase t).filter
            (fun u => s.cpu_neon_task u = s.cpu_neon_task t)).length = 0 := by omega
        rw [List.length_eq_zero, List.filter_eq_nil_iff] at hz
        exact hz u hu (by simpa using e)
      have hfini : ∀ x : control_state,
          (neon_task_fini unclean (s.cpu_neon_task t) x).2 =
            upd_neon_task (s.cpu_neon_task t) (fun y => { y with ctx_list := [] }) x :=
        fun _ => rfl
      rw [hfini]
      split_ifs with hf
      · refine exit_view_inv s _ t hinv' ht rfl (fun _ _ => rfl)
          (fun u hu hz => i3 u (hmem u hu).1 hz) (fun u hu hz => ?_)
        have hb := hnone u hu
        simp only [upd_neon_task]
        rw [Function.update_noteq hb, Function.update_noteq hb, if_neg (fun e => hb e.symm)]
        exact ⟨rfl, rfl, rfl⟩
      · obtain ⟨v1, v2, v3, v4⟩ := exit_task_release_view t (s.cpu_neon_task t)
          (upd_neon_task (s.cpu_neon_task t) (fun y => { y with ctx_list := [] })
            (upd_neon_task (s.cpu_neon_task t)
              (fun x => { x with sharers := usub x.sharers 1 }) s))
        refine exit_view_inv s _ t hinv' ht (by dsimp only) (fun u hu => ?_)
          (fun u hu hz => ?_) (fun u hu hz => ?_)
        · dsimp only
          rw [v2]
          exact Function.update_noteq (hmem u hu).2 _ _
        · dsimp only
          rw [v3]
          exact (List.mem_erase_of_ne (hnone u hu)).mpr (i3 u (hmem u hu).1 hz)
        · have hb := hnone u hu
          dsimp only
          rw [v4]
          simp only [upd_neon_task]
          rw [Function.update_noteq hb, Function.update_noteq hb, if_neg (fun e => hb e.symm)]
          exact ⟨rfl, rfl, rfl⟩

/-- A state before any context is created has the invariant. -/
lemma control_inv_init (s0 : control_state) (h : control_init s0) : control_inv s0 :=
  ⟨h.1, h.2.1, fun t ht hz => absurd (h.2.2 t ht) hz, fun t ht hz => absurd (h.2.2 t ht) hz⟩

/-- Every call that the kernel grants keeps the invariant. -/
lemma control_inv_step (s : control_state) (c : control_call) (hinv : control_inv s)
    (hok : control_call_ok s c) : control_inv (run_control_call s c) := by
  cases c with
  | create cur cmd ta ca => exact neon_rqst_pre_context_inv s cur cmd ta ca hinv hok.1 hok.2
  | clone cur flags child => exact clone_inv s cur flags child hinv hok
  | exit t unclean => exact exit_inv s t unclean hinv hok

/-- Every reachable state has the invariant. -/
lemma control_reachable_inv (s0 s : control_state) (h0 : control_init s0)
    (hr : control_reachable s0 s) : control_inv s := by
  induction hr with
  | init => exact control_inv_init s0 h0
  | step s c _ hok ih => exact control_inv_step s c ih hok

/-- A context creation request with the key of a context that the neon-task of
the thread has already changes nothing. -/
lemma neon_rqst_pre_context_existing (cur : Nat) (cmd : Nat → Nat) (ta ca : Nat)
    (s : control_state) (hp : s.cpu_neon_task cur ≠ 0)
    (hkey : ∃ c ∈ (s.neon_task (s.cpu_neon_task cur)).ctx_list,
      (s.ctx c).key = u32 (cmd NEON_CMD_IDX_KEY_CTX)) :
    neon_rqst_pre_context cur cmd ta ca s = (0, s) := by
  have ht : pre_context_task cur ta s = (s.cpu_neon_task cur, s) := by
    unfold pre_context_task
    rw [if_neg hp]
  have hc : pre_context_ctx cur (u32 (cmd NEON_CMD_IDX_KEY_CTX)) ca (s.cpu_neon_task cur) s =
      (0, s) := by
    unfold pre_context_ctx
    rw [if_pos]
    obtain ⟨c, hc1, hc2⟩ := hkey
    exact List.any_eq_true.mpr ⟨c, hc1, by simpa using hc2⟩
  unfold neon_rqst_pre_context
  simp only [ht, hc]
  split_ifs <;> rfl

/-- C29 (amended): in every state reachable through context creation
(`neon_rqst_pre_context`), thread clone (`neon_copy_task` with `CLONE_VM`) and
thread exit (`neon_exit_task`), the neon-task that a live thread refers to has
`nctx` equal to the number of contexts on its context list (as an unsigned
long; a repeated create with an existing context key changes nothing), and its
`sharers` field is one below the number of live threads whose neon-task pointer
refers to it: it counts the threads that share the neon-task with the one that
exits last. -/
theorem control_reachable_counts (s0 s : control_state) (h0 : control_init s0)
    (hr : control_reachable s0 s) (t : Nat) (ht : t ∈ s.live) (hz : s.cpu_neon_task t ≠ 0) :
    (s.neon_task (s.cpu_neon_task t)).nctx =
      (s.neon_task (s.cpu_neon_task t)).ctx_list.length % 2 ^ 64 ∧
    ((s.neon_task (s.cpu_neon_task t)).ctx_list.length < 2 ^ 64 →
      (s.neon_task (s.cpu_neon_task t)).nctx =
        (s.neon_task (s.cpu_neon_task t)).ctx_list.length) ∧
    (s.neon_task (s.cpu_neon_task t)).sharers + 1 =
      spec_sharing_threads s (s.cpu_neon_task t) ∧
    (∀ (cmd : Nat → Nat) (ta ca : Nat),
      (∃ c ∈ (s.neon_task (s.cpu_neon_task t)).ctx_list,
        (s.ctx c).key = u32 (cmd NEON_CMD_IDX_KEY_CTX)) →
      neon_rqst_pre_context t cmd ta ca s = (0, s)) := by
  obtain ⟨_, _, _, i4⟩ := control_reachable_inv s0 s h0 hr
  obtain ⟨a1, a2⟩ := i4 t ht hz
  refine ⟨a1, fun h => ?_, a2, fun cmd ta ca hk => neon_rqst_pre_context_existing t cmd ta ca s hz hk⟩
  rw [a1]
  exact Nat.mod_eq_of_lt h

/-- The state after the creation of a context by the only thread is
reachable. -/
lemma example_control_created_reachable :
    control_reachable example_control example_control_created :=
  control_reachable.step _ _ control_reachable.init ⟨by decide, by decide⟩

/-- C29 witness: thread 1 creates a context and clones into thread 2; the
neon-task has one context and one sharer besides the last thread. -/
theorem control_reachable_counts_witness :
    (example_control_cloned.neon_task (example_control_cloned.cpu_neon_task 1)).sharers + 1 =
      spec_sharing_threads example_control_cloned (example_control_cloned.cpu_neon_task 1) ∧
    spec_sharing_threads example_control_cloned (example_control_cloned.cpu_neon_task 1) = 2 :=
  ⟨(control_reachable_counts example_control example_control_cloned
      ⟨by decide, by decide, by decide⟩
      (control_reachable.step _ _ example_control_created_reachable
        ⟨by decide, by decide, by decide, Or.inl (by decide), Or.inl (by decide)⟩)
      1 (by decide) (by decide)).2.2.1, by decide⟩

/-- C29 counterexample: after the only thread has created a context, one
thread refers to its neon-task and `sharers` is 0. -/
theorem neon_task_sharers_one_below :
    control_init example_control ∧
    control_reachable example_control example_control_created ∧
    example_control_created.live = [1] ∧
    example_control_created.cpu_neon_task 1 = 1000 ∧
    spec_sharing_threads example_control_created 1000 = 1 ∧
    (example_control_created.neon_task 1000).sharers = 0 ∧
    (example_control_created.neon_task 1000).sharers ≠
      spec_sharing_threads example_control_created 1000 :=
  ⟨⟨by decide, by decide, by decide⟩, example_control_created_reachable, by decide, by decide,
    by decide, by decide, by decide⟩

/-! ### Fault and trap handlers -/

/-- The lookup of `neon_fault_handler` when the maps of one context only hold
the address. -/
lemma neon_fault_lookup_unique (s : control_state) (addr c m : Nat)
    (hfind : (s.ctx c).map_list.find? (fault_in_map s addr) = some m) :
    ∀ (l : List Nat) (acc : fault_target),
      (∀ c' ∈ l, c' ≠ c → (s.ctx c').map_list.find? (fault_in_map s addr) = none) →
      l.foldl (fun acc ctx =>
        match (s.ctx ctx).map_list.find? (fault_in_map s addr) with
        | none => acc
        | some m =>
          { fault_ctx := ctx, fault_map := m,
            fault_pidx := (addr - map_vm_start s m) / PAGE_SIZE, fault := (s.map m).fault })
        acc =
      (if c ∈ l then
        { fault_ctx := c, fault_map := m,
          fault_pidx := (addr - map_vm_start s m) / PAGE_SIZE, fault := (s.map m).fault }
      else acc) := by
  intro l
  induction l with
  | nil => intro acc _; rfl
  | cons b l ih =>
    intro acc h
    rw [List.foldl_cons]
    have hl : ∀ c' ∈ l, c' ≠ c → (s.ctx c').map_list.find? (fault_in_map s addr) = none :=
      fun c' hc' => h c' (List.mem_cons_of_mem _ hc')
    by_cases hb : b = c
    · rw [hb, hfind]
      simp only
      rw [ih _ hl]
      simp
    · rw [h b (List.mem_cons_self _ _) hb]
      simp only
      rw [ih _ hl]
      simp [Ne.symm hb]

/-- The trap flag of the saved flags after the fault handler and then the trap
handler is the one before the fault. -/
lemma flags_restore_tf (x : Nat) :
    ((((x ||| X86_EFLAGS_TF) &&& unot X86_EFLAGS_IF) &&& unot X86_EFLAGS_TF) |||
      (x &&& (X86_EFLAGS_TF ||| X86_EFLAGS_IF))) &&& X86_EFLAGS_TF = x &&& X86_EFLAGS_TF := by
  have h1 : unot X86_EFLAGS_IF = 2 ^ 64 - (2 ^ 9 + 1) := by norm_num [unot, X86_EFLAGS_IF]
  have h2 : unot X86_EFLAGS_TF = 2 ^ 64 - (2 ^ 8 + 1) := by norm_num [unot, X86_EFLAGS_TF]
  have h3 : X86_EFLAGS_TF = 2 ^ 8 := by norm_num [X86_EFLAGS_TF]
  have h4 : X86_EFLAGS_IF = 2 ^ 9 := by norm_num [X86_EFLAGS_IF]
  rw [h1, h2, h3, h4]
  apply Nat.eq_of_testBit_eq
  intro i
  simp only [Nat.testBit_and, Nat.testBit_or, Nat.testBit_two_pow,
    Nat.testBit_two_pow_sub_succ (by norm_num : 2 ^ 9 < 2 ^ 64),
    Nat.testBit_two_pow_sub_succ (by norm_num : 2 ^ 8 < 2 ^ 64)]
  by_cases h : 8 = i
  · subst h
    simp
  · simp [h]

/-- The interrupt-enable flag of the saved flags after the fault handler and
then the trap handler is the one before the fault. -/
lemma flags_restore_if (x : Nat) :
    ((((x ||| X86_EFLAGS_TF) &&& unot X86_EFLAGS_IF) &&& unot X86_EFLAGS_TF) |||
      (x &&& (X86_EFLAGS_TF ||| X86_EFLAGS_IF))) &&& X86_EFLAGS_IF = x &&& X86_EFLAGS_IF := by
  have h1 : unot X86_EFLAGS_IF = 2 ^ 64 - (2 ^ 9 + 1) := by norm_num [unot, X86_EFLAGS_IF]
  have h2 : unot X86_EFLAGS_TF = 2 ^ 64 - (2 ^ 8 + 1) := by norm_num [unot, X86_EFLAGS_TF]
  have h3 : X86_EFLAGS_TF = 2 ^ 8 := by norm_num [X86_EFLAGS_TF]
  have h4 : X86_EFLAGS_IF = 2 ^ 9 := by norm_num [X86_EFLAGS_IF]
  rw [h1, h2, h3, h4]
  apply Nat.eq_of_testBit_eq
  intro i
  simp only [Nat.testBit_and, Nat.testBit_or, Nat.testBit_two_pow,
    Nat.testBit_two_pow_sub_succ (by norm_num : 2 ^ 9 < 2 ^ 64),
    Nat.testBit_two_pow_sub_succ (by norm_num : 2 ^ 8 < 2 ^ 64)]
  by_cases h : 9 = i
  · subst h
    simp
  · simp [h]

/-- Between the handlers the trap flag is set and the interrupt-enable flag is
clear. -/
lemma flags_stepping (x : Nat) :
    ((x ||| X86_EFLAGS_TF) &&& unot X86_EFLAGS_IF) &&& X86_EFLAGS_TF = X86_EFLAGS_TF ∧
    ((x ||| X86_EFLAGS_TF) &&& unot X86_EFLAGS_IF) &&& X86_EFLAGS_IF = 0 := by
  have h1 : unot X86_EFLAGS_IF = 2 ^ 64 - (2 ^ 9 + 1) := by norm_num [unot, X86_EFLAGS_IF]
  have h3 : X86_EFLAGS_TF = 2 ^ 8 := by norm_num [X86_EFLAGS_TF]
  have h4 : X86_EFLAGS_IF = 2 ^ 9 := by norm_num [X86_EFLAGS_IF]
  rw [h1, h3, h4]
  constructor
  · apply Nat.eq_of_testBit_eq
    intro i
    simp only [Nat.testBit_and, Nat.testBit_or, Nat.testBit_two_pow,
      Nat.testBit_two_pow_sub_succ (by norm_num : 2 ^ 9 < 2 ^ 64)]
    by_cases h : 8 = i
    · subst h
      simp
    · simp [h]
  · apply Nat.eq_of_testBit_eq
    intro i
    simp only [Nat.testBit_and, Nat.testBit_or, Nat.testBit_two_pow,
      Nat.testBit_two_pow_sub_succ (by norm_num : 2 ^ 9 < 2 ^ 64), Nat.zero_testBit]
    by_cases h : 9 = i
    · subst h
      simp
    · simp [h]

/-- The page that a call of `neon_page_arming` on page `i` of a map leaves at
index `i`. -/
lemma map_page_arming_same (arm m i : Nat) (s : control_state) :
    ((map_page_arming arm m i s).map m).page i =
      (neon_page_arming arm ((s.map m).page i) s.ptes).1 := by
  simp [map_page_arming]

/-- A call of `neon_page_arming` on page `i` of a map leaves its other pages
alone. -/
lemma map_page_arming_other (arm m i j : Nat) (s : control_state) (h : j ≠ i) :
    ((map_page_arming arm m i s).map m).page j = (s.map m).page j := by
  simp [map_page_arming, Function.update_noteq h]

/-- An arm leaves the page armed and on its page-table entry. -/
lemma neon_page_arming_arm (page : neon_page_t) (ptes : Nat → Nat) :
    (neon_page_arming 1 page ptes).1.armed = 1 ∧
    (neon_page_arming 1 page ptes).1.pte = page.pte := by
  unfold neon_page_arming
  rw [if_pos rfl]
  by_cases h : page.armed = 1
  · rw [if_pos h]
    exact ⟨h, rfl⟩
  · rw [if_neg h]
    exact ⟨rfl, rfl⟩

/-- An arm of a page that is not armed clears the present bit of its
page-table entry. -/
lemma neon_page_arming_arm_present (page : neon_page_t) (ptes : Nat → Nat)
    (h : page.armed ≠ 1) :
    (neon_page_arming 1 page ptes).2 page.pte &&& _PAGE_PRESENT = 0 := by
  unfold neon_page_arming
  rw [if_pos rfl, if_neg h]
  dsimp only
  rw [Function.update_same]
  exact land_unot_present _

/-- An arm sets no present bit. -/
lemma neon_page_arming_arm_clear (page : neon_page_t) (ptes : Nat → Nat) (a : Nat)
    (h : ptes a &&& _PAGE_PRESENT = 0) :
    (neon_page_arming 1 page ptes).2 a &&& _PAGE_PRESENT = 0 := by
  unfold neon_page_arming
  rw [if_pos rfl]
  by_cases hb : page.armed = 1
  · rw [if_pos hb]
    exact h
  · rw [if_neg hb]
    dsimp only
    by_cases ha : a = page.pte
    · rw [ha, Function.update_same]
      exact land_unot_present _
    · rw [Function.update_noteq ha]
      exact h

/-- A disarm of an armed page leaves it disarmed. -/
lemma neon_page_arming_disarm (page : neon_page_t) (ptes : Nat → Nat) (h : page.armed = 1) :
    (neon_page_arming 0 page ptes).1.armed = 0 ∧
    (neon_page_arming 0 page ptes).1.pte = page.pte ∧
    (neon_page_arming 0 page ptes).2 page.pte = ptes page.pte ||| page.saved_ptev := by
  unfold neon_page_arming
  rw [if_neg (by decide), if_neg (by rw [h]; decide)]
  dsimp only
  rw [Function.update_same]
  exact ⟨rfl, rfl, rfl⟩

/-- An arm of a page of a map leaves every armed page of the map armed. -/
lemma map_page_arming_keeps_armed (m i j : Nat) (s : control_state)
    (h : ((s.map m).page i).armed = 1) :
    (((map_page_arming 1 m j s).map m).page i).armed = 1 := by
  by_cases hij : i = j
  · rw [hij, map_page_arming_same]
    exact (neon_page_arming_arm _ _).1
  · rw [map_page_arming_other _ _ _ _ _ hij]
    exact h

/-- An arm of a page of a map leaves every page of the map on its page-table
entry. -/
lemma map_page_arming_keeps_pte (m i j : Nat) (s : control_state) :
    (((map_page_arming 1 m j s).map m).page i).pte = ((s.map m).page i).pte := by
  by_cases hij : i = j
  · rw [hij, map_page_arming_same]
    exact (neon_page_arming_arm _ _).2
  · rw [map_page_arming_other _ _ _ _ _ hij]

/-- The first element of a list with a property that only `c` has is `c`. -/
lemma find_unique (p : Nat → Bool) (c : Nat) (hp : p c = true) :
    ∀ (l : List Nat), c ∈ l → (∀ x ∈ l, p x = true → x = c) → l.find? p = some c := by
  intro l
  induction l with
  | nil => intro h _; exact absurd h (List.not_mem_nil _)
  | cons b l ih =>
    intro hc hu
    by_cases hb : p b = true
    · rw [List.find?_cons_of_pos _ hb, hu b (List.mem_cons_self _ _) hb]
    · rw [List.find?_cons_of_neg _ hb]
      have hcl : c ∈ l := by
        rcases List.mem_cons.mp hc with h | h
        · exact absurd (h ▸ hp) hb
        · exact h
      exact ih hcl (fun x hx => hu x (List.mem_cons_of_mem _ hx))

/-- The decoded record of a write. -/
lemma neon_fault_save_decode_write (ins : insn_decode) (regs : pt_regs) (addr m pn : Nat)
    (fault : neon_fault_t)
    (hw : ins.ins_type = .REG_WRITE ∨ ins.ins_type = .IMM_WRITE) :
    (neon_fault_save_decode ins regs addr m pn fault).op = 'W' ∧
    (neon_fault_save_decode ins regs addr m pn fault).val =
      (if ins.ins_type = .REG_WRITE then ins.reg_val else ins.imm_val) ∧
    (neon_fault_save_decode ins regs addr m pn fault).addr = addr ∧
    (neon_fault_save_decode ins regs addr m pn fault).flags = regs.flags ∧
    (neon_fault_save_decode ins regs addr m pn fault).page_num = pn ∧
    (neon_fault_save_decode ins regs addr m pn fault).map = m ∧
    (neon_fault_save_decode ins regs addr m pn fault).ip = regs.ip ∧
    (neon_fault_save_decode ins regs addr m pn fault).siamese = fault.siamese := by
  unfold neon_fault_save_decode
  rcases hw with h | h
  · rw [h]
    exact ⟨rfl, rfl, rfl, rfl, rfl, rfl, rfl, rfl⟩
  · rw [h]
    exact ⟨rfl, rfl, rfl, rfl, rfl, rfl, rfl, rfl⟩

/-- What `neon_fault_handler` leaves of a new fault that does not fail the
update of a work. -/
lemma fault_handler_new_spec (ins : insn_decode) (update_ret : Int) (regs : pt_regs)
    (addr : Nat) (t : fault_target) (s : control_state)
    (hgo : fault_handler_work t
        (upd_fault t.fault (neon_fault_save_decode ins regs addr t.fault_map t.fault_pidx) s) = 0 ∨
      update_ret = 0) :
    (fault_handler_new ins update_ret regs addr t s).1 = 0 ∧
    (fault_handler_new ins update_ret regs addr t s).2.1.flags =
      (regs.flags ||| X86_EFLAGS_TF) &&& unot X86_EFLAGS_IF ∧
    (fault_handler_new ins update_ret regs addr t s).2.2.cpu_neon_task = s.cpu_neon_task ∧
    (fault_handler_new ins update_ret regs addr t s).2.2.neon_task = s.neon_task ∧
    (fault_handler_new ins update_ret regs addr t s).2.2.ctx =
      Function.update s.ctx t.fault_ctx
        { s.ctx t.fault_ctx with fault_list := t.fault :: (s.ctx t.fault_ctx).fault_list } ∧
    (fault_handler_new ins update_ret regs addr t s).2.2.fault =
      Function.update s.fault t.fault
        (neon_fault_save_decode ins regs addr t.fault_map t.fault_pidx (s.fault t.fault)) ∧
    (fault_handler_new ins update_ret regs addr t s).2.2.map =
      (map_page_arming 0 t.fault_map t.fault_pidx s).map ∧
    (fault_handler_new ins update_ret regs addr t s).2.2.ptes =
      (map_page_arming 0 t.fault_map t.fault_pidx s).ptes := by
  unfold fault_handler_new
  dsimp only
  generalize fault_handler_work t
    (upd_fault t.fault (neon_fault_save_decode ins regs addr t.fault_map t.fault_pidx) s) = work
    at hgo ⊢
  have hno : ¬ (work ≠ 0 ∧ update_ret ≠ 0) := by
    rintro ⟨h1, h2⟩
    rcases hgo with h | h
    · exact h1 h
    · exact h2 h
  rw [if_neg hno]
  by_cases hw : work ≠ 0
  · rw [if_pos hw, if_pos hw]
    exact ⟨rfl, rfl, rfl, rfl, rfl, rfl, rfl, rfl⟩
  · rw [if_neg hw, if_neg hw]
    exact ⟨rfl, rfl, rfl, rfl, rfl, rfl, rfl, rfl⟩

/-- What `neon_trap_handler` leaves of the pending fault `f` of context `c`
when the scheduler asks to engage again. -/
lemma trap_handler_fault_spec (reengage : Int) (regs : pt_regs) (c f : Nat) (s : control_state)
    (hre : reengage ≠ 0) :
    (trap_handler_fault reengage regs c f s).1 = 0 ∧
    (trap_handler_fault reengage regs c f s).2.1.flags =
      (regs.flags &&& unot X86_EFLAGS_TF) |||
        ((s.fault f).flags &&& (X86_EFLAGS_TF ||| X86_EFLAGS_IF)) ∧
    ((trap_handler_fault reengage regs c f s).2.2.ctx c).fault_list =
      (s.ctx c).fault_list.erase f ∧
    (∀ c', c' ≠ c → (trap_handler_fault reengage regs c f s).2.2.ctx c' = s.ctx c') ∧
    ((trap_handler_fault reengage regs c f s).2.2.fault f).addr = 0 ∧
    ((trap_handler_fault reengage regs c f s).2.2.fault f).siamese = 0 ∧
    (((trap_handler_fault reengage regs c f s).2.2.map (s.fault f).map).page
      (s.fault f).page_num).armed = 1 ∧
    (((trap_handler_fault reengage regs c f s).2.2.map (s.fault f).map).page
      (s.fault f).page_num).pte = (((s.map (s.fault f).map).page (s.fault f).page_num).pte) ∧
    ((((s.map (s.fault f).map).page (s.fault f).page_num).armed ≠ 1) →
      (trap_handler_fault reengage regs c f s).2.2.ptes
        (((s.map (s.fault f).map).page (s.fault f).page_num).pte) &&& _PAGE_PRESENT = 0) := by
  unfold trap_handler_fault
  dsimp only
  rw [if_pos hre]
  have hf1 : (map_page_arming 1 (s.fault f).map (s.fault f).page_num s).fault = s.fault := rfl
  rw [hf1]
  by_cases hs : (s.fault f).siamese ≠ 0
  · rw [if_pos hs]
    refine ⟨rfl, ?_, ?_, fun c' hc' => ?_, ?_, ?_, ?_, ?_, fun hna => ?_⟩
    · simp [upd_fault, map_page_arming]
    · simp [upd_ctx, upd_fault, map_page_arming]
    · simp [upd_ctx, upd_fault, map_page_arming, Function.update_noteq hc']
    · simp [upd_ctx, upd_fault]
    · simp [upd_ctx, upd_fault]
    · show (((map_page_arming 1 (s.fault f).map (s.fault f).siamese
        (map_page_arming 1 (s.fault f).map (s.fault f).page_num s)).map (s.fault f).map).page
          (s.fault f).page_num).armed = 1
      apply map_page_arming_keeps_armed
      rw [map_page_arming_same]
      exact (neon_page_arming_arm _ _).1
    · show (((map_page_arming 1 (s.fault f).map (s.fault f).siamese
        (map_page_arming 1 (s.fault f).map (s.fault f).page_num s)).map (s.fault f).map).page
          (s.fault f).page_num).pte = _
      rw [map_page_arming_keeps_pte, map_page_arming_keeps_pte]
    · show (neon_page_arming 1 _ (neon_page_arming 1 _ s.ptes).2).2 _ &&& _PAGE_PRESENT = 0
      apply neon_page_arming_arm_clear
      exact neon_page_arming_arm_present _ _ hna
  · rw [if_neg hs]
    rw [not_not] at hs
    refine ⟨rfl, rfl, ?_, fun c' hc' => ?_, ?_, ?_, ?_, ?_, fun hna => ?_⟩
    · simp [upd_ctx, upd_fault, map_page_arming]
    · simp [upd_ctx, upd_fault, map_page_arming, Function.update_noteq hc']
    · simp [upd_ctx, upd_fault]
    · simp [upd_ctx, upd_fault, map_page_arming, hs]
    · show (((map_page_arming 1 (s.fault f).map (s.fault f).page_num s).map
        (s.fault f).map).page (s.fault f).page_num).armed = 1
      rw [map_page_arming_same]
      exact (neon_page_arming_arm _ _).1
    · show (((map_page_arming 1 (s.fault f).map (s.fault f).page_num s).map
        (s.fault f).map).page (s.fault f).page_num).pte = _
      rw [map_page_arming_keeps_pte]
    · show (neon_page_arming 1 _ s.ptes).2 _ &&& _PAGE_PRESENT = 0
      exact neon_page_arming_arm_present _ _ hna

/-- C26 (amended): for a tracked, armed page of a map in a task whose contexts
have no pending fault, `neon_fault_handler` for a write at an address in that
page, when the write does not fail the update of a work (the map is not the
index register of a work of the context, or `neon_work_update` returns 0), and
then `neon_trap_handler` (with the policy answering re-engage, as FCFS always
does) leave: the fault list of every context empty again with the map's fault
record cleared (`addr = 0`), the page armed with the present bit of its
page-table entry clear, and the trap and interrupt-enable bits of the saved CPU
flags equal to their values before the fault; between the two handlers the page
is disarmed, the trap flag is set and the interrupt flag is clear, the record
is the only pending fault of the context and holds the decoded written
value. -/
theorem fault_then_trap_cycle (s : control_state) (cur : Nat) (ins : insn_decode)
    (update_ret reengage : Int) (regs : pt_regs) (addr c m f : Nat) (vma : vm_area_struct)
    (r1 r2 : Int × pt_regs × control_state)
    (htask : s.cpu_neon_task cur ≠ 0)
    (hnone : ∀ c' ∈ (s.neon_task (s.cpu_neon_task cur)).ctx_list, (s.ctx c').fault_list = [])
    (hc : c ∈ (s.neon_task (s.cpu_neon_task cur)).ctx_list)
    (hfind : (s.ctx c).map_list.find? (fault_in_map s addr) = some m)
    (hother : ∀ c' ∈ (s.neon_task (s.cpu_neon_task cur)).ctx_list, c' ≠ c →
      (s.ctx c').map_list.find? (fault_in_map s addr) = none)
    (hvma : (s.map m).vma = some vma) (hf : (s.map m).fault = f) (hf0 : f ≠ 0)
    (harmed : ((s.map m).page ((addr - vma.vm_start) / PAGE_SIZE)).armed = 1)
    (hwrite : ins.ins_type = .REG_WRITE ∨ ins.ins_type = .IMM_WRITE)
    (hwork : update_ret = 0 ∨ (s.map m).offset = 0 ∨ (s.map m).mmio_gpu ≠ 0 ∨
      ∀ w ∈ (s.ctx c).work_list, s.work_ir w ≠ m)
    (hre : reengage ≠ 0)
    (h1 : r1 = neon_fault_handler cur ins update_ret regs addr s)
    (h2 : r2 = neon_trap_handler cur reengage r1.2.1 r1.2.2) :
    (r1.1 = 0 ∧
      ((r1.2.2.map m).page ((addr - vma.vm_start) / PAGE_SIZE)).armed = 0 ∧
      r1.2.1.flags &&& X86_EFLAGS_TF = X86_EFLAGS_TF ∧
      r1.2.1.flags &&& X86_EFLAGS_IF = 0 ∧
      (r1.2.2.ctx c).fault_list = [f] ∧
      (r1.2.2.fault f).op = 'W' ∧
      (r1.2.2.fault f).val =
        (if ins.ins_type = .REG_WRITE then ins.reg_val else ins.imm_val) ∧
      (r1.2.2.fault f).addr = addr) ∧
    (r2.1 = 0 ∧
      (∀ c' ∈ (s.neon_task (s.cpu_neon_task cur)).ctx_list, (r2.2.2.ctx c').fault_list = []) ∧
      (r2.2.2.fault f).addr = 0 ∧
      ((r2.2.2.map m).page ((addr - vma.vm_start) / PAGE_SIZE)).armed = 1 ∧
      page_present ((r2.2.2.map m).page ((addr - vma.vm_start) / PAGE_SIZE)) r2.2.2.ptes = 0 ∧
      r2.2.1.flags &&& X86_EFLAGS_TF = regs.flags &&& X86_EFLAGS_TF ∧
      r2.2.1.flags &&& X86_EFLAGS_IF = regs.flags &&& X86_EFLAGS_IF) := by
  have hstart : map_vm_start s m = vma.vm_start := by
    unfold map_vm_start
    rw [hvma]
  have hlook : neon_fault_lookup s addr (s.neon_task (s.cpu_neon_task cur)).ctx_list =
      { fault_ctx := c, fault_map := m, fault_pidx := (addr - vma.vm_start) / PAGE_SIZE,
        fault := f } := by
    unfold neon_fault_lookup
    rw [neon_fault_lookup_unique s addr c m hfind _ _ hother, if_pos hc, hstart, hf]
  have hnew : r1 = fault_handler_new ins update_ret regs addr
      { fault_ctx := c, fault_map := m, fault_pidx := (addr - vma.vm_start) / PAGE_SIZE,
        fault := f } s := by
    rw [h1]
    unfold neon_fault_handler
    rw [if_neg htask]
    dsimp only
    rw [hlook]
    dsimp only
    rw [if_neg hf0, if_neg (by rw [hnone c hc]; exact List.not_mem_nil _)]
  obtain ⟨d1, d2, d3, d4, d5, d6, d7, d8⟩ := neon_fault_save_decode_write ins regs addr m
    ((addr - vma.vm_start) / PAGE_SIZE) (s.fault f) hwrite
  have hgo : fault_handler_work
      { fault_ctx := c, fault_map := m, fault_pidx := (addr - vma.vm_start) / PAGE_SIZE,
        fault := f }
      (upd_fault f (neon_fault_save_decode ins regs addr m
        ((addr - vma.vm_start) / PAGE_SIZE)) s) = 0 ∨ update_ret = 0 := by
    rcases hwork with h | h | h | h
    · exact Or.inr h
    · left
      unfold fault_handler_work
      rw [if_neg]
      intro hh
      exact hh.2.1 h
    · left
      unfold fault_handler_work
      rw [if_neg]
      intro hh
      exact h hh.2.2
    · left
      unfold fault_handler_work
      split_ifs
      · have hnf : (s.ctx c).work_list.find? (fun w => decide (s.work_ir w = m)) = none := by
          rw [List.find?_eq_none]
          intro w hw
          simpa using h w hw
        show (((s.ctx c).work_list.find? (fun w => decide (s.work_ir w = m))).getD 0) = 0
        rw [hnf]
        rfl
      · rfl
  obtain ⟨n1, n2, n3, n4, n5, n6, n7, n8⟩ := fault_handler_new_spec ins update_ret regs addr
    { fault_ctx := c, fault_map := m, fault_pidx := (addr - vma.vm_start) / PAGE_SIZE,
      fault := f } s hgo
  rw [← hnew] at n1 n2 n3 n4 n5 n6 n7 n8
  dsimp only at n5 n6 n7 n8
  have hrec : r1.2.2.fault f = neon_fault_save_decode ins regs addr m
      ((addr - vma.vm_start) / PAGE_SIZE) (s.fault f) := by
    rw [n6, Function.update_same]
  have hctxc : (r1.2.2.ctx c).fault_list = [f] := by
    rw [n5, Function.update_same]
    dsimp only
    rw [hnone c hc]
  have hctxo : ∀ c', c' ≠ c → r1.2.2.ctx c' = s.ctx c' := by
    intro c' hc'
    rw [n5, Function.update_noteq hc']
  have hpage1 : (r1.2.2.map m).page ((addr - vma.vm_start) / PAGE_SIZE) =
      (neon_page_arming 0 ((s.map m).page ((addr - vma.vm_start) / PAGE_SIZE)) s.ptes).1 := by
    rw [n7, map_page_arming_same]
  obtain ⟨q1, q2, _⟩ := neon_page_arming_disarm
    ((s.map m).page ((addr - vma.vm_start) / PAGE_SIZE)) s.ptes harmed
  have hbetween := flags_stepping regs.flags
  refine ⟨⟨n1, by rw [hpage1]; exact q1, by rw [n2]; exact hbetween.1,
    by rw [n2]; exact hbetween.2, hctxc, by rw [hrec]; exact d1, by rw [hrec]; exact d2,
    by rw [hrec]; exact d3⟩, ?_⟩
  have hfindc : (s.neon_task (s.cpu_neon_task cur)).ctx_list.find?
      (fun x => decide ((r1.2.2.ctx x).fault_list ≠ [])) = some c := by
    apply find_unique _ c _ _ hc
    · intro x hx hp
      by_contra hne
      rw [hctxo x hne, hnone x hx] at hp
      simp at hp
    · rw [hctxc]
      simp
  have htrap : r2 = trap_handler_fault reengage r1.2.1 c f r1.2.2 := by
    rw [h2]
    unfold neon_trap_handler
    rw [n3, if_neg htask, n4, hfindc]
    dsimp only
    rw [hctxc]
    rfl
  obtain ⟨t1, t2, t3, t4, t5, _, t7, t8, t9⟩ :=
    trap_handler_fault_spec reengage r1.2.1 c f r1.2.2 hre
  rw [← htrap] at t1 t2 t3 t4 t5 t7 t8 t9
  rw [hrec] at t2 t7 t8 t9
  rw [d4] at t2
  rw [d5, d6] at t7 t8 t9
  rw [hpage1] at t8 t9
  rw [q2] at t8 t9
  refine ⟨t1, fun c' hc' => ?_, t5, t7, ?_, ?_, ?_⟩
  · by_cases hcc : c' = c
    · rw [hcc, t3, hctxc]
      simp
    · rw [t4 c' hcc, hctxo c' hcc]
      exact hnone c' hc'
  · unfold page_present
    rw [t8]
    exact t9 (by rw [q1]; decide)
  · rw [t2, n2]
    exact flags_restore_tf regs.flags
  · rw [t2, n2]
    exact flags_restore_if regs.flags

/-- C26 witness: a write to the second page of the example map, under FCFS. -/
theorem fault_then_trap_cycle_witness :
    ((neon_trap_handler 1 (reengage_map_fcfs 3000)
        (neon_fault_handler 1 example_write 0 example_regs 0x7f0000001004
          (example_track 0x1000)).2.1
        (neon_fault_handler 1 example_write 0 example_regs 0x7f0000001004
          (example_track 0x1000)).2.2).2.2.fault 4000).addr = 0 ∧
    (((neon_trap_handler 1 (reengage_map_fcfs 3000)
        (neon_fault_handler 1 example_write 0 example_regs 0x7f0000001004
          (example_track 0x1000)).2.1
        (neon_fault_handler 1 example_write 0 example_regs 0x7f0000001004
          (example_track 0x1000)).2.2).2.2.map 3000).page
      ((0x7f0000001004 - 0x7f0000000000) / PAGE_SIZE)).armed = 1 :=
  ⟨(fault_then_trap_cycle (example_track 0x1000) 1 example_write 0 (reengage_map_fcfs 3000)
      example_regs 0x7f0000001004 2000 3000 4000
      { vm_start := 0x7f0000000000, vm_end := 0x7f0000002000 } _ _
      (by decide!) (by decide!) (by decide!) (by decide!) (by decide!) (by decide!) (by decide!)
      (by decide!) (by decide!) (by decide!) (Or.inl (by decide!)) (by decide!) rfl rfl).2.2.2.1,
    (fault_then_trap_cycle (example_track 0x1000) 1 example_write 0 (reengage_map_fcfs 3000)
      example_regs 0x7f0000001004 2000 3000 4000
      { vm_start := 0x7f0000000000, vm_end := 0x7f0000002000 } _ _
      (by decide!) (by decide!) (by decide!) (by decide!) (by decide!) (by decide!) (by decide!)
      (by decide!) (by decide!) (by decide!) (Or.inl (by decide!)) (by decide!) rfl
      rfl).2.2.2.2.1⟩

/-- C26 counterexample: the map is the index register of a work whose update
fails. The page is armed, no fault is pending and the instruction is a write,
yet after `neon_fault_handler` the page is still armed, the trap flag is not
set and the handler has returned -1. -/
theorem fault_handler_update_failure :
    (example_track 0x1000).cpu_neon_task 1 = 1000 ∧
    ((example_track 0x1000).neon_task 1000).ctx_list = [2000] ∧
    ((example_track 0x1000).ctx 2000).fault_list = [] ∧
    (((example_track 0x1000).map 3000).page 1).armed = 1 ∧
    example_write.ins_type = .REG_WRITE ∧
    (neon_fault_handler 1 example_write (-1) example_regs 0x7f0000001004
      (example_track 0x1000)).1 = -1 ∧
    (((neon_fault_handler 1 example_write (-1) example_regs 0x7f0000001004
      (example_track 0x1000)).2.2.map 3000).page 1).armed = 1 ∧
    (neon_fault_handler 1 example_write (-1) example_regs 0x7f0000001004
      (example_track 0x1000)).2.1.flags &&& X86_EFLAGS_TF = 0 := by
  decide!

/-! ### Index registers by offset -/

/-- A device that the loop of `neon_hash_map_offset` stops at has the address
inside its register area: the channel id computed is one of its channels. -/
lemma hash_map_offset_hit_bound (g : neon_global_t) (address i : Nat)
    (hofs : 0 < (g.dev i).reg_ofs) (hbase : (g.dev i).reg_base < 2 ^ 64)
    (h : hash_map_offset_hit g address i = true) :
    (address - (g.dev i).reg_base) / (g.dev i).reg_ofs < (g.dev i).nchan := by
  unfold hash_map_offset_hit at h
  simp only [decide_eq_true_eq] at h
  obtain ⟨h1, h2, _⟩ := h
  unfold uadd umul at h2
  have hP : (g.dev i).nchan * (g.dev i).reg_ofs % 2 ^ 64 ≤ (g.dev i).nchan * (g.dev i).reg_ofs :=
    Nat.mod_le _ _
  have hPlt : (g.dev i).nchan * (g.dev i).reg_ofs % 2 ^ 64 < 2 ^ 64 :=
    Nat.mod_lt _ (by norm_num)
  generalize (g.dev i).nchan * (g.dev i).reg_ofs % 2 ^ 64 = P at h2 hP hPlt
  have hlt : address - (g.dev i).reg_base < (g.dev i).nchan * (g.dev i).reg_ofs := by
    by_cases hw : (g.dev i).reg_base + P < 2 ^ 64
    · rw [Nat.mod_eq_of_lt hw] at h2
      omega
    · have hsub : ((g.dev i).reg_base + P) % 2 ^ 64 = (g.dev i).reg_base + P - 2 ^ 64 := by
        rw [Nat.mod_eq_sub_mod (by omega), Nat.mod_eq_of_lt (by omega)]
      rw [hsub] at h2
      omega
  exact (Nat.div_lt_iff_lt_mul hofs).mpr hlt

/-- The register range of a channel other than channel 0 passes the test of
`neon_hash_map_offset` on its device. -/
lemma hash_map_offset_hit_chan (g : neon_global_t) (d c : Nat) (hc1 : 1 ≤ c)
    (hc : c < (g.dev d).nchan) (hofs : 0 < (g.dev d).reg_ofs)
    (hal : (g.dev d).reg_base % (g.dev d).reg_ofs = 0)
    (htop : (g.dev d).reg_base + (g.dev d).nchan * (g.dev d).reg_ofs < 2 ^ 64) :
    hash_map_offset_hit g (chan_reg_offset g d c) d = true ∧
    chan_reg_offset g d c = (g.dev d).reg_base + c * (g.dev d).reg_ofs := by
  have hmul : c * (g.dev d).reg_ofs < (g.dev d).nchan * (g.dev d).reg_ofs :=
    Nat.mul_lt_mul_of_pos_right hc hofs
  have hpos : 0 < c * (g.dev d).reg_ofs := Nat.mul_pos hc1 hofs
  have hoff : chan_reg_offset g d c = (g.dev d).reg_base + c * (g.dev d).reg_ofs := by
    unfold chan_reg_offset uadd umul
    rw [Nat.mod_eq_of_lt (a := c * (g.dev d).reg_ofs) (by omega), Nat.mod_eq_of_lt (by omega)]
  refine ⟨?_, hoff⟩
  rw [hoff]
  unfold hash_map_offset_hit uadd umul
  simp only [decide_eq_true_eq]
  rw [Nat.mod_eq_of_lt (a := (g.dev d).nchan * (g.dev d).reg_ofs) (by omega),
    Nat.mod_eq_of_lt htop]
  refine ⟨by omega, by omega, ?_⟩
  rw [Nat.add_mul_mod_self_right]
  exact hal

/-- The loop of `neon_hash_map_offset` stops at the first device that passes
the test. -/
lemma find_range_first (f : Nat → Bool) (n d : Nat) (hd : d < n) (hf : f d = true)
    (hbefore : ∀ i, i < d → f i = false) : (List.range n).find? f = some d := by
  induction n with
  | zero => omega
  | succ n ih =>
    rw [List.range_succ, List.find?_append]
    by_cases hdn : d < n
    · rw [ih hdn]
      rfl
    · have hdn2 : d = n := by omega
      subst hdn2
      have hnone : (List.range d).find? f = none := by
        rw [List.find?_eq_none]
        intro x hx
        rw [List.mem_range] at hx
        simp [hbefore x hx]
      rw [hnone]
      simp [hf]

/-- The register offset of channel 0 of a device is the bottom of the register
area: it fails the test of `neon_hash_map_offset` on the device. -/
lemma hash_map_offset_hit_chan_zero (g : neon_global_t) (d : Nat)
    (hbase : (g.dev d).reg_base < 2 ^ 64) :
    hash_map_offset_hit g (chan_reg_offset g d 0) d = false := by
  have hoff : chan_reg_offset g d 0 = (g.dev d).reg_base := by
    unfold chan_reg_offset uadd umul
    rw [Nat.zero_mul, Nat.zero_mod, Nat.add_zero]
    exact Nat.mod_eq_of_lt hbase
  rw [hoff]
  unfold hash_map_offset_hit
  simp

/-- What `neon_hash_map_offset` does on the register offsets of the channels
of an initialised device `d` (its register area below 2^64, its base a
multiple of the register offset) that is the first to hold them: the offset of
every channel from 1 on yields the device and the channel; the offset of
channel 0 yields them on no device with this base, and -1 when the device is
the only one. -/
lemma neon_hash_map_offset_chan (g : neon_global_t) (d c did cid : Nat) (hd : d < g.ndev)
    (hc : c < (g.dev d).nchan) (hn : (g.dev d).nchan < 2 ^ 32) (hofs : 0 < (g.dev d).reg_ofs)
    (hal : (g.dev d).reg_base % (g.dev d).reg_ofs = 0)
    (htop : (g.dev d).reg_base + (g.dev d).nchan * (g.dev d).reg_ofs < 2 ^ 64)
    (hbefore : ∀ i, i < d → hash_map_offset_hit g (chan_reg_offset g d c) i = false) :
    (1 ≤ c → neon_hash_map_offset g (chan_reg_offset g d c) did cid = (0, d, c)) ∧
    (c = 0 → g.ndev = 1 → neon_hash_map_offset g (chan_reg_offset g d c) did cid =
      (-1, did, cid)) := by
  constructor
  · intro hc1
    obtain ⟨hhit, hoff⟩ := hash_map_offset_hit_chan g d c hc1 hc hofs hal htop
    unfold neon_hash_map_offset
    rw [find_range_first _ _ d hd hhit hbefore]
    simp only
    rw [hoff, Nat.add_sub_cancel_left, Nat.mul_div_cancel _ hofs]
    unfold u32
    rw [Nat.mod_eq_of_lt (by omega)]
  · intro hc0 hn1
    subst hc0
    have hd0 : d = 0 := by omega
    subst hd0
    have hmiss := hash_map_offset_hit_chan_zero g 0 (by omega)
    unfold neon_hash_map_offset
    rw [hn1]
    simp [List.range_succ, hmiss]

/-- C37: for every address and every set of initialised devices with
`reg_ofs > 0` (the register bases being unsigned longs), whenever
`neon_hash_map_offset` returns success the device id it returns is below
`ndev` and the channel id is below `nchan` of that device; the function
returns -1 otherwise and leaves the two as they were. -/
theorem neon_hash_map_offset_in_bounds (g : neon_global_t) (address did cid : Nat)
    (hdev : ∀ i, i < g.ndev → 0 < (g.dev i).reg_ofs ∧ (g.dev i).reg_base < 2 ^ 64) :
    ((neon_hash_map_offset g address did cid).1 = 0 →
      (neon_hash_map_offset g address did cid).2.1 < g.ndev ∧
      (neon_hash_map_offset g address did cid).2.2 <
        (g.dev (neon_hash_map_offset g address did cid).2.1).nchan) ∧
    ((neon_hash_map_offset g address did cid).1 ≠ 0 →
      neon_hash_map_offset g address did cid = (-1, did, cid)) := by
  unfold neon_hash_map_offset
  cases hfind : (List.range g.ndev).find? (hash_map_offset_hit g address) with
  | none =>
    simp
  | some i =>
    have hi : i < g.ndev := List.mem_range.mp (List.mem_of_find?_eq_some hfind)
    have hhit : hash_map_offset_hit g address i = true := List.find?_some hfind
    have hb := hash_map_offset_hit_bound g address i (hdev i hi).1 (hdev i hi).2 hhit
    simp only [ne_eq, not_true_eq_false, false_implies, and_true]
    intro _
    refine ⟨hi, lt_of_le_of_lt ?_ hb⟩
    unfold u32
    exact Nat.mod_le _ _

/-- C37 witness: on the example device (8 channels of `0x2000` bytes from
`0xc00000`) the offset `0xc06000` is that of channel 3. -/
theorem neon_hash_map_offset_in_bounds_witness :
    neon_hash_map_offset example_global 0xc06000 7 7 = (0, 0, 3) ∧
    (0 : Nat) < example_global.ndev ∧ 3 < (example_global.dev 0).nchan := by
  have h := (neon_hash_map_offset_in_bounds example_global 0xc06000 7 7
    (fun _ _ => ⟨by norm_num [example_global, example_dev],
      by norm_num [example_global, example_dev]⟩)).1
  have he : neon_hash_map_offset example_global 0xc06000 7 7 = (0, 0, 3) := by decide!
  rw [he] at h
  exact ⟨he, h rfl⟩

/-- C36, the failing input: on the example device the register offset of
channel 0 is `0xc00000`, the base of the register area; `neon_hash_map_offset`
returns -1 for it and leaves the device and channel ids of the caller alone,
where the offset of channel 1 yields device 0 and channel 1. -/
theorem neon_hash_map_offset_rejects_channel_zero :
    chan_reg_offset example_global 0 0 = 0xc00000 ∧
    neon_hash_map_offset example_global (chan_reg_offset example_global 0 0) 7 7 = (-1, 7, 7) ∧
    neon_hash_map_offset example_global (chan_reg_offset example_global 0 1) 7 7 = (0, 0, 1) := by
  decide!

/-! ### Device and global cleanup -/

/-- With no live context `neon_global_fini` resets `ndev` before its device
loop, which then has no turn: no device is finalised, the device array is
freed and 0 returned. -/
lemma neon_global_fini_idle (g : neon_global_t) (h : g.ctx_live = 0) :
    neon_global_fini g = (0, { g with ndev := 0 }, [.kfree_dev]) := by
  unfold neon_global_fini
  rw [if_neg (by omega)]
  rfl

/-- With a live context `neon_global_fini` returns -1 and changes nothing. -/
lemma neon_global_fini_live (g : neon_global_t) (h : 0 < g.ctx_live) :
    neon_global_fini g = (-1, g, []) := by
  unfold neon_global_fini
  rw [if_pos h]

/-- C40, the failing input: one initialised device with its eight index
registers mapped and no live context. `neon_dev_fini` on the device unmaps the
eight registers and frees the bitmap and the channel array, ten calls;
`neon_global_fini` returns 0 having made one call, the `kfree` of the device
array, and leaves the channels of the device mapped. With a live context it
returns -1 and changes nothing. -/
theorem neon_global_fini_skips_devices :
    example_global_idle.ndev = 1 ∧ example_global_idle.ctx_live = 0 ∧
    (neon_dev_fini (example_global_idle.dev 0)).1 = 0 ∧
    (neon_dev_fini (example_global_idle.dev 0)).2.2.length = 10 ∧
    (neon_global_fini example_global_idle).1 = 0 ∧
    (neon_global_fini example_global_idle).2.2 = [.kfree_dev] ∧
    (neon_global_fini example_global_idle).2.1.ndev = 0 ∧
    (((neon_global_fini example_global_idle).2.1.dev 0).chan 3).ir_kvaddr =
      0xffffc90000003000 ∧
    (∀ g : neon_global_t, 0 < g.ctx_live → neon_global_fini g = (-1, g, [])) := by
  refine ⟨rfl, rfl, by decide!, by decide!, ?_, ?_, ?_, ?_, neon_global_fini_live⟩
  · rw [neon_global_fini_idle _ rfl]
  · rw [neon_global_fini_idle _ rfl]
  · rw [neon_global_fini_idle _ rfl]
  · rw [neon_global_fini_idle _ rfl]
    decide!

/-! ### The unwinding loop of `neon_dev_init` -/

/-- A channel fails to initialise exactly when its index register cannot be
mapped. -/
lemma neon_chan_init_fails_iff (io : Nat → Nat) (dev : neon_dev_t) (cid : Nat) :
    (neon_chan_init io dev cid).1 ≠ 0 ↔
      io (uadd (uadd dev.reg_base (umul cid dev.reg_ofs)) NEON_RB_PAGEOFS) = 0 := by
  unfold neon_chan_init
  simp only [upd_dev_chan, Function.update_same]
  split_ifs with h
  · simp [h]
  · simp [h]

/-- When the index register of some channel cannot be mapped, the channel loop
of `neon_dev_init` is left before the last channel. -/
lemma neon_dev_init_loop_fail (io : Nat → Nat) :
    ∀ (fuel i : Nat) (dev : neon_dev_t), dev.nchan < 2 ^ 32 → dev.nchan ≤ i + fuel →
      (∃ k, i ≤ k ∧ k < dev.nchan ∧
        io (uadd (uadd dev.reg_base (umul k dev.reg_ofs)) NEON_RB_PAGEOFS) = 0) →
      (neon_dev_init_loop io fuel i dev).1 < dev.nchan := by
  intro fuel
  induction fuel with
  | zero =>
    intro i dev _ h1 hk
    obtain ⟨k, h2, h3, _⟩ := hk
    omega
  | succ n ih =>
    intro i dev h32 h1 hk
    obtain ⟨k, h2, h3, h4⟩ := hk
    have hi : i < dev.nchan := by omega
    have hl := neon_chan_init_layout io dev i
    unfold neon_dev_init_loop
    rw [if_pos hi]
    by_cases hf : (neon_chan_init io dev i).1 ≠ 0
    · rw [if_pos hf]
      exact hi
    · rw [if_neg hf]
      have hki : k ≠ i := by
        intro e
        rw [e] at h4
        exact hf ((neon_chan_init_fails_iff io dev i).mpr h4)
      have hu : u32 (i + 1) = i + 1 := by
        unfold u32
        exact Nat.mod_eq_of_lt (by omega)
      rw [hu]
      have := ih (i + 1) (neon_chan_init io dev i).2 (by rw [hl.1]; exact h32)
        (by rw [hl.1]; omega) ⟨k, by omega, by rw [hl.1]; exact h3, by rw [hl.2.1, hl.2.2]; exact h4⟩
      rw [hl.1] at this
      exact this

/-- When the layout of the device is known, both allocations succeed and the
index register of one of the channels cannot be mapped, `neon_dev_init` enters
its unwinding loop and returns nothing. -/
lemma neon_dev_init_chan_fail (io : Nat → Nat) (id : Nat) (dev_info : Nat → Nat)
    (dev dev1 : neon_dev_t)
    (hl : neon_dev_layout (u64 (dev_info 0)) (u64 (dev_info 2)) (u32 (dev_info 4))
      (u32 (dev_info 5)) (u32 (dev_info 6)) { dev with id := id } = some dev1)
    (hn : dev1.nchan < 2 ^ 32) (k : Nat) (hk : k < dev1.nchan)
    (hio : io (uadd (uadd dev1.reg_base (umul k dev1.reg_ofs)) NEON_RB_PAGEOFS) = 0) :
    neon_dev_init io true true id dev_info dev = none := by
  unfold neon_dev_init
  simp only [hl]
  rw [if_neg (by simp), if_neg (by simp), if_pos]
  have := neon_dev_init_loop_fail io dev1.nchan 0
    { dev1 with bmp_sub2comp := fun _ => false, chan := fun _ => neon_chan_zero } hn (by simp)
    ⟨k, Nat.zero_le _, hk, hio⟩
  exact Nat.ne_of_lt this

/-- The unwinding loop of `neon_dev_init` is never left: the test `i >= 0` of
an `unsigned int` holds in every turn. -/
lemma neon_dev_init_unwind_never_left :
    ∀ (fuel i : Nat) (dev : neon_dev_t) (seen : List Nat),
      (neon_dev_init_unwind fuel i dev seen).1 = false := by
  intro fuel
  induction fuel with
  | zero => intro i dev seen; rfl
  | succ n ih =>
    intro i dev seen
    unfold neon_dev_init_unwind
    rw [if_pos (Nat.zero_le i)]
    exact ih _ _ _

/-- The indices that the unwinding loop hands to `neon_chan_fini` in its first
turns: the index handed out so far is kept, and a loop entered with `i = 0`
hands out `2 ^ 32 - 1` first. -/
lemma neon_dev_init_unwind_seen :
    ∀ (fuel i : Nat) (dev : neon_dev_t) (seen : List Nat), i < 2 ^ 32 → i < fuel →
      2 ^ 32 - 1 ∈ (neon_dev_init_unwind fuel i dev seen).2.2 ∧
      ∀ x ∈ seen, x ∈ (neon_dev_init_unwind fuel i dev seen).2.2 := by
  have hkeep : ∀ (fuel i : Nat) (dev : neon_dev_t) (seen : List Nat),
      ∀ x ∈ seen, x ∈ (neon_dev_init_unwind fuel i dev seen).2.2 := by
    intro fuel
    induction fuel with
    | zero => intro i dev seen x hx; exact hx
    | succ n ih =>
      intro i dev seen x hx
      unfold neon_dev_init_unwind
      rw [if_pos (Nat.zero_le i)]
      exact ih _ _ _ x (List.mem_append_left _ hx)
  intro fuel
  induction fuel with
  | zero => intro i dev seen _ h; omega
  | succ n ih =>
    intro i dev seen h32 hi
    refine ⟨?_, hkeep _ _ _ _⟩
    unfold neon_dev_init_unwind
    rw [if_pos (Nat.zero_le i)]
    by_cases h0 : i = 0
    · subst h0
      have hu : u32 (0 + (2 ^ 32 - 1)) = 2 ^ 32 - 1 := by
        unfold u32
        norm_num
      simp only [hu]
      exact hkeep _ _ _ _ _ (List.mem_append_right _ (List.mem_singleton.mpr rfl))
    · have hu : u32 (i + (2 ^ 32 - 1)) = i - 1 := by
        unfold u32
        omega
      simp only [hu]
      exact (ih (i - 1) _ _ (by omega) (by omega)).1

/-- C34, the failing input: a GTX275 both of whose allocations succeed and
whose first index register cannot be mapped, channel 0 failing. `neon_dev_init`
returns nothing: its unwinding loop is not left however many turns it is
given, for any index it is entered with; entered with `i = 0` it hands
`neon_chan_fini` the index `2 ^ 32 - 1` in its first turn, far beyond the 64
channels of the device, and entered with `i = 2` it finalises channels 1 and 0,
not channel 2, before that. -/
theorem neon_dev_init_unwind_runs_away :
    neon_dev_init (fun _ => 0) true true 0 example_dev_info example_dev = none ∧
    (∀ (fuel i : Nat) (dev : neon_dev_t), (neon_dev_init_unwind fuel i dev []).1 = false) ∧
    (∀ dev : neon_dev_t, (neon_dev_init_unwind 1 0 dev []).2.2 = [4294967295]) ∧
    (∀ dev : neon_dev_t, (neon_dev_init_unwind 3 2 dev []).2.2 = [1, 0, 4294967295]) ∧
    (∀ (fuel i : Nat) (dev : neon_dev_t), i < 2 ^ 32 → i < fuel →
      2 ^ 32 - 1 ∈ (neon_dev_init_unwind fuel i dev []).2.2) := by
  refine ⟨?_, fun fuel i dev => neon_dev_init_unwind_never_left fuel i dev [], ?_, ?_,
    fun fuel i dev h1 h2 => (neon_dev_init_unwind_seen fuel i dev [] h1 h2).1⟩
  · have hl := neon_dev_layout_gtx275 (u64 (example_dev_info 0)) (u64 (example_dev_info 2))
      { example_dev with id := 0 }
    exact neon_dev_init_chan_fail (fun _ => 0) 0 example_dev_info example_dev _ hl
      (by norm_num) 0 (by norm_num) rfl
  · intro dev
    simp [neon_dev_init_unwind, u32]
  · intro dev
    simp [neon_dev_init_unwind, u32]

/-! ### The drain countdown below zero -/

/-- In season DRAINING with the countdown at 0, `complete_sampling` for a
heeded, engaged work decrements the `unsigned int` countdown to `2 ^ 32 - 1`;
the test `<= 0` then fails and nobody is woken. -/
lemma complete_sampling_draining_zero (g : neon_global_t) (did cid st : Nat) (p : sched_state)
    (hs : DFQ_season p did = DFQ_TASK_DRAINING)
    (hw : ((p.sched_dev_array did).swork_array cid).ps.smpl.heed ≠ 0 ∧
      ((p.sched_dev_array did).swork_array cid).ps.smpl.engage ≠ 0)
    (hn : DFQ_countdown p did = 0) :
    complete_sampling g did cid st p =
      upd_smpl_dev did (fun d => { d with countdown := 2 ^ 32 - 1 }) (tick p) := by
  have hw' : ¬ (((p.sched_dev_array did).swork_array cid).ps.smpl.heed = 0 ∨
      ((p.sched_dev_array did).swork_array cid).ps.smpl.engage = 0) := by
    rintro (h | h)
    · exact hw.1 h
    · exact hw.2 h
  have hsT : ((tick p).sched_dev_array did).ps.smpl.season = DFQ_TASK_DRAINING := hs
  have hu : u32 (((tick p).sched_dev_array did).ps.smpl.countdown + (2 ^ 32 - 1)) =
      2 ^ 32 - 1 := by
    have e : ((tick p).sched_dev_array did).ps.smpl.countdown = DFQ_countdown p did := rfl
    rw [e, hn]
    unfold u32
    norm_num
  have hq : upd_smpl_dev did (fun d => { d with countdown := u32 (d.countdown + (2 ^ 32 - 1)) })
      (tick p) =
      upd_smpl_dev did (fun d => { d with countdown := 2 ^ 32 - 1 }) (tick p) :=
    upd_smpl_dev_congr did _ _ _ (by simp only [hu])
  have hc : ((upd_smpl_dev did (fun d => { d with countdown := 2 ^ 32 - 1 })
      (tick p)).sched_dev_array did).ps.smpl.countdown = 2 ^ 32 - 1 := by
    simp [upd_smpl_dev]
  simp only [complete_sampling, if_neg hw', hsT, hq]
  rw [if_neg]
  rw [hc]
  norm_num

/-- C38, the failing input: the draining example, device 0 in season DRAINING
with a countdown of 1 for the request on the heeded, engaged channel 4. The
completion of that request brings the countdown to 0 and wakes the event
thread; a further call of `complete_sampling` for the channel before the event
handler runs leaves the device in DRAINING with a countdown of
`2 ^ 32 - 1 = 4294967295`, not 0, and wakes nobody. So it is for every state in
DRAINING with the countdown at 0 and every heeded, engaged work. -/
theorem complete_sampling_countdown_wraps :
    DFQ_season example_draining 0 = DFQ_TASK_DRAINING ∧
    DFQ_countdown example_draining 0 = 1 ∧
    DFQ_countdown (complete_sampling example_global 0 4 501 example_draining) 0 = 0 ∧
    DFQ_season (complete_sampling example_global 0 4 501 example_draining) 0 =
      DFQ_TASK_DRAINING ∧
    DFQ_countdown (complete_sampling example_global 0 4 501
      (complete_sampling example_global 0 4 501 example_draining)) 0 = 4294967295 ∧
    (complete_sampling example_global 0 4 501
      (complete_sampling example_global 0 4 501 example_draining)).events =
      (complete_sampling example_global 0 4 501 example_draining).events ∧
    (∀ (g : neon_global_t) (did cid st : Nat) (p : sched_state),
      DFQ_season p did = DFQ_TASK_DRAINING →
      ((p.sched_dev_array did).swork_array cid).ps.smpl.heed ≠ 0 ∧
        ((p.sched_dev_array did).swork_array cid).ps.smpl.engage ≠ 0 →
      DFQ_countdown p did = 0 →
      DFQ_countdown (complete_sampling g did cid st p) did = 4294967295 ∧
      (complete_sampling g did cid st p).events = p.events) := by
  refine ⟨by decide!, by decide!, by decide!, by decide!, by decide!, by decide!, ?_⟩
  intro g did cid st p hs hw hn
  rw [complete_sampling_draining_zero g did cid st p hs hw hn]
  constructor
  · simp [DFQ_countdown, upd_smpl_dev]
  · simp [upd_smpl_dev, tick]

/-! ### Page index and page array -/

/-- Macro `ROUND_DIV` rounds up when the sum fits an `unsigned long`. -/
lemma ROUND_DIV_ceil (a b : Nat) (hb : 0 < b) (h : a + b < 2 ^ 64) :
    ROUND_DIV a b = (a + b - 1) / b := by
  unfold ROUND_DIV uadd
  rw [Nat.mod_eq_of_lt h]
  have hdm := Nat.div_add_mod a b
  have hml := Nat.mod_lt a hb
  generalize a / b = q at hdm ⊢
  generalize hr : a % b = r at hdm hml ⊢
  generalize hbq : b * q = bq at hdm
  split_ifs with h0
  · have e : a + b - 1 = (b - 1) + b * q := by rw [hbq]; omega
    rw [e, Nat.add_mul_div_left _ _ hb, Nat.div_eq_of_lt (by omega)]
    omega
  · have e1 : a + b = r + b * (q + 1) := by
      rw [Nat.mul_add, hbq]
      omega
    have e2 : a + b - 1 = (r - 1) + b * (q + 1) := by
      rw [Nat.mul_add, hbq]
      omega
    rw [e2, e1, Nat.add_mul_div_left _ _ hb, Nat.add_mul_div_left _ _ hb,
      Nat.div_eq_of_lt hml, Nat.div_eq_of_lt (by omega)]

/-- The page index of an address inside a map is below the rounded-up number
of pages of the map. -/
lemma page_index_lt_ceil (size start addr : Nat) (h1 : start ≤ addr)
    (h2 : addr < start + size) :
    (addr - start) / PAGE_SIZE < (size + PAGE_SIZE - 1) / PAGE_SIZE := by
  unfold PAGE_SIZE
  omega

/-- C39 (amended): for every tracked map with `0 < size <= (2 ^ 32 - 1) *
PAGE_SIZE` and every faulting address that passes the test of
`neon_fault_handler` on the map, `vm_start <= addr < vm_start + size`, the page
index `(addr - vm_start) / PAGE_SIZE` is below the number of page structs that
`neon_track_init` allocates for the map, which is `ROUND_DIV(size, PAGE_SIZE)`
and equals `size / PAGE_SIZE` rounded up. -/
theorem fault_page_index_in_bounds (s : control_state) (m addr fault_alloc : Nat)
    (vma : vm_area_struct) (hsize : 0 < (s.map m).size)
    (hmax : (s.map m).size ≤ (2 ^ 32 - 1) * PAGE_SIZE) (hvma : (s.map m).vma = some vma)
    (hin : fault_in_map s addr m = true) (hfa : fault_alloc ≠ 0) :
    (neon_track_init fault_alloc true (s.map m)).1 = 0 ∧
    (neon_track_init fault_alloc true (s.map m)).2.2 = ROUND_DIV (s.map m).size PAGE_SIZE ∧
    ROUND_DIV (s.map m).size PAGE_SIZE = ((s.map m).size + PAGE_SIZE - 1) / PAGE_SIZE ∧
    (addr - vma.vm_start) / PAGE_SIZE < (neon_track_init fault_alloc true (s.map m)).2.2 := by
  have hP : PAGE_SIZE = 4096 := rfl
  rw [hP] at hmax
  have hceil : ROUND_DIV (s.map m).size PAGE_SIZE =
      ((s.map m).size + PAGE_SIZE - 1) / PAGE_SIZE :=
    ROUND_DIV_ceil _ _ (by norm_num [PAGE_SIZE]) (by rw [hP]; omega)
  have hnp : (neon_track_init fault_alloc true (s.map m)).2.2 =
      ROUND_DIV (s.map m).size PAGE_SIZE := by
    unfold neon_track_init
    simp only
    rw [if_neg hfa, if_neg (by simp)]
    simp only
    unfold u32
    rw [hceil, hP]
    exact Nat.mod_eq_of_lt (by omega)
  have hret : (neon_track_init fault_alloc true (s.map m)).1 = 0 := by
    unfold neon_track_init
    simp only
    rw [if_neg hfa, if_neg (by simp)]
  refine ⟨hret, hnp, hceil, ?_⟩
  rw [hnp, hceil]
  unfold fault_in_map at hin
  rw [hvma] at hin
  simp only [decide_eq_true_eq] at hin
  have hle : uadd vma.vm_start (s.map m).size ≤ vma.vm_start + (s.map m).size := by
    unfold uadd
    exact Nat.mod_le _ _
  exact page_index_lt_ceil _ _ _ hin.1 (lt_of_lt_of_le hin.2 hle)

/-- C39 witness: the second page of the example map of two pages. -/
theorem fault_page_index_in_bounds_witness :
    (0x7f0000001008 - 0x7f0000000000) / PAGE_SIZE = 1 ∧
    (neon_track_init 4000 true ((example_track 0).map 3000)).2.2 = 2 := by
  have h := fault_page_index_in_bounds (example_track 0) 3000 0x7f0000001008 4000
    { vm_start := 0x7f0000000000, vm_end := 0x7f0000002000 } (by decide!) (by decide!)
    (by decide!) (by decide!) (by decide)
  refine ⟨by decide, ?_⟩
  rw [h.2.1, h.2.2.1]
  decide!

/-- C39 counterexample: a map of `2 ^ 44` bytes at `0x7f0000000000`. The
address `0x7f0000000000` passes the test of the fault handler on the map and
has page index 0; `ROUND_DIV(size, PAGE_SIZE)` is `2 ^ 32`, which the
`unsigned int` of `neon_track_init` holds as 0: no page struct is allocated,
and the index 0 is not below 0. -/
theorem fault_page_index_huge_map :
    fault_in_map example_track_huge 0x7f0000000000 3000 = true ∧
    (0x7f0000000000 - 0x7f0000000000) / PAGE_SIZE = 0 ∧
    ROUND_DIV (example_track_huge.map 3000).size PAGE_SIZE = 2 ^ 32 ∧
    (neon_track_init 4000 true (example_track_huge.map 3000)).1 = 0 ∧
    (neon_track_init 4000 true (example_track_huge.map 3000)).2.2 = 0 ∧
    ¬ ((0x7f0000000000 - 0x7f0000000000) / PAGE_SIZE <
      (neon_track_init 4000 true (example_track_huge.map 3000)).2.2) := by
  decide!

/-! ### Faults on two pages of a map -/

/-- The part of `neon_fault_handler` for a fault on a map whose record is
pending for another address: the page is disarmed and its index saved as the
siamese page of the record. -/
lemma fault_handler_siamese_spec (s : control_state) (cur : Nat) (ins : insn_decode)
    (update_ret : Int) (regs : pt_regs) (addr : Nat) (t : fault_target)
    (htask : s.cpu_neon_task cur ≠ 0)
    (hlook : neon_fault_lookup s addr (s.neon_task (s.cpu_neon_task cur)).ctx_list = t)
    (hf0 : t.fault ≠ 0) (hpend : t.fault ∈ (s.ctx t.fault_ctx).fault_list)
    (haddr : (s.fault t.fault).addr ≠ addr) :
    neon_fault_handler cur ins update_ret regs addr s =
      (0, regs, upd_fault t.fault (fun f => { f with siamese := t.fault_pidx })
        (map_page_arming 0 t.fault_map t.fault_pidx s)) := by
  unfold neon_fault_handler
  rw [if_neg htask]
  dsimp only
  rw [hlook, if_neg hf0, if_pos hpend, if_neg haddr]

/-- A disarm leaves the page disarmed, armed or not. -/
lemma neon_page_arming_disarm_any (page : neon_page_t) (ptes : Nat → Nat) :
    (neon_page_arming 0 page ptes).1.armed = 0 := by
  unfold neon_page_arming
  rw [if_neg (by decide)]
  by_cases h : page.armed = 0
  · rw [if_pos h]
    exact h
  · rw [if_neg h]

/-- The siamese page after the re-arming of `neon_trap_handler`: a record with
a siamese index other than 0 has that page of its map armed; with the siamese
index 0 only the page of the record is armed, every other page of the map stays
as it was. -/
lemma trap_handler_fault_siamese (reengage : Int) (regs : pt_regs) (c f : Nat)
    (s : control_state) (hre : reengage ≠ 0) :
    ((s.fault f).siamese ≠ 0 →
      (((trap_handler_fault reengage regs c f s).2.2.map (s.fault f).map).page
        (s.fault f).siamese).armed = 1) ∧
    ((s.fault f).siamese = 0 → ∀ j, j ≠ (s.fault f).page_num →
      ((trap_handler_fault reengage regs c f s).2.2.map (s.fault f).map).page j =
        (s.map (s.fault f).map).page j) := by
  unfold trap_handler_fault
  dsimp only
  rw [if_pos hre]
  have hf1 : (map_page_arming 1 (s.fault f).map (s.fault f).page_num s).fault = s.fault := rfl
  rw [hf1]
  constructor
  · intro hs
    rw [if_pos hs]
    show (((map_page_arming 1 (s.fault f).map (s.fault f).siamese
      (map_page_arming 1 (s.fault f).map (s.fault f).page_num s)).map (s.fault f).map).page
        (s.fault f).siamese).armed = 1
    rw [map_page_arming_same]
    exact (neon_page_arming_arm _ _).1
  · intro hs j hj
    rw [if_neg (by rw [hs]; simp)]
    show ((map_page_arming 1 (s.fault f).map (s.fault f).page_num s).map
      (s.fault f).map).page j = _
    exact map_page_arming_other _ _ _ _ _ hj

/-- The fault handler and then the trap handler on a fault that arrives on
page `k` of a tracked map while the record of the map is pending for another
address, the policy answering re-engage: the fault handler disarms page `k`
and saves `k` as the siamese index; the trap handler clears the siamese index,
and it arms page `k` again when `k` is not 0; page 0 is left disarmed unless
it is the page of the pending record. -/
lemma fault_siamese_cycle (s : control_state) (cur : Nat) (ins : insn_decode)
    (update_ret reengage : Int) (regs : pt_regs) (addr c m f : Nat) (vma : vm_area_struct)
    (r1 r2 : Int × pt_regs × control_state)
    (htask : s.cpu_neon_task cur ≠ 0)
    (hc : c ∈ (s.neon_task (s.cpu_neon_task cur)).ctx_list)
    (hfind : (s.ctx c).map_list.find? (fault_in_map s addr) = some m)
    (hother : ∀ c' ∈ (s.neon_task (s.cpu_neon_task cur)).ctx_list, c' ≠ c →
      (s.ctx c').map_list.find? (fault_in_map s addr) = none)
    (hvma : (s.map m).vma = some vma) (hf : (s.map m).fault = f) (hf0 : f ≠ 0)
    (hpend : (s.ctx c).fault_list = [f])
    (hquiet : ∀ c' ∈ (s.neon_task (s.cpu_neon_task cur)).ctx_list, c' ≠ c →
      (s.ctx c').fault_list = [])
    (haddr : (s.fault f).addr ≠ addr) (hmap : (s.fault f).map = m)
    (hre : reengage ≠ 0)
    (h1 : r1 = neon_fault_handler cur ins update_ret regs addr s)
    (h2 : r2 = neon_trap_handler cur reengage r1.2.1 r1.2.2) :
    r1.1 = 0 ∧
    ((r1.2.2.map m).page ((addr - vma.vm_start) / PAGE_SIZE)).armed = 0 ∧
    (r1.2.2.fault f).siamese = (addr - vma.vm_start) / PAGE_SIZE ∧
    r2.1 = 0 ∧
    (r2.2.2.fault f).siamese = 0 ∧
    ((addr - vma.vm_start) / PAGE_SIZE ≠ 0 →
      ((r2.2.2.map m).page ((addr - vma.vm_start) / PAGE_SIZE)).armed = 1) ∧
    ((addr - vma.vm_start) / PAGE_SIZE = 0 → (s.fault f).page_num ≠ 0 →
      ((r2.2.2.map m).page ((addr - vma.vm_start) / PAGE_SIZE)).armed = 0) := by
  have hstart : map_vm_start s m = vma.vm_start := by
    unfold map_vm_start
    rw [hvma]
  have hlook : neon_fault_lookup s addr (s.neon_task (s.cpu_neon_task cur)).ctx_list =
      { fault_ctx := c, fault_map := m, fault_pidx := (addr - vma.vm_start) / PAGE_SIZE,
        fault := f } := by
    unfold neon_fault_lookup
    rw [neon_fault_lookup_unique s addr c m hfind _ _ hother, if_pos hc, hstart, hf]
  generalize hk : (addr - vma.vm_start) / PAGE_SIZE = k at hlook ⊢
  have hr1 : r1 = (0, regs, upd_fault f (fun r => { r with siamese := k })
      (map_page_arming 0 m k s)) := by
    rw [h1]
    exact fault_handler_siamese_spec s cur ins update_ret regs addr _ htask hlook hf0
      (by show f ∈ (s.ctx c).fault_list; rw [hpend]; exact List.mem_singleton.mpr rfl) haddr
  generalize hs1 : upd_fault f (fun r => { r with siamese := k }) (map_page_arming 0 m k s) = s1
    at hr1
  have e1 : s1.cpu_neon_task = s.cpu_neon_task := by rw [← hs1]; rfl
  have e2 : s1.neon_task = s.neon_task := by rw [← hs1]; rfl
  have e3 : s1.ctx = s.ctx := by rw [← hs1]; rfl
  have e4 : s1.fault f = { s.fault f with siamese := k } := by
    rw [← hs1]
    simp [upd_fault, map_page_arming]
  have e5 : s1.map = (map_page_arming 0 m k s).map := by rw [← hs1]; rfl
  have hpk : ((s1.map m).page k).armed = 0 := by
    rw [e5, map_page_arming_same]
    exact neon_page_arming_disarm_any _ _
  have hfindc : (s.neon_task (s.cpu_neon_task cur)).ctx_list.find?
      (fun x => decide ((s1.ctx x).fault_list ≠ [])) = some c := by
    apply find_unique _ c _ _ hc
    · intro x hx hp
      by_contra hne
      rw [e3, hquiet x hx hne] at hp
      simp at hp
    · rw [e3, hpend]
      simp
  have htrap : r2 = trap_handler_fault reengage regs c f s1 := by
    rw [h2, hr1]
    unfold neon_trap_handler
    dsimp only
    rw [e1, if_neg htask, e2, hfindc]
    dsimp only
    rw [e3, hpend]
    rfl
  obtain ⟨t1, _, _, _, _, t6, _, _, _⟩ := trap_handler_fault_spec reengage regs c f s1 hre
  obtain ⟨u1, u2⟩ := trap_handler_fault_siamese reengage regs c f s1 hre
  rw [← htrap] at t1 t6 u1 u2
  have hm1 : (s1.fault f).map = m := by rw [e4]; exact hmap
  have hsi : (s1.fault f).siamese = k := by rw [e4]
  have hpn : (s1.fault f).page_num = (s.fault f).page_num := by rw [e4]
  rw [hm1, hsi] at u1 u2
  rw [hpn] at u2
  refine ⟨by rw [hr1], by rw [hr1]; exact hpk, by rw [hr1]; exact hsi, t1, t6, u1,
    fun h0 hp => ?_⟩
  rw [u2 h0 k (by rw [h0]; exact Ne.symm hp)]
  exact hpk

/-- C33, the failing input: the example map of two armed pages at
`0x7f0000000000`, its record pending for a first write fault on page 1, at
`0x7f0000001000`, when a fault arrives on page 0, at `0x7f0000000ffc`. The
fault handler returns 0, disarms page 0 and saves 0 as the siamese index; the
trap handler, under FCFS, arms page 1 again and leaves page 0 disarmed, with
the present bit of its page-table entry set: 0 is the value that stands for no
siamese page. With the two faults the other way round, page 1 being the
siamese page, both pages end up armed. -/
theorem fault_siamese_page_zero_left_disarmed :
    ((example_track_pending 0x7f0000001000).ctx 2000).fault_list = [4000] ∧
    ((example_track_pending 0x7f0000001000).fault 4000).addr = 0x7f0000001000 ∧
    (((example_track_pending 0x7f0000001000).map 3000).page 0).armed = 1 ∧
    (neon_fault_handler 1 example_write 0 example_regs 0x7f0000000ffc
      (example_track_pending 0x7f0000001000)).1 = 0 ∧
    (((neon_fault_handler 1 example_write 0 example_regs 0x7f0000000ffc
      (example_track_pending 0x7f0000001000)).2.2.map 3000).page 0).armed = 0 ∧
    ((neon_fault_handler 1 example_write 0 example_regs 0x7f0000000ffc
      (example_track_pending 0x7f0000001000)).2.2.fault 4000).siamese = 0 ∧
    (((example_track_siamese 0x7f0000001000 0x7f0000000ffc).map 3000).page 0).armed = 0 ∧
    page_present (((example_track_siamese 0x7f0000001000 0x7f0000000ffc).map 3000).page 0)
      (example_track_siamese 0x7f0000001000 0x7f0000000ffc).ptes = 1 ∧
    (((example_track_siamese 0x7f0000001000 0x7f0000000ffc).map 3000).page 1).armed = 1 ∧
    ((example_track_siamese 0x7f0000001000 0x7f0000000ffc).ctx 2000).fault_list = [] ∧
    (((example_track_siamese 0x7f0000000ffc 0x7f0000001000).map 3000).page 0).armed = 1 ∧
    (((example_track_siamese 0x7f0000000ffc 0x7f0000001000).map 3000).page 1).armed = 1 := by
  decide!

/-! ### Termination of the token loop -/

/-- Lowering the overuse of a task on the list lowers the overuse left. -/
lemma overuse_sum_update_lt (l : List Nat) (ov : Nat → Int) (c : Nat) (v : Int) (hc : c ∈ l)
    (hv : v.toNat < (ov c).toNat) :
    (l.map (fun a => (Function.update ov c v a).toNat)).sum <
      (l.map (fun a => (ov a).toNat)).sum := by
  apply List.sum_lt_sum
  · intro a _
    by_cases h : a = c
    · subst h
      simp only [Function.update_same]
      omega
    · simp only [Function.update_noteq h]
      exact le_refl _
  · exact ⟨c, hc, by simp only [Function.update_same]; exact hv⟩

/-- One turn of the token loop on a candidate that holds the token and has
overused the device: its overuse is reset, `repeat` is left as it was. -/
lemma token_turn_reset (did rep : Nat) (p : sched_state) (c : Nat)
    (hc : c = spec_candidate (p.sched_dev_array did).stask_list (TS_token_holder p did))
    (hh : TS_token_holder p did = 0 ∨
      TS_token_holder p did ∈ (p.sched_dev_array did).stask_list)
    (heq : c = TS_token_holder p did)
    (hov : TS_overuse p c > timeslice_usec p) :
    token_turn did rep p = (rep, upd_tslc_task c (fun t => { t with overuse := 0 })
      (upd_tslc_dev did (fun d => { d with token_holder := c }) p)) := by
  have hcc := code_candidate_eq_spec _ _ hh
  rw [← hc] at hcc
  simp only [TS_token_holder] at hcc heq
  simp only [token_turn, hcc]
  rw [if_pos, if_pos heq.symm]
  simpa [TS_overuse, timeslice_usec, upd_tslc_dev] using hov

/-- A turn of the token loop that asks for another one leaves the token with a
task on the list and lowers the overuse left; the list and `timeslice_T` are
as they were. -/
lemma token_turn_measure (did rep : Nat) (p : sched_state)
    (hl : (p.sched_dev_array did).stask_list ≠ [])
    (hh : TS_token_holder p did = 0 ∨
      TS_token_holder p did ∈ (p.sched_dev_array did).stask_list)
    (hT : 1 ≤ p.timeslice_T) (h1 : (token_turn did rep p).1 = 1) :
    ((token_turn did rep p).2.sched_dev_array did).stask_list =
      (p.sched_dev_array did).stask_list ∧
    (token_turn did rep p).2.timeslice_T = p.timeslice_T ∧
    TS_token_holder (token_turn did rep p).2 did ∈ (p.sched_dev_array did).stask_list ∧
    overuse_left did (token_turn did rep p).2 < overuse_left did p := by
  have hpos : (0 : Int) < timeslice_usec p := by
    simp only [timeslice_usec, USEC_PER_MSEC]
    omega
  have hmem := spec_candidate_mem (p.sched_dev_array did).stask_list (TS_token_holder p did) hl
  generalize hc : spec_candidate (p.sched_dev_array did).stask_list (TS_token_holder p did) = c
    at hmem
  by_cases hov : TS_overuse p c ≤ timeslice_usec p
  · rw [token_turn_give did rep p c hc.symm hh hov] at h1
    simp at h1
  · have hov' := not_le.mp hov
    by_cases heq : c = TS_token_holder p did
    · rw [token_turn_reset did rep p c hc.symm hh heq hov']
      have hv := rr_view_solo did c p
      obtain ⟨e1, e2, e3, e4⟩ := (rr_view_eq_iff _ _ _ _ _ _).mp hv
      refine ⟨e1, e3, by rw [e2]; exact hmem, ?_⟩
      unfold overuse_left
      rw [e1, e4]
      exact overuse_sum_update_lt _ _ c 0 hmem (by simp only [Int.toNat_zero]; omega)
    · rw [token_turn_skip did rep p c hc.symm hh heq hov']
      have hv := rr_view_skip did c (timeslice_usec p) p
      obtain ⟨e1, e2, e3, e4⟩ := (rr_view_eq_iff _ _ _ _ _ _).mp hv
      refine ⟨e1, e3, by rw [e2]; exact hmem, ?_⟩
      unfold overuse_left
      rw [e1, e4]
      exact overuse_sum_update_lt _ _ c _ hmem (by omega)

/-- The token loop ends within one turn more than the overuse left, and then
`token_loop` has its result. -/
lemma token_loop_ends_some (did : Nat) :
    ∀ (fuel rep : Nat) (p : sched_state), (p.sched_dev_array did).stask_list ≠ [] →
      (TS_token_holder p did = 0 ∨
        TS_token_holder p did ∈ (p.sched_dev_array did).stask_list) →
      1 ≤ p.timeslice_T → overuse_left did p < fuel →
      token_loop_ends did fuel rep p = some (token_loop did fuel rep p) := by
  intro fuel
  induction fuel with
  | zero => intro rep p _ _ _ h; omega
  | succ n ih =>
    intro rep p hl hh hT hfuel
    unfold token_loop_ends token_loop
    dsimp only
    by_cases h1 : (token_turn did rep p).1 = 1
    · rw [if_pos h1, if_pos h1]
      obtain ⟨m1, m2, m3, m4⟩ := token_turn_measure did rep p hl hh hT h1
      exact ih _ _ (by rw [m1]; exact hl) (Or.inr (by rw [m1]; exact m3)) (by rw [m2]; exact hT)
        (by omega)
    · rw [if_neg h1, if_neg h1]

/-- A token loop that has ended is not changed by more turns. -/
lemma token_loop_ends_mono (did : Nat) :
    ∀ (fuel rep : Nat) (p q : sched_state), token_loop_ends did fuel rep p = some q →
      ∀ k, token_loop_ends did (fuel + k) rep p = some q := by
  intro fuel
  induction fuel with
  | zero =>
    intro rep p q h
    simp [token_loop_ends] at h
  | succ n ih =>
    intro rep p q h k
    have e : n + 1 + k = (n + k) + 1 := by omega
    rw [e]
    unfold token_loop_ends at h ⊢
    dsimp only at h ⊢
    by_cases h1 : (token_turn did rep p).1 = 1
    · rw [if_pos h1] at h ⊢
      exact ih _ _ _ h k
    · rw [if_neg h1] at h ⊢
      exact h

/-- C35: `update_token_holder` terminates for every non-empty device task
list, every previous holder (a task on the list or none) and every
`timeslice_T` of at least 1 (a reset keeps it in [1, 1000]), whatever the
overuses of the tasks: its skip-and-penalise loop ends within the turns that
`update_token_holder` gives it, more turns changing nothing, because every turn
that asks for another one lowers the overuse left to the tasks of the list. -/
theorem update_token_holder_terminates (did : Nat) (p : sched_state)
    (hl : (p.sched_dev_array did).stask_list ≠ [])
    (hh : TS_token_holder p did = 0 ∨
      TS_token_holder p did ∈ (p.sched_dev_array did).stask_list)
    (hT : 1 ≤ p.timeslice_T) :
    (∀ fuel, overuse_left did p < fuel →
      token_loop_ends did fuel 0 p = some (token_loop did (token_fuel did p) 0 p)) ∧
    overuse_left did p < token_fuel did p ∧
    (∀ rep, (token_turn did rep p).1 = 1 →
      overuse_left did (token_turn did rep p).2 < overuse_left did p) := by
  have hf : overuse_left did p < token_fuel did p := by
    have := token_fuel_pos did p
    unfold overuse_left
    omega
  refine ⟨fun fuel hfuel => ?_, hf, fun rep h1 => (token_turn_measure did rep p hl hh hT h1).2.2.2⟩
  have h0 := token_loop_ends_some did (overuse_left did p + 1) 0 p hl hh hT (by omega)
  have ha := token_loop_ends_mono did _ 0 p _ h0 (fuel - (overuse_left did p + 1))
  have hb := token_loop_ends_mono did _ 0 p _ h0 (token_fuel did p - (overuse_left did p + 1))
  have e1 : overuse_left did p + 1 + (fuel - (overuse_left did p + 1)) = fuel := by omega
  have e2 : overuse_left did p + 1 + (token_fuel did p - (overuse_left did p + 1)) =
      token_fuel did p := by omega
  rw [e1] at ha
  rw [e2] at hb
  rw [token_loop_ends_some did (token_fuel did p) 0 p hl hh hT hf] at hb
  rw [ha, hb]

/-- C35 witness: the penalty example, two tasks with the second holding the
token and the first 40000 microseconds in overuse, `timeslice_T = 30`. -/
theorem update_token_holder_terminates_witness :
    overuse_left 0 example_penalty = 40000 ∧
    token_loop_ends 0 40001 0 example_penalty =
      some (token_loop 0 (token_fuel 0 example_penalty) 0 example_penalty) := by
  have h := update_token_holder_terminates 0 example_penalty (by decide!) (by decide!)
    (by decide!)
  have e : overuse_left 0 example_penalty = 40000 := by decide!
  refine ⟨e, h.1 40001 ?_⟩
  rw [e]
  decide

/-! ### The sampling tour -/

/-- What `sample_walk` leaves: the task picked and the `sampling_season_dt`
are those of `tour_walk`; the tasks, the task list, `sampling_T` and the
sampled task are as they were. -/
lemma sample_walk_tour (did : Nat) (l : List Nat) :
    ∀ p : sched_state,
      (sample_walk did l p).1 = (tour_walk (fun a => (p.stask a).ps.smpl.held_back)
        (u64 (p.sampling_T * 1000)) l (p.sched_dev_array did).ps.smpl.sampling_season_dt).1 ∧
      ((sample_walk did l p).2.sched_dev_array did).ps.smpl.sampling_season_dt =
        (tour_walk (fun a => (p.stask a).ps.smpl.held_back)
          (u64 (p.sampling_T * 1000)) l (p.sched_dev_array did).ps.smpl.sampling_season_dt).2 ∧
      (sample_walk did l p).2.stask = p.stask ∧
      (sample_walk did l p).2.sampling_T = p.sampling_T ∧
      ((sample_walk did l p).2.sched_dev_array did).stask_list =
        (p.sched_dev_array did).stask_list := by
  induction l with
  | nil => intro p; exact ⟨rfl, rfl, rfl, rfl, rfl⟩
  | cons a rest ih =>
    intro p
    unfold sample_walk tour_walk
    by_cases h : (p.stask a).ps.smpl.held_back = 0
    · rw [if_pos h, if_pos h]
      exact ⟨rfl, rfl, rfl, rfl, rfl⟩
    · rw [if_neg h, if_neg h]
      dsimp only
      obtain ⟨i1, i2, i3, i4, i5⟩ := ih (upd_smpl_dev did (fun d => { d with
        sampling_season_dt := uadd d.sampling_season_dt (u64 (p.sampling_T * 1000)) }) p)
      have e1 : (upd_smpl_dev did (fun d => { d with
          sampling_season_dt := uadd d.sampling_season_dt (u64 (p.sampling_T * 1000)) }) p).stask =
          p.stask := rfl
      have e2 : (upd_smpl_dev did (fun d => { d with
          sampling_season_dt := uadd d.sampling_season_dt
            (u64 (p.sampling_T * 1000)) }) p).sampling_T = p.sampling_T := rfl
      have e3 : ((upd_smpl_dev did (fun d => { d with
          sampling_season_dt := uadd d.sampling_season_dt
            (u64 (p.sampling_T * 1000)) }) p).sched_dev_array did).ps.smpl.sampling_season_dt =
          uadd (p.sched_dev_array did).ps.smpl.sampling_season_dt (u64 (p.sampling_T * 1000)) := by
        simp [upd_smpl_dev, upd_sdev]
      have e4 : ((upd_smpl_dev did (fun d => { d with
          sampling_season_dt := uadd d.sampling_season_dt
            (u64 (p.sampling_T * 1000)) }) p).sched_dev_array did).stask_list =
          (p.sched_dev_array did).stask_list := by
        simp [upd_smpl_dev, upd_sdev]
      rw [e1, e2, e3] at i1 i2
      rw [e1] at i3
      rw [e2] at i4
      rw [e4] at i5
      exact ⟨i1, i2, i3, i4, i5⟩

/-- What `update_sampled_task` leaves: the sampled task and the
`sampling_season_dt` are those of `tour_step`; the tasks, the task list and
`sampling_T` are as they were. -/
lemma update_sampled_task_tour_step (did : Nat) (p : sched_state) :
    (((update_sampled_task did p).sched_dev_array did).ps.smpl.sampled_task,
      ((update_sampled_task did p).sched_dev_array did).ps.smpl.sampling_season_dt) =
      tour_step (fun a => (p.stask a).ps.smpl.held_back) (u64 (p.sampling_T * 1000))
        (p.sched_dev_array did).stask_list
        ((p.sched_dev_array did).ps.smpl.sampled_task,
          (p.sched_dev_array did).ps.smpl.sampling_season_dt) ∧
    (update_sampled_task did p).stask = p.stask ∧
    (update_sampled_task did p).sampling_T = p.sampling_T ∧
    ((update_sampled_task did p).sched_dev_array did).stask_list =
      (p.sched_dev_array did).stask_list := by
  have hset : ∀ (x : Nat) (q : sched_state),
      ((upd_smpl_dev did (fun d => { d with sampled_task := x }) q).sched_dev_array
        did).ps.smpl.sampled_task = x ∧
      ((upd_smpl_dev did (fun d => { d with sampled_task := x }) q).sched_dev_array
        did).ps.smpl.sampling_season_dt = (q.sched_dev_array did).ps.smpl.sampling_season_dt ∧
      (upd_smpl_dev did (fun d => { d with sampled_task := x }) q).stask = q.stask ∧
      (upd_smpl_dev did (fun d => { d with sampled_task := x }) q).sampling_T = q.sampling_T ∧
      ((upd_smpl_dev did (fun d => { d with sampled_task := x }) q).sched_dev_array
        did).stask_list = (q.sched_dev_array did).stask_list := by
    intro x q
    simp [upd_smpl_dev, upd_sdev]
  have hwalk : ∀ l : List Nat,
      ((((upd_smpl_dev did (fun d => { d with sampled_task := (sample_walk did l p).1 })
          (sample_walk did l p).2).sched_dev_array did).ps.smpl.sampled_task,
        ((upd_smpl_dev did (fun d => { d with sampled_task := (sample_walk did l p).1 })
          (sample_walk did l p).2).sched_dev_array did).ps.smpl.sampling_season_dt) =
        tour_walk (fun a => (p.stask a).ps.smpl.held_back) (u64 (p.sampling_T * 1000)) l
          (p.sched_dev_array did).ps.smpl.sampling_season_dt) ∧
      (upd_smpl_dev did (fun d => { d with sampled_task := (sample_walk did l p).1 })
        (sample_walk did l p).2).stask = p.stask ∧
      (upd_smpl_dev did (fun d => { d with sampled_task := (sample_walk did l p).1 })
        (sample_walk did l p).2).sampling_T = p.sampling_T ∧
      ((upd_smpl_dev did (fun d => { d with sampled_task := (sample_walk did l p).1 })
        (sample_walk did l p).2).sched_dev_array did).stask_list =
        (p.sched_dev_array did).stask_list := by
    intro l
    obtain ⟨s1, s2, s3, s4, s5⟩ := hset (sample_walk did l p).1 (sample_walk did l p).2
    obtain ⟨w1, w2, w3, w4, w5⟩ := sample_walk_tour did l p
    refine ⟨?_, s3.trans w3, s4.trans w4, s5.trans w5⟩
    rw [s1, s2, w1, w2]
  unfold update_sampled_task tour_step tour_after
  dsimp only
  by_cases hl : (p.sched_dev_array did).stask_list = []
  · rw [if_pos hl]
    obtain ⟨s1, s2, s3, s4, s5⟩ := hset 0 p
    refine ⟨?_, s3, s4, s5⟩
    rw [s1, s2, hl]
    by_cases h0 : (p.sched_dev_array did).ps.smpl.sampled_task = 0
    · rw [if_pos h0]
      rfl
    · rw [if_neg h0]
      rfl
  · rw [if_neg hl]
    by_cases h0 : (p.sched_dev_array did).ps.smpl.sampled_task = 0
    · rw [if_pos h0, if_pos h0]
      exact hwalk _
    · rw [if_neg h0, if_neg h0]
      cases hpos : ((p.sched_dev_array did).stask_list.dropWhile
          (fun a => decide (a ≠ (p.sched_dev_array did).ps.smpl.sampled_task))).tail with
      | nil =>
        obtain ⟨s1, s2, s3, s4, s5⟩ := hset 0 p
        refine ⟨?_, s3, s4, s5⟩
        show (((upd_smpl_dev did (fun d => { d with sampled_task := 0 }) p).sched_dev_array
          did).ps.smpl.sampled_task, _) = _
        rw [s1, s2]
        rfl
      | cons b rest =>
        exact hwalk (b :: rest)

/-- The tasks sampled by successive calls of `update_sampled_task` and the
`sampling_season_dt` they leave are those of `tour_run`; the tasks, the task
list and `sampling_T` are as they were. -/
lemma sampled_tour_run (did : Nat) :
    ∀ (n : Nat) (p : sched_state),
      (sampled_tour did n p).1 =
        (tour_run (fun a => (p.stask a).ps.smpl.held_back) (u64 (p.sampling_T * 1000))
          (p.sched_dev_array did).stask_list n
          ((p.sched_dev_array did).ps.smpl.sampled_task,
            (p.sched_dev_array did).ps.smpl.sampling_season_dt)).1 ∧
      (((sampled_tour did n p).2.sched_dev_array did).ps.smpl.sampling_season_dt) =
        (tour_run (fun a => (p.stask a).ps.smpl.held_back) (u64 (p.sampling_T * 1000))
          (p.sched_dev_array did).stask_list n
          ((p.sched_dev_array did).ps.smpl.sampled_task,
            (p.sched_dev_array did).ps.smpl.sampling_season_dt)).2 ∧
      (sampled_tour did n p).2.stask = p.stask ∧
      (sampled_tour did n p).2.sampling_T = p.sampling_T ∧
      ((sampled_tour did n p).2.sched_dev_array did).stask_list =
        (p.sched_dev_array did).stask_list := by
  intro n
  induction n with
  | zero => intro p; exact ⟨rfl, rfl, rfl, rfl, rfl⟩
  | succ n ih =>
    intro p
    obtain ⟨u1, u2, u3, u4⟩ := update_sampled_task_tour_step did p
    obtain ⟨i1, i2, i3, i4, i5⟩ := ih (update_sampled_task did p)
    rw [u2, u3, u4, u1] at i1 i2
    unfold sampled_tour tour_run
    dsimp only
    refine ⟨?_, i2, i3.trans u2, i4.trans u3, i5.trans u4⟩
    rw [i1, ← u1]

/-- The entries after a task of a list without repetition. -/
lemma tour_after_append (pre : List Nat) (a : Nat) (suf : List Nat)
    (hnd : (pre ++ a :: suf).Nodup) (h0 : 0 ∉ pre ++ a :: suf) :
    tour_after (pre ++ a :: suf) a = suf := by
  have ha0 : a ≠ 0 := by
    intro e
    apply h0
    rw [← e]
    simp
  have hpre : a ∉ pre := by
    intro hm
    have := List.nodup_append.mp hnd
    exact this.2.2 hm (List.mem_cons_self _ _) 
  unfold tour_after
  rw [if_neg ha0, dropWhile_ne_append pre a suf hpre]
  rfl

/-- The tour over the entries left of a list without repetition: the tasks
that are not held back are sampled, each once and in list order, then none;
every held-back task passed over adds `dt` to `sampling_season_dt`. -/
lemma tour_run_spec (held : Nat → Nat) (dt : Nat) (l : List Nat) (hnd : l.Nodup)
    (h0 : 0 ∉ l) :
    ∀ (suf pre : List Nat) (s x : Nat), l = pre ++ suf → tour_after l s = suf →
      tour_run held dt l ((suf.filter (fun a => decide (held a = 0))).length + 1) (s, x) =
        (suf.filter (fun a => decide (held a = 0)) ++ [0],
          (fun y => uadd y dt)^[(suf.filter (fun a => decide (held a ≠ 0))).length] x) := by
  intro suf
  induction suf with
  | nil =>
    intro pre s x _ ha
    simp only [List.filter_nil, List.length_nil, Nat.zero_add, List.nil_append,
      Function.iterate_zero, id_eq]
    unfold tour_run tour_run tour_step
    dsimp only
    rw [ha]
    rfl
  | cons a suf ih =>
    intro pre s x hl ha
    have hl' : l = (pre ++ [a]) ++ suf := by rw [hl]; simp
    have haft : tour_after l a = suf := by
      rw [hl]
      rw [hl] at hnd h0
      exact tour_after_append pre a suf hnd h0
    by_cases hh : held a = 0
    · have hstep : tour_step held dt l (s, x) = (a, x) := by
        unfold tour_step
        dsimp only
        rw [ha]
        unfold tour_walk
        rw [if_pos hh]
      have hf1 : (a :: suf).filter (fun a => decide (held a = 0)) =
          a :: suf.filter (fun a => decide (held a = 0)) := by
        rw [List.filter_cons_of_pos (by simpa using hh)]
      have hf2 : (a :: suf).filter (fun a => decide (held a ≠ 0)) =
          suf.filter (fun a => decide (held a ≠ 0)) := by
        rw [List.filter_cons_of_neg (by simpa using hh)]
      rw [hf1, hf2, List.length_cons]
      unfold tour_run
      rw [hstep, ih (pre ++ [a]) a x hl' haft]
      rfl
    · have hstep : tour_step held dt l (s, x) = tour_step held dt l (a, uadd x dt) := by
        unfold tour_step
        dsimp only
        rw [ha, haft]
        conv_lhs => unfold tour_walk
        rw [if_neg hh]
      have hf1 : (a :: suf).filter (fun a => decide (held a = 0)) =
          suf.filter (fun a => decide (held a = 0)) := by
        rw [List.filter_cons_of_neg (by simpa using hh)]
      have hf2 : (a :: suf).filter (fun a => decide (held a ≠ 0)) =
          a :: suf.filter (fun a => decide (held a ≠ 0)) := by
        rw [List.filter_cons_of_pos (by simpa using hh)]
      rw [hf1, hf2, List.length_cons, Function.iterate_succ_apply]
      have := ih (pre ++ [a]) a (uadd x dt) hl' haft
      unfold tour_run at this ⊢
      rw [hstep]
      exact this

/-- Additions of `dt` that do not leave the `unsigned long` range add up. -/
lemma iterate_uadd (dt : Nat) : ∀ (k x : Nat), x + k * dt < 2 ^ 64 →
    (fun y => uadd y dt)^[k] x = x + k * dt := by
  intro k
  induction k with
  | zero => intro x _; simp
  | succ k ih =>
    intro x h
    have e : x + (k + 1) * dt = (x + dt) + k * dt := by
      rw [Nat.add_mul]
      omega
    rw [Function.iterate_succ_apply]
    have hu : uadd x dt = x + dt := by
      unfold uadd
      exact Nat.mod_eq_of_lt (by rw [e] at h; omega)
    rw [hu, ih (x + dt) (by rw [← e]; exact h), e]

/-- When `update_sampled_task` picks no task, `update_now` sets the season of
the device to FREERUN. -/
lemma update_now_freerun (did : Nat) (p : sched_state)
    (h : ((update_sampled_task did p).sched_dev_array did).ps.smpl.sampled_task = 0) :
    DFQ_season (update_now did p).2 did = DFQ_TASK_FREERUN := by
  unfold update_now
  dsimp only
  rw [if_neg (by rw [h]; simp)]
  dsimp only
  have hv : ∀ (l : List Nat) (q : sched_state),
      season_view did (l.foldl (fun q a =>
        if ((update_sampled_task did p).sched_dev_array did).ps.smpl.sampled_task = 0 ∨
            a = ((update_sampled_task did p).sched_dev_array did).ps.smpl.sampled_task then
          if (q.stask a).ps.smpl.sem_count < 0 ∧ (q.stask a).ps.smpl.held_back = 0 then
            emit (.sem_up a)
              (upd_smpl_task a (fun t => { t with sem_count := t.sem_count + 1 }) q)
          else q
        else q) q) = season_view did q := by
    intro l q
    apply season_view_foldl
    intro q a
    split_ifs <;> simp [is_season_set]
  rw [DFQ_season_of_view (hv _ _), DFQ_season_of_view (season_view_update_vtimes did did _)]
  exact DFQ_season_set_season did DFQ_TASK_FREERUN _

/-- C32: starting from no sampled task on a device whose task list has no
repetition, successive calls of `update_sampled_task` select exactly the tasks
whose `held_back` flag is 0, each once and in list order, and then none, after
which `update_now` sets the season to FREERUN; every held-back task passed
over adds `sampling_T * 1000` microseconds to `sampling_season_dt`, as an
unsigned long (the sum itself when it fits); the walk of a call is a recursion
on the entries left of the list, which ends for every list. The tasks, the list
and `sampling_T` are left as they were. -/
theorem update_sampled_task_tour (did : Nat) (p : sched_state)
    (hnd : (p.sched_dev_array did).stask_list.Nodup)
    (h0 : 0 ∉ (p.sched_dev_array did).stask_list)
    (hs : (p.sched_dev_array did).ps.smpl.sampled_task = 0) :
    (sampled_tour did (((p.sched_dev_array did).stask_list.filter
      (fun a => decide ((p.stask a).ps.smpl.held_back = 0))).length + 1) p).1 =
      (p.sched_dev_array did).stask_list.filter
        (fun a => decide ((p.stask a).ps.smpl.held_back = 0)) ++ [0] ∧
    (((sampled_tour did (((p.sched_dev_array did).stask_list.filter
      (fun a => decide ((p.stask a).ps.smpl.held_back = 0))).length + 1) p).2.sched_dev_array
        did).ps.smpl.sampling_season_dt =
      (fun y => uadd y (u64 (p.sampling_T * 1000)))^[((p.sched_dev_array did).stask_list.filter
        (fun a => decide ((p.stask a).ps.smpl.held_back ≠ 0))).length]
        (p.sched_dev_array did).ps.smpl.sampling_season_dt) ∧
    ((p.sched_dev_array did).ps.smpl.sampling_season_dt +
        ((p.sched_dev_array did).stask_list.filter
          (fun a => decide ((p.stask a).ps.smpl.held_back ≠ 0))).length *
          u64 (p.sampling_T * 1000) < 2 ^ 64 →
      ((sampled_tour did (((p.sched_dev_array did).stask_list.filter
        (fun a => decide ((p.stask a).ps.smpl.held_back = 0))).length + 1) p).2.sched_dev_array
          did).ps.smpl.sampling_season_dt =
        (p.sched_dev_array did).ps.smpl.sampling_season_dt +
          ((p.sched_dev_array did).stask_list.filter
            (fun a => decide ((p.stask a).ps.smpl.held_back ≠ 0))).length *
            u64 (p.sampling_T * 1000)) ∧
    (sampled_tour did (((p.sched_dev_array did).stask_list.filter
      (fun a => decide ((p.stask a).ps.smpl.held_back = 0))).length + 1) p).2.stask = p.stask ∧
    ((sampled_tour did (((p.sched_dev_array did).stask_list.filter
      (fun a => decide ((p.stask a).ps.smpl.held_back = 0))).length + 1) p).2.sched_dev_array
        did).stask_list = (p.sched_dev_array did).stask_list ∧
    (∀ q : sched_state,
      ((update_sampled_task did q).sched_dev_array did).ps.smpl.sampled_task = 0 →
      DFQ_season (update_now did q).2 did = DFQ_TASK_FREERUN) := by
  obtain ⟨r1, r2, r3, _, r5⟩ := sampled_tour_run did
    (((p.sched_dev_array did).stask_list.filter
      (fun a => decide ((p.stask a).ps.smpl.held_back = 0))).length + 1) p
  have hspec := tour_run_spec (fun a => (p.stask a).ps.smpl.held_back)
    (u64 (p.sampling_T * 1000)) (p.sched_dev_array did).stask_list hnd h0
    (p.sched_dev_array did).stask_list [] 0
    (p.sched_dev_array did).ps.smpl.sampling_season_dt rfl (by unfold tour_after; rw [if_pos rfl])
  rw [hs, hspec] at r1 r2
  refine ⟨r1, r2, fun hfit => ?_, r3, r5, fun q hq => update_now_freerun did q hq⟩
  rw [r2]
  exact iterate_uadd _ _ _ hfit

/-- C32 witness: three tasks, the second one held back, `sampling_T = 5`: the
first and the third task are sampled, then none, and the tour has added 5000
microseconds to `sampling_season_dt`. -/
theorem update_sampled_task_tour_witness :
    (sampled_tour 0 3 example_tour).1 = [500, 502, 0] ∧
    ((sampled_tour 0 3 example_tour).2.sched_dev_array 0).ps.smpl.sampling_season_dt = 5000 := by
  have h := update_sampled_task_tour 0 example_tour (by decide!) (by decide!) (by decide!)
  have e1 : (example_tour.sched_dev_array 0).stask_list.filter
      (fun a => decide ((example_tour.stask a).ps.smpl.held_back = 0)) = [500, 502] := by
    decide!
  have e2 : (example_tour.sched_dev_array 0).stask_list.filter
      (fun a => decide ((example_tour.stask a).ps.smpl.held_back ≠ 0)) = [501] := by
    decide!
  rw [e1, e2] at h
  refine ⟨h.1, ?_⟩
  exact (h.2.2.1 (by decide!)).trans (by decide!)

/-! ### The token of a task that stops -/

lemma sem_raised_refl (p : sched_state) (a : Nat) : sem_raised p p a :=
  ⟨le_refl _, le_max_left _ _, by simp⟩

lemma sem_raised_trans {p q r : sched_state} {a : Nat} (h1 : sem_raised p q a)
    (h2 : sem_raised q r a) : sem_raised p r a := by
  obtain ⟨a1, a2, a3⟩ := h1
  obtain ⟨b1, b2, b3⟩ := h2
  refine ⟨le_trans a1 b1, ?_, by omega⟩
  rcases le_total (TS_sem_count p a) 0 with hp | hp
  · rw [max_eq_right hp] at a2 ⊢
    rw [max_eq_right a2] at b2
    exact b2
  · rw [max_eq_left hp] at a2 ⊢
    have : TS_sem_count q a = TS_sem_count p a := le_antisymm a2 a1
    rw [this, max_eq_left hp] at b2
    exact b2

lemma sem_raised_of_view {p q : sched_state} {a : Nat} (h : sem_view q a = sem_view p a) :
    sem_raised p q a := by
  have h1 : TS_sem_count q a = TS_sem_count p a := congrArg Prod.fst h
  have h2 : sem_up_count q a = sem_up_count p a := congrArg Prod.snd h
  unfold sem_raised
  rw [h1, h2]
  exact ⟨le_refl _, le_max_left _ _, by simp⟩

lemma sem_raised_congr {p q q' : sched_state} {a : Nat} (h : sem_view q' a = sem_view q a)
    (hr : sem_raised p q a) : sem_raised p q' a :=
  sem_raised_trans hr (sem_raised_of_view h)

@[simp] lemma sem_view_upd_sdev (did : Nat) (f : sched_dev_t → sched_dev_t) (p : sched_state)
    (a : Nat) : sem_view (upd_sdev did f p) a = sem_view p a := rfl

@[simp] lemma sem_view_upd_tslc_dev (did : Nat) (f : timeslice_dev_t → timeslice_dev_t)
    (p : sched_state) (a : Nat) : sem_view (upd_tslc_dev did f p) a = sem_view p a := rfl

@[simp] lemma sem_view_upd_swork (did cid : Nat) (f : sched_work_t → sched_work_t)
    (p : sched_state) (a : Nat) : sem_view (upd_swork did cid f p) a = sem_view p a := rfl

lemma sem_view_emit (e : neon_event) (p : sched_state) (a : Nat) (h : e ≠ .sem_up a) :
    sem_view (emit e p) a = sem_view p a := by
  simp only [sem_view, TS_sem_count, sem_up_count, emit, List.count_append, List.count_cons,
    List.count_nil]
  simp [h]

lemma sem_view_upd_stask (b : Nat) (f : sched_task_t → sched_task_t) (p : sched_state)
    (a : Nat) (hf : ∀ t, (f t).ps.tslc.sem_count = t.ps.tslc.sem_count) :
    sem_view (upd_stask b f p) a = sem_view p a := by
  by_cases hab : a = b
  · subst hab
    simp [sem_view, TS_sem_count, sem_up_count, hf]
  · simp [sem_view, TS_sem_count, sem_up_count, upd_stask_other _ _ _ _ hab]

lemma sem_view_upd_tslc_task (b : Nat) (f : timeslice_task_t → timeslice_task_t)
    (p : sched_state) (a : Nat) (hf : ∀ t, (f t).sem_count = t.sem_count) :
    sem_view (upd_tslc_task b f p) a = sem_view p a := by
  unfold upd_tslc_task
  exact sem_view_upd_stask b _ p a (fun t => hf _)

lemma sem_view_foldl {α : Type} (a : Nat) (f : sched_state → α → sched_state)
    (hf : ∀ q x, sem_view (f q x) a = sem_view q a) (l : List α) :
    ∀ q, sem_view (l.foldl f q) a = sem_view q a := by
  induction l with
  | nil => intro q; rfl
  | cons x rest ih => intro q; rw [List.foldl_cons, ih, hf]

lemma sem_raised_foldl {α : Type} (a : Nat) (f : sched_state → α → sched_state)
    (hf : ∀ q x, sem_raised q (f q x) a) (l : List α) :
    ∀ q, sem_raised q (l.foldl f q) a := by
  induction l with
  | nil => intro q; exact sem_raised_refl q a
  | cons x rest ih =>
    intro q
    rw [List.foldl_cons]
    exact sem_raised_trans (hf q x) (ih _)

lemma sem_view_reengage_task (g : neon_global_t) (did st arm : Nat) (p : sched_state)
    (a : Nat) : sem_view (neon_policy_reengage_task g did st arm p) a = sem_view p a := by
  unfold neon_policy_reengage_task
  apply sem_view_foldl
  intro q i
  unfold reengage_work
  dsimp only
  split_ifs
  · exact sem_view_emit _ _ _ (by simp)
  · exact sem_view_emit _ _ _ (by simp)

/-- The release of a thread blocked on the semaphore of task `b`: the counter
is raised by one, with one call of `up`, when it is negative. -/
lemma sem_raised_release (b : Nat) (p : sched_state) (a : Nat) :
    sem_raised p
      (if (p.stask b).ps.tslc.sem_count < 0 then
        emit (.sem_up b)
          (upd_tslc_task b (fun t => { t with sem_count := t.sem_count + 1 }) p)
      else p) a := by
  by_cases hneg : (p.stask b).ps.tslc.sem_count < 0
  · rw [if_pos hneg]
    by_cases hab : a = b
    · subst hab
      have h1 : TS_sem_count (emit (.sem_up a)
          (upd_tslc_task a (fun t => { t with sem_count := t.sem_count + 1 }) p)) a =
          TS_sem_count p a + 1 := by
        simp [TS_sem_count, emit, upd_tslc_task]
      have h2 : sem_up_count (emit (.sem_up a)
          (upd_tslc_task a (fun t => { t with sem_count := t.sem_count + 1 }) p)) a =
          sem_up_count p a + 1 := by
        simp [sem_up_count, emit, upd_tslc_task, upd_stask, List.count_append]
      have h3 : TS_sem_count p a < 0 := hneg
      unfold sem_raised
      rw [h1, h2]
      refine ⟨by omega, ?_, by push_cast; omega⟩
      rw [max_eq_right (le_of_lt h3)]
      omega
    · apply sem_raised_of_view
      rw [sem_view_emit _ _ _ (by simp; exact fun e => hab e.symm)]
      simp [sem_view, TS_sem_count, sem_up_count, upd_tslc_task, upd_stask_other _ _ _ _ hab]
  · rw [if_neg hneg]
    exact sem_raised_refl p a

/-- The value of the counter of task `b` after the release of a thread blocked
on its semaphore. -/
lemma sem_count_release (b : Nat) (p : sched_state) :
    TS_sem_count
      (if (p.stask b).ps.tslc.sem_count < 0 then
        emit (.sem_up b)
          (upd_tslc_task b (fun t => { t with sem_count := t.sem_count + 1 }) p)
      else p) b =
      if TS_sem_count p b < 0 then TS_sem_count p b + 1 else TS_sem_count p b := by
  have e : (p.stask b).ps.tslc.sem_count = TS_sem_count p b := rfl
  rw [e]
  by_cases hneg : TS_sem_count p b < 0
  · rw [if_pos hneg, if_pos hneg]
    simp [TS_sem_count, emit, upd_tslc_task]
  · rw [if_neg hneg, if_neg hneg]

lemma sem_view_token_turn (did rep : Nat) (p : sched_state) (a : Nat) :
    sem_view (token_turn did rep p).2 a = sem_view p a := by
  unfold token_turn
  dsimp only
  split_ifs
  all_goals dsimp only
  all_goals first
    | (refine (sem_view_upd_tslc_task _ _ _ _ ?_).trans (sem_view_upd_tslc_dev _ _ _ _)
       intro _
       rfl)
    | exact sem_view_upd_tslc_dev _ _ _ _

lemma sem_view_token_loop (did : Nat) (a : Nat) :
    ∀ (fuel rep : Nat) (p : sched_state), sem_view (token_loop did fuel rep p) a = sem_view p a := by
  intro fuel
  induction fuel with
  | zero => intro rep p; rfl
  | succ n ih =>
    intro rep p
    unfold token_loop
    dsimp only
    split_ifs
    · rw [ih, sem_view_token_turn]
    · rw [sem_view_token_turn]

lemma sem_raised_token_grant (g : neon_global_t) (did nh b : Nat) (p : sched_state) (a : Nat) :
    sem_raised p (token_grant g did nh b p) a := by
  unfold token_grant
  by_cases hb : b = nh
  · rw [if_pos hb]
    dsimp only
    by_cases hd : p.disengage ≠ 0
    · rw [if_pos hd]
      exact sem_raised_trans (sem_raised_of_view (sem_view_reengage_task g did b 0 p a))
        (sem_raised_release b _ a)
    · rw [if_neg hd]
      exact sem_raised_release b _ a
  · rw [if_neg hb]
    by_cases hd : p.disengage ≠ 0
    · rw [if_pos hd]
      exact sem_raised_of_view (sem_view_reengage_task g did b 1 p a)
    · rw [if_neg hd]
      exact sem_raised_refl p a

lemma sem_raised_update_token_holder (g : neon_global_t) (did : Nat) (p : sched_state)
    (a : Nat) : sem_raised p (update_token_holder g did p) a := by
  unfold update_token_holder
  split_ifs
  · exact sem_raised_refl p a
  · dsimp only
    exact sem_raised_trans (sem_raised_of_view (sem_view_token_loop did a _ 0 p))
      (sem_raised_foldl a _ (fun q x => sem_raised_token_grant g did _ x q a) _ _)

/-- The token holder, the overuses and the semaphores after the release of a
thread blocked on the semaphore of task `b`. -/
lemma release_keeps (b : Nat) (p : sched_state) (did : Nat) :
    TS_token_holder
      (if (p.stask b).ps.tslc.sem_count < 0 then
        emit (.sem_up b)
          (upd_tslc_task b (fun t => { t with sem_count := t.sem_count + 1 }) p)
      else p) did = TS_token_holder p did ∧
    TS_overuse
      (if (p.stask b).ps.tslc.sem_count < 0 then
        emit (.sem_up b)
          (upd_tslc_task b (fun t => { t with sem_count := t.sem_count + 1 }) p)
      else p) = TS_overuse p := by
  by_cases hneg : (p.stask b).ps.tslc.sem_count < 0
  · rw [if_pos hneg]
    refine ⟨rfl, ?_⟩
    funext a
    by_cases hab : a = b
    · subst hab
      simp [TS_overuse, emit, upd_tslc_task]
    · simp [TS_overuse, emit, upd_tslc_task, upd_stask_other _ _ _ _ hab]
  · rw [if_neg hneg]
    exact ⟨rfl, rfl⟩

/-- What `stop_timeslice_release` leaves: the token is dropped if the stopping
task holds it, the overuses are kept, the semaphore counter of the stopping
task is raised by one, with a call of `up`, if it is negative. -/
lemma stop_timeslice_release_views (did st : Nat) (q : sched_state) :
    TS_token_holder (stop_timeslice_release did st q) did =
      (if TS_token_holder q did = st then 0 else TS_token_holder q did) ∧
    TS_overuse (stop_timeslice_release did st q) = TS_overuse q ∧
    (∀ a, sem_raised q (stop_timeslice_release did st q) a) ∧
    TS_sem_count (stop_timeslice_release did st q) st =
      (if TS_sem_count q st < 0 then TS_sem_count q st + 1 else TS_sem_count q st) ∧
    ((stop_timeslice_release did st q).sched_dev_array did).stask_list =
      (q.sched_dev_array did).stask_list ∧
    (stop_timeslice_release did st q).policy_id = q.policy_id := by
  unfold stop_timeslice_release
  dsimp only
  have hmid : ∃ q', q' = (if (q.sched_dev_array did).ps.tslc.token_holder = st then
        upd_tslc_dev did (fun d => { d with token_holder := 0 }) q else q) ∧
      TS_token_holder q' did = (if TS_token_holder q did = st then 0 else TS_token_holder q did) ∧
      TS_overuse q' = TS_overuse q ∧ (∀ a, sem_view q' a = sem_view q a) ∧
      (q'.sched_dev_array did).stask_list = (q.sched_dev_array did).stask_list ∧
      q'.policy_id = q.policy_id := by
    refine ⟨_, rfl, ?_⟩
    have e : (q.sched_dev_array did).ps.tslc.token_holder = TS_token_holder q did := rfl
    rw [e]
    by_cases hh : TS_token_holder q did = st
    · rw [if_pos hh, if_pos hh]
      refine ⟨?_, rfl, fun a => rfl, ?_, rfl⟩
      · simp [TS_token_holder, upd_tslc_dev]
      · simp [upd_tslc_dev]
    · rw [if_neg hh, if_neg hh]
      exact ⟨rfl, rfl, fun a => rfl, rfl, rfl⟩
  obtain ⟨q', hq', m1, m2, m3, m4, m5⟩ := hmid
  rw [← hq']
  obtain ⟨k1, k2⟩ := release_keeps st q' did
  refine ⟨k1.trans m1, k2.trans m2, fun a => ?_, ?_, ?_, ?_⟩
  · exact sem_raised_trans (sem_raised_of_view (m3 a)) (sem_raised_release st q' a)
  · rw [sem_count_release]
    have : TS_sem_count q' st = TS_sem_count q st := congrArg Prod.fst (m3 st)
    rw [this]
  · rw [← m4]
    split_ifs
    · simp [emit, upd_tslc_task]
    · rfl
  · rw [← m5]
    split_ifs
    · rfl
    · rfl

/-- The timer part of `stop_timeslice` keeps the token holder, the overuses,
the semaphores, the task lists and the policy. -/
lemma stop_timeslice_timer_views (g : neon_global_t) (did : Nat) (q : sched_state) :
    TS_token_holder (stop_timeslice_timer g did q) did = TS_token_holder q did ∧
    TS_overuse (stop_timeslice_timer g did q) = TS_overuse q ∧
    (∀ a, sem_view (stop_timeslice_timer g did q) a = sem_view q a) ∧
    ((stop_timeslice_timer g did q).sched_dev_array did).stask_list =
      (q.sched_dev_array did).stask_list ∧
    (stop_timeslice_timer g did q).policy_id = q.policy_id ∧
    (stop_timeslice_timer g did q).stask = q.stask := by
  unfold stop_timeslice_timer token_timer_cancel
  dsimp only
  split_ifs
  · refine ⟨?_, rfl, fun a => ?_, ?_, rfl, rfl⟩
    · simp [TS_token_holder, emit, upd_tslc_dev]
    · rw [sem_view_emit _ _ _ (by simp)]
      rfl
    · simp [emit, upd_tslc_dev]
  · refine ⟨?_, rfl, fun a => rfl, ?_, rfl, rfl⟩
    · simp [TS_token_holder, upd_tslc_dev]
    · simp [upd_tslc_dev]
  · refine ⟨?_, rfl, fun a => rfl, ?_, rfl, rfl⟩
    · simp [TS_token_holder, upd_tslc_dev]
    · simp [upd_tslc_dev]

/-- Hook `stop_timeslice` for the last work of the task that holds the token,
in its parts. -/
lemma stop_timeslice_form (g : neon_global_t) (did cid st : Nat) (p : sched_state)
    (hh : (p.sched_dev_array did).ps.tslc.token_holder = st)
    (hb : bitmap_empty (p.stask st).bmp_start2stop (g.dev did).nchan = true)
    (hl : (p.sched_dev_array did).stask_list ≠ []) :
    stop_timeslice g did cid st p =
      stop_timeslice_timer g did (stop_timeslice_release did st (update_token_holder g did p)) := by
  have hc : (p.sched_dev_array did).ps.tslc.token_holder = st ∧
      bitmap_empty (p.stask st).bmp_start2stop (g.dev did).nchan = true ∧
      (p.sched_dev_array did).stask_list ≠ [] := ⟨hh, hb, hl⟩
  unfold stop_timeslice stop_timeslice_timer stop_timeslice_release
  dsimp only
  rw [if_pos hc]

/-- Function `neon_policy_stop` under the timeslice policy for the last work of
a task on the list, in its parts. -/
lemma neon_policy_stop_last (g : neon_global_t) (work : Nat → neon_work_t) (w : Nat)
    (p : sched_state) (st : Nat) (hp : p.policy_id = NEON_POLICY_TIMESLICE)
    (hst : find_stask p.stask (work w).neon_task
      (p.sched_dev_array (work w).did).stask_list = st) (hne : st ≠ 0)
    (hb : bitmap_empty (clear_bit (work w).cid (p.stask st).bmp_start2stop)
      (g.dev (work w).did).nchan = true) :
    neon_policy_stop g work w p =
      (0, destroy_timeslice st
        (upd_sdev (work w).did (fun sd => { sd with stask_list := sd.stask_list.erase st })
          (upd_swork (work w).did (work w).cid (fun _ => sched_work_zero)
            (stop_timeslice g (work w).did (work w).cid st
              (upd_stask st (fun t =>
                { t with bmp_start2stop := clear_bit (work w).cid t.bmp_start2stop }) p))))) := by
  generalize hp1 : upd_stask st
    (fun t => { t with bmp_start2stop := clear_bit (work w).cid t.bmp_start2stop }) p = p1
  have hq1 : p1.policy_id = NEON_POLICY_TIMESLICE := by rw [← hp1]; exact hp
  have hf := frame_stop g (work w).did (work w).cid st p1
  have h2 : select_policy_stop g (work w).did (work w).cid st p1 =
      stop_timeslice g (work w).did (work w).cid st p1 := by
    simp only [select_policy_stop, hq1]
  have hs2s : ((upd_swork (work w).did (work w).cid (fun _ => sched_work_zero)
      (select_policy_stop g (work w).did (work w).cid st p1)).stask st).bmp_start2stop =
      clear_bit (work w).cid (p.stask st).bmp_start2stop := by
    have : (upd_swork (work w).did (work w).cid (fun _ => sched_work_zero)
        (select_policy_stop g (work w).did (work w).cid st p1)).stask =
        (select_policy_stop g (work w).did (work w).cid st p1).stask := rfl
    rw [this, hf.s2s st, ← hp1]
    simp
  have hpol : (upd_sdev (work w).did (fun sd => { sd with stask_list := sd.stask_list.erase st })
      (upd_swork (work w).did (work w).cid (fun _ => sched_work_zero)
        (select_policy_stop g (work w).did (work w).cid st p1))).policy_id =
      NEON_POLICY_TIMESLICE := by
    have : (upd_sdev (work w).did (fun sd => { sd with stask_list := sd.stask_list.erase st })
        (upd_swork (work w).did (work w).cid (fun _ => sched_work_zero)
          (select_policy_stop g (work w).did (work w).cid st p1))).policy_id =
        (select_policy_stop g (work w).did (work w).cid st p1).policy_id := rfl
    rw [this, hf.policy, hq1]
  unfold neon_policy_stop
  dsimp only
  rw [hst, if_neg hne, hp1, hs2s, if_pos hb]
  unfold destroy_sched_task select_policy_destroy
  rw [hpol, h2]

/-- Hook `destroy_timeslice` keeps the token holder, the overuses and the task
lists and lets a thread blocked on the semaphore of the task go. -/
lemma destroy_timeslice_views (st : Nat) (q : sched_state) (did : Nat) :
    TS_token_holder (destroy_timeslice st q) did = TS_token_holder q did ∧
    TS_overuse (destroy_timeslice st q) = TS_overuse q ∧
    (∀ a, sem_raised q (destroy_timeslice st q) a) ∧
    ((destroy_timeslice st q).sched_dev_array did).stask_list =
      (q.sched_dev_array did).stask_list := by
  obtain ⟨k1, k2⟩ := release_keeps st q did
  refine ⟨k1, k2, fun a => sem_raised_release st q a, ?_⟩
  unfold destroy_timeslice
  split_ifs
  · simp [emit, upd_tslc_task]
  · rfl

/-- A pass of the token ends at a task of the list. -/
lemma spec_token_pass_mem (l : List Nat) (T : Int) (hl : l ≠ []) (h : Nat) (ov : Nat → Int)
    (h' : Nat) (ov' : Nat → Int) (hp : spec_token_pass l T h ov h' ov') : h' ∈ l := by
  induction hp with
  | give holder overuse _ => exact spec_candidate_mem l holder hl
  | skip holder overuse holder' overuse' _ _ ih => exact ih

/-- C31 (amended): under the timeslice policy, when `neon_policy_stop` stops
the last channel of the task that holds the token while at least one other
task remains on the device (a task list without repetition and without `NULL`,
`timeslice_T` at least 1), the call returns 0 with the task off the list, and
after it the token holder is not the stopped task: it is the task at which the
pass of the token with its overuse penalties ends when that is one of the
remaining tasks, and none when the pass comes back to the stopped task itself,
every remaining task it met being skipped for overuse. It is the round-robin
successor of the stopped task, a remaining task, when the overuse of that
successor does not exceed one timeslice. The semaphore counter of every task is
only raised toward zero, every raise by one with one matching `up`; the counter
of the stopped task, if negative, has been raised by at least one, so that a
counter of -1 ends at 0 with one `up`. -/
theorem neon_policy_stop_passes_token (g : neon_global_t) (work : Nat → neon_work_t)
    (w : Nat) (p : sched_state) (st : Nat) (r : Int × sched_state)
    (hp : p.policy_id = NEON_POLICY_TIMESLICE)
    (hst : find_stask p.stask (work w).neon_task
      (p.sched_dev_array (work w).did).stask_list = st) (hne : st ≠ 0)
    (hh : TS_token_holder p (work w).did = st)
    (hb : bitmap_empty (clear_bit (work w).cid (p.stask st).bmp_start2stop)
      (g.dev (work w).did).nchan = true)
    (hnd : (p.sched_dev_array (work w).did).stask_list.Nodup)
    (h0 : 0 ∉ (p.sched_dev_array (work w).did).stask_list)
    (h2 : 2 ≤ (p.sched_dev_array (work w).did).stask_list.length)
    (hT : 1 ≤ p.timeslice_T)
    (hr : r = neon_policy_stop g work w p) :
    r.1 = 0 ∧
    (r.2.sched_dev_array (work w).did).stask_list =
      (p.sched_dev_array (work w).did).stask_list.erase st ∧
    TS_token_holder r.2 (work w).did ≠ st ∧
    (TS_token_holder r.2 (work w).did = 0 ∨
      TS_token_holder r.2 (work w).did ∈
        (p.sched_dev_array (work w).did).stask_list.erase st) ∧
    (∃ h' ov', spec_token_pass (p.sched_dev_array (work w).did).stask_list (timeslice_usec p)
        st (TS_overuse p) h' ov' ∧
      TS_token_holder r.2 (work w).did = (if h' = st then 0 else h') ∧
      TS_overuse r.2 = ov') ∧
    (TS_overuse p (spec_candidate (p.sched_dev_array (work w).did).stask_list st) ≤
        timeslice_usec p →
      TS_token_holder r.2 (work w).did =
        spec_candidate (p.sched_dev_array (work w).did).stask_list st ∧
      spec_candidate (p.sched_dev_array (work w).did).stask_list st ∈
        (p.sched_dev_array (work w).did).stask_list.erase st) ∧
    (∀ a, sem_raised p r.2 a) ∧
    (TS_sem_count p st < 0 → TS_sem_count p st < TS_sem_count r.2 st) ∧
    (TS_sem_count p st = -1 →
      TS_sem_count r.2 st = 0 ∧ sem_up_count r.2 st = sem_up_count p st + 1) := by
  have hl0 : (p.sched_dev_array (work w).did).stask_list ≠ [] := by
    intro e
    rw [e] at h2
    simp at h2
  have hmem : st ∈ (p.sched_dev_array (work w).did).stask_list := by
    have := (find_stask_mem p.stask (work w).neon_task
      (p.sched_dev_array (work w).did).stask_list (by rw [hst]; exact hne)).1
    rw [hst] at this
    exact this
  rw [neon_policy_stop_last g work w p st hp hst hne hb] at hr
  generalize hp1 : upd_stask st
    (fun t => { t with bmp_start2stop := clear_bit (work w).cid t.bmp_start2stop }) p = p1 at hr
  have v1 : rr_view p1 (work w).did = rr_view p (work w).did := by
    rw [← hp1]
    simp only [rr_view, TS_token_holder, TS_overuse]
    refine Prod.ext rfl (Prod.ext rfl (Prod.ext rfl ?_))
    funext a
    by_cases ha : a = st
    · subst ha
      simp [TS_overuse]
    · simp [TS_overuse, upd_stask_other _ _ _ _ ha]
  obtain ⟨e1, e2, e3, e4⟩ := (rr_view_eq_iff _ _ _ _ _ _).mp v1
  have hsem1 : ∀ a, sem_view p1 a = sem_view p a := by
    intro a
    rw [← hp1]
    exact sem_view_upd_stask st _ p a (fun _ => rfl)
  have hpol1 : p1.policy_id = NEON_POLICY_TIMESLICE := by rw [← hp1]; exact hp
  have hus : timeslice_usec p1 = timeslice_usec p := by
    unfold timeslice_usec
    rw [e3]
  have hb1 : bitmap_empty (p1.stask st).bmp_start2stop (g.dev (work w).did).nchan = true := by
    rw [← hp1]
    simpa using hb
  rw [stop_timeslice_form g (work w).did (work w).cid st p1 (e2.trans hh) hb1
    (by rw [e1]; exact hl0)] at hr
  generalize hq1 : update_token_holder g (work w).did p1 = q1 at hr
  -- the pass of the token
  obtain ⟨h', ov', hv, hs⟩ := token_loop_spec (work w).did _ _ hnd h2 h0 hT
    (token_fuel (work w).did p1) 0 p1 e1 e3 (by rw [e2, hh]; exact Or.inr hmem)
    (by have := token_fuel_pos (work w).did p1; rw [e1] at this; omega)
  have hv1 : rr_view q1 (work w).did =
      ((p.sched_dev_array (work w).did).stask_list, h', p.timeslice_T, ov') := by
    rw [← hq1]
    simp only [update_token_holder, if_neg (by rw [e1]; exact hl0 :
      (p1.sched_dev_array (work w).did).stask_list ≠ [])]
    rw [rr_view_foldl (work w).did _ (fun q a => rr_view_token_grant g (work w).did _ a q _), hv]
  obtain ⟨f1, f2, f3, f4⟩ := (rr_view_eq_iff _ _ _ _ _ _).mp hv1
  rw [e2, hh, e4] at hs
  have hs' : spec_token_pass (p.sched_dev_array (work w).did).stask_list (timeslice_usec p) st
      (TS_overuse p) h' ov' := hs
  have hh'mem := spec_token_pass_mem _ _ hl0 _ _ _ _ hs'
  have hsemq1 : ∀ a, sem_raised p q1 a := by
    intro a
    rw [← hq1]
    exact sem_raised_trans (sem_raised_of_view (hsem1 a))
      (sem_raised_update_token_holder g (work w).did p1 a)
  -- the parts after the pass
  obtain ⟨a1, a2, a3, a4, a5, _⟩ := stop_timeslice_release_views (work w).did st q1
  generalize stop_timeslice_release (work w).did st q1 = q2 at hr a1 a2 a3 a4 a5
  obtain ⟨b1, b2, b3, b4, _, _⟩ := stop_timeslice_timer_views g (work w).did q2
  generalize stop_timeslice_timer g (work w).did q2 = q3 at hr b1 b2 b3 b4
  generalize hq4 : upd_sdev (work w).did
    (fun sd => { sd with stask_list := sd.stask_list.erase st })
    (upd_swork (work w).did (work w).cid (fun _ => sched_work_zero) q3) = q4 at hr
  have c1 : TS_token_holder q4 (work w).did = TS_token_holder q3 (work w).did := by
    rw [← hq4]
    simp [TS_token_holder, upd_sdev, upd_swork]
  have c2 : TS_overuse q4 = TS_overuse q3 := by rw [← hq4]; rfl
  have c3 : ∀ a, sem_view q4 a = sem_view q3 a := by intro a; rw [← hq4]; rfl
  have c4 : (q4.sched_dev_array (work w).did).stask_list =
      (q3.sched_dev_array (work w).did).stask_list.erase st := by
    rw [← hq4]
    simp [upd_sdev, upd_swork]
  obtain ⟨d1, d2, d3, d4⟩ := destroy_timeslice_views st q4 (work w).did
  have hr1 : r.1 = 0 := by rw [hr]
  have hr2 : r.2 = destroy_timeslice st q4 := by rw [hr]
  rw [← hr2] at d1 d2 d3 d4
  have hlist : (r.2.sched_dev_array (work w).did).stask_list =
      (p.sched_dev_array (work w).did).stask_list.erase st := by
    rw [d4, c4, b4, a5, f1]
  have hhold : TS_token_holder r.2 (work w).did = (if h' = st then 0 else h') := by
    rw [d1, c1, b1, a1, f2]
  have hov : TS_overuse r.2 = ov' := by rw [d2, c2, b2, a2, f4]
  have hne' : TS_token_holder r.2 (work w).did ≠ st := by
    rw [hhold]
    split_ifs with hx
    · exact Ne.symm hne
    · exact hx
  have hin : TS_token_holder r.2 (work w).did = 0 ∨
      TS_token_holder r.2 (work w).did ∈
        (p.sched_dev_array (work w).did).stask_list.erase st := by
    rw [hhold]
    split_ifs with hx
    · exact Or.inl rfl
    · exact Or.inr ((List.mem_erase_of_ne hx).mpr hh'mem)
  have hsemall : ∀ a, sem_raised p r.2 a := fun a =>
    sem_raised_trans (hsemq1 a) (sem_raised_trans (a3 a)
      (sem_raised_trans (sem_raised_of_view ((c3 a).trans (b3 a))) (d3 a)))
  have hstrict : TS_sem_count p st < 0 → TS_sem_count p st < TS_sem_count r.2 st := by
    intro hneg
    have g1 := (hsemq1 st).1
    have g2 : TS_sem_count q2 st ≤ TS_sem_count r.2 st :=
      (sem_raised_trans (sem_raised_of_view ((c3 st).trans (b3 st))) (d3 st)).1
    rw [a4] at g2
    split_ifs at g2 <;> omega
  refine ⟨hr1, hlist, hne', hin, ⟨h', ov', hs', hhold, hov⟩, fun hgive => ?_, hsemall, hstrict,
    fun hm1 => ?_⟩
  · have hcne := spec_candidate_ne _ st hnd h2 h0 (Or.inr hmem)
    have hcm := spec_candidate_mem (p.sched_dev_array (work w).did).stask_list st hl0
    refine ⟨?_, (List.mem_erase_of_ne hcne).mpr hcm⟩
    have hloop := token_loop_give (work w).did (token_fuel (work w).did p1 - 1) 0 p1
      (spec_candidate (p.sched_dev_array (work w).did).stask_list st)
      (by rw [e1, e2, hh]) (by rw [e1, e2, hh]; exact Or.inr hmem)
      (by rw [e4, hus]; exact hgive)
    have hfp := token_fuel_pos (work w).did p1
    rw [Nat.sub_add_cancel (by omega)] at hloop
    have hv2 : rr_view q1 (work w).did = rr_view (token_loop (work w).did
        (token_fuel (work w).did p1) 0 p1) (work w).did := by
      rw [← hq1]
      simp only [update_token_holder, if_neg (by rw [e1]; exact hl0 :
        (p1.sched_dev_array (work w).did).stask_list ≠ [])]
      rw [rr_view_foldl (work w).did _ (fun q a => rr_view_token_grant g (work w).did _ a q _)]
    rw [hloop, rr_view_set_holder, hv1] at hv2
    have hh'eq : h' = spec_candidate (p.sched_dev_array (work w).did).stask_list st :=
      congrArg (fun x => x.2.1) hv2
    rw [hhold, hh'eq, if_neg hcne]
  · obtain ⟨s1, s2, s3⟩ := hsemall st
    have s4 := hstrict (by rw [hm1]; decide)
    rw [hm1] at s1 s2 s3 s4
    have s5 : TS_sem_count r.2 st = 0 := by
      have : max (-1 : Int) 0 = 0 := by decide
      rw [this] at s2
      omega
    refine ⟨s5, ?_⟩
    rw [s5] at s3
    omega

/-- C31 witness: the stopping example with no overuse: the work of the task
at 500, which holds the token with a thread blocked on its semaphore, is
stopped; the token goes to the task at 501, which remains, and the thread is
let go with one `up`. -/
theorem neon_policy_stop_passes_token_witness :
    TS_token_holder (neon_policy_stop example_global example_works 100
      (example_stop_penalty 0)).2 0 = 501 ∧
    ((neon_policy_stop example_global example_works 100
      (example_stop_penalty 0)).2.sched_dev_array 0).stask_list = [501] ∧
    TS_sem_count (neon_policy_stop example_global example_works 100
      (example_stop_penalty 0)).2 500 = 0 := by
  have h := neon_policy_stop_passes_token example_global example_works 100
    (example_stop_penalty 0) 500 _ (by decide!) (by decide!) (by decide) (by decide!)
    (by decide!) (by decide!) (by decide!) (by decide!) (by decide!) rfl
  refine ⟨(h.2.2.2.2.2.1 (by decide!)).1.trans (by decide!), h.2.1.trans (by decide!),
    (h.2.2.2.2.2.2.2.2 (by decide!)).1⟩

/-- C31 counterexample: the stopping example with the task at 501, which
remains, 40000 microseconds in overuse, `timeslice_T = 30`. The last work of
the task at 500, which holds the token, is stopped: the task at 501 is skipped
for its overuse, the token comes back to the stopped task and is dropped, and
after the call the device has no token holder although the task at 501 is on
its list. -/
theorem neon_policy_stop_leaves_no_holder :
    TS_token_holder (example_stop_penalty 40000) 0 = 500 ∧
    ((example_stop_penalty 40000).sched_dev_array 0).stask_list = [500, 501] ∧
    (neon_policy_stop example_global example_works 100 (example_stop_penalty 40000)).1 = 0 ∧
    ((neon_policy_stop example_global example_works 100
      (example_stop_penalty 40000)).2.sched_dev_array 0).stask_list = [501] ∧
    TS_token_holder (neon_policy_stop example_global example_works 100
      (example_stop_penalty 40000)).2 0 = 0 ∧
    TS_overuse (neon_policy_stop example_global example_works 100
      (example_stop_penalty 40000)).2 501 = 10000 := by
  decide!

end Neon
